import Mathlib

/-!
Shallow embedding of the quantized Sweep-and-Prune broad phase from
src/collision/b2BroadPhase.js, together with theorems checking the
natural-language specification against it.

World coordinates are modelled over the rationals.  The JavaScript bitwise
operators convert their operands with ToInt32; every quantity they are applied
to here is clamped into the non-negative 16-bit range first, where ToInt32 is
truncation, which agrees with the floor.  Bound arrays are modelled as the
live prefix of the fixed-capacity backing store: every read and write the
source performs stays inside that prefix (plus the two freshly inserted
slots), so insertions and removals become list insertions and removals.
-/

namespace Box2d

/-- Maximum unsigned 16-bit value, box2d.Settings.USHRT_MAX. -/
def USHRT_MAX : Nat := 65535

/-- Sentinel marking an unused slot, box2d.Settings.invalid. -/
def invalidIdx : Nat := USHRT_MAX

/-- Null proxy id sentinel; box2d.Pair.b2_nullProxy equals b2_maxProxies. -/
def nullProxy (maxProxies : Nat) : Nat := maxProxies

/-- Two-dimensional vector, box2d.Vec2, over the rationals. -/
structure Vec2 where
  x : ℚ
  y : ℚ
deriving DecidableEq, Repr

/-- Axis-aligned bounding box, box2d.AABB. -/
structure AABB where
  minVertex : Vec2
  maxVertex : Vec2
deriving DecidableEq, Repr

/-- Modelled from the spec: box2d.AABB.IsValid is not part of this repository;
the spec requires a non-degenerate finite box, with max strictly above min on
every axis. -/
def AABB.isValid (a : AABB) : Bool :=
  decide (a.minVertex.x < a.maxVertex.x) && decide (a.minVertex.y < a.maxVertex.y)

/-- Modelled from the spec: box2d.Bound is not part of this repository; it
carries a quantized value, the owning proxy id and a stabbing count, and its
lower/upper role is the parity of the value. -/
structure Bound where
  value : Nat
  proxyId : Nat
  stabbingCount : Int
deriving DecidableEq, Repr

instance : Inhabited Bound := ⟨⟨0, 0, 0⟩⟩

/-- Role test of a bound: lower endpoints have even quantized values. -/
def Bound.isLower (b : Bound) : Bool := b.value % 2 == 0

/-- Role test of a bound: upper endpoints have odd quantized values. -/
def Bound.isUpper (b : Bound) : Bool := !(b.value % 2 == 0)

/-- Container holding one value per axis, axis 0 and axis 1. -/
structure Duo (α : Type) where
  a0 : α
  a1 : α
deriving DecidableEq, Repr

/-- Read the component of the given axis; any axis other than 0 reads axis 1. -/
def Duo.get {α : Type} (d : Duo α) (axis : Nat) : α :=
  if axis = 0 then d.a0 else d.a1

/-- Write the component of the given axis. -/
def Duo.set {α : Type} (d : Duo α) (axis : Nat) (v : α) : Duo α :=
  if axis = 0 then { d with a0 := v } else { d with a1 := v }

/-- Modelled from the spec: box2d.Proxy is not part of this repository; it
keeps the four bound-array indices, a generation timestamp, the overlap
counter, the free-list link and an opaque user payload.  The free-list link is
an explicit field, as the spec describes it. -/
structure Proxy where
  lowerBounds : Duo Nat
  upperBounds : Duo Nat
  timeStamp : Nat
  overlapCount : Nat
  next : Nat
  userData : Option Nat
deriving DecidableEq, Repr

instance : Inhabited Proxy :=
  ⟨⟨⟨0, 0⟩, ⟨0, 0⟩, 0, invalidIdx, 0, none⟩⟩

/-- Validity test of a proxy slot: live slots have an overlap counter other
than the invalid sentinel. -/
def Proxy.isValidProxy (p : Proxy) : Bool := p.overlapCount != invalidIdx

/-- Modelled from the spec: the external pair manager is out of scope; at the
interface boundary it buffers add and remove intents, and Commit flushes the
buffer. -/
inductive PairEvent
  | add (idA idB : Nat)
  | remove (idA idB : Nat)
deriving DecidableEq, Repr

/-- Modelled from the spec: box2d.BoundValues is not part of this repository;
it packages the per-axis quantized lower and upper values. -/
structure BoundValues where
  lowerValues : Duo Nat
  upperValues : Duo Nat
deriving DecidableEq, Repr

/-- State of box2d.BroadPhase.  The two bound arrays hold exactly the live
prefix of length twice the proxy count; the pair manager is modelled by its
buffer of pending add and remove events. -/
structure BroadPhase where
  maxProxies : Nat
  worldAABB : AABB
  quantizationFactor : Vec2
  bounds : Duo (List Bound)
  proxyPool : List Proxy
  freeProxy : Nat
  proxyCount : Nat
  timeStamp : Nat
  queryResults : List Nat
  pairBuffer : List PairEvent
deriving DecidableEq, Repr

/-- Pool slot i as the box2d.BroadPhase constructor builds it: free-list link
to slot i + 1, the last slot linking to the null proxy, timestamp 0 and an
invalid overlap count. -/
def initProxy (maxProxies i : Nat) : Proxy :=
  { lowerBounds := ⟨0, 0⟩
    upperBounds := ⟨0, 0⟩
    timeStamp := 0
    overlapCount := invalidIdx
    next := if i + 1 < maxProxies then i + 1 else nullProxy maxProxies
    userData := none }

/-- Constructor of box2d.BroadPhase: stores the world box, computes the
per-axis quantization factors as USHRT_MAX over the world extent, chains all
pool slots into the free list and starts the generation counter at 1. -/
def mkBroadPhase (maxProxies : Nat) (worldAABB : AABB) : BroadPhase :=
  let dX := worldAABB.maxVertex.x - worldAABB.minVertex.x
  let dY := worldAABB.maxVertex.y - worldAABB.minVertex.y
  { maxProxies := maxProxies
    worldAABB := worldAABB
    quantizationFactor := ⟨(USHRT_MAX : ℚ) / dX, (USHRT_MAX : ℚ) / dY⟩
    bounds := ⟨[], []⟩
    proxyPool := (List.range maxProxies).map (initProxy maxProxies)
    freeProxy := 0
    proxyCount := 0
    timeStamp := 1
    queryResults := []
    pairBuffer := [] }

/-- InRange: the proxy box strictly overlaps the world box on both axes,
computed as in the source through componentwise differences and maxima. -/
def BroadPhase.inRange (bp : BroadPhase) (aabb : AABB) : Bool :=
  let dX := aabb.minVertex.x - bp.worldAABB.maxVertex.x
  let dY := aabb.minVertex.y - bp.worldAABB.maxVertex.y
  let d2X := bp.worldAABB.minVertex.x - aabb.maxVertex.x
  let d2Y := bp.worldAABB.minVertex.y - aabb.maxVertex.y
  decide (max (max dX d2X) (max dY d2Y) < 0)

/-- Conversion a JavaScript bitwise operator applies to its operand: on the
clamped non-negative range arising here it is the floor. -/
def quantize (q : ℚ) : Nat := (Int.floor q).toNat

/-- ComputeBounds: clamp the box componentwise into the world box, map
linearly by the per-axis quantization factor, then force lower values even
and upper values odd.  Returns the per-axis lower and upper values. -/
def BroadPhase.computeBounds (bp : BroadPhase) (aabb : AABB) : Duo Nat × Duo Nat :=
  let minVertexX := max (min aabb.minVertex.x bp.worldAABB.maxVertex.x) bp.worldAABB.minVertex.x
  let minVertexY := max (min aabb.minVertex.y bp.worldAABB.maxVertex.y) bp.worldAABB.minVertex.y
  let maxVertexX := max (min aabb.maxVertex.x bp.worldAABB.maxVertex.x) bp.worldAABB.minVertex.x
  let maxVertexY := max (min aabb.maxVertex.y bp.worldAABB.maxVertex.y) bp.worldAABB.minVertex.y
  let lower0 := quantize (bp.quantizationFactor.x * (minVertexX - bp.worldAABB.minVertex.x)) &&& (USHRT_MAX - 1)
  let upper0 := (quantize (bp.quantizationFactor.x * (maxVertexX - bp.worldAABB.minVertex.x)) &&& 0xffff) ||| 1
  let lower1 := quantize (bp.quantizationFactor.y * (minVertexY - bp.worldAABB.minVertex.y)) &&& (USHRT_MAX - 1)
  let upper1 := (quantize (bp.quantizationFactor.y * (maxVertexY - bp.worldAABB.minVertex.y)) &&& 0xffff) ||| 1
  (⟨lower0, lower1⟩, ⟨upper0, upper1⟩)

/-- Loop of box2d.BroadPhase.BinarySearch with inclusive integer limits; the
midpoint is the floor of the mean, as Math.floor computes it. -/
def binarySearchGo (bounds : List Bound) (value : Nat) (low high : Int) : Nat :=
  if _h : low ≤ high then
    let mid := Int.fdiv (low + high) 2
    if (bounds.getD mid.toNat default).value > value then
      binarySearchGo bounds value low (mid - 1)
    else if (bounds.getD mid.toNat default).value < value then
      binarySearchGo bounds value (mid + 1) high
    else
      mid.toNat
  else
    low.toNat
termination_by (high + 1 - low).toNat
decreasing_by
  · have he : Int.fdiv (low + high) 2 = (low + high) / 2 := Int.fdiv_eq_ediv _ (by omega)
    omega
  · have he : Int.fdiv (low + high) 2 = (low + high) / 2 := Int.fdiv_eq_ediv _ (by omega)
    omega

/-- BinarySearch over the first count entries; on an exact match some matching
index, otherwise the insertion point. -/
def binarySearch (bounds : List Bound) (count : Nat) (value : Nat) : Nat :=
  binarySearchGo bounds value 0 ((count : Int) - 1)

/-- IncrementOverlapCount: a proxy touched for the first time in the current
generation is stamped with overlap count 1; a proxy touched again has its
count raised to 2 and its id appended to the query results. -/
def BroadPhase.incrementOverlapCount (bp : BroadPhase) (proxyId : Nat) : BroadPhase :=
  let proxy := bp.proxyPool.getD proxyId default
  if proxy.timeStamp < bp.timeStamp then
    { bp with proxyPool := (bp.proxyPool.set proxyId
        { proxy with timeStamp := bp.timeStamp, overlapCount := 1 }) }
  else
    { bp with
        proxyPool := bp.proxyPool.set proxyId { proxy with overlapCount := 2 }
        queryResults := bp.queryResults ++ [proxyId] }

/-- IncrementTimeStamp: on hitting the 16-bit maximum, sweep every pool slot
back to timestamp 0 and restart the generation counter at 1; otherwise just
advance the counter.  The source sweeps indices below b2_maxProxies, which is
the whole pool. -/
def BroadPhase.incrementTimeStamp (bp : BroadPhase) : BroadPhase :=
  if bp.timeStamp = USHRT_MAX then
    { bp with
        proxyPool := bp.proxyPool.map (fun p => { p with timeStamp := 0 })
        timeStamp := 1 }
  else
    { bp with timeStamp := bp.timeStamp + 1 }

/-- One axis of TestOverlap: the candidate interval of quantized values meets
the proxy's stored interval on this axis. -/
def BroadPhase.testOverlapAxis (bp : BroadPhase) (b : BoundValues) (p : Proxy) (axis : Nat) : Bool :=
  let bounds := bp.bounds.get axis
  !decide ((bounds.getD (p.upperBounds.get axis) default).value < b.lowerValues.get axis) &&
    !decide (b.upperValues.get axis < (bounds.getD (p.lowerBounds.get axis) default).value)

/-- TestOverlap: the quantized candidate box meets the proxy's stored box on
both axes. -/
def BroadPhase.testOverlap (bp : BroadPhase) (b : BoundValues) (p : Proxy) : Bool :=
  bp.testOverlapAxis b p 0 && bp.testOverlapAxis b p 1

/-- Easy case of Query: every lower bound whose index lies in the searched
range marks its proxy. -/
def BroadPhase.queryEasy (bp : BroadPhase) (bounds : List Bound) (lowerQuery upperQuery : Nat) : BroadPhase :=
  (List.range' lowerQuery (upperQuery - lowerQuery)).foldl
    (fun s j =>
      if (bounds.getD j default).isLower then
        s.incrementOverlapCount (bounds.getD j default).proxyId
      else s)
    bp

/-- Hard case of Query: walk down from just below the searched range with the
stabbing count there as budget; every lower bound whose matching upper bound
reaches back into the range marks its proxy and spends one unit of budget.
The source walks below index 0 only when stabbing counts are inconsistent;
the walk stops at index 0 here. -/
def BroadPhase.queryHardGo (bp : BroadPhase) (bounds : List Bound) (axis lowerQuery : Nat) (i : Nat) (s : Int) : BroadPhase :=
  if s = 0 then bp
  else
    let b := bounds.getD i default
    let step :=
      if b.isLower then
        let proxy := bp.proxyPool.getD b.proxyId default
        if lowerQuery ≤ proxy.upperBounds.get axis then
          (bp.incrementOverlapCount b.proxyId, s - 1)
        else (bp, s)
      else (bp, s)
    match i with
    | 0 => step.1
    | i' + 1 => BroadPhase.queryHardGo step.1 bounds axis lowerQuery i' step.2

/-- Query over one axis: binary-search both endpoints, run the easy scan over
the range and the stabbing walk below it, and return the two search indices. -/
def BroadPhase.query (bp : BroadPhase) (lowerValue upperValue : Nat) (bounds : List Bound) (boundCount axis : Nat) : BroadPhase × Nat × Nat :=
  let lowerQuery := binarySearch bounds boundCount lowerValue
  let upperQuery := binarySearch bounds boundCount upperValue
  let bp1 := bp.queryEasy bounds lowerQuery upperQuery
  let bp2 :=
    if 0 < lowerQuery then
      bp1.queryHardGo bounds axis lowerQuery (lowerQuery - 1)
        ((bounds.getD (lowerQuery - 1) default).stabbingCount)
    else bp1
  (bp2, lowerQuery, upperQuery)

/-- Pair manager boundary: buffer an add intent. -/
def BroadPhase.addBufferedPair (bp : BroadPhase) (idA idB : Nat) : BroadPhase :=
  { bp with pairBuffer := bp.pairBuffer ++ [PairEvent.add idA idB] }

/-- Pair manager boundary: buffer a remove intent. -/
def BroadPhase.removeBufferedPair (bp : BroadPhase) (idA idB : Nat) : BroadPhase :=
  { bp with pairBuffer := bp.pairBuffer ++ [PairEvent.remove idA idB] }

/-- Pair manager boundary: Commit flushes the buffered intents and hands them
back. -/
def BroadPhase.pmCommit (bp : BroadPhase) : BroadPhase × List PairEvent :=
  ({ bp with pairBuffer := [] }, bp.pairBuffer)

/-- Commit of the broad phase: delegate to the pair manager. -/
def BroadPhase.commitStep (bp : BroadPhase) : BroadPhase × List PairEvent :=
  bp.pmCommit

/-- QueryAABB: quantize the box, query both axes over the live bound arrays,
collect up to maxCount user payloads, then reset the query scratch state and
advance the generation. -/
def BroadPhase.queryAABB (bp : BroadPhase) (aabb : AABB) (maxCount : Nat) : BroadPhase × List (Option Nat) × Nat :=
  let cb := bp.computeBounds aabb
  let q0 := bp.query (cb.1.get 0) (cb.2.get 0) (bp.bounds.get 0) (2 * bp.proxyCount) 0
  let bp1 := q0.1
  let q1 := bp1.query (cb.1.get 1) (cb.2.get 1) (bp1.bounds.get 1) (2 * bp1.proxyCount) 1
  let bp2 := q1.1
  let collected := (bp2.queryResults.take maxCount).map
    (fun id => (bp2.proxyPool.getD id default).userData)
  let count := min bp2.queryResults.length maxCount
  let bp3 := BroadPhase.incrementTimeStamp { bp2 with queryResults := [] }
  (bp3, collected, count)

/-- Increment of the stabbing counts of the entries with index in the
half-open range. -/
def incStabRange (l : List Bound) (lo hi : Nat) : List Bound :=
  l.mapIdx (fun i b =>
    if lo ≤ i ∧ i < hi then { b with stabbingCount := b.stabbingCount + 1 } else b)

/-- Decrement of the stabbing counts of the entries with index in the
half-open range. -/
def decStabRange (l : List Bound) (lo hi : Nat) : List Bound :=
  l.mapIdx (fun i b =>
    if lo ≤ i ∧ i < hi then { b with stabbingCount := b.stabbingCount - 1 } else b)

/-- One step of the bound-index fixups: the proxy owning the bound at the
given index records that index under the bound's role. -/
def fixIndexStep (bounds : List Bound) (axis : Nat) (pool : List Proxy) (index : Nat) : List Proxy :=
  let b := bounds.getD index default
  let p := pool.getD b.proxyId default
  if b.isLower then
    pool.set b.proxyId { p with lowerBounds := p.lowerBounds.set axis index }
  else
    pool.set b.proxyId { p with upperBounds := p.upperBounds.set axis index }

/-- Bound-index fixup loop over the half-open index range. -/
def fixIndices (bounds : List Bound) (axis : Nat) (pool : List Proxy) (lo hi : Nat) : List Proxy :=
  (List.range' lo (hi - lo)).foldl (fixIndexStep bounds axis) pool

/-- One axis of DestroyProxy: the two shifts remove the proxy's two entries,
the indices of the shifted entries are fixed up, the stabbing counts strictly
between the removed endpoints drop by one, and a query over the vacated value
range gathers the proxies whose pairs must be removed. -/
def BroadPhase.destroyProxyAxis (bp : BroadPhase) (proxyId axis boundCount : Nat) : BroadPhase :=
  let bounds := bp.bounds.get axis
  let proxy := bp.proxyPool.getD proxyId default
  let lowerIndex := proxy.lowerBounds.get axis
  let upperIndex := proxy.upperBounds.get axis
  let lowerValue := (bounds.getD lowerIndex default).value
  let upperValue := (bounds.getD upperIndex default).value
  let b1 := (bounds.eraseIdx upperIndex).eraseIdx lowerIndex
  let pool1 := fixIndices b1 axis bp.proxyPool lowerIndex (boundCount - 2)
  let b2 := decStabRange b1 lowerIndex (upperIndex - 1)
  let bp1 := { bp with bounds := bp.bounds.set axis b2, proxyPool := pool1 }
  (bp1.query lowerValue upperValue b2 (boundCount - 2) axis).1

/-- DestroyProxy: splice the proxy's entries out of both axes, buffer a pair
removal for every proxy the vacated range still overlapped, commit, reset the
query scratch state, advance the generation, and push the slot back onto the
free list. -/
def BroadPhase.destroyProxy (bp : BroadPhase) (proxyId : Nat) : BroadPhase :=
  let boundCount := 2 * bp.proxyCount
  let bp1 := bp.destroyProxyAxis proxyId 0 boundCount
  let bp2 := bp1.destroyProxyAxis proxyId 1 boundCount
  let bp3 := bp2.queryResults.foldl (fun s r => s.removeBufferedPair proxyId r) bp2
  let bp4 := bp3.pmCommit.1
  let bp5 := BroadPhase.incrementTimeStamp { bp4 with queryResults := [] }
  let proxy := bp5.proxyPool.getD proxyId default
  let proxy1 := { proxy with
      userData := none
      overlapCount := invalidIdx
      lowerBounds := ⟨invalidIdx, invalidIdx⟩
      upperBounds := ⟨invalidIdx, invalidIdx⟩
      next := bp5.freeProxy }
  { bp5 with
      proxyPool := bp5.proxyPool.set proxyId proxy1
      freeProxy := proxyId
      proxyCount := bp5.proxyCount - 1 }

/-- One axis of CreateProxy: query the current array to collect the proxies
already overlapping the new box, open two slots at the searched positions,
write the two new bounds, rebuild the stabbing counts at and between them,
and fix up every affected bound index. -/
def BroadPhase.createProxyAxis (bp : BroadPhase) (proxyId axis boundCount : Nat) (lowerValues upperValues : Duo Nat) : BroadPhase :=
  let bounds := bp.bounds.get axis
  let q := bp.query (lowerValues.get axis) (upperValues.get axis) bounds boundCount axis
  let bp1 := q.1
  let lowerIndex := q.2.1
  let upperIndex0 := q.2.2
  let b1 := (bounds.insertIdx upperIndex0
      { value := upperValues.get axis, proxyId := proxyId, stabbingCount := 0 }).insertIdx lowerIndex
      { value := lowerValues.get axis, proxyId := proxyId, stabbingCount := 0 }
  let upperIndex := upperIndex0 + 1
  let b2 := b1.set lowerIndex
    { b1.getD lowerIndex default with
        stabbingCount := if lowerIndex = 0 then 0 else (b1.getD (lowerIndex - 1) default).stabbingCount }
  let b3 := b2.set upperIndex
    { b2.getD upperIndex default with
        stabbingCount := (b2.getD (upperIndex - 1) default).stabbingCount }
  let b4 := incStabRange b3 lowerIndex upperIndex
  let pool1 := fixIndices b4 axis bp1.proxyPool lowerIndex (boundCount + 2)
  { bp1 with bounds := bp1.bounds.set axis b4, proxyPool := pool1 }

/-- CreateProxy: pop a slot off the free list, quantize the box, insert its
two bounds on each axis while collecting the already-overlapping proxies,
buffer an add for each of them, commit, reset the query scratch state and
advance the generation.  Returns the new state and the proxy id. -/
def BroadPhase.createProxy (bp : BroadPhase) (aabb : AABB) (userData : Option Nat) : BroadPhase × Nat :=
  let proxyId := bp.freeProxy
  let proxy := bp.proxyPool.getD proxyId default
  let bp0 := { bp with
      freeProxy := proxy.next
      proxyPool := bp.proxyPool.set proxyId { proxy with overlapCount := 0, userData := userData } }
  let boundCount := 2 * bp0.proxyCount
  let cb := bp0.computeBounds aabb
  let bp1 := bp0.createProxyAxis proxyId 0 boundCount cb.1 cb.2
  let bp2 := bp1.createProxyAxis proxyId 1 boundCount cb.1 cb.2
  let bp3 := { bp2 with proxyCount := bp2.proxyCount + 1 }
  let bp4 := bp3.queryResults.foldl (fun s r => s.addBufferedPair proxyId r) bp3
  let bp5 := bp4.pmCommit.1
  let bp6 := BroadPhase.incrementTimeStamp { bp5 with queryResults := [] }
  (bp6, proxyId)

/-- Expansion walk of MoveProxy moving a lower bound down: bubble it past
every greater neighbour, adjusting stabbing counts, reindexing the passed
proxy, and buffering an add when the passed bound is the upper endpoint of a
truly overlapping proxy.  The moving bound sits at the argument index. -/
def BroadPhase.moveLowerDownGo (bp : BroadPhase) (proxyId axis : Nat) (newValues : BoundValues) (lowerValue : Nat) : Nat → BroadPhase
  | 0 => bp
  | index + 1 =>
    let bounds := bp.bounds.get axis
    if lowerValue < (bounds.getD index default).value then
      let bound := bounds.getD (index + 1) default
      let prevBound := bounds.getD index default
      let prevProxyId := prevBound.proxyId
      let prevProxy := bp.proxyPool.getD prevProxyId default
      let bpA := { bp with bounds := (bp.bounds.set axis
          (bounds.set index { prevBound with stabbingCount := prevBound.stabbingCount + 1 })) }
      let bpB :=
        if prevBound.isUpper then
          let bpT :=
            if bpA.testOverlap newValues prevProxy then bpA.addBufferedPair proxyId prevProxyId
            else bpA
          let prevProxy1 := { prevProxy with
              upperBounds := prevProxy.upperBounds.set axis (prevProxy.upperBounds.get axis + 1) }
          let bpU := { bpT with proxyPool := bpT.proxyPool.set prevProxyId prevProxy1 }
          { bpU with bounds := (bpU.bounds.set axis
              ((bpU.bounds.get axis).set (index + 1)
                { bound with stabbingCount := bound.stabbingCount + 1 })) }
        else
          let prevProxy1 := { prevProxy with
              lowerBounds := prevProxy.lowerBounds.set axis (prevProxy.lowerBounds.get axis + 1) }
          let bpU := { bpA with proxyPool := bpA.proxyPool.set prevProxyId prevProxy1 }
          { bpU with bounds := (bpU.bounds.set axis
              ((bpU.bounds.get axis).set (index + 1)
                { bound with stabbingCount := bound.stabbingCount - 1 })) }
      let movingProxy := bpB.proxyPool.getD proxyId default
      let bpC := { bpB with proxyPool := (bpB.proxyPool.set proxyId
          { movingProxy with
              lowerBounds := movingProxy.lowerBounds.set axis (movingProxy.lowerBounds.get axis - 1) }) }
      let bounds3 := bpC.bounds.get axis
      let bpD := { bpC with bounds := (bpC.bounds.set axis
          ((bounds3.set index (bounds3.getD (index + 1) default)).set (index + 1)
            (bounds3.getD index default))) }
      BroadPhase.moveLowerDownGo bpD proxyId axis newValues lowerValue index
    else
      bp

/-- Expansion walk of MoveProxy moving an upper bound up: bubble it past every
neighbour with value at most the new one, buffering an add when the passed
bound is the lower endpoint of a truly overlapping proxy. -/
def BroadPhase.moveUpperUpGo (bp : BroadPhase) (proxyId axis : Nat) (newValues : BoundValues) (upperValue : Nat) (boundCount : Nat) (index : Nat) : BroadPhase :=
  let bounds := bp.bounds.get axis
  if h : index < boundCount - 1 ∧ (bounds.getD (index + 1) default).value ≤ upperValue then
    let bound := bounds.getD index default
    let nextBound := bounds.getD (index + 1) default
    let nextProxyId := nextBound.proxyId
    let nextProxy := bp.proxyPool.getD nextProxyId default
    let bpA := { bp with bounds := (bp.bounds.set axis
        (bounds.set (index + 1) { nextBound with stabbingCount := nextBound.stabbingCount + 1 })) }
    let bpB :=
      if nextBound.isLower then
        let bpT :=
          if bpA.testOverlap newValues nextProxy then bpA.addBufferedPair proxyId nextProxyId
          else bpA
        let nextProxy1 := { nextProxy with
            lowerBounds := nextProxy.lowerBounds.set axis (nextProxy.lowerBounds.get axis - 1) }
        let bpU := { bpT with proxyPool := bpT.proxyPool.set nextProxyId nextProxy1 }
        { bpU with bounds := (bpU.bounds.set axis
            ((bpU.bounds.get axis).set index
              { bound with stabbingCount := bound.stabbingCount + 1 })) }
      else
        let nextProxy1 := { nextProxy with
            upperBounds := nextProxy.upperBounds.set axis (nextProxy.upperBounds.get axis - 1) }
        let bpU := { bpA with proxyPool := bpA.proxyPool.set nextProxyId nextProxy1 }
        { bpU with bounds := (bpU.bounds.set axis
            ((bpU.bounds.get axis).set index
              { bound with stabbingCount := bound.stabbingCount - 1 })) }
    let movingProxy := bpB.proxyPool.getD proxyId default
    let bpC := { bpB with proxyPool := (bpB.proxyPool.set proxyId
        { movingProxy with
            upperBounds := movingProxy.upperBounds.set axis (movingProxy.upperBounds.get axis + 1) }) }
    let bounds3 := bpC.bounds.get axis
    let bpD := { bpC with bounds := (bpC.bounds.set axis
        ((bounds3.set index (bounds3.getD (index + 1) default)).set (index + 1)
          (bounds3.getD index default))) }
    BroadPhase.moveUpperUpGo bpD proxyId axis newValues upperValue boundCount (index + 1)
  else
    bp
termination_by boundCount - index
decreasing_by omega

/-- Shrink walk of MoveProxy moving a lower bound up: bubble it past every
neighbour with value at most the new one, buffering a remove when the passed
bound is the upper endpoint of a proxy that overlapped the old box. -/
def BroadPhase.moveLowerUpGo (bp : BroadPhase) (proxyId axis : Nat) (oldValues : BoundValues) (lowerValue : Nat) (boundCount : Nat) (index : Nat) : BroadPhase :=
  let bounds := bp.bounds.get axis
  if h : index < boundCount - 1 ∧ (bounds.getD (index + 1) default).value ≤ lowerValue then
    let bound := bounds.getD index default
    let nextBound := bounds.getD (index + 1) default
    let nextProxyId := nextBound.proxyId
    let nextProxy := bp.proxyPool.getD nextProxyId default
    let bpA := { bp with bounds := (bp.bounds.set axis
        (bounds.set (index + 1) { nextBound with stabbingCount := nextBound.stabbingCount - 1 })) }
    let bpB :=
      if nextBound.isUpper then
        let bpT :=
          if bpA.testOverlap oldValues nextProxy then bpA.removeBufferedPair proxyId nextProxyId
          else bpA
        let nextProxy1 := { nextProxy with
            upperBounds := nextProxy.upperBounds.set axis (nextProxy.upperBounds.get axis - 1) }
        let bpU := { bpT with proxyPool := bpT.proxyPool.set nextProxyId nextProxy1 }
        { bpU with bounds := (bpU.bounds.set axis
            ((bpU.bounds.get axis).set index
              { bound with stabbingCount := bound.stabbingCount - 1 })) }
      else
        let nextProxy1 := { nextProxy with
            lowerBounds := nextProxy.lowerBounds.set axis (nextProxy.lowerBounds.get axis - 1) }
        let bpU := { bpA with proxyPool := bpA.proxyPool.set nextProxyId nextProxy1 }
        { bpU with bounds := (bpU.bounds.set axis
            ((bpU.bounds.get axis).set index
              { bound with stabbingCount := bound.stabbingCount + 1 })) }
    let movingProxy := bpB.proxyPool.getD proxyId default
    let bpC := { bpB with proxyPool := (bpB.proxyPool.set proxyId
        { movingProxy with
            lowerBounds := movingProxy.lowerBounds.set axis (movingProxy.lowerBounds.get axis + 1) }) }
    let bounds3 := bpC.bounds.get axis
    let bpD := { bpC with bounds := (bpC.bounds.set axis
        ((bounds3.set index (bounds3.getD (index + 1) default)).set (index + 1)
          (bounds3.getD index default))) }
    BroadPhase.moveLowerUpGo bpD proxyId axis oldValues lowerValue boundCount (index + 1)
  else
    bp
termination_by boundCount - index
decreasing_by omega

/-- Shrink walk of MoveProxy moving an upper bound down: bubble it past every
greater neighbour, buffering a remove when the passed bound is the lower
endpoint of a proxy that overlapped the old box. -/
def BroadPhase.moveUpperDownGo (bp : BroadPhase) (proxyId axis : Nat) (oldValues : BoundValues) (upperValue : Nat) : Nat → BroadPhase
  | 0 => bp
  | index + 1 =>
    let bounds := bp.bounds.get axis
    if upperValue < (bounds.getD index default).value then
      let bound := bounds.getD (index + 1) default
      let prevBound := bounds.getD index default
      let prevProxyId := prevBound.proxyId
      let prevProxy := bp.proxyPool.getD prevProxyId default
      let bpA := { bp with bounds := (bp.bounds.set axis
          (bounds.set index { prevBound with stabbingCount := prevBound.stabbingCount - 1 })) }
      let bpB :=
        if prevBound.isLower then
          let bpT :=
            if bpA.testOverlap oldValues prevProxy then bpA.removeBufferedPair proxyId prevProxyId
            else bpA
          let prevProxy1 := { prevProxy with
              lowerBounds := prevProxy.lowerBounds.set axis (prevProxy.lowerBounds.get axis + 1) }
          let bpU := { bpT with proxyPool := bpT.proxyPool.set prevProxyId prevProxy1 }
          { bpU with bounds := (bpU.bounds.set axis
              ((bpU.bounds.get axis).set (index + 1)
                { bound with stabbingCount := bound.stabbingCount - 1 })) }
        else
          let prevProxy1 := { prevProxy with
              upperBounds := prevProxy.upperBounds.set axis (prevProxy.upperBounds.get axis + 1) }
          let bpU := { bpA with proxyPool := bpA.proxyPool.set prevProxyId prevProxy1 }
          { bpU with bounds := (bpU.bounds.set axis
              ((bpU.bounds.get axis).set (index + 1)
                { bound with stabbingCount := bound.stabbingCount + 1 })) }
      let movingProxy := bpB.proxyPool.getD proxyId default
      let bpC := { bpB with proxyPool := (bpB.proxyPool.set proxyId
          { movingProxy with
              upperBounds := movingProxy.upperBounds.set axis (movingProxy.upperBounds.get axis - 1) }) }
      let bounds3 := bpC.bounds.get axis
      let bpD := { bpC with bounds := (bpC.bounds.set axis
          ((bounds3.set index (bounds3.getD (index + 1) default)).set (index + 1)
            (bounds3.getD index default))) }
      BroadPhase.moveUpperDownGo bpD proxyId axis oldValues upperValue index
    else
      bp

/-- One axis of MoveProxy: write the new values in place at the proxy's two
slots, then run whichever of the four walks the value deltas call for. -/
def BroadPhase.moveProxyAxis (bp : BroadPhase) (proxyId axis : Nat) (newValues oldValues : BoundValues) (boundCount : Nat) : BroadPhase :=
  let bounds := bp.bounds.get axis
  let proxy := bp.proxyPool.getD proxyId default
  let lowerIndex := proxy.lowerBounds.get axis
  let upperIndex := proxy.upperBounds.get axis
  let lowerValue := newValues.lowerValues.get axis
  let upperValue := newValues.upperValues.get axis
  let deltaLower : Int := (lowerValue : Int) - ((bounds.getD lowerIndex default).value : Int)
  let deltaUpper : Int := (upperValue : Int) - ((bounds.getD upperIndex default).value : Int)
  let b1 := bounds.set lowerIndex { bounds.getD lowerIndex default with value := lowerValue }
  let b2 := b1.set upperIndex { b1.getD upperIndex default with value := upperValue }
  let bp0 := { bp with bounds := bp.bounds.set axis b2 }
  let bp1 :=
    if deltaLower < 0 then bp0.moveLowerDownGo proxyId axis newValues lowerValue lowerIndex else bp0
  let bp2 :=
    if 0 < deltaUpper then bp1.moveUpperUpGo proxyId axis newValues upperValue boundCount upperIndex
    else bp1
  let bp3 :=
    if 0 < deltaLower then bp2.moveLowerUpGo proxyId axis oldValues lowerValue boundCount lowerIndex
    else bp2
  let bp4 :=
    if deltaUpper < 0 then bp3.moveUpperDownGo proxyId axis oldValues upperValue upperIndex else bp3
  bp4

/-- MoveProxy: a null or out-of-range id, or an invalid box, returns the state
untouched; otherwise quantize the new box, record the old stored values, and
relocate the two bounds on each axis. -/
def BroadPhase.moveProxy (bp : BroadPhase) (proxyId : Nat) (aabb : AABB) : BroadPhase :=
  if proxyId = nullProxy bp.maxProxies ∨ bp.maxProxies ≤ proxyId then bp
  else if aabb.isValid = false then bp
  else
    let boundCount := 2 * bp.proxyCount
    let proxy := bp.proxyPool.getD proxyId default
    let cb := bp.computeBounds aabb
    let newValues : BoundValues := ⟨cb.1, cb.2⟩
    let oldValues : BoundValues :=
      ⟨⟨((bp.bounds.get 0).getD (proxy.lowerBounds.get 0) default).value,
        ((bp.bounds.get 1).getD (proxy.lowerBounds.get 1) default).value⟩,
       ⟨((bp.bounds.get 0).getD (proxy.upperBounds.get 0) default).value,
        ((bp.bounds.get 1).getD (proxy.upperBounds.get 1) default).value⟩⟩
    let bp1 := bp.moveProxyAxis proxyId 0 newValues oldValues boundCount
    let bp2 := bp1.moveProxyAxis proxyId 1 newValues oldValues boundCount
    bp2

/-! Arithmetic helpers about the 16-bit masking. -/

theorem and_65534_even (n : Nat) : (n &&& 65534) % 2 = 0 := by
  rw [Nat.mod_two_eq_zero_iff_testBit_zero, Nat.testBit_and]
  simp

theorem or_one_odd (n : Nat) : (n ||| 1) % 2 = 1 := by
  rw [Nat.mod_two_eq_one_iff_testBit_zero, Nat.testBit_or]
  simp

theorem le_or_one (n m : Nat) : n ≤ n ||| m :=
  Nat.le_of_testBit (fun i h => by rw [Nat.testBit_or, h, Bool.true_or])

theorem and_65535_eq (n : Nat) (h : n < 65536) : n &&& 65535 = n := by
  have h2 : n &&& 2 ^ 16 - 1 = n := Nat.and_pow_two_sub_one_of_lt_two_pow (by omega)
  norm_num at h2
  exact h2

theorem or_one_lt (a : Nat) (ha : a < 65536) : a ||| 1 < 65536 := by
  have h : a ||| 1 < 2 ^ 16 := Nat.or_lt_two_pow (by omega) (by omega)
  omega

theorem quantize_mono {q1 q2 : ℚ} (h : q1 ≤ q2) : quantize q1 ≤ quantize q2 := by
  unfold quantize
  exact Int.toNat_le_toNat (Int.floor_le_floor h)

theorem quantize_le {q : ℚ} {m : Nat} (h : q ≤ (m : ℚ)) : quantize q ≤ m := by
  unfold quantize
  have h1 : Int.floor q ≤ (m : Int) := by
    exact_mod_cast Int.floor_le_floor h |>.trans_eq (by simp)
  omega

/-- C10: InRange returns true exactly when the box strictly overlaps the world
box on both axes, and it is a pure function of the state. -/
theorem C10_inRange_iff (bp : BroadPhase) (aabb : AABB) :
    bp.inRange aabb = true ↔
      (aabb.minVertex.x < bp.worldAABB.maxVertex.x ∧
       bp.worldAABB.minVertex.x < aabb.maxVertex.x ∧
       aabb.minVertex.y < bp.worldAABB.maxVertex.y ∧
       bp.worldAABB.minVertex.y < aabb.maxVertex.y) := by
  simp only [BroadPhase.inRange, decide_eq_true_eq, max_lt_iff, sub_neg]
  tauto

/-- C9 counterexample: for the world box from the origin to the point with
both coordinates 100, the stored quantization factor on the x axis is not the
world extent divided by 65535. -/
theorem C9_counterexample :
    (mkBroadPhase 1 ⟨⟨0, 0⟩, ⟨100, 100⟩⟩).quantizationFactor.x ≠
      ((100 : ℚ) - 0) / 65535 := by
  simp only [mkBroadPhase, USHRT_MAX]
  norm_num

/-- C9 amended: the stored per-axis quantization factor equals 65535 divided
by the world extent on that axis, computed once at construction. -/
theorem C9_amended (maxProxies : Nat) (world : AABB) :
    (mkBroadPhase maxProxies world).quantizationFactor =
      ⟨(USHRT_MAX : ℚ) / (world.maxVertex.x - world.minVertex.x),
       (USHRT_MAX : ℚ) / (world.maxVertex.y - world.minVertex.y)⟩ := rfl

theorem getD_map_zeroStamp (l : List Proxy) (i : Nat) :
    ((l.map (fun p => { p with timeStamp := 0 })).getD i default) =
      { l.getD i default with timeStamp := 0 } := by
  induction l generalizing i with
  | nil => cases i <;> rfl
  | cons p t ih => cases i with
    | zero => rfl
    | succ j => simpa using ih j

/-- C8: IncrementTimeStamp resets every pool slot's timestamp to 0 and the
generation counter to 1 when the counter sits at the 16-bit maximum, and
otherwise advances the counter by one leaving every slot untouched. -/
theorem C8_incrementTimeStamp_spec (bp : BroadPhase) :
    bp.incrementTimeStamp.timeStamp =
        (if bp.timeStamp = USHRT_MAX then 1 else bp.timeStamp + 1) ∧
      bp.incrementTimeStamp.proxyPool.length = bp.proxyPool.length ∧
      ∀ i, bp.incrementTimeStamp.proxyPool.getD i default =
        { bp.proxyPool.getD i default with
            timeStamp :=
              if bp.timeStamp = USHRT_MAX then 0
              else (bp.proxyPool.getD i default).timeStamp } := by
  unfold BroadPhase.incrementTimeStamp
  by_cases h : bp.timeStamp = USHRT_MAX
  · simp only [h, if_pos rfl]
    refine ⟨rfl, by simp, fun i => ?_⟩
    simpa using getD_map_zeroStamp bp.proxyPool i
  · simp [if_neg h]

/-- C7: MoveProxy called with the null proxy id, an id at or above the
capacity, or an invalid box, returns with the whole state unchanged. -/
theorem C7_moveProxy_noop (bp : BroadPhase) (proxyId : Nat) (aabb : AABB)
    (h : proxyId = nullProxy bp.maxProxies ∨ bp.maxProxies ≤ proxyId ∨
      aabb.isValid = false) :
    bp.moveProxy proxyId aabb = bp := by
  unfold BroadPhase.moveProxy
  by_cases hid : proxyId = nullProxy bp.maxProxies ∨ bp.maxProxies ≤ proxyId
  · rw [if_pos hid]
  · rw [if_neg hid]
    have hv : aabb.isValid = false := by tauto
    rw [if_pos hv]

/-- C7 witness at a concrete state and input. -/
theorem C7_moveProxy_noop_witness :
    (mkBroadPhase 2 ⟨⟨0, 0⟩, ⟨100, 100⟩⟩).moveProxy 2 ⟨⟨1, 1⟩, ⟨2, 2⟩⟩ =
      mkBroadPhase 2 ⟨⟨0, 0⟩, ⟨100, 100⟩⟩ :=
  C7_moveProxy_noop _ 2 _ (Or.inl (by rfl))

theorem lowerMask_le (x : Nat) : x &&& (USHRT_MAX - 1) ≤ 65535 :=
  le_trans Nat.and_le_right (by norm_num [USHRT_MAX])

theorem upperMask_le (y : Nat) : (y &&& 0xffff) ||| 1 ≤ 65535 := by
  have h1 : y &&& 0xffff < 65536 := lt_of_le_of_lt Nat.and_le_right (by norm_num)
  have h2 := or_one_lt _ h1
  omega

theorem axis_lower_lt_upper (f wmin wmax amin amax : ℚ)
    (hw : wmin < wmax)
    (hf : f = (USHRT_MAX : ℚ) / (wmax - wmin))
    (ha : amin ≤ amax) :
    quantize (f * (max (min amin wmax) wmin - wmin)) &&& (USHRT_MAX - 1) <
      (quantize (f * (max (min amax wmax) wmin - wmin)) &&& 0xffff) ||| 1 := by
  have hfpos : 0 < f := by
    rw [hf]
    apply div_pos
    · norm_num [USHRT_MAX]
    · linarith
  have hcle : max (min amin wmax) wmin ≤ max (min amax wmax) wmin :=
    max_le_max_right _ (min_le_min_right _ ha)
  have hargle : f * (max (min amin wmax) wmin - wmin) ≤
      f * (max (min amax wmax) wmin - wmin) :=
    mul_le_mul_of_nonneg_left (by linarith) (le_of_lt hfpos)
  have hupbound : f * (max (min amax wmax) wmin - wmin) ≤ ((65535 : Nat) : ℚ) := by
    have h1 : max (min amax wmax) wmin ≤ wmax := max_le (min_le_right _ _) (le_of_lt hw)
    have h2 : f * (max (min amax wmax) wmin - wmin) ≤ f * (wmax - wmin) :=
      mul_le_mul_of_nonneg_left (by linarith) (le_of_lt hfpos)
    have h3 : f * (wmax - wmin) = (USHRT_MAX : ℚ) := by
      rw [hf]
      have hne : wmax - wmin ≠ 0 := by linarith
      field_simp
    rw [h3] at h2
    simpa [USHRT_MAX] using h2
  have hrawle := quantize_mono hargle
  have hrawU : quantize (f * (max (min amax wmax) wmin - wmin)) ≤ 65535 :=
    quantize_le hupbound
  have heq : quantize (f * (max (min amax wmax) wmin - wmin)) &&& 65535 =
      quantize (f * (max (min amax wmax) wmin - wmin)) := and_65535_eq _ (by omega)
  have hlow : quantize (f * (max (min amin wmax) wmin - wmin)) &&& 65534 ≤
      quantize (f * (max (min amin wmax) wmin - wmin)) := Nat.and_le_left
  have hpar1 := and_65534_even (quantize (f * (max (min amin wmax) wmin - wmin)))
  have hpar2 := or_one_odd (quantize (f * (max (min amax wmax) wmin - wmin)) &&& 65535)
  have hup := le_or_one (quantize (f * (max (min amax wmax) wmin - wmin)) &&& 65535) 1
  show quantize (f * (max (min amin wmax) wmin - wmin)) &&& 65534 <
    (quantize (f * (max (min amax wmax) wmin - wmin)) &&& 65535) ||| 1
  omega

/-- C4: ComputeBounds is total; every returned lower value is even, every
returned upper value is odd, all values lie in the 16-bit range, and for a
valid world box and any box with max above min on each axis the lower value
is strictly below the upper value on each axis.  The values arise by clamping
into the world box and scaling with the per-axis quantization factor, which
is how computeBounds is defined. -/
theorem C4_computeBounds_spec (maxProxies : Nat) (world : AABB)
    (hwx : world.minVertex.x < world.maxVertex.x)
    (hwy : world.minVertex.y < world.maxVertex.y) :
    (∀ aabb : AABB,
        ((mkBroadPhase maxProxies world).computeBounds aabb).1.a0 % 2 = 0 ∧
        ((mkBroadPhase maxProxies world).computeBounds aabb).1.a1 % 2 = 0 ∧
        ((mkBroadPhase maxProxies world).computeBounds aabb).2.a0 % 2 = 1 ∧
        ((mkBroadPhase maxProxies world).computeBounds aabb).2.a1 % 2 = 1 ∧
        ((mkBroadPhase maxProxies world).computeBounds aabb).1.a0 ≤ 65535 ∧
        ((mkBroadPhase maxProxies world).computeBounds aabb).1.a1 ≤ 65535 ∧
        ((mkBroadPhase maxProxies world).computeBounds aabb).2.a0 ≤ 65535 ∧
        ((mkBroadPhase maxProxies world).computeBounds aabb).2.a1 ≤ 65535) ∧
    ∀ aabb : AABB, aabb.minVertex.x < aabb.maxVertex.x →
      aabb.minVertex.y < aabb.maxVertex.y →
      ((mkBroadPhase maxProxies world).computeBounds aabb).1.a0 <
          ((mkBroadPhase maxProxies world).computeBounds aabb).2.a0 ∧
        ((mkBroadPhase maxProxies world).computeBounds aabb).1.a1 <
          ((mkBroadPhase maxProxies world).computeBounds aabb).2.a1 := by
  have hfx : (mkBroadPhase maxProxies world).quantizationFactor.x =
      (USHRT_MAX : ℚ) / (world.maxVertex.x - world.minVertex.x) := rfl
  have hfy : (mkBroadPhase maxProxies world).quantizationFactor.y =
      (USHRT_MAX : ℚ) / (world.maxVertex.y - world.minVertex.y) := rfl
  have hw : (mkBroadPhase maxProxies world).worldAABB = world := rfl
  constructor
  · intro aabb
    simp only [BroadPhase.computeBounds, hw]
    exact ⟨and_65534_even _, and_65534_even _, or_one_odd _, or_one_odd _,
      lowerMask_le _, lowerMask_le _, upperMask_le _, upperMask_le _⟩
  · intro aabb hx hy
    simp only [BroadPhase.computeBounds, hw]
    exact ⟨axis_lower_lt_upper _ _ _ _ _ hwx hfx (le_of_lt hx),
      axis_lower_lt_upper _ _ _ _ _ hwy hfy (le_of_lt hy)⟩

/-- C4 witness at a concrete world and the tiny boundary box from the spec. -/
theorem C4_computeBounds_spec_witness :
    ((mkBroadPhase 2 ⟨⟨0, 0⟩, ⟨100, 100⟩⟩).computeBounds
        ⟨⟨0, 0⟩, ⟨1 / 1000, 1 / 1000⟩⟩).1.a0 <
      ((mkBroadPhase 2 ⟨⟨0, 0⟩, ⟨100, 100⟩⟩).computeBounds
        ⟨⟨0, 0⟩, ⟨1 / 1000, 1 / 1000⟩⟩).2.a0 :=
  ((C4_computeBounds_spec 2 ⟨⟨0, 0⟩, ⟨100, 100⟩⟩ (by norm_num) (by norm_num)).2
    ⟨⟨0, 0⟩, ⟨1 / 1000, 1 / 1000⟩⟩ (by norm_num) (by norm_num)).1

theorem fdiv_bounds {low high : Int} (h : low ≤ high) :
    low ≤ Int.fdiv (low + high) 2 ∧ Int.fdiv (low + high) 2 ≤ high := by
  have he : Int.fdiv (low + high) 2 = (low + high) / 2 := Int.fdiv_eq_ediv _ (by omega)
  omega

theorem binarySearchGo_spec (bounds : List Bound) (count value : Nat)
    (hsort : ∀ i j : Nat, i < j → j < count →
      (bounds.getD i default).value ≤ (bounds.getD j default).value) :
    ∀ low high : Int, 0 ≤ low → low ≤ (count : Int) → high < (count : Int) →
      (∀ i : Nat, (i : Int) < low → i < count → (bounds.getD i default).value < value) →
      (∀ i : Nat, high < (i : Int) → i < count → value < (bounds.getD i default).value) →
      binarySearchGo bounds value low high ≤ count ∧
        ((binarySearchGo bounds value low high < count ∧
            (bounds.getD (binarySearchGo bounds value low high) default).value = value) ∨
          ((∀ i, i < binarySearchGo bounds value low high →
              (bounds.getD i default).value < value) ∧
            (∀ i, binarySearchGo bounds value low high ≤ i → i < count →
              value < (bounds.getD i default).value))) := by
  intro low high
  induction low, high using binarySearchGo.induct bounds value with
  | case1 low high h1 mid hmid ih =>
    intro h0 hlc hhc hlinv hhinv
    have hmeq : mid = Int.fdiv (low + high) 2 := rfl
    have hb : low ≤ mid ∧ mid ≤ high := hmeq ▸ fdiv_bounds h1
    rw [binarySearchGo]
    simp only [dif_pos h1]
    rw [← hmeq, if_pos hmid]
    refine ih h0 hlc (by omega) hlinv ?_
    intro i hgt hic
    have hmidnn : 0 ≤ mid := by omega
    have hmi : mid.toNat ≤ i := by omega
    rcases Nat.eq_or_lt_of_le hmi with heq | hlt
    · have hvv : (bounds.getD i default).value =
        (bounds.getD mid.toNat default).value := by rw [heq]
      omega
    · have hle := hsort mid.toNat i hlt hic
      omega
  | case2 low high h1 mid hmid1 hmid2 ih =>
    intro h0 hlc hhc hlinv hhinv
    have hmeq : mid = Int.fdiv (low + high) 2 := rfl
    have hb : low ≤ mid ∧ mid ≤ high := hmeq ▸ fdiv_bounds h1
    rw [binarySearchGo]
    simp only [dif_pos h1]
    rw [← hmeq, if_neg hmid1, if_pos hmid2]
    refine ih (by omega) (by omega) hhc ?_ hhinv
    intro i hlt hic
    have hmidnn : 0 ≤ mid := by omega
    have him : i ≤ mid.toNat := by omega
    rcases Nat.eq_or_lt_of_le him with heq | hltn
    · have hvv : (bounds.getD i default).value =
        (bounds.getD mid.toNat default).value := by rw [heq]
      omega
    · have hle := hsort i mid.toNat hltn (by omega)
      omega
  | case3 low high h1 mid hmid1 hmid2 =>
    intro h0 hlc hhc hlinv hhinv
    have hmeq : mid = Int.fdiv (low + high) 2 := rfl
    have hb : low ≤ mid ∧ mid ≤ high := hmeq ▸ fdiv_bounds h1
    rw [binarySearchGo]
    simp only [dif_pos h1]
    rw [← hmeq, if_neg hmid1, if_neg hmid2]
    have hmidnn : 0 ≤ mid := by omega
    refine ⟨by omega, Or.inl ⟨by omega, by omega⟩⟩
  | case4 low high h1 =>
    intro h0 hlc hhc hlinv hhinv
    rw [binarySearchGo]
    simp only [dif_neg h1]
    refine ⟨by omega, Or.inr ⟨?_, ?_⟩⟩
    · intro i hi
      exact hlinv i (by omega) (by omega)
    · intro i hi hic
      exact hhinv i (by omega) hic

/-! List access helpers used throughout the development. -/

theorem getD_set_eq {α : Type} [Inhabited α] (l : List α) (i : Nat) (a : α)
    (h : i < l.length) : (l.set i a).getD i default = a := by
  induction l generalizing i with
  | nil => simp at h
  | cons x t ih => cases i with
    | zero => rfl
    | succ j => simpa using ih j (by simpa using h)

theorem getD_set_ne {α : Type} [Inhabited α] (l : List α) (i j : Nat) (a : α)
    (h : i ≠ j) : (l.set i a).getD j default = l.getD j default := by
  induction l generalizing i j with
  | nil => simp [List.set]
  | cons x t ih => cases i with
    | zero => cases j with
      | zero => exact absurd rfl h
      | succ k => rfl
    | succ i' => cases j with
      | zero => rfl
      | succ k => simpa using ih i' k (by omega)

theorem map_getD {α β : Type} (f : α → β) (l : List α) (i : Nat) (d : α) :
    (l.map f).getD i (f d) = f (l.getD i d) := by
  induction l generalizing i with
  | nil => cases i <;> rfl
  | cons x t ih => cases i with
    | zero => rfl
    | succ j => simpa using ih j

theorem map_set_eq {α β : Type} [Inhabited α] (f : α → β) (l : List α) (i : Nat)
    (a : α) (h : f a = f (l.getD i default)) :
    (l.set i a).map f = l.map f := by
  induction l generalizing i with
  | nil => rfl
  | cons x t ih => cases i with
    | zero => simpa using h
    | succ j => simpa using ih j (by simpa using h)

theorem getD_insertIdx (l : List Bound) (k : Nat) (x : Bound) (i : Nat)
    (hk : k ≤ l.length) :
    (l.insertIdx k x).getD i default =
      if i < k then l.getD i default
      else if i = k then x
      else l.getD (i - 1) default := by
  induction k generalizing l i with
  | zero =>
    cases i with
    | zero => simp [List.insertIdx_zero]
    | succ j => simp [List.insertIdx_zero]
  | succ k' ih =>
    cases l with
    | nil => simp at hk
    | cons y t =>
      cases i with
      | zero => simp [List.insertIdx_succ_cons]
      | succ j =>
        have h2 : k' ≤ t.length := by simpa using hk
        rw [List.insertIdx_succ_cons]
        show (t.insertIdx k' x).getD j default = _
        rw [ih t j h2]
        split_ifs <;> first
        | rfl
        | (exfalso; omega)
        | (obtain ⟨j', rfl⟩ : ∃ j', j = j' + 1 := ⟨j - 1, by omega⟩; rfl)

theorem getD_eraseIdx (l : List Bound) (k : Nat) (i : Nat) (hk : k < l.length) :
    (l.eraseIdx k).getD i default =
      if i < k then l.getD i default else l.getD (i + 1) default := by
  induction k generalizing l i with
  | zero =>
    cases l with
    | nil => simp at hk
    | cons y t =>
      cases i <;> simp [List.eraseIdx]
  | succ k' ih =>
    cases l with
    | nil => simp at hk
    | cons y t =>
      cases i with
      | zero => simp [List.eraseIdx]
      | succ j =>
        have h2 : k' < t.length := by simpa using hk
        show (t.eraseIdx k').getD j default = _
        rw [ih t j h2]
        split_ifs <;> first
        | rfl
        | (exfalso; omega)

theorem getD_mapIdx (f : Nat → Bound → Bound) (l : List Bound) (i : Nat) :
    (List.mapIdx f l).getD i default =
      if i < l.length then f i (l.getD i default) else default := by
  induction l generalizing f i with
  | nil => cases i <;> simp
  | cons x t ih =>
    rw [List.mapIdx_cons]
    cases i with
    | zero => simp
    | succ j =>
      show (List.mapIdx (fun i a => f (i + 1) a) t).getD j default = _
      rw [ih]
      by_cases hj : j < t.length
      · rw [if_pos hj, if_pos (by simpa using Nat.succ_lt_succ hj)]
        rfl
      · rw [if_neg hj, if_neg (by simp; omega)]

theorem length_incStabRange (l : List Bound) (lo hi : Nat) :
    (incStabRange l lo hi).length = l.length := by
  simp [incStabRange]

theorem length_decStabRange (l : List Bound) (lo hi : Nat) :
    (decStabRange l lo hi).length = l.length := by
  simp [decStabRange]

theorem getD_incStabRange (l : List Bound) (lo hi i : Nat) :
    (incStabRange l lo hi).getD i default =
      if lo ≤ i ∧ i < hi ∧ i < l.length then
        { l.getD i default with stabbingCount := (l.getD i default).stabbingCount + 1 }
      else l.getD i default := by
  unfold incStabRange
  rw [getD_mapIdx]
  by_cases hl : i < l.length
  · rw [if_pos hl]
    by_cases hr : lo ≤ i ∧ i < hi
    · rw [if_pos hr, if_pos ⟨hr.1, hr.2, hl⟩]
    · rw [if_neg hr, if_neg (by tauto)]
  · rw [if_neg hl, if_neg (by tauto)]
    have : l.getD i default = default := by
      rw [List.getD_eq_default]
      omega
    rw [this]

theorem getD_decStabRange (l : List Bound) (lo hi i : Nat) :
    (decStabRange l lo hi).getD i default =
      if lo ≤ i ∧ i < hi ∧ i < l.length then
        { l.getD i default with stabbingCount := (l.getD i default).stabbingCount - 1 }
      else l.getD i default := by
  unfold decStabRange
  rw [getD_mapIdx]
  by_cases hl : i < l.length
  · rw [if_pos hl]
    by_cases hr : lo ≤ i ∧ i < hi
    · rw [if_pos hr, if_pos ⟨hr.1, hr.2, hl⟩]
    · rw [if_neg hr, if_neg (by tauto)]
  · rw [if_neg hl, if_neg (by tauto)]
    have : l.getD i default = default := by
      rw [List.getD_eq_default]
      omega
    rw [this]

theorem Duo.get_set_hit {α : Type} (d : Duo α) (a : Nat) (v : α) (a' : Nat)
    (h : (a' = 0) ↔ (a = 0)) : (d.set a v).get a' = v := by
  unfold Duo.get Duo.set
  by_cases ha : a = 0
  · rw [if_pos ha, if_pos (h.mpr ha)]
  · rw [if_neg ha, if_neg (fun hh => ha (h.mp hh))]

theorem Duo.get_set_miss {α : Type} (d : Duo α) (a : Nat) (v : α) (a' : Nat)
    (h : ¬((a' = 0) ↔ (a = 0))) : (d.set a v).get a' = d.get a' := by
  unfold Duo.get Duo.set
  by_cases ha : a = 0
  · have ha' : ¬(a' = 0) := fun hh => h (by tauto)
    rw [if_pos ha, if_neg ha', if_neg ha']
  · have ha' : a' = 0 := by tauto
    rw [if_neg ha, if_pos ha', if_pos ha']

/-- Observable part of a proxy that queries never touch: the bound indices,
the free-list link and the payload. -/
def Proxy.skel (p : Proxy) : Duo Nat × Duo Nat × Nat × Option Nat :=
  (p.lowerBounds, p.upperBounds, p.next, p.userData)

/-- Frame of the query machinery: everything except the query results and the
per-proxy timestamp and overlap-count scratch fields is left unchanged. -/
structure QFrame (bp bp' : BroadPhase) : Prop where
  bounds_eq : bp'.bounds = bp.bounds
  free_eq : bp'.freeProxy = bp.freeProxy
  count_eq : bp'.proxyCount = bp.proxyCount
  max_eq : bp'.maxProxies = bp.maxProxies
  world_eq : bp'.worldAABB = bp.worldAABB
  quant_eq : bp'.quantizationFactor = bp.quantizationFactor
  ts_eq : bp'.timeStamp = bp.timeStamp
  skel_eq : bp'.proxyPool.map Proxy.skel = bp.proxyPool.map Proxy.skel
  buffer_eq : bp'.pairBuffer = bp.pairBuffer

theorem QFrame.frameRefl (bp : BroadPhase) : QFrame bp bp :=
  ⟨rfl, rfl, rfl, rfl, rfl, rfl, rfl, rfl, rfl⟩

theorem QFrame.frameTrans {bp1 bp2 bp3 : BroadPhase} (h1 : QFrame bp1 bp2)
    (h2 : QFrame bp2 bp3) : QFrame bp1 bp3 :=
  ⟨h2.bounds_eq.trans h1.bounds_eq, h2.free_eq.trans h1.free_eq,
   h2.count_eq.trans h1.count_eq, h2.max_eq.trans h1.max_eq,
   h2.world_eq.trans h1.world_eq, h2.quant_eq.trans h1.quant_eq,
   h2.ts_eq.trans h1.ts_eq, h2.skel_eq.trans h1.skel_eq,
   h2.buffer_eq.trans h1.buffer_eq⟩

theorem QFrame.pool_length {bp bp' : BroadPhase} (h : QFrame bp bp') :
    bp'.proxyPool.length = bp.proxyPool.length := by
  have := congrArg List.length h.skel_eq
  simpa using this

theorem QFrame.skel_getD {bp bp' : BroadPhase} (h : QFrame bp bp') (i : Nat) :
    Proxy.skel (bp'.proxyPool.getD i default) =
      Proxy.skel (bp.proxyPool.getD i default) := by
  have h1 := map_getD Proxy.skel bp'.proxyPool i default
  have h2 := map_getD Proxy.skel bp.proxyPool i default
  rw [← h1, ← h2, h.skel_eq]

theorem incrementOverlapCount_qframe (bp : BroadPhase) (proxyId : Nat) :
    QFrame bp (bp.incrementOverlapCount proxyId) := by
  unfold BroadPhase.incrementOverlapCount
  by_cases h : (bp.proxyPool.getD proxyId default).timeStamp < bp.timeStamp
  · simp only [if_pos h]
    exact ⟨rfl, rfl, rfl, rfl, rfl, rfl, rfl, map_set_eq _ _ _ _ rfl, rfl⟩
  · simp only [if_neg h]
    exact ⟨rfl, rfl, rfl, rfl, rfl, rfl, rfl, map_set_eq _ _ _ _ rfl, rfl⟩

theorem foldl_qframe {α : Type} (g : BroadPhase → α → BroadPhase)
    (hg : ∀ s a, QFrame s (g s a)) (l : List α) (bp : BroadPhase) :
    QFrame bp (l.foldl g bp) := by
  induction l generalizing bp with
  | nil => exact QFrame.frameRefl bp
  | cons x t ih => exact QFrame.frameTrans (hg bp x) (ih (g bp x))

theorem queryEasy_qframe (bp : BroadPhase) (bounds : List Bound)
    (lowerQuery upperQuery : Nat) :
    QFrame bp (bp.queryEasy bounds lowerQuery upperQuery) := by
  unfold BroadPhase.queryEasy
  apply foldl_qframe
  intro s a
  split
  · exact incrementOverlapCount_qframe s _
  · exact QFrame.frameRefl s

theorem queryHardGo_qframe (bp : BroadPhase) (bounds : List Bound)
    (axis lowerQuery i : Nat) (s : Int) :
    QFrame bp (bp.queryHardGo bounds axis lowerQuery i s) := by
  induction i generalizing bp s with
  | zero =>
    rw [BroadPhase.queryHardGo]
    split
    · exact QFrame.frameRefl bp
    · dsimp only
      split
      · split
        · exact incrementOverlapCount_qframe bp _
        · exact QFrame.frameRefl bp
      · exact QFrame.frameRefl bp
  | succ i' ih =>
    rw [BroadPhase.queryHardGo]
    split
    · exact QFrame.frameRefl bp
    · dsimp only
      split
      · split
        · exact QFrame.frameTrans (incrementOverlapCount_qframe bp _) (ih _ _)
        · exact ih bp s
      · exact ih bp s

theorem query_qframe (bp : BroadPhase) (lowerValue upperValue : Nat)
    (bounds : List Bound) (boundCount axis : Nat) :
    QFrame bp (bp.query lowerValue upperValue bounds boundCount axis).1 := by
  unfold BroadPhase.query
  by_cases h : 0 < binarySearch bounds boundCount lowerValue
  · simp only [if_pos h]
    exact QFrame.frameTrans (queryEasy_qframe bp bounds _ _) (queryHardGo_qframe _ _ _ _ _ _)
  · simp only [if_neg h]
    exact queryEasy_qframe bp bounds _ _

/-- Frame of the bound-index fixup loop on one axis: slot count, free-list
links, payloads, query scratch fields, and the records of the other axis are
untouched. -/
structure PoolFrame (axis : Nat) (pool pool' : List Proxy) : Prop where
  len_eq : pool'.length = pool.length
  next_eq : ∀ q, (pool'.getD q default).next = (pool.getD q default).next
  user_eq : ∀ q, (pool'.getD q default).userData = (pool.getD q default).userData
  ts_eq : ∀ q, (pool'.getD q default).timeStamp = (pool.getD q default).timeStamp
  oc_eq : ∀ q, (pool'.getD q default).overlapCount = (pool.getD q default).overlapCount
  lower_other : ∀ q a', ¬((a' = 0) ↔ (axis = 0)) →
    (pool'.getD q default).lowerBounds.get a' = (pool.getD q default).lowerBounds.get a'
  upper_other : ∀ q a', ¬((a' = 0) ↔ (axis = 0)) →
    (pool'.getD q default).upperBounds.get a' = (pool.getD q default).upperBounds.get a'

theorem PoolFrame.poolRefl (axis : Nat) (pool : List Proxy) : PoolFrame axis pool pool :=
  ⟨rfl, fun _ => rfl, fun _ => rfl, fun _ => rfl, fun _ => rfl,
   fun _ _ _ => rfl, fun _ _ _ => rfl⟩

theorem PoolFrame.poolTrans {axis : Nat} {p1 p2 p3 : List Proxy}
    (h1 : PoolFrame axis p1 p2) (h2 : PoolFrame axis p2 p3) : PoolFrame axis p1 p3 :=
  ⟨h2.len_eq.trans h1.len_eq,
   fun q => (h2.next_eq q).trans (h1.next_eq q),
   fun q => (h2.user_eq q).trans (h1.user_eq q),
   fun q => (h2.ts_eq q).trans (h1.ts_eq q),
   fun q => (h2.oc_eq q).trans (h1.oc_eq q),
   fun q a' h => (h2.lower_other q a' h).trans (h1.lower_other q a' h),
   fun q a' h => (h2.upper_other q a' h).trans (h1.upper_other q a' h)⟩

theorem PoolFrame.of_set (axis : Nat) (pool : List Proxy) (q0 : Nat) (p' : Proxy)
    (hn : p'.next = (pool.getD q0 default).next)
    (hu : p'.userData = (pool.getD q0 default).userData)
    (ht : p'.timeStamp = (pool.getD q0 default).timeStamp)
    (ho : p'.overlapCount = (pool.getD q0 default).overlapCount)
    (hl : ∀ a', ¬((a' = 0) ↔ (axis = 0)) →
      p'.lowerBounds.get a' = (pool.getD q0 default).lowerBounds.get a')
    (hup : ∀ a', ¬((a' = 0) ↔ (axis = 0)) →
      p'.upperBounds.get a' = (pool.getD q0 default).upperBounds.get a') :
    PoolFrame axis pool (pool.set q0 p') := by
  by_cases hlen : q0 < pool.length
  · refine ⟨by simp, fun q => ?_, fun q => ?_, fun q => ?_, fun q => ?_,
      fun q a' ha => ?_, fun q a' ha => ?_⟩ <;>
    · by_cases hq : q0 = q
      · subst hq
        rw [getD_set_eq _ _ _ hlen]
        first
          | exact hn
          | exact hu
          | exact ht
          | exact ho
          | exact hl a' ha
          | exact hup a' ha
      · rw [getD_set_ne _ _ _ _ hq]
  · rw [List.set_eq_of_length_le (by omega)]
    exact PoolFrame.poolRefl axis pool

theorem fixIndexStep_poolFrame (b : List Bound) (axis : Nat) (pool : List Proxy)
    (j : Nat) : PoolFrame axis pool (fixIndexStep b axis pool j) := by
  unfold fixIndexStep
  dsimp only
  split
  · exact PoolFrame.of_set _ _ _ _ rfl rfl rfl rfl
      (fun a' ha => Duo.get_set_miss _ _ _ _ ha) (fun a' ha => rfl)
  · exact PoolFrame.of_set _ _ _ _ rfl rfl rfl rfl
      (fun a' ha => rfl) (fun a' ha => Duo.get_set_miss _ _ _ _ ha)

theorem fixIndices_poolFrame (b : List Bound) (axis : Nat) (pool : List Proxy)
    (lo hi : Nat) : PoolFrame axis pool (fixIndices b axis pool lo hi) := by
  unfold fixIndices
  generalize hi - lo = cnt
  induction cnt generalizing lo pool with
  | zero => exact PoolFrame.poolRefl axis pool
  | succ c ih =>
    rw [List.range'_succ]
    exact PoolFrame.poolTrans (fixIndexStep_poolFrame b axis pool lo) (ih _ _)

theorem fixIndicesGo_lower_untouched (b : List Bound) (axis pid : Nat) :
    ∀ (cnt lo : Nat) (pool : List Proxy),
      (∀ j, lo ≤ j → j < lo + cnt →
        ¬((b.getD j default).proxyId = pid ∧ (b.getD j default).isLower = true)) →
      (((List.range' lo cnt).foldl (fixIndexStep b axis) pool).getD pid default).lowerBounds =
        (pool.getD pid default).lowerBounds := by
  intro cnt
  induction cnt with
  | zero => intro lo pool h; rfl
  | succ c ih =>
    intro lo pool h
    rw [List.range'_succ]
    show (((List.range' (lo + 1) c).foldl (fixIndexStep b axis)
        (fixIndexStep b axis pool lo)).getD pid default).lowerBounds = _
    rw [ih (lo + 1) _ (fun j h1 h2 => h j (by omega) (by omega))]
    unfold fixIndexStep
    dsimp only
    split
    · have hne : (b.getD lo default).proxyId ≠ pid := by
        intro heq
        exact h lo (le_refl lo) (by omega) ⟨heq, by assumption⟩
      rw [getD_set_ne _ _ _ _ hne]
    · by_cases hq : (b.getD lo default).proxyId = pid
      · by_cases hlen : (b.getD lo default).proxyId < pool.length
        · rw [hq] at hlen ⊢
          rw [getD_set_eq _ _ _ hlen]
        · rw [List.set_eq_of_length_le (by omega)]
      · rw [getD_set_ne _ _ _ _ hq]

theorem fixIndicesGo_upper_untouched (b : List Bound) (axis pid : Nat) :
    ∀ (cnt lo : Nat) (pool : List Proxy),
      (∀ j, lo ≤ j → j < lo + cnt →
        ¬((b.getD j default).proxyId = pid ∧ (b.getD j default).isLower = false)) →
      (((List.range' lo cnt).foldl (fixIndexStep b axis) pool).getD pid default).upperBounds =
        (pool.getD pid default).upperBounds := by
  intro cnt
  induction cnt with
  | zero => intro lo pool h; rfl
  | succ c ih =>
    intro lo pool h
    rw [List.range'_succ]
    show (((List.range' (lo + 1) c).foldl (fixIndexStep b axis)
        (fixIndexStep b axis pool lo)).getD pid default).upperBounds = _
    rw [ih (lo + 1) _ (fun j h1 h2 => h j (by omega) (by omega))]
    unfold fixIndexStep
    dsimp only
    split
    · by_cases hq : (b.getD lo default).proxyId = pid
      · by_cases hlen : (b.getD lo default).proxyId < pool.length
        · rw [hq] at hlen ⊢
          rw [getD_set_eq _ _ _ hlen]
        · rw [List.set_eq_of_length_le (by omega)]
      · rw [getD_set_ne _ _ _ _ hq]
    · have hne : (b.getD lo default).proxyId ≠ pid := by
        intro heq
        refine h lo (le_refl lo) (by omega) ⟨heq, ?_⟩
        cases hv : (b.getD lo default).isLower
        · rfl
        · exact absurd hv (by assumption)
      rw [getD_set_ne _ _ _ _ hne]

theorem fixIndicesGo_lower_set (b : List Bound) (axis pid : Nat) :
    ∀ (cnt lo k : Nat) (pool : List Proxy),
      pid < pool.length → lo ≤ k → k < lo + cnt →
      (b.getD k default).proxyId = pid →
      (b.getD k default).isLower = true →
      (∀ j, lo ≤ j → j < lo + cnt → (b.getD j default).proxyId = pid →
        (b.getD j default).isLower = true → j = k) →
      (((List.range' lo cnt).foldl (fixIndexStep b axis) pool).getD pid
          default).lowerBounds.get axis = k := by
  intro cnt
  induction cnt with
  | zero => intro lo k pool _ h1 h2; omega
  | succ c ih =>
    intro lo k pool hpid h1 h2 hown hlow huniq
    rw [List.range'_succ]
    show (((List.range' (lo + 1) c).foldl (fixIndexStep b axis)
        (fixIndexStep b axis pool lo)).getD pid default).lowerBounds.get axis = k
    by_cases hlo : lo = k
    · subst hlo
      have hnone : ∀ j, lo + 1 ≤ j → j < (lo + 1) + c →
          ¬((b.getD j default).proxyId = pid ∧ (b.getD j default).isLower = true) := by
        intro j hj1 hj2 ⟨hj3, hj4⟩
        have := huniq j (by omega) (by omega) hj3 hj4
        omega
      rw [fixIndicesGo_lower_untouched b axis pid c (lo + 1) _ hnone]
      unfold fixIndexStep
      dsimp only
      rw [if_pos hlow, hown, getD_set_eq _ _ _ hpid]
      exact Duo.get_set_hit _ _ _ _ Iff.rfl
    · have hstep := fixIndexStep_poolFrame b axis pool lo
      refine ih (lo + 1) k _ (by rw [hstep.len_eq]; exact hpid) (by omega) (by omega)
        hown hlow ?_
      intro j hj1 hj2 hj3 hj4
      exact huniq j (by omega) (by omega) hj3 hj4

theorem fixIndicesGo_upper_set (b : List Bound) (axis pid : Nat) :
    ∀ (cnt lo k : Nat) (pool : List Proxy),
      pid < pool.length → lo ≤ k → k < lo + cnt →
      (b.getD k default).proxyId = pid →
      (b.getD k default).isLower = false →
      (∀ j, lo ≤ j → j < lo + cnt → (b.getD j default).proxyId = pid →
        (b.getD j default).isLower = false → j = k) →
      (((List.range' lo cnt).foldl (fixIndexStep b axis) pool).getD pid
          default).upperBounds.get axis = k := by
  intro cnt
  induction cnt with
  | zero => intro lo k pool _ h1 h2; omega
  | succ c ih =>
    intro lo k pool hpid h1 h2 hown hup huniq
    rw [List.range'_succ]
    show (((List.range' (lo + 1) c).foldl (fixIndexStep b axis)
        (fixIndexStep b axis pool lo)).getD pid default).upperBounds.get axis = k
    by_cases hlo : lo = k
    · subst hlo
      have hnone : ∀ j, lo + 1 ≤ j → j < (lo + 1) + c →
          ¬((b.getD j default).proxyId = pid ∧ (b.getD j default).isLower = false) := by
        intro j hj1 hj2 ⟨hj3, hj4⟩
        have := huniq j (by omega) (by omega) hj3 hj4
        omega
      rw [fixIndicesGo_upper_untouched b axis pid c (lo + 1) _ hnone]
      unfold fixIndexStep
      dsimp only
      rw [if_neg (by rw [hup]; exact Bool.false_ne_true), hown, getD_set_eq _ _ _ hpid]
      exact Duo.get_set_hit _ _ _ _ Iff.rfl
    · have hstep := fixIndexStep_poolFrame b axis pool lo
      refine ih (lo + 1) k _ (by rw [hstep.len_eq]; exact hpid) (by omega) (by omega)
        hown hup ?_
      intro j hj1 hj2 hj3 hj4
      exact huniq j (by omega) (by omega) hj3 hj4

theorem fixIndices_lower_set (b : List Bound) (axis : Nat) (pool : List Proxy)
    (lo hi k pid : Nat) (hpid : pid < pool.length) (h1 : lo ≤ k) (h2 : k < hi)
    (hown : (b.getD k default).proxyId = pid)
    (hlow : (b.getD k default).isLower = true)
    (huniq : ∀ j, lo ≤ j → j < hi → (b.getD j default).proxyId = pid →
      (b.getD j default).isLower = true → j = k) :
    ((fixIndices b axis pool lo hi).getD pid default).lowerBounds.get axis = k := by
  unfold fixIndices
  exact fixIndicesGo_lower_set b axis pid (hi - lo) lo k pool hpid h1 (by omega) hown hlow
    (fun j hj1 hj2 => huniq j hj1 (by omega))

theorem fixIndices_upper_set (b : List Bound) (axis : Nat) (pool : List Proxy)
    (lo hi k pid : Nat) (hpid : pid < pool.length) (h1 : lo ≤ k) (h2 : k < hi)
    (hown : (b.getD k default).proxyId = pid)
    (hup : (b.getD k default).isLower = false)
    (huniq : ∀ j, lo ≤ j → j < hi → (b.getD j default).proxyId = pid →
      (b.getD j default).isLower = false → j = k) :
    ((fixIndices b axis pool lo hi).getD pid default).upperBounds.get axis = k := by
  unfold fixIndices
  exact fixIndicesGo_upper_set b axis pid (hi - lo) lo k pool hpid h1 (by omega) hown hup
    (fun j hj1 hj2 => huniq j hj1 (by omega))

theorem skel_next {p p' : Proxy} (h : Proxy.skel p' = Proxy.skel p) :
    p'.next = p.next := congrArg (fun t => t.2.2.1) h

theorem skel_user {p p' : Proxy} (h : Proxy.skel p' = Proxy.skel p) :
    p'.userData = p.userData := congrArg (fun t => t.2.2.2) h

theorem skel_lower {p p' : Proxy} (h : Proxy.skel p' = Proxy.skel p) :
    p'.lowerBounds = p.lowerBounds := congrArg (fun t => t.1) h

theorem skel_upper {p p' : Proxy} (h : Proxy.skel p' = Proxy.skel p) :
    p'.upperBounds = p.upperBounds := congrArg (fun t => t.2.1) h

theorem isLower_iff (b : Bound) : b.isLower = true ↔ b.value % 2 = 0 := by
  simp [Bound.isLower]

theorem isLower_false_iff (b : Bound) : b.isLower = false ↔ b.value % 2 = 1 := by
  simp [Bound.isLower]

/-- Summary facts about where BinarySearch lands in a sorted array: the result
is at most count, every entry strictly before it is at most the target, and
every entry from it on is at least the target. -/
theorem binarySearch_le_facts (bounds : List Bound) (count value : Nat)
    (hsort : ∀ i j : Nat, i < j → j < count →
      (bounds.getD i default).value ≤ (bounds.getD j default).value) :
    binarySearch bounds count value ≤ count ∧
      (∀ i, i < binarySearch bounds count value → i < count →
        (bounds.getD i default).value ≤ value) ∧
      (∀ i, binarySearch bounds count value ≤ i → i < count →
        value ≤ (bounds.getD i default).value) := by
  have h := binarySearchGo_spec bounds count value hsort 0 ((count : Int) - 1)
    (by omega) (by omega) (by omega)
    (fun i hi hic => by omega)
    (fun i hi hic => by omega)
  unfold binarySearch
  rcases h with ⟨hle, hcase⟩
  refine ⟨hle, ?_, ?_⟩
  · intro i hi hic
    rcases hcase with ⟨hlt, heq⟩ | ⟨hbelow, habove⟩
    · calc (bounds.getD i default).value
          ≤ (bounds.getD (binarySearchGo bounds value 0 ((count : Int) - 1)) default).value :=
            hsort i _ hi hlt
        _ = value := heq
    · exact le_of_lt (hbelow i hi)
  · intro i hi hic
    rcases hcase with ⟨hlt, heq⟩ | ⟨hbelow, habove⟩
    · rcases Nat.eq_or_lt_of_le hi with he | hl
      · rw [he] at heq
        omega
      · have := hsort _ i hl hic
        omega
    · exact le_of_lt (habove i hi hic)

/-- BinarySearch is monotone in the target over a sorted array. -/
theorem binarySearch_mono (bounds : List Bound) (count v1 v2 : Nat)
    (hsort : ∀ i j : Nat, i < j → j < count →
      (bounds.getD i default).value ≤ (bounds.getD j default).value)
    (hv : v1 < v2) :
    binarySearch bounds count v1 ≤ binarySearch bounds count v2 := by
  by_contra hcon
  push_neg at hcon
  have h1 := binarySearch_le_facts bounds count v1 hsort
  have h2 := binarySearch_le_facts bounds count v2 hsort
  have hic : binarySearch bounds count v2 < count := lt_of_lt_of_le hcon h1.1
  have ha := h1.2.1 _ hcon hic
  have hb := h2.2.2 _ (le_refl _) hic
  omega

/-- Frame common to the per-axis parts of CreateProxy and DestroyProxy: the
other axis's bound array, slot count, free-list links, payloads, other-axis
records, and the scalar state components are untouched. -/
structure AxisFrame (axis : Nat) (bp bp' : BroadPhase) : Prop where
  bounds_other : ∀ a', ¬((a' = 0) ↔ (axis = 0)) → bp'.bounds.get a' = bp.bounds.get a'
  pool_len : bp'.proxyPool.length = bp.proxyPool.length
  next_eq : ∀ q, (bp'.proxyPool.getD q default).next = (bp.proxyPool.getD q default).next
  user_eq : ∀ q, (bp'.proxyPool.getD q default).userData =
    (bp.proxyPool.getD q default).userData
  lower_other : ∀ q a', ¬((a' = 0) ↔ (axis = 0)) →
    (bp'.proxyPool.getD q default).lowerBounds.get a' =
      (bp.proxyPool.getD q default).lowerBounds.get a'
  upper_other : ∀ q a', ¬((a' = 0) ↔ (axis = 0)) →
    (bp'.proxyPool.getD q default).upperBounds.get a' =
      (bp.proxyPool.getD q default).upperBounds.get a'
  free_eq : bp'.freeProxy = bp.freeProxy
  count_eq : bp'.proxyCount = bp.proxyCount
  max_eq : bp'.maxProxies = bp.maxProxies
  world_eq : bp'.worldAABB = bp.worldAABB
  quant_eq : bp'.quantizationFactor = bp.quantizationFactor
  ts_eq : bp'.timeStamp = bp.timeStamp
  buffer_eq : bp'.pairBuffer = bp.pairBuffer

theorem getD_set_stab (l : List Bound) (k : Nat) (s : Int) (j : Nat) :
    ((l.set k { l.getD k default with stabbingCount := s }).getD j default).proxyId =
      (l.getD j default).proxyId ∧
    ((l.set k { l.getD k default with stabbingCount := s }).getD j default).value =
      (l.getD j default).value := by
  by_cases hk : k < l.length
  · by_cases hj : k = j
    · subst hj
      rw [getD_set_eq _ _ _ hk]
      exact ⟨rfl, rfl⟩
    · rw [getD_set_ne _ _ _ _ hj]
      exact ⟨rfl, rfl⟩
  · rw [List.set_eq_of_length_le (by omega)]
    exact ⟨rfl, rfl⟩

theorem getD_incStab_proj (l : List Bound) (lo hi j : Nat) :
    ((incStabRange l lo hi).getD j default).proxyId = (l.getD j default).proxyId ∧
    ((incStabRange l lo hi).getD j default).value = (l.getD j default).value := by
  rw [getD_incStabRange]
  split <;> exact ⟨rfl, rfl⟩

theorem getD_decStab_proj (l : List Bound) (lo hi j : Nat) :
    ((decStabRange l lo hi).getD j default).proxyId = (l.getD j default).proxyId ∧
    ((decStabRange l lo hi).getD j default).value = (l.getD j default).value := by
  rw [getD_decStabRange]
  split <;> exact ⟨rfl, rfl⟩

/-- Effect of one axis of CreateProxy on a well-formed axis array: the array
grows by the two inserted bounds, the fresh proxy's records point at the two
freshly inserted slots, and everything off this axis is framed. -/
theorem createProxyAxis_effect (bp : BroadPhase) (pid axis boundCount : Nat)
    (lvs uvs : Duo Nat)
    (hlen : (bp.bounds.get axis).length = boundCount)
    (hsort : ∀ i j : Nat, i < j → j < boundCount →
      ((bp.bounds.get axis).getD i default).value ≤
        ((bp.bounds.get axis).getD j default).value)
    (hfresh : ∀ i, i < boundCount → ((bp.bounds.get axis).getD i default).proxyId ≠ pid)
    (hpid : pid < bp.proxyPool.length)
    (hlv : (lvs.get axis) % 2 = 0) (huv : (uvs.get axis) % 2 = 1)
    (hlvuv : lvs.get axis < uvs.get axis) :
    AxisFrame axis bp (bp.createProxyAxis pid axis boundCount lvs uvs) ∧
    ((bp.createProxyAxis pid axis boundCount lvs uvs).bounds.get axis).length =
      boundCount + 2 ∧
    ((bp.createProxyAxis pid axis boundCount lvs uvs).proxyPool.getD pid
        default).lowerBounds.get axis =
      binarySearch (bp.bounds.get axis) boundCount (lvs.get axis) ∧
    ((bp.createProxyAxis pid axis boundCount lvs uvs).proxyPool.getD pid
        default).upperBounds.get axis =
      binarySearch (bp.bounds.get axis) boundCount (uvs.get axis) + 1 ∧
    binarySearch (bp.bounds.get axis) boundCount (lvs.get axis) ≤
      binarySearch (bp.bounds.get axis) boundCount (uvs.get axis) ∧
    binarySearch (bp.bounds.get axis) boundCount (uvs.get axis) ≤ boundCount := by
  set B := bp.bounds.get axis with hB
  set lv := lvs.get axis with hlvdef
  set uv := uvs.get axis with huvdef
  set lq := binarySearch B boundCount lv with hlq
  set uq := binarySearch B boundCount uv with huq
  set bp1 := (bp.query lv uv B boundCount axis).1 with hbp1
  set L : Bound := { value := lv, proxyId := pid, stabbingCount := 0 } with hL
  set U : Bound := { value := uv, proxyId := pid, stabbingCount := 0 } with hU
  set b1 := (B.insertIdx uq U).insertIdx lq L with hb1
  set b2 := b1.set lq
    { b1.getD lq default with
        stabbingCount := if lq = 0 then 0 else (b1.getD (lq - 1) default).stabbingCount }
    with hb2
  set b3 := b2.set (uq + 1)
    { b2.getD (uq + 1) default with
        stabbingCount := (b2.getD (uq + 1 - 1) default).stabbingCount } with hb3
  set b4 := incStabRange b3 lq (uq + 1) with hb4
  have hdef : bp.createProxyAxis pid axis boundCount lvs uvs =
      { bp1 with
          bounds := bp1.bounds.set axis b4
          proxyPool := fixIndices b4 axis bp1.proxyPool lq (boundCount + 2) } := rfl
  have hqf : QFrame bp bp1 := query_qframe bp lv uv B boundCount axis
  have hlq_le : lq ≤ uq := binarySearch_mono B boundCount lv uv hsort hlvuv
  have hlqc : lq ≤ boundCount := (binarySearch_le_facts B boundCount lv hsort).1
  have huqc : uq ≤ boundCount := (binarySearch_le_facts B boundCount uv hsort).1
  have hlenU : (B.insertIdx uq U).length = boundCount + 1 := by
    rw [List.length_insertIdx _ _ (by omega)]
    omega
  have hlenb1 : b1.length = boundCount + 2 := by
    rw [hb1, List.length_insertIdx _ _ (by omega)]
    omega
  have hlenb4 : b4.length = boundCount + 2 := by
    rw [hb4, length_incStabRange, hb3, List.length_set, hb2, List.length_set, hlenb1]
  have hproj : ∀ j, (b4.getD j default).proxyId = (b1.getD j default).proxyId ∧
      (b4.getD j default).value = (b1.getD j default).value := by
    intro j
    have h4 := getD_incStab_proj b3 lq (uq + 1) j
    have h3 := getD_set_stab b2 (uq + 1) ((b2.getD (uq + 1 - 1) default).stabbingCount) j
    have h2 := getD_set_stab b1 lq
      (if lq = 0 then 0 else (b1.getD (lq - 1) default).stabbingCount) j
    rw [hb4, hb3, hb2]
    rw [hb3] at h4
    rw [hb2] at h3 h4
    exact ⟨(h4.1.trans h3.1).trans h2.1, (h4.2.trans h3.2).trans h2.2⟩
  have hinner : ∀ i, (B.insertIdx uq U).getD i default =
      if i < uq then B.getD i default else if i = uq then U else B.getD (i - 1) default :=
    fun i => getD_insertIdx B uq U i (by omega)
  have houter : ∀ j, b1.getD j default =
      if j < lq then (B.insertIdx uq U).getD j default
      else if j = lq then L
      else (B.insertIdx uq U).getD (j - 1) default :=
    fun j => getD_insertIdx (B.insertIdx uq U) lq L j (by omega)
  have hb1lq : b1.getD lq default = L := by
    rw [houter lq, if_neg (by omega), if_pos rfl]
  have hb1uq : b1.getD (uq + 1) default = U := by
    rw [houter (uq + 1), if_neg (by omega)]
    by_cases he : uq + 1 = lq
    · omega
    · rw [if_neg he, hinner (uq + 1 - 1)]
      rw [if_neg (by omega), if_pos (by omega)]
  have hb1old : ∀ j, j < boundCount + 2 → j ≠ lq → j ≠ uq + 1 →
      (b1.getD j default).proxyId ≠ pid := by
    intro j hj hne1 hne2
    rw [houter j]
    by_cases hc1 : j < lq
    · rw [if_pos hc1, hinner j, if_pos (by omega)]
      exact hfresh j (by omega)
    · rw [if_neg hc1, if_neg hne1, hinner (j - 1)]
      by_cases hc2 : j - 1 < uq
      · rw [if_pos hc2]
        exact hfresh (j - 1) (by omega)
      · rw [if_neg hc2, if_neg (by omega)]
        exact hfresh (j - 2) (by omega)
  have hownL : (b4.getD lq default).proxyId = pid ∧ (b4.getD lq default).value = lv := by
    have h := hproj lq
    rw [hb1lq] at h
    exact ⟨h.1, h.2⟩
  have hownU : (b4.getD (uq + 1) default).proxyId = pid ∧
      (b4.getD (uq + 1) default).value = uv := by
    have h := hproj (uq + 1)
    rw [hb1uq] at h
    exact ⟨h.1, h.2⟩
  have huniqL : ∀ j, lq ≤ j → j < boundCount + 2 → (b4.getD j default).proxyId = pid →
      (b4.getD j default).isLower = true → j = lq := by
    intro j h1 h2 h3 h4
    by_contra hne
    by_cases he : j = uq + 1
    · subst he
      rw [isLower_iff, hownU.2] at h4
      omega
    · have h5 := hb1old j h2 hne he
      rw [(hproj j).1] at h3
      exact h5 h3
  have huniqU : ∀ j, lq ≤ j → j < boundCount + 2 → (b4.getD j default).proxyId = pid →
      (b4.getD j default).isLower = false → j = uq + 1 := by
    intro j h1 h2 h3 h4
    by_contra hne
    by_cases he : j = lq
    · subst he
      rw [isLower_false_iff, hownL.2] at h4
      omega
    · have h5 := hb1old j h2 he hne
      rw [(hproj j).1] at h3
      exact h5 h3
  have hpid1 : pid < bp1.proxyPool.length := by
    rw [hqf.pool_length]
    exact hpid
  have hsetL : ((fixIndices b4 axis bp1.proxyPool lq (boundCount + 2)).getD pid
      default).lowerBounds.get axis = lq :=
    fixIndices_lower_set b4 axis bp1.proxyPool lq (boundCount + 2) lq pid hpid1
      (le_refl lq) (by omega) hownL.1 (by rw [isLower_iff, hownL.2]; exact hlv) huniqL
  have hsetU : ((fixIndices b4 axis bp1.proxyPool lq (boundCount + 2)).getD pid
      default).upperBounds.get axis = uq + 1 :=
    fixIndices_upper_set b4 axis bp1.proxyPool lq (boundCount + 2) (uq + 1) pid hpid1
      (by omega) (by omega) hownU.1 (by rw [isLower_false_iff, hownU.2]; exact huv) huniqU
  have hpf : PoolFrame axis bp1.proxyPool
      (fixIndices b4 axis bp1.proxyPool lq (boundCount + 2)) :=
    fixIndices_poolFrame b4 axis bp1.proxyPool lq (boundCount + 2)
  rw [hdef]
  refine ⟨?_, ?_, ?_, ?_, by omega, by omega⟩
  · refine ⟨?_, ?_, ?_, ?_, ?_, ?_, ?_, ?_, ?_, ?_, ?_, ?_, ?_⟩
    · intro a' ha
      show (bp1.bounds.set axis b4).get a' = bp.bounds.get a'
      rw [Duo.get_set_miss _ _ _ _ ha, hqf.bounds_eq]
    · show (fixIndices b4 axis bp1.proxyPool lq (boundCount + 2)).length =
        bp.proxyPool.length
      rw [hpf.len_eq, hqf.pool_length]
    · intro q
      exact (hpf.next_eq q).trans (skel_next (hqf.skel_getD q))
    · intro q
      exact (hpf.user_eq q).trans (skel_user (hqf.skel_getD q))
    · intro q a' ha
      refine (hpf.lower_other q a' ha).trans ?_
      rw [skel_lower (hqf.skel_getD q)]
    · intro q a' ha
      refine (hpf.upper_other q a' ha).trans ?_
      rw [skel_upper (hqf.skel_getD q)]
    · exact hqf.free_eq
    · exact hqf.count_eq
    · exact hqf.max_eq
    · exact hqf.world_eq
    · exact hqf.quant_eq
    · exact hqf.ts_eq
    · exact hqf.buffer_eq
  · show ((bp1.bounds.set axis b4).get axis).length = boundCount + 2
    rw [Duo.get_set_hit _ _ _ _ Iff.rfl, hlenb4]
  · exact hsetL
  · exact hsetU

/-- Effect of one axis of DestroyProxy: the axis array shrinks by the two
removed bounds, and everything off this axis is framed. -/
theorem destroyProxyAxis_effect (bp : BroadPhase) (pid axis boundCount : Nat)
    (hl : (bp.proxyPool.getD pid default).lowerBounds.get axis <
      (bp.proxyPool.getD pid default).upperBounds.get axis)
    (hu : (bp.proxyPool.getD pid default).upperBounds.get axis <
      (bp.bounds.get axis).length) :
    AxisFrame axis bp (bp.destroyProxyAxis pid axis boundCount) ∧
    ((bp.destroyProxyAxis pid axis boundCount).bounds.get axis).length =
      (bp.bounds.get axis).length - 2 := by
  set B := bp.bounds.get axis with hB
  set lowerIndex := (bp.proxyPool.getD pid default).lowerBounds.get axis with hli
  set upperIndex := (bp.proxyPool.getD pid default).upperBounds.get axis with hui
  set b1 := (B.eraseIdx upperIndex).eraseIdx lowerIndex with hb1
  set b2 := decStabRange b1 lowerIndex (upperIndex - 1) with hb2
  set pool1 := fixIndices b1 axis bp.proxyPool lowerIndex (boundCount - 2) with hpool1
  set bp1 : BroadPhase :=
    { bp with bounds := bp.bounds.set axis b2, proxyPool := pool1 } with hbp1
  have hdef : bp.destroyProxyAxis pid axis boundCount =
      (bp1.query (B.getD lowerIndex default).value (B.getD upperIndex default).value b2
        (boundCount - 2) axis).1 := rfl
  have hqf : QFrame bp1 ((bp1.query (B.getD lowerIndex default).value
      (B.getD upperIndex default).value b2 (boundCount - 2) axis).1) :=
    query_qframe bp1 _ _ b2 (boundCount - 2) axis
  have hlenU : (B.eraseIdx upperIndex).length = B.length - 1 :=
    List.length_eraseIdx_of_lt hu
  have hlenb1 : b1.length = B.length - 2 := by
    rw [hb1, List.length_eraseIdx_of_lt (by omega), hlenU]
    omega
  have hlenb2 : b2.length = B.length - 2 := by
    rw [hb2, length_decStabRange, hlenb1]
  have hpf : PoolFrame axis bp.proxyPool pool1 :=
    fixIndices_poolFrame b1 axis bp.proxyPool lowerIndex (boundCount - 2)
  rw [hdef]
  constructor
  · refine ⟨?_, ?_, ?_, ?_, ?_, ?_, ?_, ?_, ?_, ?_, ?_, ?_, ?_⟩
    · intro a' ha
      rw [hqf.bounds_eq]
      show (bp.bounds.set axis b2).get a' = bp.bounds.get a'
      rw [Duo.get_set_miss _ _ _ _ ha]
    · rw [hqf.pool_length]
      exact hpf.len_eq
    · intro q
      exact (skel_next (hqf.skel_getD q)).trans (hpf.next_eq q)
    · intro q
      exact (skel_user (hqf.skel_getD q)).trans (hpf.user_eq q)
    · intro q a' ha
      rw [skel_lower (hqf.skel_getD q)]
      exact hpf.lower_other q a' ha
    · intro q a' ha
      rw [skel_upper (hqf.skel_getD q)]
      exact hpf.upper_other q a' ha
    · exact hqf.free_eq
    · exact hqf.count_eq
    · exact hqf.max_eq
    · exact hqf.world_eq
    · exact hqf.quant_eq
    · exact hqf.ts_eq
    · exact hqf.buffer_eq
  · rw [hqf.bounds_eq]
    show ((bp.bounds.set axis b2).get axis).length = B.length - 2
    rw [Duo.get_set_hit _ _ _ _ Iff.rfl, hlenb2]

theorem addFold_frame (pid : Nat) (l : List Nat) (bp : BroadPhase) :
    (l.foldl (fun s r => s.addBufferedPair pid r) bp).bounds = bp.bounds ∧
    (l.foldl (fun s r => s.addBufferedPair pid r) bp).proxyPool = bp.proxyPool ∧
    (l.foldl (fun s r => s.addBufferedPair pid r) bp).freeProxy = bp.freeProxy ∧
    (l.foldl (fun s r => s.addBufferedPair pid r) bp).proxyCount = bp.proxyCount ∧
    (l.foldl (fun s r => s.addBufferedPair pid r) bp).timeStamp = bp.timeStamp ∧
    (l.foldl (fun s r => s.addBufferedPair pid r) bp).maxProxies = bp.maxProxies ∧
    (l.foldl (fun s r => s.addBufferedPair pid r) bp).queryResults = bp.queryResults := by
  induction l generalizing bp with
  | nil => exact ⟨rfl, rfl, rfl, rfl, rfl, rfl, rfl⟩
  | cons x t ih => exact ih (bp.addBufferedPair pid x)

theorem removeFold_frame (pid : Nat) (l : List Nat) (bp : BroadPhase) :
    (l.foldl (fun s r => s.removeBufferedPair pid r) bp).bounds = bp.bounds ∧
    (l.foldl (fun s r => s.removeBufferedPair pid r) bp).proxyPool = bp.proxyPool ∧
    (l.foldl (fun s r => s.removeBufferedPair pid r) bp).freeProxy = bp.freeProxy ∧
    (l.foldl (fun s r => s.removeBufferedPair pid r) bp).proxyCount = bp.proxyCount ∧
    (l.foldl (fun s r => s.removeBufferedPair pid r) bp).timeStamp = bp.timeStamp ∧
    (l.foldl (fun s r => s.removeBufferedPair pid r) bp).maxProxies = bp.maxProxies ∧
    (l.foldl (fun s r => s.removeBufferedPair pid r) bp).queryResults = bp.queryResults := by
  induction l generalizing bp with
  | nil => exact ⟨rfl, rfl, rfl, rfl, rfl, rfl, rfl⟩
  | cons x t ih => exact ih (bp.removeBufferedPair pid x)

theorem incrementTimeStamp_frame (bp : BroadPhase) :
    bp.incrementTimeStamp.bounds = bp.bounds ∧
    bp.incrementTimeStamp.freeProxy = bp.freeProxy ∧
    bp.incrementTimeStamp.proxyCount = bp.proxyCount ∧
    bp.incrementTimeStamp.maxProxies = bp.maxProxies ∧
    bp.incrementTimeStamp.pairBuffer = bp.pairBuffer ∧
    bp.incrementTimeStamp.queryResults = bp.queryResults ∧
    bp.incrementTimeStamp.proxyPool.length = bp.proxyPool.length ∧
    ∀ q, (bp.incrementTimeStamp.proxyPool.getD q default).next =
        (bp.proxyPool.getD q default).next ∧
      (bp.incrementTimeStamp.proxyPool.getD q default).lowerBounds =
        (bp.proxyPool.getD q default).lowerBounds ∧
      (bp.incrementTimeStamp.proxyPool.getD q default).upperBounds =
        (bp.proxyPool.getD q default).upperBounds ∧
      (bp.incrementTimeStamp.proxyPool.getD q default).userData =
        (bp.proxyPool.getD q default).userData := by
  unfold BroadPhase.incrementTimeStamp
  split
  · refine ⟨rfl, rfl, rfl, rfl, rfl, rfl, by simp, fun q => ?_⟩
    rw [getD_map_zeroStamp]
    exact ⟨rfl, rfl, rfl, rfl⟩
  · exact ⟨rfl, rfl, rfl, rfl, rfl, rfl, rfl, fun q => ⟨rfl, rfl, rfl, rfl⟩⟩

/-- C5: CreateProxy immediately followed by DestroyProxy on the returned id
restores the bound-array length on both axes, the free-list head, and every
slot's free-list link to their values before the creation.  The hypotheses
are the sortedness and index invariants the claim assumes on the starting
state, a valid world box with its derived quantization factors, room in the
pool, and a valid box. -/
theorem C5_create_destroy_roundtrip (bp : BroadPhase) (aabb : AABB) (ud : Option Nat)
    (hfree : bp.freeProxy < bp.proxyPool.length)
    (hlen0 : (bp.bounds.get 0).length = 2 * bp.proxyCount)
    (hlen1 : (bp.bounds.get 1).length = 2 * bp.proxyCount)
    (hsort0 : ∀ i j : Nat, i < j → j < 2 * bp.proxyCount →
      ((bp.bounds.get 0).getD i default).value ≤ ((bp.bounds.get 0).getD j default).value)
    (hsort1 : ∀ i j : Nat, i < j → j < 2 * bp.proxyCount →
      ((bp.bounds.get 1).getD i default).value ≤ ((bp.bounds.get 1).getD j default).value)
    (hfresh0 : ∀ i, i < 2 * bp.proxyCount →
      ((bp.bounds.get 0).getD i default).proxyId ≠ bp.freeProxy)
    (hfresh1 : ∀ i, i < 2 * bp.proxyCount →
      ((bp.bounds.get 1).getD i default).proxyId ≠ bp.freeProxy)
    (hwx : bp.worldAABB.minVertex.x < bp.worldAABB.maxVertex.x)
    (hwy : bp.worldAABB.minVertex.y < bp.worldAABB.maxVertex.y)
    (hqx : bp.quantizationFactor.x =
      (USHRT_MAX : ℚ) / (bp.worldAABB.maxVertex.x - bp.worldAABB.minVertex.x))
    (hqy : bp.quantizationFactor.y =
      (USHRT_MAX : ℚ) / (bp.worldAABB.maxVertex.y - bp.worldAABB.minVertex.y))
    (haabb : aabb.isValid = true) :
    ((bp.createProxy aabb ud).1.destroyProxy (bp.createProxy aabb ud).2).freeProxy =
        bp.freeProxy ∧
      (((bp.createProxy aabb ud).1.destroyProxy
          (bp.createProxy aabb ud).2).bounds.get 0).length = (bp.bounds.get 0).length ∧
      (((bp.createProxy aabb ud).1.destroyProxy
          (bp.createProxy aabb ud).2).bounds.get 1).length = (bp.bounds.get 1).length ∧
      ∀ q, (((bp.createProxy aabb ud).1.destroyProxy
          (bp.createProxy aabb ud).2).proxyPool.getD q default).next =
        (bp.proxyPool.getD q default).next := by
  have haabbx : aabb.minVertex.x ≤ aabb.maxVertex.x := by
    simp only [AABB.isValid, Bool.and_eq_true, decide_eq_true_eq] at haabb
    exact le_of_lt haabb.1
  have haabby : aabb.minVertex.y ≤ aabb.maxVertex.y := by
    simp only [AABB.isValid, Bool.and_eq_true, decide_eq_true_eq] at haabb
    exact le_of_lt haabb.2
  set pid := bp.freeProxy with hpiddef
  set proxy0 := bp.proxyPool.getD pid default with hproxy0
  set bp0 : BroadPhase := { bp with
      freeProxy := proxy0.next
      proxyPool := bp.proxyPool.set pid { proxy0 with overlapCount := 0, userData := ud } }
    with hbp0
  set boundCount := 2 * bp.proxyCount with hbc
  set cb := bp0.computeBounds aabb with hcbdef
  set bpA := bp0.createProxyAxis pid 0 boundCount cb.1 cb.2 with hbpA
  set bpB := bpA.createProxyAxis pid 1 boundCount cb.1 cb.2 with hbpB
  set bpC : BroadPhase := { bpB with proxyCount := bpB.proxyCount + 1 } with hbpC
  set bpD := bpC.queryResults.foldl (fun s r => s.addBufferedPair pid r) bpC with hbpD
  set bpE : BroadPhase := bpD.pmCommit.1 with hbpE
  set bpF := BroadPhase.incrementTimeStamp { bpE with queryResults := [] } with hbpF
  have hcreate : bp.createProxy aabb ud = (bpF, pid) := rfl
  have hpar10 : cb.1.get 0 % 2 = 0 := and_65534_even _
  have hpar11 : cb.1.get 1 % 2 = 0 := and_65534_even _
  have hpar20 : cb.2.get 0 % 2 = 1 := or_one_odd _
  have hpar21 : cb.2.get 1 % 2 = 1 := or_one_odd _
  have hlt0 : cb.1.get 0 < cb.2.get 0 :=
    axis_lower_lt_upper bp.quantizationFactor.x bp.worldAABB.minVertex.x
      bp.worldAABB.maxVertex.x aabb.minVertex.x aabb.maxVertex.x hwx hqx haabbx
  have hlt1 : cb.1.get 1 < cb.2.get 1 :=
    axis_lower_lt_upper bp.quantizationFactor.y bp.worldAABB.minVertex.y
      bp.worldAABB.maxVertex.y aabb.minVertex.y aabb.maxVertex.y hwy hqy haabby
  have hCA0 := createProxyAxis_effect bp0 pid 0 boundCount cb.1 cb.2
    hlen0 hsort0 hfresh0 (by simpa using hfree) hpar10 hpar20 hlt0
  obtain ⟨hAF0, hblenA0, hrecL0, hrecU0, hlequ0, huqc0⟩ := hCA0
  have hb1eq : bpA.bounds.get 1 = bp.bounds.get 1 := hAF0.bounds_other 1 (by decide)
  have hCA1 := createProxyAxis_effect bpA pid 1 boundCount cb.1 cb.2
    (by rw [hb1eq]; exact hlen1)
    (by intro i j h1 h2; rw [hb1eq]; exact hsort1 i j h1 h2)
    (by intro i h1; rw [hb1eq]; exact hfresh1 i h1)
    (by rw [hAF0.pool_len]; simpa using hfree) hpar11 hpar21 hlt1
  obtain ⟨hAF1, hblenA1, hrecL1, hrecU1, hlequ1, huqc1⟩ := hCA1
  have hb0eqB : bpB.bounds.get 0 = bpA.bounds.get 0 := hAF1.bounds_other 0 (by decide)
  -- records survive to the committed state
  have haddf := addFold_frame pid bpC.queryResults bpC
  have hits := incrementTimeStamp_frame { bpE with queryResults := ([] : List Nat) }
  have hpoolCD : bpD.proxyPool = bpB.proxyPool := haddf.2.1
  have hpoolF : ∀ q, (bpF.proxyPool.getD q default).next =
      (bpB.proxyPool.getD q default).next ∧
      (bpF.proxyPool.getD q default).lowerBounds =
        (bpB.proxyPool.getD q default).lowerBounds ∧
      (bpF.proxyPool.getD q default).upperBounds =
        (bpB.proxyPool.getD q default).upperBounds := by
    intro q
    have h := (hits.2.2.2.2.2.2.2) q
    rw [hbpF]
    refine ⟨?_, ?_, ?_⟩
    · rw [h.1]
      show (bpD.proxyPool.getD q default).next = _
      rw [hpoolCD]
    · rw [h.2.1]
      show (bpD.proxyPool.getD q default).lowerBounds = _
      rw [hpoolCD]
    · rw [h.2.2.1]
      show (bpD.proxyPool.getD q default).upperBounds = _
      rw [hpoolCD]
  have hlenF : bpF.proxyPool.length = bp.proxyPool.length := by
    rw [hbpF]
    rw [hits.2.2.2.2.2.2.1]
    show bpD.proxyPool.length = _
    rw [hpoolCD, hAF1.pool_len, hAF0.pool_len]
    simp [hbp0]
  have hboundsF0 : bpF.bounds.get 0 = bpB.bounds.get 0 := by
    rw [hbpF, hits.1]
    show bpD.bounds.get 0 = _
    rw [haddf.1]
  have hboundsF1 : bpF.bounds.get 1 = bpB.bounds.get 1 := by
    rw [hbpF, hits.1]
    show bpD.bounds.get 1 = _
    rw [haddf.1]
  have hfreeF : bpF.freeProxy = proxy0.next := by
    rw [hbpF, hits.2.1]
    show bpD.freeProxy = _
    rw [haddf.2.2.1]
    show bpB.freeProxy = _
    rw [hAF1.free_eq, hAF0.free_eq]
  have hcountF : bpF.proxyCount = bp.proxyCount + 1 := by
    rw [hbpF, hits.2.2.1]
    show bpD.proxyCount = _
    rw [haddf.2.2.2.1]
    show bpB.proxyCount + 1 = _
    rw [hAF1.count_eq, hAF0.count_eq]
  -- the destroy
  set boundCountD := 2 * bpF.proxyCount with hbcd
  have hrecFL0 : (bpF.proxyPool.getD pid default).lowerBounds.get 0 =
      binarySearch (bp0.bounds.get 0) boundCount (cb.1.get 0) := by
    rw [(hpoolF pid).2.1]
    rw [show (bpB.proxyPool.getD pid default).lowerBounds.get 0 =
      (bpA.proxyPool.getD pid default).lowerBounds.get 0 from
      hAF1.lower_other pid 0 (by decide)]
    exact hrecL0
  have hrecFU0 : (bpF.proxyPool.getD pid default).upperBounds.get 0 =
      binarySearch (bp0.bounds.get 0) boundCount (cb.2.get 0) + 1 := by
    rw [(hpoolF pid).2.2]
    rw [show (bpB.proxyPool.getD pid default).upperBounds.get 0 =
      (bpA.proxyPool.getD pid default).upperBounds.get 0 from
      hAF1.upper_other pid 0 (by decide)]
    exact hrecU0
  have hrecFL1 : (bpF.proxyPool.getD pid default).lowerBounds.get 1 =
      binarySearch (bpA.bounds.get 1) boundCount (cb.1.get 1) := by
    rw [(hpoolF pid).2.1]
    exact hrecL1
  have hrecFU1 : (bpF.proxyPool.getD pid default).upperBounds.get 1 =
      binarySearch (bpA.bounds.get 1) boundCount (cb.2.get 1) + 1 := by
    rw [(hpoolF pid).2.2]
    exact hrecU1
  have hlenF0 : (bpF.bounds.get 0).length = boundCount + 2 := by
    rw [hboundsF0, hb0eqB]
    exact hblenA0
  have hlenF1 : (bpF.bounds.get 1).length = boundCount + 2 := by
    rw [hboundsF1]
    exact hblenA1
  have hmono0 : binarySearch (bp0.bounds.get 0) boundCount (cb.1.get 0) ≤
      binarySearch (bp0.bounds.get 0) boundCount (cb.2.get 0) := hlequ0
  set d1 := bpF.destroyProxyAxis pid 0 boundCountD with hd1
  have hDA0 := destroyProxyAxis_effect bpF pid 0 boundCountD
    (by rw [hrecFL0, hrecFU0]; omega)
    (by rw [hrecFU0, hlenF0]; omega)
  obtain ⟨hDF0, hdlen0⟩ := hDA0
  have hd1b1 : d1.bounds.get 1 = bpF.bounds.get 1 := hDF0.bounds_other 1 (by decide)
  set d2 := d1.destroyProxyAxis pid 1 boundCountD with hd2
  have hDA1 := destroyProxyAxis_effect d1 pid 1 boundCountD
    (by
      rw [hDF0.lower_other pid 1 (by decide), hDF0.upper_other pid 1 (by decide),
        hrecFL1, hrecFU1]
      omega)
    (by
      rw [hDF0.upper_other pid 1 (by decide), hrecFU1, hd1b1, hlenF1]
      omega)
  obtain ⟨hDF1, hdlen1⟩ := hDA1
  set d3 := d2.queryResults.foldl (fun s r => s.removeBufferedPair pid r) d2 with hd3
  set d4 : BroadPhase := d3.pmCommit.1 with hd4
  set d5 := BroadPhase.incrementTimeStamp { d4 with queryResults := [] } with hd5
  set proxyD := d5.proxyPool.getD pid default with hproxyD
  have hdestroy : bpF.destroyProxy pid =
      { d5 with
          proxyPool := d5.proxyPool.set pid
            { proxyD with
                userData := none
                overlapCount := invalidIdx
                lowerBounds := ⟨invalidIdx, invalidIdx⟩
                upperBounds := ⟨invalidIdx, invalidIdx⟩
                next := d5.freeProxy }
          freeProxy := pid
          proxyCount := d5.proxyCount - 1 } := rfl
  have hremf := removeFold_frame pid d2.queryResults d2
  have hitsD := incrementTimeStamp_frame { d4 with queryResults := ([] : List Nat) }
  have hd5pool : ∀ q, (d5.proxyPool.getD q default).next =
      (bpF.proxyPool.getD q default).next := by
    intro q
    rw [hd5]
    rw [(hitsD.2.2.2.2.2.2.2 q).1]
    show (d3.proxyPool.getD q default).next = _
    rw [hremf.2.1]
    exact (hDF1.next_eq q).trans (hDF0.next_eq q)
  have hd5free : d5.freeProxy = bpF.freeProxy := by
    rw [hd5, hitsD.2.1]
    show d3.freeProxy = _
    rw [hremf.2.2.1]
    show d2.freeProxy = _
    rw [hDF1.free_eq, hDF0.free_eq]
  have hd5len : d5.proxyPool.length = bp.proxyPool.length := by
    rw [hd5, hitsD.2.2.2.2.2.2.1]
    show d3.proxyPool.length = _
    rw [hremf.2.1, hDF1.pool_len, hDF0.pool_len, hlenF]
  have hd5b0 : d5.bounds.get 0 = d2.bounds.get 0 := by
    rw [hd5, hitsD.1]
    show d3.bounds.get 0 = _
    rw [hremf.1]
  have hd5b1 : d5.bounds.get 1 = d2.bounds.get 1 := by
    rw [hd5, hitsD.1]
    show d3.bounds.get 1 = _
    rw [hremf.1]
  rw [hcreate]
  show (bpF.destroyProxy pid).freeProxy = bp.freeProxy ∧ _ ∧ _ ∧ _
  rw [hdestroy]
  refine ⟨rfl, ?_, ?_, ?_⟩
  · show (d5.bounds.get 0).length = (bp.bounds.get 0).length
    rw [hd5b0, hDF1.bounds_other 0 (by decide), hdlen0, hlenF0, hlen0]
    omega
  · show (d5.bounds.get 1).length = (bp.bounds.get 1).length
    rw [hd5b1, hdlen1, hd1b1, hlenF1, hlen1]
    omega
  · intro q
    show ((d5.proxyPool.set pid _).getD q default).next = _
    by_cases hq : pid = q
    · subst hq
      rw [getD_set_eq _ _ _ (by rw [hd5len]; exact hfree)]
      show d5.freeProxy = _
      rw [hd5free, hfreeF]
    · rw [getD_set_ne _ _ _ _ hq]
      rw [hd5pool q]
      rw [(hpoolF q).1]
      rw [(hAF1.next_eq q), (hAF0.next_eq q)]
      show ((bp.proxyPool.set pid { proxy0 with overlapCount := 0, userData := ud }).getD
        q default).next = _
      rw [getD_set_ne _ _ _ _ hq]

/-- C5 witness at a concrete fresh state and box. -/
theorem C5_create_destroy_roundtrip_witness :
    (((mkBroadPhase 2 ⟨⟨0, 0⟩, ⟨100, 100⟩⟩).createProxy ⟨⟨10, 10⟩, ⟨20, 20⟩⟩
          (some 7)).1.destroyProxy
        ((mkBroadPhase 2 ⟨⟨0, 0⟩, ⟨100, 100⟩⟩).createProxy ⟨⟨10, 10⟩, ⟨20, 20⟩⟩
          (some 7)).2).freeProxy =
      (mkBroadPhase 2 ⟨⟨0, 0⟩, ⟨100, 100⟩⟩).freeProxy :=
  by
  have hpc : (mkBroadPhase 2 ⟨⟨0, 0⟩, ⟨100, 100⟩⟩).proxyCount = 0 := rfl
  refine (C5_create_destroy_roundtrip (mkBroadPhase 2 ⟨⟨0, 0⟩, ⟨100, 100⟩⟩)
    ⟨⟨10, 10⟩, ⟨20, 20⟩⟩ (some 7) (by decide) rfl rfl ?_ ?_ ?_ ?_
    (show (0 : ℚ) < 100 by norm_num) (show (0 : ℚ) < 100 by norm_num)
    rfl rfl (by decide)).1
  · intro i j h1 h2
    rw [hpc] at h2
    omega
  · intro i j h1 h2
    rw [hpc] at h2
    omega
  · intro i h
    rw [hpc] at h
    omega
  · intro i h
    rw [hpc] at h
    omega

/-! Mark lists: the sequence of proxy ids on which a query pass calls
IncrementOverlapCount, read off the bound array and the initial pool. -/

/-- Ids marked by the easy case of Query: owners of the lower bounds inside
the searched index range. -/
def easyMarksOf (bounds : List Bound) (lq uq : Nat) : List Nat :=
  ((List.range' lq (uq - lq)).filter
    (fun j => (bounds.getD j default).isLower)).map
    (fun j => (bounds.getD j default).proxyId)

/-- Ids marked by the hard case of Query: owners of lower bounds walked over
below the searched range whose recorded upper bound reaches back into it,
until the stabbing budget is spent. -/
def hardMarksGo (pool : List Proxy) (bounds : List Bound) (axis lowerQuery : Nat) (i : Nat) (s : Int) : List Nat :=
  if s = 0 then []
  else
    let b := bounds.getD i default
    let hit := b.isLower &&
      decide (lowerQuery ≤ (pool.getD b.proxyId default).upperBounds.get axis)
    let here := if hit then [b.proxyId] else []
    let s' := if hit then s - 1 else s
    match i with
    | 0 => here
    | i' + 1 => here ++ hardMarksGo pool bounds axis lowerQuery i' s'

/-- Ids marked by one whole Query pass. -/
def passMarks (pool : List Proxy) (bounds : List Bound) (boundCount axis lv uv : Nat) : List Nat :=
  let lq := binarySearch bounds boundCount lv
  let uq := binarySearch bounds boundCount uv
  easyMarksOf bounds lq uq ++
    (if 0 < lq then
      hardMarksGo pool bounds axis lq (lq - 1) ((bounds.getD (lq - 1) default).stabbingCount)
    else [])

theorem foldl_cond_filter_map {α : Type} (c : α → Bool) (f : α → Nat) :
    ∀ (l : List α) (bp : BroadPhase),
      l.foldl (fun s a => if c a then s.incrementOverlapCount (f a) else s) bp =
        ((l.filter c).map f).foldl BroadPhase.incrementOverlapCount bp := by
  intro l
  induction l with
  | nil => intro bp; rfl
  | cons x t ih =>
    intro bp
    by_cases hc : c x
    · rw [List.foldl_cons, if_pos hc, List.filter_cons_of_pos hc, List.map_cons,
        List.foldl_cons]
      exact ih _
    · rw [List.foldl_cons, if_neg hc, List.filter_cons_of_neg hc]
      exact ih bp

theorem queryEasy_eq_marks (bp : BroadPhase) (bounds : List Bound) (lq uq : Nat) :
    bp.queryEasy bounds lq uq =
      (easyMarksOf bounds lq uq).foldl BroadPhase.incrementOverlapCount bp := by
  unfold BroadPhase.queryEasy easyMarksOf
  exact foldl_cond_filter_map _ _ _ bp

theorem hardMarksGo_congr (pool pool' : List Proxy) (bounds : List Bound)
    (axis lq : Nat)
    (hskel : pool'.map Proxy.skel = pool.map Proxy.skel) :
    ∀ (i : Nat) (s : Int),
      hardMarksGo pool' bounds axis lq i s = hardMarksGo pool bounds axis lq i s := by
  have hup : ∀ pid, (pool'.getD pid default).upperBounds =
      (pool.getD pid default).upperBounds := by
    intro pid
    have h1 := map_getD Proxy.skel pool' pid default
    have h2 := map_getD Proxy.skel pool pid default
    rw [hskel] at h1
    exact skel_upper (h1.symm.trans h2)
  intro i
  induction i with
  | zero =>
    intro s
    rw [hardMarksGo, hardMarksGo]
    simp only [hup]
  | succ i' ih =>
    intro s
    rw [hardMarksGo, hardMarksGo]
    simp only [hup, ih]

theorem queryHardGo_eq_marks (bounds : List Bound) (axis lq : Nat) :
    ∀ (i : Nat) (s : Int) (bp : BroadPhase),
      bp.queryHardGo bounds axis lq i s =
        (hardMarksGo bp.proxyPool bounds axis lq i s).foldl
          BroadPhase.incrementOverlapCount bp := by
  intro i
  induction i with
  | zero =>
    intro s bp
    rw [BroadPhase.queryHardGo, hardMarksGo]
    by_cases hs : s = 0
    · rw [if_pos hs, if_pos hs]
      rfl
    · rw [if_neg hs, if_neg hs]
      dsimp only
      by_cases hl : (bounds.getD 0 default).isLower = true
      · by_cases hq : lq ≤ ((bp.proxyPool.getD (bounds.getD 0 default).proxyId
            default).upperBounds.get axis)
        · have hb : ((bounds.getD 0 default).isLower && decide (lq ≤
              ((bp.proxyPool.getD (bounds.getD 0 default).proxyId
                default).upperBounds.get axis))) = true := by
            rw [hl, decide_eq_true hq, Bool.true_and]
          rw [if_pos hl, if_pos hq, if_pos hb]
          rfl
        · have hb : ¬(((bounds.getD 0 default).isLower && decide (lq ≤
              ((bp.proxyPool.getD (bounds.getD 0 default).proxyId
                default).upperBounds.get axis))) = true) := by
            rw [decide_eq_false hq, Bool.and_false]
            exact Bool.false_ne_true
          rw [if_pos hl, if_neg hq, if_neg hb]
          rfl
      · have hb : ¬(((bounds.getD 0 default).isLower && decide (lq ≤
            ((bp.proxyPool.getD (bounds.getD 0 default).proxyId
              default).upperBounds.get axis))) = true) := by
          rw [Bool.not_eq_true] at hl
          rw [hl, Bool.false_and]
          exact Bool.false_ne_true
        rw [if_neg hl, if_neg hb]
        rfl
  | succ i' ih =>
    intro s bp
    rw [BroadPhase.queryHardGo, hardMarksGo]
    by_cases hs : s = 0
    · rw [if_pos hs, if_pos hs]
      rfl
    · rw [if_neg hs, if_neg hs]
      dsimp only
      by_cases hl : (bounds.getD (i' + 1) default).isLower = true
      · by_cases hq : lq ≤ ((bp.proxyPool.getD (bounds.getD (i' + 1) default).proxyId
            default).upperBounds.get axis)
        · have hb : ((bounds.getD (i' + 1) default).isLower && decide (lq ≤
              ((bp.proxyPool.getD (bounds.getD (i' + 1) default).proxyId
                default).upperBounds.get axis))) = true := by
            rw [hl, decide_eq_true hq, Bool.true_and]
          rw [if_pos hl, if_pos hq, if_pos hb, if_pos hb]
          show BroadPhase.queryHardGo _ bounds axis lq i' (s - 1) = _
          rw [ih (s - 1) (bp.incrementOverlapCount
            (bounds.getD (i' + 1) default).proxyId)]
          show _ = List.foldl BroadPhase.incrementOverlapCount
            (bp.incrementOverlapCount (bounds.getD (i' + 1) default).proxyId)
            (hardMarksGo bp.proxyPool bounds axis lq i' (s - 1))
          congr 1
          exact hardMarksGo_congr _ _ bounds axis lq
            (incrementOverlapCount_qframe bp _).skel_eq i' (s - 1)
        · have hb : ¬(((bounds.getD (i' + 1) default).isLower && decide (lq ≤
              ((bp.proxyPool.getD (bounds.getD (i' + 1) default).proxyId
                default).upperBounds.get axis))) = true) := by
            rw [decide_eq_false hq, Bool.and_false]
            exact Bool.false_ne_true
          rw [if_pos hl, if_neg hq, if_neg hb, if_neg hb]
          show BroadPhase.queryHardGo _ bounds axis lq i' s = _
          exact ih s bp
      · have hb : ¬(((bounds.getD (i' + 1) default).isLower && decide (lq ≤
            ((bp.proxyPool.getD (bounds.getD (i' + 1) default).proxyId
              default).upperBounds.get axis))) = true) := by
          rw [Bool.not_eq_true] at hl
          rw [hl, Bool.false_and]
          exact Bool.false_ne_true
        rw [if_neg hl, if_neg hb, if_neg hb]
        show BroadPhase.queryHardGo _ bounds axis lq i' s = _
        exact ih s bp

theorem query_eq_marks (bp : BroadPhase) (lv uv : Nat) (bounds : List Bound)
    (boundCount axis : Nat) :
    (bp.query lv uv bounds boundCount axis).1 =
      (passMarks bp.proxyPool bounds boundCount axis lv uv).foldl
        BroadPhase.incrementOverlapCount bp := by
  unfold BroadPhase.query passMarks
  dsimp only
  rw [List.foldl_append]
  by_cases hlq : 0 < binarySearch bounds boundCount lv
  · rw [if_pos hlq, if_pos hlq]
    rw [queryEasy_eq_marks]
    rw [queryHardGo_eq_marks]
    congr 1
    refine hardMarksGo_congr _ _ bounds axis _ ?_ _ _
    exact (foldl_qframe _ (fun s a => incrementOverlapCount_qframe s a) _ bp).skel_eq
  · rw [if_neg hlq, if_neg hlq]
    rw [queryEasy_eq_marks]
    rfl

theorem iOC_getD_ne (bp : BroadPhase) (x id : Nat) (h : x ≠ id) :
    (bp.incrementOverlapCount x).proxyPool.getD id default =
      bp.proxyPool.getD id default := by
  unfold BroadPhase.incrementOverlapCount
  dsimp only
  split <;> exact getD_set_ne _ _ _ _ h

theorem iOC_results_fresh (bp : BroadPhase) (x : Nat)
    (h : (bp.proxyPool.getD x default).timeStamp < bp.timeStamp) :
    (bp.incrementOverlapCount x).queryResults = bp.queryResults := by
  unfold BroadPhase.incrementOverlapCount
  rw [if_pos h]

theorem iOC_results_marked (bp : BroadPhase) (x : Nat)
    (h : ¬(bp.proxyPool.getD x default).timeStamp < bp.timeStamp) :
    (bp.incrementOverlapCount x).queryResults = bp.queryResults ++ [x] := by
  unfold BroadPhase.incrementOverlapCount
  rw [if_neg h]

theorem iOC_foldl_results_fresh (L : List Nat) :
    ∀ (bp : BroadPhase),
      (∀ id ∈ L, (bp.proxyPool.getD id default).timeStamp < bp.timeStamp) →
      L.Nodup →
      (L.foldl BroadPhase.incrementOverlapCount bp).queryResults = bp.queryResults := by
  induction L with
  | nil => intro bp _ _; rfl
  | cons x t ih =>
    intro bp hfresh hnodup
    have hx := hfresh x (List.mem_cons_self x t)
    rw [List.foldl_cons, ih (bp.incrementOverlapCount x) ?_ (List.Nodup.of_cons hnodup),
      iOC_results_fresh bp x hx]
    intro id hid
    have hne : x ≠ id := by
      intro he
      subst he
      exact (List.nodup_cons.mp hnodup).1 hid
    rw [iOC_getD_ne bp x id hne, (incrementOverlapCount_qframe bp x).ts_eq]
    exact hfresh id (List.mem_cons_of_mem x hid)

theorem iOC_foldl_mem_results (L : List Nat) :
    ∀ (bp : BroadPhase), L.Nodup →
      ∀ id, id ∈ (L.foldl BroadPhase.incrementOverlapCount bp).queryResults →
        id ∈ bp.queryResults ∨
          (id ∈ L ∧ bp.timeStamp ≤ (bp.proxyPool.getD id default).timeStamp) := by
  induction L with
  | nil => intro bp _ id h; exact Or.inl h
  | cons x t ih =>
    intro bp hnodup id h
    rw [List.foldl_cons] at h
    rcases ih (bp.incrementOverlapCount x) (List.Nodup.of_cons hnodup) id h with
      hmem | ⟨hmem, hts⟩
    · by_cases hc : (bp.proxyPool.getD x default).timeStamp < bp.timeStamp
      · rw [iOC_results_fresh bp x hc] at hmem
        exact Or.inl hmem
      · rw [iOC_results_marked bp x hc] at hmem
        rcases List.mem_append.mp hmem with hmem2 | hmem2
        · exact Or.inl hmem2
        · have hxid : id = x := by simpa using hmem2
          subst hxid
          exact Or.inr ⟨List.mem_cons_self id t, by omega⟩
    · by_cases hx : x = id
      · subst hx
        exact absurd hmem (List.nodup_cons.mp hnodup).1
      · rw [iOC_getD_ne bp x id hx, (incrementOverlapCount_qframe bp x).ts_eq] at hts
        exact Or.inr ⟨List.mem_cons_of_mem x hmem, hts⟩

theorem iOC_foldl_marked (L : List Nat) :
    ∀ (bp : BroadPhase) (id : Nat),
      bp.timeStamp ≤
        ((L.foldl BroadPhase.incrementOverlapCount bp).proxyPool.getD id default).timeStamp →
      bp.timeStamp ≤ (bp.proxyPool.getD id default).timeStamp ∨ id ∈ L := by
  induction L with
  | nil => intro bp id h; exact Or.inl h
  | cons x t ih =>
    intro bp id h
    rw [List.foldl_cons] at h
    rw [(incrementOverlapCount_qframe bp x).ts_eq.symm] at h
    rcases ih (bp.incrementOverlapCount x) id h with h2 | h2
    · by_cases hx : x = id
      · subst hx
        exact Or.inr (List.mem_cons_self x t)
      · rw [iOC_getD_ne bp x id hx, (incrementOverlapCount_qframe bp x).ts_eq] at h2
        exact Or.inl h2
    · exact Or.inr (List.mem_cons_of_mem x h2)

theorem easyMarks_mem (bounds : List Bound) (lq uq id : Nat)
    (h : id ∈ easyMarksOf bounds lq uq) :
    ∃ j, lq ≤ j ∧ j < uq ∧ (bounds.getD j default).isLower = true ∧
      (bounds.getD j default).proxyId = id := by
  unfold easyMarksOf at h
  rcases List.mem_map.mp h with ⟨j, hj, rfl⟩
  rcases List.mem_filter.mp hj with ⟨hj1, hj2⟩
  have hr := List.mem_range'_1.mp hj1
  exact ⟨j, by omega, by omega, hj2, rfl⟩

theorem hardMarks_mem (pool : List Proxy) (bounds : List Bound) (axis lq : Nat) :
    ∀ (i : Nat) (s : Int) (id : Nat), id ∈ hardMarksGo pool bounds axis lq i s →
      ∃ j, j ≤ i ∧ (bounds.getD j default).isLower = true ∧
        (bounds.getD j default).proxyId = id ∧
        lq ≤ (pool.getD id default).upperBounds.get axis := by
  intro i
  induction i with
  | zero =>
    intro s id h
    rw [hardMarksGo] at h
    by_cases hs : s = 0
    · rw [if_pos hs] at h
      simp at h
    · rw [if_neg hs] at h
      dsimp only at h
      by_cases hhit : ((bounds.getD 0 default).isLower && decide (lq ≤
          ((pool.getD (bounds.getD 0 default).proxyId default).upperBounds.get axis))) = true
      · rw [if_pos hhit] at h
        have hid : id = (bounds.getD 0 default).proxyId := by simpa using h
        subst hid
        rcases Bool.and_eq_true_iff.mp hhit with ⟨h1, h2⟩
        exact ⟨0, le_refl 0, h1, rfl, of_decide_eq_true h2⟩
      · rw [if_neg hhit] at h
        simp at h
  | succ i' ih =>
    intro s id h
    rw [hardMarksGo] at h
    by_cases hs : s = 0
    · rw [if_pos hs] at h
      simp at h
    · rw [if_neg hs] at h
      dsimp only at h
      by_cases hhit : ((bounds.getD (i' + 1) default).isLower && decide (lq ≤
          ((pool.getD (bounds.getD (i' + 1) default).proxyId
            default).upperBounds.get axis))) = true
      · rw [if_pos hhit, if_pos hhit] at h
        rcases List.mem_append.mp h with h2 | h2
        · have hid : id = (bounds.getD (i' + 1) default).proxyId := by simpa using h2
          subst hid
          rcases Bool.and_eq_true_iff.mp hhit with ⟨h1, h2⟩
          exact ⟨i' + 1, le_refl _, h1, rfl, of_decide_eq_true h2⟩
        · rcases ih _ id h2 with ⟨j, hj1, hj2, hj3, hj4⟩
          exact ⟨j, by omega, hj2, hj3, hj4⟩
      · rw [if_neg hhit, if_neg hhit] at h
        rw [List.nil_append] at h
        rcases ih _ id h with ⟨j, hj1, hj2, hj3, hj4⟩
        exact ⟨j, by omega, hj2, hj3, hj4⟩

/-- C6: BinarySearch over an array whose first count entries are sorted
non-decreasing: when the target matches no entry it returns the insertion
point, the lowest index whose value is at least the target, or count when no
such index exists; when some entry matches it returns the index of a matching
entry. -/
theorem C6_binarySearch_spec (bounds : List Bound) (count value : Nat)
    (hcount : count ≤ bounds.length)
    (hsort : ∀ i j : Nat, i < j → j < count →
      (bounds.getD i default).value ≤ (bounds.getD j default).value) :
    ((∀ i, i < count → (bounds.getD i default).value ≠ value) →
      binarySearch bounds count value ≤ count ∧
        (∀ i, i < binarySearch bounds count value →
          (bounds.getD i default).value < value) ∧
        (∀ i, binarySearch bounds count value ≤ i → i < count →
          value ≤ (bounds.getD i default).value)) ∧
    ((∃ i, i < count ∧ (bounds.getD i default).value = value) →
      binarySearch bounds count value < count ∧
        (bounds.getD (binarySearch bounds count value) default).value = value) := by
  have h := binarySearchGo_spec bounds count value hsort 0 ((count : Int) - 1)
    (by omega) (by omega) (by omega)
    (fun i hi hic => by omega)
    (fun i hi hic => by omega)
  unfold binarySearch
  rcases h with ⟨hle, hcase⟩
  constructor
  · intro hnone
    rcases hcase with ⟨hlt, heq⟩ | ⟨hbelow, habove⟩
    · exact absurd heq (hnone _ hlt)
    · exact ⟨hle, hbelow, fun i hri hic => le_of_lt (habove i hri hic)⟩
  · rintro ⟨i, hic, hieq⟩
    rcases hcase with ⟨hlt, heq⟩ | ⟨hbelow, habove⟩
    · exact ⟨hlt, heq⟩
    · by_cases hcmp : i < binarySearchGo bounds value 0 ((count : Int) - 1)
      · exact absurd hieq (ne_of_lt (hbelow i hcmp))
      · exact absurd hieq.symm (ne_of_lt (habove i (by omega) hic))

/-- C6 witness on a concrete sorted array with no matching entry. -/
theorem C6_binarySearch_spec_witness :
    binarySearch [⟨2, 0, 0⟩, ⟨6, 1, 0⟩] 2 5 ≤ 2 ∧
      (∀ i, i < binarySearch [⟨2, 0, 0⟩, ⟨6, 1, 0⟩] 2 5 →
        (([⟨2, 0, 0⟩, ⟨6, 1, 0⟩] : List Bound).getD i default).value < 5) ∧
      (∀ i, binarySearch [⟨2, 0, 0⟩, ⟨6, 1, 0⟩] 2 5 ≤ i → i < 2 →
        5 ≤ (([⟨2, 0, 0⟩, ⟨6, 1, 0⟩] : List Bound).getD i default).value) :=
  (C6_binarySearch_spec [⟨2, 0, 0⟩, ⟨6, 1, 0⟩] 2 5 (by decide)
    (by
      intro i j hij hj
      interval_cases j
      · omega
      · interval_cases i
        decide)).1
    (by decide)

theorem passMarks_congr (pool pool' : List Proxy) (bounds : List Bound)
    (boundCount axis lv uv : Nat)
    (hskel : pool'.map Proxy.skel = pool.map Proxy.skel) :
    passMarks pool' bounds boundCount axis lv uv =
      passMarks pool bounds boundCount axis lv uv := by
  unfold passMarks
  dsimp only
  congr 1
  split
  · exact hardMarksGo_congr pool pool' bounds axis _ hskel _ _
  · rfl

theorem easyMarks_nodup (pool : List Proxy) (bounds : List Bound)
    (count axis lq uq : Nat) (huq : uq ≤ count)
    (hcons : ∀ i, i < count → (bounds.getD i default).isLower = true →
      (pool.getD (bounds.getD i default).proxyId default).lowerBounds.get axis = i) :
    (easyMarksOf bounds lq uq).Nodup := by
  unfold easyMarksOf
  refine List.Nodup.map_on ?_ (List.Nodup.filter _ (List.nodup_range' lq (uq - lq) 1 (by omega)))
  intro x hx y hy hfeq
  rcases List.mem_filter.mp hx with ⟨hx1, hx2⟩
  rcases List.mem_filter.mp hy with ⟨hy1, hy2⟩
  have hxr := List.mem_range'_1.mp hx1
  have hyr := List.mem_range'_1.mp hy1
  have hxc : x < count := by omega
  have hyc : y < count := by omega
  have h1 := hcons x hxc hx2
  have h2 := hcons y hyc hy2
  rw [hfeq] at h1
  omega

theorem hardMarks_nodup (pool : List Proxy) (bounds : List Bound)
    (count axis lq : Nat)
    (hcons : ∀ i, i < count → (bounds.getD i default).isLower = true →
      (pool.getD (bounds.getD i default).proxyId default).lowerBounds.get axis = i) :
    ∀ (i : Nat) (s : Int), i < count →
      (hardMarksGo pool bounds axis lq i s).Nodup := by
  intro i
  induction i with
  | zero =>
    intro s _
    rw [hardMarksGo]
    by_cases hs : s = 0
    · rw [if_pos hs]
      exact List.nodup_nil
    · rw [if_neg hs]
      dsimp only
      split
      · exact List.nodup_singleton _
      · exact List.nodup_nil
  | succ i' ih =>
    intro s hic
    rw [hardMarksGo]
    by_cases hs : s = 0
    · rw [if_pos hs]
      exact List.nodup_nil
    · rw [if_neg hs]
      dsimp only
      by_cases hhit : ((bounds.getD (i' + 1) default).isLower && decide (lq ≤
          ((pool.getD (bounds.getD (i' + 1) default).proxyId
            default).upperBounds.get axis))) = true
      · rw [if_pos hhit, if_pos hhit]
        rw [List.singleton_append, List.nodup_cons]
        refine ⟨?_, ih _ (by omega)⟩
        intro hmem
        rcases hardMarks_mem pool bounds axis lq i' _ _ hmem with ⟨j, hj1, hj2, hj3, _⟩
        have hlow := (Bool.and_eq_true_iff.mp hhit).1
        have h1 := hcons j (by omega) hj2
        have h2 := hcons (i' + 1) hic hlow
        rw [hj3] at h1
        omega
      · rw [if_neg hhit, if_neg hhit]
        rw [List.nil_append]
        exact ih _ (by omega)

theorem passMarks_nodup (pool : List Proxy) (bounds : List Bound)
    (boundCount axis lv uv : Nat)
    (hsort : ∀ i j : Nat, i < j → j < boundCount →
      (bounds.getD i default).value ≤ (bounds.getD j default).value)
    (hcons : ∀ i, i < boundCount → (bounds.getD i default).isLower = true →
      (pool.getD (bounds.getD i default).proxyId default).lowerBounds.get axis = i) :
    (passMarks pool bounds boundCount axis lv uv).Nodup := by
  have hlqle := (binarySearch_le_facts bounds boundCount lv hsort).1
  have huqle := (binarySearch_le_facts bounds boundCount uv hsort).1
  unfold passMarks
  dsimp only
  refine List.Nodup.append
    (easyMarks_nodup pool bounds boundCount axis _ _ huqle hcons) ?_ ?_
  · split
    · exact hardMarks_nodup pool bounds boundCount axis _ hcons _ _ (by omega)
    · exact List.nodup_nil
  · intro a hae hah
    split at hah
    · rcases easyMarks_mem bounds _ _ a hae with ⟨j1, hj1a, hj1b, hj1low, hj1pid⟩
      rcases hardMarks_mem pool bounds axis _ _ _ a hah with ⟨j2, hj2a, hj2low, hj2pid, _⟩
      have h1 := hcons j1 (by omega) hj1low
      have h2 := hcons j2 (by omega) hj2low
      rw [hj1pid] at h1
      rw [hj2pid] at h2
      omega
    · simp at hah

theorem passMarks_overlap (pool : List Proxy) (bounds : List Bound)
    (boundCount axis lv uv : Nat)
    (hsort : ∀ i j : Nat, i < j → j < boundCount →
      (bounds.getD i default).value ≤ (bounds.getD j default).value)
    (hcons : ∀ i, i < boundCount → (bounds.getD i default).isLower = true →
      (pool.getD (bounds.getD i default).proxyId default).lowerBounds.get axis = i ∧
      i ≤ (pool.getD (bounds.getD i default).proxyId default).upperBounds.get axis ∧
      (pool.getD (bounds.getD i default).proxyId default).upperBounds.get axis < boundCount)
    (hlvuv : lv ≤ uv) :
    ∀ id ∈ passMarks pool bounds boundCount axis lv uv,
      (bounds.getD ((pool.getD id default).lowerBounds.get axis) default).value ≤ uv ∧
      lv ≤ (bounds.getD ((pool.getD id default).upperBounds.get axis) default).value := by
  have hlf := binarySearch_le_facts bounds boundCount lv hsort
  have huf := binarySearch_le_facts bounds boundCount uv hsort
  intro id hid
  unfold passMarks at hid
  dsimp only at hid
  rcases List.mem_append.mp hid with hide | hidh
  · rcases easyMarks_mem bounds _ _ id hide with ⟨j, hja, hjb, hjlow, hjpid⟩
    have hjc : j < boundCount := by omega
    obtain ⟨h1, h2, h3⟩ := hcons j hjc hjlow
    rw [hjpid] at h1 h2 h3
    constructor
    · rw [h1]
      exact huf.2.1 j hjb hjc
    · exact hlf.2.2 _ (by omega) h3
  · split at hidh
    · rcases hardMarks_mem pool bounds axis _ _ _ id hidh with
        ⟨j, hja, hjlow, hjpid, hju⟩
      have hjc : j < boundCount := by omega
      obtain ⟨h1, h2, h3⟩ := hcons j hjc hjlow
      rw [hjpid] at h1 h2 h3
      constructor
      · rw [h1]
        have := hlf.2.1 j (by omega) hjc
        omega
      · exact hlf.2.2 _ (by omega) h3
    · simp at hidh

/-- C3: within one query generation, IncrementOverlapCount appends a proxy id
to the query results only if the proxy's timestamp already equals the current
generation, that is only if IncrementOverlapCount was already called on it
earlier in the same generation; consequently, on a state whose bound arrays
are sorted and index-consistent and whose proxies are all unstamped for the
current generation, every payload reported by QueryAABB belongs to a proxy
marked on both the axis-0 and the axis-1 pass, whose stored interval meets
the quantized query range on both axes. -/
theorem C3_query_both_axes (bp : BroadPhase) (aabb : AABB) (maxCount : Nat)
    (hwx : bp.worldAABB.minVertex.x < bp.worldAABB.maxVertex.x)
    (hwy : bp.worldAABB.minVertex.y < bp.worldAABB.maxVertex.y)
    (hqx : bp.quantizationFactor.x =
      (USHRT_MAX : ℚ) / (bp.worldAABB.maxVertex.x - bp.worldAABB.minVertex.x))
    (hqy : bp.quantizationFactor.y =
      (USHRT_MAX : ℚ) / (bp.worldAABB.maxVertex.y - bp.worldAABB.minVertex.y))
    (hax : aabb.minVertex.x < aabb.maxVertex.x)
    (hay : aabb.minVertex.y < aabb.maxVertex.y)
    (hsort0 : ∀ i j : Nat, i < j → j < 2 * bp.proxyCount →
      ((bp.bounds.get 0).getD i default).value ≤ ((bp.bounds.get 0).getD j default).value)
    (hsort1 : ∀ i j : Nat, i < j → j < 2 * bp.proxyCount →
      ((bp.bounds.get 1).getD i default).value ≤ ((bp.bounds.get 1).getD j default).value)
    (hcons0 : ∀ i, i < 2 * bp.proxyCount →
      ((bp.bounds.get 0).getD i default).isLower = true →
      (bp.proxyPool.getD ((bp.bounds.get 0).getD i default).proxyId
          default).lowerBounds.get 0 = i ∧
      i ≤ (bp.proxyPool.getD ((bp.bounds.get 0).getD i default).proxyId
          default).upperBounds.get 0 ∧
      (bp.proxyPool.getD ((bp.bounds.get 0).getD i default).proxyId
          default).upperBounds.get 0 < 2 * bp.proxyCount)
    (hcons1 : ∀ i, i < 2 * bp.proxyCount →
      ((bp.bounds.get 1).getD i default).isLower = true →
      (bp.proxyPool.getD ((bp.bounds.get 1).getD i default).proxyId
          default).lowerBounds.get 1 = i ∧
      i ≤ (bp.proxyPool.getD ((bp.bounds.get 1).getD i default).proxyId
          default).upperBounds.get 1 ∧
      (bp.proxyPool.getD ((bp.bounds.get 1).getD i default).proxyId
          default).upperBounds.get 1 < 2 * bp.proxyCount)
    (hfresh : ∀ id, (bp.proxyPool.getD id default).timeStamp < bp.timeStamp)
    (hempty : bp.queryResults = []) :
    (∀ (s : BroadPhase) (id : Nat),
        (s.proxyPool.getD id default).timeStamp < s.timeStamp →
        (s.incrementOverlapCount id).queryResults = s.queryResults) ∧
    ∀ u ∈ (bp.queryAABB aabb maxCount).2.1, ∃ id,
      ((bp.bounds.get 0).getD ((bp.proxyPool.getD id default).lowerBounds.get 0)
          default).value ≤ (bp.computeBounds aabb).2.get 0 ∧
      (bp.computeBounds aabb).1.get 0 ≤
        ((bp.bounds.get 0).getD ((bp.proxyPool.getD id default).upperBounds.get 0)
          default).value ∧
      ((bp.bounds.get 1).getD ((bp.proxyPool.getD id default).lowerBounds.get 1)
          default).value ≤ (bp.computeBounds aabb).2.get 1 ∧
      (bp.computeBounds aabb).1.get 1 ≤
        ((bp.bounds.get 1).getD ((bp.proxyPool.getD id default).upperBounds.get 1)
          default).value ∧
      u = (bp.proxyPool.getD id default).userData := by
  have hlt0 : (bp.computeBounds aabb).1.get 0 < (bp.computeBounds aabb).2.get 0 := by
    show (bp.computeBounds aabb).1.a0 < (bp.computeBounds aabb).2.a0
    simp only [BroadPhase.computeBounds]
    exact axis_lower_lt_upper _ _ _ _ _ hwx hqx (le_of_lt hax)
  have hlt1 : (bp.computeBounds aabb).1.get 1 < (bp.computeBounds aabb).2.get 1 := by
    show (bp.computeBounds aabb).1.a1 < (bp.computeBounds aabb).2.a1
    simp only [BroadPhase.computeBounds]
    exact axis_lower_lt_upper _ _ _ _ _ hwy hqy (le_of_lt hay)
  refine ⟨fun s id h => iOC_results_fresh s id h, ?_⟩
  intro u hu
  unfold BroadPhase.queryAABB at hu
  dsimp only at hu
  set lv0 := (bp.computeBounds aabb).1.get 0 with hlv0
  set uv0 := (bp.computeBounds aabb).2.get 0 with huv0
  set lv1 := (bp.computeBounds aabb).1.get 1 with hlv1
  set uv1 := (bp.computeBounds aabb).2.get 1 with huv1
  rw [query_eq_marks bp lv0 uv0 (bp.bounds.get 0) (2 * bp.proxyCount) 0] at hu
  set M0 := passMarks bp.proxyPool (bp.bounds.get 0) (2 * bp.proxyCount) 0 lv0 uv0 with hM0
  set bp1 := M0.foldl BroadPhase.incrementOverlapCount bp with hbp1
  have hf1 : QFrame bp bp1 :=
    foldl_qframe _ (fun s a => incrementOverlapCount_qframe s a) M0 bp
  have hb1 : bp1.bounds.get 1 = bp.bounds.get 1 := by rw [hf1.bounds_eq]
  have hc1 : 2 * bp1.proxyCount = 2 * bp.proxyCount := by rw [hf1.count_eq]
  rw [hb1, hc1] at hu
  rw [query_eq_marks bp1 lv1 uv1 (bp.bounds.get 1) (2 * bp.proxyCount) 1] at hu
  set M1 := passMarks bp.proxyPool (bp.bounds.get 1) (2 * bp.proxyCount) 1 lv1 uv1 with hM1
  have hpm : passMarks bp1.proxyPool (bp.bounds.get 1) (2 * bp.proxyCount) 1 lv1 uv1 = M1 := by
    rw [hM1]
    exact passMarks_congr bp.proxyPool bp1.proxyPool _ _ _ _ _ hf1.skel_eq
  rw [hpm] at hu
  set bp2 := M1.foldl BroadPhase.incrementOverlapCount bp1 with hbp2
  have hf2 : QFrame bp1 bp2 :=
    foldl_qframe _ (fun s a => incrementOverlapCount_qframe s a) M1 bp1
  have hf : QFrame bp bp2 := QFrame.frameTrans hf1 hf2
  rcases List.mem_map.mp hu with ⟨id, hidt, hueq⟩
  have hid2 : id ∈ bp2.queryResults := List.take_subset maxCount _ hidt
  have hnd0 : M0.Nodup := by
    rw [hM0]
    exact passMarks_nodup bp.proxyPool (bp.bounds.get 0) (2 * bp.proxyCount) 0 lv0 uv0
      hsort0 (fun i hi hl => (hcons0 i hi hl).1)
  have hnd1 : M1.Nodup := by
    rw [hM1]
    exact passMarks_nodup bp.proxyPool (bp.bounds.get 1) (2 * bp.proxyCount) 1 lv1 uv1
      hsort1 (fun i hi hl => (hcons1 i hi hl).1)
  have hr1 : bp1.queryResults = [] := by
    rw [hbp1, iOC_foldl_results_fresh M0 bp (fun i _ => hfresh i) hnd0, hempty]
  rcases iOC_foldl_mem_results M1 bp1 hnd1 id hid2 with hmem | ⟨hin1, hts⟩
  · rw [hr1] at hmem
    exact absurd hmem (List.not_mem_nil id)
  · rw [hf1.ts_eq] at hts
    have hin0 : id ∈ M0 := by
      rcases iOC_foldl_marked M0 bp id hts with h | h
      · exact absurd h (by have := hfresh id; omega)
      · exact h
    have hov0 := passMarks_overlap bp.proxyPool (bp.bounds.get 0) (2 * bp.proxyCount)
      0 lv0 uv0 hsort0 hcons0 (le_of_lt hlt0) id (hM0 ▸ hin0)
    have hov1 := passMarks_overlap bp.proxyPool (bp.bounds.get 1) (2 * bp.proxyCount)
      1 lv1 uv1 hsort1 hcons1 (le_of_lt hlt1) id (hM1 ▸ hin1)
    have hud : (bp2.proxyPool.getD id default).userData =
        (bp.proxyPool.getD id default).userData := skel_user (hf.skel_getD id)
    refine ⟨id, hov0.1, hov0.2, hov1.1, hov1.2, ?_⟩
    rw [← hueq, hud]

/-- C3 witness: a first IncrementOverlapCount call in a fresh generation
changes the query-result list of a freshly built broad phase in no way, and
the state hypotheses of the claim hold on that broad phase. -/
theorem C3_query_both_axes_witness :
    ((mkBroadPhase 2 ⟨⟨0, 0⟩, ⟨100, 100⟩⟩).incrementOverlapCount 0).queryResults =
      (mkBroadPhase 2 ⟨⟨0, 0⟩, ⟨100, 100⟩⟩).queryResults := by
  have hpc : (mkBroadPhase 2 ⟨⟨0, 0⟩, ⟨100, 100⟩⟩).proxyCount = 0 := rfl
  refine (C3_query_both_axes (mkBroadPhase 2 ⟨⟨0, 0⟩, ⟨100, 100⟩⟩)
    ⟨⟨10, 10⟩, ⟨20, 20⟩⟩ 4
    (show (0 : ℚ) < 100 by norm_num) (show (0 : ℚ) < 100 by norm_num)
    rfl rfl
    (show (10 : ℚ) < 20 by norm_num) (show (10 : ℚ) < 20 by norm_num)
    ?_ ?_ ?_ ?_ ?_ rfl).1 (mkBroadPhase 2 ⟨⟨0, 0⟩, ⟨100, 100⟩⟩) 0 (by decide)
  · intro i j h1 h2
    rw [hpc] at h2
    omega
  · intro i j h1 h2
    rw [hpc] at h2
    omega
  · intro i h
    rw [hpc] at h
    omega
  · intro i h
    rw [hpc] at h
    omega
  · intro id
    rcases id with _ | _ | n
    · decide
    · decide
    · exact Nat.zero_lt_one

/-! Reachability: the public operations, their preconditions, and the master
invariant the broad phase maintains, as Validate describes it. -/

/-- Contribution of one bound to the running stabbing scan: a lower endpoint
opens an interval, an upper endpoint closes one. -/
def stabOf (b : Bound) : Int := if b.isLower then 1 else -1

/-- Running count of the linear scan of Validate after processing index i:
plus one at each lower bound, minus one at each upper bound. -/
def scanCount : List Bound → Nat → Int
  | [], _ => 0
  | b :: _, 0 => stabOf b
  | b :: t, i + 1 => stabOf b + scanCount t i

/-- Values are non-decreasing by index over the whole array. -/
def sortedVals (l : List Bound) : Prop :=
  ∀ i j : Nat, i < j → j < l.length →
    (l.getD i default).value ≤ (l.getD j default).value

/-- Core consistency of one axis's bound array against the proxy pool, with a
set X of proxy slots exempted from the record-side conditions (used mid-way
through CreateProxy and DestroyProxy, when one slot's records are stale):
every entry belongs to a live pool slot and is recorded there under its role,
and every live slot's two recorded entries point back, lower strictly before
upper; the stored stabbing counts agree with the linear scan. -/
structure SapCoreX (pool : List Proxy) (l : List Bound) (axis : Nat) (X : Nat → Prop) : Prop where
  owner_lt : ∀ i, i < l.length → (l.getD i default).proxyId < pool.length
  owner_live : ∀ i, i < l.length →
    (pool.getD (l.getD i default).proxyId default).isValidProxy = true
  lower_idx : ∀ i, i < l.length → (l.getD i default).isLower = true →
    (pool.getD (l.getD i default).proxyId default).lowerBounds.get axis = i
  upper_idx : ∀ i, i < l.length → (l.getD i default).isLower = false →
    (pool.getD (l.getD i default).proxyId default).upperBounds.get axis = i
  live_lt : ∀ p, p < pool.length → (pool.getD p default).isValidProxy = true → ¬X p →
    (pool.getD p default).lowerBounds.get axis < (pool.getD p default).upperBounds.get axis
  live_hi : ∀ p, p < pool.length → (pool.getD p default).isValidProxy = true → ¬X p →
    (pool.getD p default).upperBounds.get axis < l.length
  live_lower : ∀ p, p < pool.length → (pool.getD p default).isValidProxy = true → ¬X p →
    (l.getD ((pool.getD p default).lowerBounds.get axis) default).proxyId = p ∧
    (l.getD ((pool.getD p default).lowerBounds.get axis) default).isLower = true
  live_upper : ∀ p, p < pool.length → (pool.getD p default).isValidProxy = true → ¬X p →
    (l.getD ((pool.getD p default).upperBounds.get axis) default).proxyId = p ∧
    (l.getD ((pool.getD p default).upperBounds.get axis) default).isLower = false
  stab : ∀ i, i < l.length → (l.getD i default).stabbingCount = scanCount l i

/-- Core consistency with no exempted slot. -/
def SapCore (pool : List Proxy) (l : List Bound) (axis : Nat) : Prop :=
  SapCoreX pool l axis (fun _ => False)

/-- The free list: a chain of distinct dead slots linked by next, from the
given head down to the null proxy, listing the slots it visits. -/
inductive FreeChain (pool : List Proxy) (maxProxies : Nat) : Nat → List Nat → Prop
  | nil : FreeChain pool maxProxies (nullProxy maxProxies) []
  | cons {head : Nat} {rest : List Nat} :
      head < maxProxies →
      (pool.getD head default).isValidProxy = false →
      head ∉ rest →
      FreeChain pool maxProxies (pool.getD head default).next rest →
      FreeChain pool maxProxies head (head :: rest)

/-- Master invariant of a broad-phase state: array lengths track the proxy
count, both axes are sorted and core-consistent, the world box and the
quantization factors are as the constructor made them, and the free list is a
well-formed chain holding exactly the slots not in use. -/
structure BPInv (bp : BroadPhase) : Prop where
  pool_len : bp.proxyPool.length = bp.maxProxies
  len0 : (bp.bounds.get 0).length = 2 * bp.proxyCount
  len1 : (bp.bounds.get 1).length = 2 * bp.proxyCount
  core0 : SapCore bp.proxyPool (bp.bounds.get 0) 0
  core1 : SapCore bp.proxyPool (bp.bounds.get 1) 1
  sort0 : sortedVals (bp.bounds.get 0)
  sort1 : sortedVals (bp.bounds.get 1)
  world_x : bp.worldAABB.minVertex.x < bp.worldAABB.maxVertex.x
  world_y : bp.worldAABB.minVertex.y < bp.worldAABB.maxVertex.y
  quant_x : bp.quantizationFactor.x =
    (USHRT_MAX : ℚ) / (bp.worldAABB.maxVertex.x - bp.worldAABB.minVertex.x)
  quant_y : bp.quantizationFactor.y =
    (USHRT_MAX : ℚ) / (bp.worldAABB.maxVertex.y - bp.worldAABB.minVertex.y)
  freelist : ∃ fl : List Nat, FreeChain bp.proxyPool bp.maxProxies bp.freeProxy fl ∧
    fl.length + bp.proxyCount = bp.maxProxies

/-- The public operations of the broad phase. -/
inductive SapOp where
  | create (aabb : AABB) (ud : Option Nat)
  | destroy (pid : Nat)
  | move (pid : Nat) (aabb : AABB)
  | commit
  | query (aabb : AABB) (maxCount : Nat)

/-- Effect of one public operation on the state. -/
def stepFn (bp : BroadPhase) : SapOp → BroadPhase
  | .create aabb ud => (bp.createProxy aabb ud).1
  | .destroy pid => bp.destroyProxy pid
  | .move pid aabb => bp.moveProxy pid aabb
  | .commit => bp.commitStep.1
  | .query aabb n => (bp.queryAABB aabb n).1

/-- Caller contract of each operation, as the source's asserts state it:
creation needs a free slot and a valid box, destruction a live slot in range,
and a move must either fail its defensive guards or name a live slot. -/
def stepOk (bp : BroadPhase) : SapOp → Prop
  | .create aabb _ => bp.proxyCount < bp.maxProxies ∧ aabb.isValid = true
  | .destroy pid => pid < bp.maxProxies ∧
      (bp.proxyPool.getD pid default).isValidProxy = true
  | .move pid aabb => pid = nullProxy bp.maxProxies ∨ bp.maxProxies ≤ pid ∨
      aabb.isValid = false ∨
      (pid < bp.maxProxies ∧ (bp.proxyPool.getD pid default).isValidProxy = true)
  | .commit => True
  | .query _ _ => True

/-- States reachable from a freshly constructed broad phase over a
non-degenerate world box by contract-respecting public operations. -/
inductive Reachable : BroadPhase → Prop
  | init (maxProxies : Nat) (world : AABB)
      (hx : world.minVertex.x < world.maxVertex.x)
      (hy : world.minVertex.y < world.maxVertex.y) :
      Reachable (mkBroadPhase maxProxies world)
  | step {bp : BroadPhase} (op : SapOp) (h : Reachable bp) (hok : stepOk bp op) :
      Reachable (stepFn bp op)

theorem scanCount_agree : ∀ (l l' : List Bound) (i : Nat), l'.length = l.length →
    (∀ j, j ≤ i → stabOf (l'.getD j default) = stabOf (l.getD j default)) →
    scanCount l' i = scanCount l i := by
  intro l
  induction l with
  | nil =>
    intro l' i hlen _
    rw [List.length_eq_zero.mp hlen]
  | cons b t ih =>
    intro l' i hlen hag
    cases l' with
    | nil => simp at hlen
    | cons b' t' =>
      have hb : stabOf b' = stabOf b := hag 0 (Nat.zero_le i)
      cases i with
      | zero => exact hb
      | succ i' =>
        show stabOf b' + scanCount t' i' = stabOf b + scanCount t i'
        rw [hb, ih t' i' (by simpa using hlen) (fun j hj => hag (j + 1) (by omega))]

theorem scanCount_succ : ∀ (l : List Bound) (i : Nat), i + 1 < l.length →
    scanCount l (i + 1) = scanCount l i + stabOf (l.getD (i + 1) default) := by
  intro l
  induction l with
  | nil => intro i h; simp at h
  | cons b t ih =>
    intro i h
    cases i with
    | zero =>
      cases t with
      | nil => simp at h
      | cons c t2 => show stabOf b + stabOf c = stabOf b + stabOf c; rfl
    | succ i' =>
      show stabOf b + scanCount t (i' + 1) = stabOf b + scanCount t i' + stabOf _
      rw [ih i' (by simpa using h)]
      have hg : (b :: t).getD (i' + 1 + 1) default = t.getD (i' + 1) default := rfl
      rw [hg]
      omega

theorem scanCount_insert_lt (x : Bound) : ∀ (l : List Bound) (p j : Nat), j < p →
    scanCount (l.insertIdx p x) j = scanCount l j := by
  intro l
  induction l with
  | nil =>
    intro p j hj
    cases p with
    | zero => omega
    | succ p' => rfl
  | cons b t ih =>
    intro p j hj
    cases p with
    | zero => omega
    | succ p' =>
      show scanCount (b :: t.insertIdx p' x) j = scanCount (b :: t) j
      cases j with
      | zero => rfl
      | succ j' =>
        show stabOf b + scanCount (t.insertIdx p' x) j' = stabOf b + scanCount t j'
        rw [ih p' j' (by omega)]

theorem scanCount_insert_ge (x : Bound) : ∀ (l : List Bound) (p j : Nat), p ≤ j →
    p ≤ l.length →
    scanCount (l.insertIdx p x) j =
      (if j = 0 then 0 else scanCount l (j - 1)) + stabOf x := by
  intro l
  induction l with
  | nil =>
    intro p j hpj hpl
    have hp0 : p = 0 := by simpa using hpl
    subst hp0
    cases j with
    | zero => show stabOf x = 0 + stabOf x; omega
    | succ j' =>
      show stabOf x + scanCount [] j' = _
      rw [if_neg (by omega)]
      show stabOf x + 0 = scanCount [] (j' + 1 - 1) + stabOf x
      show stabOf x + 0 = 0 + stabOf x
      omega
  | cons b t ih =>
    intro p j hpj hpl
    cases p with
    | zero =>
      cases j with
      | zero => show stabOf x = 0 + stabOf x; omega
      | succ j' =>
        show stabOf x + scanCount (b :: t) j' = _
        rw [if_neg (by omega)]
        show stabOf x + scanCount (b :: t) j' = scanCount (b :: t) (j' + 1 - 1) + stabOf x
        show stabOf x + scanCount (b :: t) j' = scanCount (b :: t) j' + stabOf x
        omega
    | succ p' =>
      cases j with
      | zero => omega
      | succ j' =>
        show stabOf b + scanCount (t.insertIdx p' x) j' = _
        rw [if_neg (by omega)]
        rw [ih p' j' (by omega) (by simpa using hpl)]
        cases j' with
        | zero =>
          rw [if_pos rfl]
          show stabOf b + (0 + stabOf x) = stabOf b + stabOf x
          omega
        | succ j'' =>
          rw [if_neg (by omega)]
          show stabOf b + (scanCount t (j'' + 1 - 1) + stabOf x) =
            scanCount (b :: t) (j'' + 1) + stabOf x
          show stabOf b + (scanCount t j'' + stabOf x) =
            stabOf b + scanCount t j'' + stabOf x
          omega

theorem scanCount_erase_lt : ∀ (l : List Bound) (p j : Nat), j < p →
    scanCount (l.eraseIdx p) j = scanCount l j := by
  intro l
  induction l with
  | nil => intro p j hj; rfl
  | cons b t ih =>
    intro p j hj
    cases p with
    | zero => omega
    | succ p' =>
      show scanCount (b :: t.eraseIdx p') j = scanCount (b :: t) j
      cases j with
      | zero => rfl
      | succ j' =>
        show stabOf b + scanCount (t.eraseIdx p') j' = stabOf b + scanCount t j'
        rw [ih p' j' (by omega)]

theorem scanCount_erase_ge : ∀ (l : List Bound) (p j : Nat), p ≤ j → p < l.length →
    scanCount (l.eraseIdx p) j = scanCount l (j + 1) - stabOf (l.getD p default) := by
  intro l
  induction l with
  | nil => intro p j _ h; simp at h
  | cons b t ih =>
    intro p j hpj hpl
    cases p with
    | zero =>
      show scanCount t j = stabOf b + scanCount t j - stabOf b
      omega
    | succ p' =>
      cases j with
      | zero => omega
      | succ j' =>
        show stabOf b + scanCount (t.eraseIdx p') j' =
          stabOf b + scanCount t (j' + 1) - stabOf _
        rw [ih p' j' (by omega) (by simpa using hpl)]
        have : (b :: t).getD (p' + 1) default = t.getD p' default := rfl
        rw [this]
        omega

theorem scanCount_swap_ge : ∀ (l : List Bound) (k j : Nat), k + 1 < l.length →
    k + 1 ≤ j →
    scanCount ((l.set k (l.getD (k + 1) default)).set (k + 1) (l.getD k default)) j =
      scanCount l j := by
  intro l
  induction l with
  | nil => intro k j h _; simp at h
  | cons b t ih =>
    intro k j hk hj
    cases k with
    | zero =>
      cases t with
      | nil => simp at hk
      | cons c t2 =>
        cases j with
        | zero => omega
        | succ j' =>
          show scanCount (c :: b :: t2) (j' + 1) = scanCount (b :: c :: t2) (j' + 1)
          cases j' with
          | zero =>
            show stabOf c + stabOf b = stabOf b + stabOf c
            omega
          | succ j'' =>
            show stabOf c + (stabOf b + scanCount t2 j'') =
              stabOf b + (stabOf c + scanCount t2 j'')
            omega
    | succ k' =>
      cases j with
      | zero => omega
      | succ j' =>
        show stabOf b + scanCount ((t.set k' (t.getD (k' + 1) default)).set (k' + 1)
          (t.getD k' default)) j' = stabOf b + scanCount t j'
        rw [ih k' j' (by simpa using hk) (by omega)]

theorem initPool_getD (maxProxies p : Nat) (hp : p < maxProxies) :
    ((List.range maxProxies).map (initProxy maxProxies)).getD p default =
      initProxy maxProxies p := by
  rw [List.getD_eq_getElem _ _ (by simpa using hp)]
  simp

theorem initProxy_dead (m i : Nat) : (initProxy m i).isValidProxy = false := rfl

theorem initChain (maxProxies : Nat) : ∀ n k, k + n = maxProxies →
    FreeChain ((List.range maxProxies).map (initProxy maxProxies)) maxProxies k
      (List.range' k n) := by
  intro n
  induction n with
  | zero =>
    intro k hk
    have hk2 : k = maxProxies := by omega
    subst hk2
    exact FreeChain.nil
  | succ n' ih =>
    intro k hk
    have hkm : k < maxProxies := by omega
    have hr : List.range' k (n' + 1) = k :: List.range' (k + 1) n' := rfl
    rw [hr]
    refine FreeChain.cons hkm ?_ ?_ ?_
    · rw [initPool_getD _ _ hkm]
      exact initProxy_dead _ _
    · intro hmem
      have := List.mem_range'_1.mp hmem
      omega
    · rw [initPool_getD _ _ hkm]
      by_cases hklast : k + 1 < maxProxies
      · have he : (initProxy maxProxies k).next = k + 1 := by
          simp [initProxy, hklast]
        rw [he]
        exact ih (k + 1) (by omega)
      · have hn' : n' = 0 := by omega
        have he : (initProxy maxProxies k).next = nullProxy maxProxies := by
          simp [initProxy, hklast]
        rw [he, hn']
        exact FreeChain.nil

theorem mkBroadPhase_inv (maxProxies : Nat) (world : AABB)
    (hx : world.minVertex.x < world.maxVertex.x)
    (hy : world.minVertex.y < world.maxVertex.y) :
    BPInv (mkBroadPhase maxProxies world) := by
  have hpool : (mkBroadPhase maxProxies world).proxyPool =
      (List.range maxProxies).map (initProxy maxProxies) := rfl
  have hplen : (mkBroadPhase maxProxies world).proxyPool.length = maxProxies := by
    rw [hpool]
    simp
  have hdead : ∀ p, p < (mkBroadPhase maxProxies world).proxyPool.length →
      ((mkBroadPhase maxProxies world).proxyPool.getD p default).isValidProxy = false := by
    intro p hp
    rw [hplen] at hp
    rw [hpool, initPool_getD _ _ hp]
    exact initProxy_dead _ _
  have hcore : ∀ axis, SapCore (mkBroadPhase maxProxies world).proxyPool
      ((mkBroadPhase maxProxies world).bounds.get axis) axis := by
    intro axis
    have hempty : (mkBroadPhase maxProxies world).bounds.get axis = [] := by
      unfold mkBroadPhase Duo.get
      split <;> rfl
    refine ⟨?_, ?_, ?_, ?_, ?_, ?_, ?_, ?_, ?_⟩ <;>
      first
        | (intro i hi
           rw [hempty] at hi
           simp at hi)
        | (intro p hp hval _
           rw [hdead p hp] at hval
           simp at hval)
  refine ⟨hplen, rfl, rfl, hcore 0, hcore 1, ?_, ?_, hx, hy, rfl, rfl, ?_⟩
  · intro i j hij hj
    have he : (mkBroadPhase maxProxies world).bounds.get 0 = [] := rfl
    rw [he] at hj
    simp at hj
  · intro i j hij hj
    have he : (mkBroadPhase maxProxies world).bounds.get 1 = [] := rfl
    rw [he] at hj
    simp at hj
  · refine ⟨List.range' 0 maxProxies, initChain maxProxies maxProxies 0 (by omega), ?_⟩
    have h1 : (mkBroadPhase maxProxies world).proxyCount = 0 := rfl
    have h2 : (mkBroadPhase maxProxies world).maxProxies = maxProxies := rfl
    rw [h1, h2]
    simp

theorem FreeChain.of_dead_links {pool pool' : List Proxy} {M head : Nat} {fl : List Nat}
    (h : FreeChain pool M head fl)
    (hv : ∀ q, (pool.getD q default).isValidProxy = false →
      (pool'.getD q default).isValidProxy = false)
    (hn : ∀ q, (pool.getD q default).isValidProxy = false →
      (pool'.getD q default).next = (pool.getD q default).next) :
    FreeChain pool' M head fl := by
  induction h with
  | nil => exact FreeChain.nil
  | cons hlt hdead hmem hch ih =>
    refine FreeChain.cons hlt (hv _ hdead) hmem ?_
    rw [hn _ hdead]
    exact ih

theorem BPInv_transfer (bp bp' : BroadPhase)
    (hmax : bp'.maxProxies = bp.maxProxies)
    (hworld : bp'.worldAABB = bp.worldAABB)
    (hquant : bp'.quantizationFactor = bp.quantizationFactor)
    (hbounds : bp'.bounds = bp.bounds)
    (hfree : bp'.freeProxy = bp.freeProxy)
    (hcount : bp'.proxyCount = bp.proxyCount)
    (hplen : bp'.proxyPool.length = bp.proxyPool.length)
    (hvalid : ∀ q, (bp'.proxyPool.getD q default).isValidProxy =
      (bp.proxyPool.getD q default).isValidProxy)
    (hlow : ∀ q, (bp'.proxyPool.getD q default).lowerBounds =
      (bp.proxyPool.getD q default).lowerBounds)
    (hup : ∀ q, (bp'.proxyPool.getD q default).upperBounds =
      (bp.proxyPool.getD q default).upperBounds)
    (hnext : ∀ q, (bp'.proxyPool.getD q default).next =
      (bp.proxyPool.getD q default).next)
    (h : BPInv bp) : BPInv bp' := by
  have hcores : ∀ axis, SapCore bp.proxyPool (bp.bounds.get axis) axis →
      SapCore bp'.proxyPool (bp'.bounds.get axis) axis := by
    intro axis hc
    rw [hbounds]
    refine ⟨?_, ?_, ?_, ?_, ?_, ?_, ?_, ?_, ?_⟩
    · intro i hi
      rw [hplen]
      exact hc.owner_lt i hi
    · intro i hi
      rw [hvalid]
      exact hc.owner_live i hi
    · intro i hi hl
      rw [hlow]
      exact hc.lower_idx i hi hl
    · intro i hi hl
      rw [hup]
      exact hc.upper_idx i hi hl
    · intro p hp hv hx
      rw [hplen] at hp
      rw [hvalid] at hv
      rw [hlow, hup]
      exact hc.live_lt p hp hv hx
    · intro p hp hv hx
      rw [hplen] at hp
      rw [hvalid] at hv
      rw [hup]
      exact hc.live_hi p hp hv hx
    · intro p hp hv hx
      rw [hplen] at hp
      rw [hvalid] at hv
      rw [hlow]
      exact hc.live_lower p hp hv hx
    · intro p hp hv hx
      rw [hplen] at hp
      rw [hvalid] at hv
      rw [hup]
      exact hc.live_upper p hp hv hx
    · intro i hi
      exact hc.stab i hi
  refine ⟨?_, ?_, ?_, hcores 0 h.core0, hcores 1 h.core1, ?_, ?_, ?_, ?_, ?_, ?_, ?_⟩
  · rw [hplen, hmax]
    exact h.pool_len
  · rw [hbounds, hcount]
    exact h.len0
  · rw [hbounds, hcount]
    exact h.len1
  · rw [hbounds]
    exact h.sort0
  · rw [hbounds]
    exact h.sort1
  · rw [hworld]
    exact h.world_x
  · rw [hworld]
    exact h.world_y
  · rw [hquant, hworld]
    exact h.quant_x
  · rw [hquant, hworld]
    exact h.quant_y
  · obtain ⟨fl, hchain, hlen⟩ := h.freelist
    refine ⟨fl, ?_, by rw [hcount, hmax]; exact hlen⟩
    rw [hfree, hmax]
    exact FreeChain.of_dead_links hchain
      (fun q hq => by rw [hvalid]; exact hq) (fun q _ => hnext q)

theorem commit_inv (bp : BroadPhase) (h : BPInv bp) : BPInv bp.commitStep.1 :=
  ⟨h.pool_len, h.len0, h.len1, h.core0, h.core1, h.sort0, h.sort1, h.world_x,
   h.world_y, h.quant_x, h.quant_y, h.freelist⟩

theorem iOC_valid_eq (bp : BroadPhase) (x : Nat)
    (hx : (bp.proxyPool.getD x default).isValidProxy = true) :
    ∀ q, ((bp.incrementOverlapCount x).proxyPool.getD q default).isValidProxy =
      (bp.proxyPool.getD q default).isValidProxy := by
  intro q
  by_cases hq : x = q
  · subst hq
    by_cases hlen : x < bp.proxyPool.length
    · unfold BroadPhase.incrementOverlapCount
      dsimp only
      split
      · rw [getD_set_eq _ _ _ hlen, hx]
        rfl
      · rw [getD_set_eq _ _ _ hlen, hx]
        rfl
    · have hset : ∀ p : Proxy, bp.proxyPool.set x p = bp.proxyPool :=
        fun p => List.set_eq_of_length_le (by omega)
      unfold BroadPhase.incrementOverlapCount
      dsimp only
      split
      · rw [hset]
      · rw [hset]
  · rw [iOC_getD_ne bp x q hq]

theorem iOC_foldl_valid_eq (L : List Nat) :
    ∀ bp : BroadPhase, (∀ x ∈ L, (bp.proxyPool.getD x default).isValidProxy = true) →
      ∀ q, ((L.foldl BroadPhase.incrementOverlapCount bp).proxyPool.getD q
          default).isValidProxy = (bp.proxyPool.getD q default).isValidProxy := by
  induction L with
  | nil => intro bp _ q; rfl
  | cons x t ih =>
    intro bp hl q
    rw [List.foldl_cons]
    have hx := hl x (List.mem_cons_self x t)
    rw [ih (bp.incrementOverlapCount x) ?_ q, iOC_valid_eq bp x hx q]
    intro y hy
    rw [iOC_valid_eq bp x hx y]
    exact hl y (List.mem_cons_of_mem x hy)

theorem iOC_foldl_inv (L : List Nat) (bp : BroadPhase)
    (hlive : ∀ x ∈ L, (bp.proxyPool.getD x default).isValidProxy = true)
    (h : BPInv bp) : BPInv (L.foldl BroadPhase.incrementOverlapCount bp) := by
  have hf : QFrame bp (L.foldl BroadPhase.incrementOverlapCount bp) :=
    foldl_qframe _ (fun s a => incrementOverlapCount_qframe s a) L bp
  refine BPInv_transfer bp _ hf.max_eq hf.world_eq hf.quant_eq hf.bounds_eq
    hf.free_eq hf.count_eq hf.pool_length (iOC_foldl_valid_eq L bp hlive)
    (fun q => skel_lower (hf.skel_getD q)) (fun q => skel_upper (hf.skel_getD q))
    (fun q => skel_next (hf.skel_getD q)) h

theorem incrementTimeStamp_more (bp : BroadPhase) :
    bp.incrementTimeStamp.worldAABB = bp.worldAABB ∧
    bp.incrementTimeStamp.quantizationFactor = bp.quantizationFactor ∧
    ∀ q, (bp.incrementTimeStamp.proxyPool.getD q default).isValidProxy =
      (bp.proxyPool.getD q default).isValidProxy := by
  unfold BroadPhase.incrementTimeStamp
  split
  · refine ⟨rfl, rfl, fun q => ?_⟩
    rw [getD_map_zeroStamp]
    rfl
  · exact ⟨rfl, rfl, fun q => rfl⟩

theorem incrementTimeStamp_inv (bp : BroadPhase) (h : BPInv bp) :
    BPInv bp.incrementTimeStamp := by
  obtain ⟨hb, hfr, hc, hm, _, _, hpl, hrec⟩ := incrementTimeStamp_frame bp
  obtain ⟨hw, hq, hv⟩ := incrementTimeStamp_more bp
  exact BPInv_transfer bp _ hm hw hq hb hfr hc hpl hv
    (fun q => (hrec q).2.1) (fun q => (hrec q).2.2.1) (fun q => (hrec q).1) h

theorem passMarks_live (pool : List Proxy) (bounds : List Bound)
    (count axis lv uv : Nat)
    (hsort : ∀ i j : Nat, i < j → j < count →
      (bounds.getD i default).value ≤ (bounds.getD j default).value)
    (hlen : bounds.length = count)
    (holt : ∀ i, i < bounds.length → (bounds.getD i default).proxyId < pool.length)
    (holive : ∀ i, i < bounds.length →
      (pool.getD (bounds.getD i default).proxyId default).isValidProxy = true) :
    ∀ id ∈ passMarks pool bounds count axis lv uv,
      id < pool.length ∧ (pool.getD id default).isValidProxy = true := by
  have hlf := (binarySearch_le_facts bounds count lv hsort).1
  have huf := (binarySearch_le_facts bounds count uv hsort).1
  intro id hid
  unfold passMarks at hid
  dsimp only at hid
  rcases List.mem_append.mp hid with hide | hidh
  · rcases easyMarks_mem bounds _ _ id hide with ⟨j, _, hjb, _, hjpid⟩
    have hjc : j < bounds.length := by omega
    rw [← hjpid]
    exact ⟨holt j hjc, holive j hjc⟩
  · split at hidh
    · rcases hardMarks_mem pool bounds axis _ _ _ id hidh with ⟨j, hja, _, hjpid, _⟩
      have hjc : j < bounds.length := by omega
      rw [← hjpid]
      exact ⟨holt j hjc, holive j hjc⟩
    · simp at hidh

theorem queryAABB_inv (bp : BroadPhase) (aabb : AABB) (n : Nat) (h : BPInv bp) :
    BPInv (bp.queryAABB aabb n).1 := by
  unfold BroadPhase.queryAABB
  dsimp only
  set lv0 := (bp.computeBounds aabb).1.get 0 with hlv0
  set uv0 := (bp.computeBounds aabb).2.get 0 with huv0
  set lv1 := (bp.computeBounds aabb).1.get 1 with hlv1
  set uv1 := (bp.computeBounds aabb).2.get 1 with huv1
  rw [query_eq_marks bp lv0 uv0 (bp.bounds.get 0) (2 * bp.proxyCount) 0]
  set M0 := passMarks bp.proxyPool (bp.bounds.get 0) (2 * bp.proxyCount) 0 lv0 uv0 with hM0
  set bp1 := M0.foldl BroadPhase.incrementOverlapCount bp with hbp1
  have hlive0 : ∀ x ∈ M0, (bp.proxyPool.getD x default).isValidProxy = true := by
    intro x hx
    refine (passMarks_live bp.proxyPool (bp.bounds.get 0) (2 * bp.proxyCount) 0 lv0 uv0
      ?_ h.len0 (h.core0.owner_lt) (h.core0.owner_live) x (hM0 ▸ hx)).2
    intro i j hij hj
    exact h.sort0 i j hij (by rw [h.len0]; exact hj)
  have h1 : BPInv bp1 := iOC_foldl_inv M0 bp hlive0 h
  rw [query_eq_marks bp1 lv1 uv1 (bp1.bounds.get 1) (2 * bp1.proxyCount) 1]
  set M1 := passMarks bp1.proxyPool (bp1.bounds.get 1) (2 * bp1.proxyCount) 1 lv1 uv1 with hM1
  set bp2 := M1.foldl BroadPhase.incrementOverlapCount bp1 with hbp2
  have hlive1 : ∀ x ∈ M1, (bp1.proxyPool.getD x default).isValidProxy = true := by
    intro x hx
    refine (passMarks_live bp1.proxyPool (bp1.bounds.get 1) (2 * bp1.proxyCount) 1 lv1 uv1
      ?_ h1.len1 (h1.core1.owner_lt) (h1.core1.owner_live) x (hM1 ▸ hx)).2
    intro i j hij hj
    exact h1.sort1 i j hij (by rw [h1.len1]; exact hj)
  have h2 : BPInv bp2 := iOC_foldl_inv M1 bp1 hlive1 h1
  have h2' : BPInv { bp2 with queryResults := [] } :=
    ⟨h2.pool_len, h2.len0, h2.len1, h2.core0, h2.core1, h2.sort0, h2.sort1,
     h2.world_x, h2.world_y, h2.quant_x, h2.quant_y, h2.freelist⟩
  exact incrementTimeStamp_inv _ h2'

theorem sortedVals_of_adjacent (l : List Bound)
    (h : ∀ i, i + 1 < l.length →
      (l.getD i default).value ≤ (l.getD (i + 1) default).value) :
    sortedVals l := by
  intro i j hij hj
  induction j with
  | zero => omega
  | succ j' ih =>
    rcases Nat.lt_or_ge i j' with hc | hc
    · exact le_trans (ih hc (by omega)) (h j' hj)
    · have : i = j' := by omega
      subst this
      exact h i hj

theorem stabOf_eq_of_value (b b' : Bound) (h : b'.value = b.value) :
    stabOf b' = stabOf b := by
  unfold stabOf Bound.isLower
  rw [h]

theorem PoolFrame.valid_eq {axis : Nat} {pool pool' : List Proxy}
    (h : PoolFrame axis pool pool') :
    ∀ q, (pool'.getD q default).isValidProxy = (pool.getD q default).isValidProxy := by
  intro q
  unfold Proxy.isValidProxy
  rw [h.oc_eq q]

theorem fixIndices_lower_untouched (b : List Bound) (axis : Nat) (pool : List Proxy)
    (lo hi pid : Nat)
    (h : ∀ j, lo ≤ j → j < hi →
      ¬((b.getD j default).proxyId = pid ∧ (b.getD j default).isLower = true)) :
    ((fixIndices b axis pool lo hi).getD pid default).lowerBounds =
      (pool.getD pid default).lowerBounds := by
  unfold fixIndices
  exact fixIndicesGo_lower_untouched b axis pid (hi - lo) lo pool
    (fun j h1 h2 => h j h1 (by omega))

theorem fixIndices_upper_untouched (b : List Bound) (axis : Nat) (pool : List Proxy)
    (lo hi pid : Nat)
    (h : ∀ j, lo ≤ j → j < hi →
      ¬((b.getD j default).proxyId = pid ∧ (b.getD j default).isLower = false)) :
    ((fixIndices b axis pool lo hi).getD pid default).upperBounds =
      (pool.getD pid default).upperBounds := by
  unfold fixIndices
  exact fixIndicesGo_upper_untouched b axis pid (hi - lo) lo pool
    (fun j h1 h2 => h j h1 (by omega))

theorem SapCoreX_transfer (pool pool' : List Proxy) (l : List Bound) (axis : Nat)
    (X : Nat → Prop)
    (hlen : pool'.length = pool.length)
    (hvalid : ∀ q, (pool'.getD q default).isValidProxy =
      (pool.getD q default).isValidProxy)
    (hlow : ∀ q, (pool'.getD q default).lowerBounds.get axis =
      (pool.getD q default).lowerBounds.get axis)
    (hup : ∀ q, (pool'.getD q default).upperBounds.get axis =
      (pool.getD q default).upperBounds.get axis)
    (h : SapCoreX pool l axis X) : SapCoreX pool' l axis X := by
  refine ⟨?_, ?_, ?_, ?_, ?_, ?_, ?_, ?_, h.stab⟩
  · intro i hi
    rw [hlen]
    exact h.owner_lt i hi
  · intro i hi
    rw [hvalid]
    exact h.owner_live i hi
  · intro i hi hl
    rw [hlow]
    exact h.lower_idx i hi hl
  · intro i hi hl
    rw [hup]
    exact h.upper_idx i hi hl
  · intro p hp hv hx
    rw [hlen] at hp
    rw [hvalid] at hv
    rw [hlow, hup]
    exact h.live_lt p hp hv hx
  · intro p hp hv hx
    rw [hlen] at hp
    rw [hvalid] at hv
    rw [hup]
    exact h.live_hi p hp hv hx
  · intro p hp hv hx
    rw [hlen] at hp
    rw [hvalid] at hv
    rw [hlow]
    exact h.live_lower p hp hv hx
  · intro p hp hv hx
    rw [hlen] at hp
    rw [hvalid] at hv
    rw [hup]
    exact h.live_upper p hp hv hx

/-- Invariant effect of one axis of CreateProxy: on a sorted, core-consistent
axis holding no entry of the fresh slot, the call returns an array two longer,
still sorted and fully core-consistent together with the updated pool, and
the liveness of every pool slot is untouched. -/
theorem createProxyAxis_inv (bp : BroadPhase) (pid axis boundCount : Nat)
    (lvs uvs : Duo Nat)
    (hlen : (bp.bounds.get axis).length = boundCount)
    (hsort : sortedVals (bp.bounds.get axis))
    (hcore : SapCoreX bp.proxyPool (bp.bounds.get axis) axis (fun p => p = pid))
    (hfresh : ∀ i, i < boundCount → ((bp.bounds.get axis).getD i default).proxyId ≠ pid)
    (hpid : pid < bp.proxyPool.length)
    (hpidlive : (bp.proxyPool.getD pid default).isValidProxy = true)
    (hlv : lvs.get axis % 2 = 0) (huv : uvs.get axis % 2 = 1)
    (hlvuv : lvs.get axis < uvs.get axis) :
    ((bp.createProxyAxis pid axis boundCount lvs uvs).bounds.get axis).length =
      boundCount + 2 ∧
    sortedVals ((bp.createProxyAxis pid axis boundCount lvs uvs).bounds.get axis) ∧
    SapCore (bp.createProxyAxis pid axis boundCount lvs uvs).proxyPool
      ((bp.createProxyAxis pid axis boundCount lvs uvs).bounds.get axis) axis ∧
    (∀ q, ((bp.createProxyAxis pid axis boundCount lvs uvs).proxyPool.getD q
        default).isValidProxy = (bp.proxyPool.getD q default).isValidProxy) := by
  set B := bp.bounds.get axis with hB
  set lv := lvs.get axis with hlvdef
  set uv := uvs.get axis with huvdef
  set lq := binarySearch B boundCount lv with hlq
  set uq := binarySearch B boundCount uv with huq
  set bp1 := (bp.query lv uv B boundCount axis).1 with hbp1
  set L : Bound := { value := lv, proxyId := pid, stabbingCount := 0 } with hL
  set U : Bound := { value := uv, proxyId := pid, stabbingCount := 0 } with hU
  set b1 := (B.insertIdx uq U).insertIdx lq L with hb1
  set b2 := b1.set lq
    { b1.getD lq default with
        stabbingCount := if lq = 0 then 0 else (b1.getD (lq - 1) default).stabbingCount }
    with hb2
  set b3 := b2.set (uq + 1)
    { b2.getD (uq + 1) default with
        stabbingCount := (b2.getD (uq + 1 - 1) default).stabbingCount } with hb3
  set b4 := incStabRange b3 lq (uq + 1) with hb4
  have hdef : bp.createProxyAxis pid axis boundCount lvs uvs =
      { bp1 with
          bounds := bp1.bounds.set axis b4
          proxyPool := fixIndices b4 axis bp1.proxyPool lq (boundCount + 2) } := rfl
  have hqf : QFrame bp bp1 := query_qframe bp lv uv B boundCount axis
  have hsortc : ∀ i j : Nat, i < j → j < boundCount →
      (B.getD i default).value ≤ (B.getD j default).value := by
    intro i j hij hj
    exact hsort i j hij (by rw [hlen]; exact hj)
  have hlf := binarySearch_le_facts B boundCount lv hsortc
  have huf := binarySearch_le_facts B boundCount uv hsortc
  have hlq_le : lq ≤ uq := binarySearch_mono B boundCount lv uv hsortc hlvuv
  have hlqc : lq ≤ boundCount := hlf.1
  have huqc : uq ≤ boundCount := huf.1
  have hlenU : (B.insertIdx uq U).length = boundCount + 1 := by
    rw [List.length_insertIdx _ _ (by omega)]
    omega
  have hlenb1 : b1.length = boundCount + 2 := by
    rw [hb1, List.length_insertIdx _ _ (by omega)]
    omega
  have hlenb4 : b4.length = boundCount + 2 := by
    rw [hb4, length_incStabRange, hb3, List.length_set, hb2, List.length_set, hlenb1]
  have hproj : ∀ j, (b4.getD j default).proxyId = (b1.getD j default).proxyId ∧
      (b4.getD j default).value = (b1.getD j default).value := by
    intro j
    have h4 := getD_incStab_proj b3 lq (uq + 1) j
    have h3 := getD_set_stab b2 (uq + 1) ((b2.getD (uq + 1 - 1) default).stabbingCount) j
    have h2 := getD_set_stab b1 lq
      (if lq = 0 then 0 else (b1.getD (lq - 1) default).stabbingCount) j
    rw [hb4, hb3, hb2]
    rw [hb3] at h4
    rw [hb2] at h3 h4
    exact ⟨(h4.1.trans h3.1).trans h2.1, (h4.2.trans h3.2).trans h2.2⟩
  have hinner : ∀ i, (B.insertIdx uq U).getD i default =
      if i < uq then B.getD i default else if i = uq then U else B.getD (i - 1) default :=
    fun i => getD_insertIdx B uq U i (by omega)
  have houter : ∀ j, b1.getD j default =
      if j < lq then (B.insertIdx uq U).getD j default
      else if j = lq then L
      else (B.insertIdx uq U).getD (j - 1) default :=
    fun j => getD_insertIdx (B.insertIdx uq U) lq L j (by omega)
  have hb1lq : b1.getD lq default = L := by
    rw [houter lq, if_neg (by omega), if_pos rfl]
  have hb1uq : b1.getD (uq + 1) default = U := by
    rw [houter (uq + 1), if_neg (by omega)]
    by_cases he : uq + 1 = lq
    · omega
    · rw [if_neg he, hinner (uq + 1 - 1)]
      rw [if_neg (by omega), if_pos (by omega)]
  have hchar1 : ∀ j, j < lq → b1.getD j default = B.getD j default := by
    intro j hj
    rw [houter j, if_pos hj, hinner j, if_pos (by omega)]
  have hchar2 : ∀ j, lq < j → j ≤ uq → b1.getD j default = B.getD (j - 1) default := by
    intro j hj1 hj2
    rw [houter j, if_neg (by omega), if_neg (by omega), hinner (j - 1),
      if_pos (by omega)]
  have hchar3 : ∀ j, uq + 1 < j → b1.getD j default = B.getD (j - 2) default := by
    intro j hj
    rw [houter j, if_neg (by omega), if_neg (by omega), hinner (j - 1),
      if_neg (by omega), if_neg (by omega)]
    have he : j - 1 - 1 = j - 2 := by omega
    rw [he]
  have hb3_ne : ∀ j, j ≠ lq → j ≠ uq + 1 → b3.getD j default = b1.getD j default := by
    intro j h1 h2
    rw [hb3, getD_set_ne _ _ _ _ (by omega), hb2, getD_set_ne _ _ _ _ (by omega)]
  have hb4_out : ∀ j, (j < lq ∨ uq + 1 < j) → b4.getD j default = b1.getD j default := by
    intro j hj
    rw [hb4, getD_incStabRange, if_neg (by omega)]
    exact hb3_ne j (by omega) (by omega)
  have hb4_mid : ∀ j, lq < j → j ≤ uq →
      b4.getD j default = { b1.getD j default with
        stabbingCount := (b1.getD j default).stabbingCount + 1 } := by
    intro j h1 h2
    have h3 := hb3_ne j (by omega) (by omega)
    rw [hb4, getD_incStabRange, if_pos ⟨by omega, by omega,
      by rw [hb3, List.length_set, hb2, List.length_set, hlenb1]; omega⟩, h3]
  have hb2lq : b2.getD lq default =
      { L with stabbingCount :=
        if lq = 0 then 0 else (B.getD (lq - 1) default).stabbingCount } := by
    rw [hb2, getD_set_eq _ _ _ (by rw [hlenb1]; omega), hb1lq]
    by_cases h0 : lq = 0
    · rw [if_pos h0, if_pos h0]
    · rw [if_neg h0, if_neg h0, hchar1 (lq - 1) (by omega)]
  have hb4_lq : b4.getD lq default =
      { L with stabbingCount :=
        (if lq = 0 then 0 else (B.getD (lq - 1) default).stabbingCount) + 1 } := by
    rw [hb4, getD_incStabRange, if_pos ⟨le_refl lq, by omega,
      by rw [hb3, List.length_set, hb2, List.length_set, hlenb1]; omega⟩]
    rw [hb3, getD_set_ne _ _ _ _ (by omega), hb2lq]
  have hb2uq : (b2.getD uq default).stabbingCount =
      if uq = 0 then 0 else (B.getD (uq - 1) default).stabbingCount := by
    by_cases he : uq = lq
    · rw [he, hb2lq]
    · rw [hb2, getD_set_ne _ _ _ _ (by omega), hchar2 uq (by omega) (le_refl uq),
        if_neg (by omega)]
  have hb4_uq1 : b4.getD (uq + 1) default =
      { U with stabbingCount :=
        if uq = 0 then 0 else (B.getD (uq - 1) default).stabbingCount } := by
    rw [hb4, getD_incStabRange, if_neg (by omega)]
    rw [hb3, getD_set_eq _ _ _ (by rw [hb2, List.length_set, hlenb1]; omega)]
    have huq1 : b2.getD (uq + 1) default = U := by
      rw [hb2, getD_set_ne _ _ _ _ (by omega), hb1uq]
    have h2 : uq + 1 - 1 = uq := by omega
    rw [h2, huq1, hb2uq]
  have hvlq : (b4.getD lq default).value = lv := by rw [hb4_lq]
  have hvuq : (b4.getD (uq + 1) default).value = uv := by rw [hb4_uq1]
  have hplq : (b4.getD lq default).proxyId = pid := by rw [hb4_lq]
  have hpuq : (b4.getD (uq + 1) default).proxyId = pid := by rw [hb4_uq1]
  have hb1old : ∀ j, j < boundCount + 2 → j ≠ lq → j ≠ uq + 1 →
      (b1.getD j default).proxyId ≠ pid := by
    intro j hj hne1 hne2
    rcases Nat.lt_trichotomy j lq with hc | hc | hc
    · rw [hchar1 j hc]
      exact hfresh j (by omega)
    · omega
    · by_cases hc2 : j ≤ uq
      · rw [hchar2 j hc hc2]
        exact hfresh (j - 1) (by omega)
      · rw [hchar3 j (by omega)]
        exact hfresh (j - 2) (by omega)
  have hb4old : ∀ j, j < boundCount + 2 → j ≠ lq → j ≠ uq + 1 →
      (b4.getD j default).proxyId ≠ pid := by
    intro j hj h1 h2
    rw [(hproj j).1]
    exact hb1old j hj h1 h2
  have hisv : ∀ (x y : Bound), x.value = y.value → x.isLower = y.isLower := by
    intro x y h
    unfold Bound.isLower
    rw [h]
  have hshift_own : ∀ i, i < boundCount →
      (b4.getD (if i < lq then i else if i < uq then i + 1 else i + 2)
        default).proxyId = (B.getD i default).proxyId ∧
      (b4.getD (if i < lq then i else if i < uq then i + 1 else i + 2)
        default).value = (B.getD i default).value := by
    intro i hi
    by_cases h1 : i < lq
    · rw [if_pos h1, hb4_out i (Or.inl h1), hchar1 i h1]
      exact ⟨rfl, rfl⟩
    · rw [if_neg h1]
      by_cases h2 : i < uq
      · rw [if_pos h2]
        rw [hb4_mid (i + 1) (by omega) (by omega), hchar2 (i + 1) (by omega) (by omega)]
        have he : i + 1 - 1 = i := by omega
        rw [he]
        exact ⟨rfl, rfl⟩
      · rw [if_neg h2]
        rw [hb4_out (i + 2) (Or.inr (by omega)), hchar3 (i + 2) (by omega)]
        have he : i + 2 - 2 = i := by omega
        rw [he]
        exact ⟨rfl, rfl⟩
  have hunshift : ∀ j, j < boundCount + 2 → j ≠ lq → j ≠ uq + 1 → ∃ i, i < boundCount ∧
      (if i < lq then i else if i < uq then i + 1 else i + 2) = j ∧
      (b4.getD j default).proxyId = (B.getD i default).proxyId ∧
      (b4.getD j default).value = (B.getD i default).value := by
    intro j hj h1 h2
    rcases Nat.lt_trichotomy j lq with hc | hc | hc
    · refine ⟨j, by omega, by rw [if_pos hc], ?_, ?_⟩ <;>
        rw [hb4_out j (Or.inl hc), hchar1 j hc]
    · omega
    · by_cases hc2 : j ≤ uq
      · refine ⟨j - 1, by omega, ?_, ?_, ?_⟩
        · rw [if_neg (by omega), if_pos (by omega)]
          omega
        · rw [hb4_mid j hc hc2, hchar2 j hc hc2]
        · rw [hb4_mid j hc hc2, hchar2 j hc hc2]
      · refine ⟨j - 2, by omega, ?_, ?_, ?_⟩
        · rw [if_neg (by omega), if_neg (by omega)]
          omega
        · rw [hb4_out j (Or.inr (by omega)), hchar3 j (by omega)]
        · rw [hb4_out j (Or.inr (by omega)), hchar3 j (by omega)]
  have hsort4 : sortedVals b4 := by
    apply sortedVals_of_adjacent
    intro i hi1
    rw [hlenb4] at hi1
    rcases Nat.lt_trichotomy (i + 1) lq with h1 | h1 | h1
    · rw [hb4_out i (Or.inl (by omega)), hchar1 i (by omega),
        hb4_out (i + 1) (Or.inl h1), hchar1 (i + 1) h1]
      exact hsortc i (i + 1) (by omega) (by omega)
    · rw [hb4_out i (Or.inl (by omega)), hchar1 i (by omega), h1, hb4_lq]
      exact hlf.2.1 i (by omega) (by omega)
    · rcases Nat.lt_trichotomy (i + 1) (uq + 1) with h2 | h2 | h2
      · by_cases hil : i = lq
        · rw [hil, hb4_lq, hb4_mid (lq + 1) (by omega) (by omega),
            hchar2 (lq + 1) (by omega) (by omega)]
          have he : lq + 1 - 1 = lq := by omega
          rw [he]
          exact hlf.2.2 lq (le_refl lq) (by omega)
        · rw [hb4_mid i (by omega) (by omega), hchar2 i (by omega) (by omega),
            hb4_mid (i + 1) (by omega) (by omega), hchar2 (i + 1) (by omega) (by omega)]
          have he : i + 1 - 1 = i := by omega
          rw [he]
          exact hsortc (i - 1) i (by omega) (by omega)
      · have hiuq : i = uq := by omega
        by_cases hil : i = lq
        · rw [hil, hb4_lq, (show lq + 1 = uq + 1 by omega), hb4_uq1]
          exact le_of_lt hlvuv
        · rw [hb4_mid i (by omega) (by omega), hchar2 i (by omega) (by omega),
            (show i + 1 = uq + 1 by omega), hb4_uq1]
          exact huf.2.1 (i - 1) (by omega) (by omega)
      · by_cases hi2 : i = uq + 1
        · rw [hi2, hb4_uq1, hb4_out (uq + 1 + 1) (Or.inr (by omega)),
            hchar3 (uq + 1 + 1) (by omega)]
          have he : uq + 1 + 1 - 2 = uq := by omega
          rw [he]
          exact huf.2.2 uq (le_refl uq) (by omega)
        · rw [hb4_out i (Or.inr (by omega)), hchar3 i (by omega),
            hb4_out (i + 1) (Or.inr (by omega)), hchar3 (i + 1) (by omega)]
          have he : i + 1 - 2 = i - 2 + 1 := by omega
          rw [he]
          exact hsortc (i - 2) (i - 2 + 1) (by omega) (by omega)
  have hstabL : stabOf L = 1 := by
    have h : L.isLower = true := by
      rw [isLower_iff]
      exact hlv
    simp [stabOf, h]
  have hstabU : stabOf U = -1 := by
    have h : U.isLower = false := by
      rw [isLower_false_iff]
      exact huv
    simp [stabOf, h]
  have hscan41 : ∀ j, scanCount b4 j = scanCount b1 j := by
    intro j
    refine scanCount_agree b1 b4 j (by rw [hlenb4, hlenb1]) ?_
    intro j' _
    exact stabOf_eq_of_value _ _ (hproj j').2
  have hscanBU_low : ∀ j, j < uq → scanCount (B.insertIdx uq U) j = scanCount B j :=
    fun j hj => scanCount_insert_lt U B uq j hj
  have hscan1 : ∀ j, j < lq → scanCount b1 j = scanCount B j := by
    intro j hj
    rw [hb1, scanCount_insert_lt L _ lq j hj]
    exact hscanBU_low j (by omega)
  have hscan_lq : scanCount b1 lq =
      (if lq = 0 then 0 else scanCount B (lq - 1)) + 1 := by
    rw [hb1, scanCount_insert_ge L _ lq lq (le_refl _) (by rw [hlenU]; omega), hstabL]
    by_cases h0 : lq = 0
    · rw [if_pos h0, if_pos h0]
    · rw [if_neg h0, if_neg h0, hscanBU_low (lq - 1) (by omega)]
  have hscan_mid : ∀ j, lq < j → j ≤ uq →
      scanCount b1 j = scanCount B (j - 1) + 1 := by
    intro j h1 h2
    rw [hb1, scanCount_insert_ge L _ lq j (by omega) (by rw [hlenU]; omega), hstabL,
      if_neg (by omega), hscanBU_low (j - 1) (by omega)]
  have hscanBU_uq : ∀ j, uq ≤ j → scanCount (B.insertIdx uq U) j =
      (if j = 0 then 0 else scanCount B (j - 1)) + stabOf U :=
    fun j hj => scanCount_insert_ge U B uq j hj (by omega)
  have hstab4 : ∀ j, j < boundCount + 2 →
      (b4.getD j default).stabbingCount = scanCount b4 j := by
    intro j hj
    rw [hscan41 j]
    rcases Nat.lt_trichotomy j lq with hc | hc | hc
    · rw [hb4_out j (Or.inl hc), hchar1 j hc, hscan1 j hc]
      exact hcore.stab j (by rw [hlen]; omega)
    · rw [hc, hb4_lq, hscan_lq]
      by_cases h0 : lq = 0
      · rw [if_pos h0, if_pos h0]
      · rw [if_neg h0, if_neg h0, hcore.stab (lq - 1) (by rw [hlen]; omega)]
    · by_cases hc2 : j ≤ uq
      · rw [hb4_mid j hc hc2, hscan_mid j hc hc2]
        have he : (b1.getD j default).stabbingCount =
            scanCount B (j - 1) := by
          rw [hchar2 j hc hc2]
          exact hcore.stab (j - 1) (by rw [hlen]; omega)
        rw [he]
      · by_cases hc3 : j = uq + 1
        · have hrhs : scanCount b1 (uq + 1) =
              (if uq = 0 then 0 else scanCount B (uq - 1)) + -1 + 1 := by
            rw [hb1, scanCount_insert_ge L _ lq (uq + 1) (by omega)
              (by rw [hlenU]; omega), hstabL,
              if_neg (show ¬(uq + 1 = 0) by omega)]
            have he : uq + 1 - 1 = uq := by omega
            rw [he, hscanBU_uq uq (le_refl uq), hstabU]
          rw [hc3, hb4_uq1, hrhs]
          by_cases h0 : uq = 0
          · rw [if_pos h0, if_pos h0]
            show (0 : Int) = 0 + -1 + 1
            omega
          · rw [if_neg h0, if_neg h0, hcore.stab (uq - 1) (by rw [hlen]; omega)]
            show scanCount B (uq - 1) = scanCount B (uq - 1) + -1 + 1
            omega
        · have hc4 : uq + 1 < j := by omega
          have hrhs : scanCount b1 j = scanCount B (j - 2) + -1 + 1 := by
            rw [hb1, scanCount_insert_ge L _ lq j (by omega)
              (by rw [hlenU]; omega), hstabL, if_neg (show ¬(j = 0) by omega),
              hscanBU_uq (j - 1) (by omega), hstabU,
              if_neg (show ¬(j - 1 = 0) by omega)]
            have he : j - 1 - 1 = j - 2 := by omega
            rw [he]
          rw [hb4_out j (Or.inr hc4), hchar3 j hc4, hrhs,
            hcore.stab (j - 2) (by rw [hlen]; omega)]
          omega
  have hvalid1 : ∀ q, (bp1.proxyPool.getD q default).isValidProxy =
      (bp.proxyPool.getD q default).isValidProxy := by
    have he := query_eq_marks bp lv uv B boundCount axis
    intro q
    rw [hbp1, he]
    exact iOC_foldl_valid_eq _ bp
      (fun x hx => (passMarks_live bp.proxyPool B boundCount axis lv uv hsortc hlen
        hcore.owner_lt hcore.owner_live x hx).2) q
  set pool2 := fixIndices b4 axis bp1.proxyPool lq (boundCount + 2) with hpool2
  have hpf : PoolFrame axis bp1.proxyPool pool2 :=
    fixIndices_poolFrame b4 axis bp1.proxyPool lq (boundCount + 2)
  have hvalid2 : ∀ q, (pool2.getD q default).isValidProxy =
      (bp.proxyPool.getD q default).isValidProxy :=
    fun q => (hpf.valid_eq q).trans (hvalid1 q)
  have hplen2 : pool2.length = bp.proxyPool.length := hpf.len_eq.trans hqf.pool_length
  have hpid2 : pid < bp1.proxyPool.length := by
    rw [hqf.pool_length]
    exact hpid
  have huniqL : ∀ j, lq ≤ j → j < boundCount + 2 → (b4.getD j default).proxyId = pid →
      (b4.getD j default).isLower = true → j = lq := by
    intro j h1 h2 h3 h4
    by_contra hne
    by_cases he2 : j = uq + 1
    · rw [he2, isLower_iff, hvuq] at h4
      omega
    · exact hb4old j h2 hne he2 h3
  have huniqU : ∀ j, lq ≤ j → j < boundCount + 2 → (b4.getD j default).proxyId = pid →
      (b4.getD j default).isLower = false → j = uq + 1 := by
    intro j h1 h2 h3 h4
    by_contra hne
    by_cases he2 : j = lq
    · rw [he2, isLower_false_iff, hvlq] at h4
      omega
    · exact hb4old j h2 he2 hne h3
  have hsetL : (pool2.getD pid default).lowerBounds.get axis = lq :=
    fixIndices_lower_set b4 axis bp1.proxyPool lq (boundCount + 2) lq pid hpid2
      (le_refl lq) (by omega) hplq (by rw [isLower_iff, hvlq]; exact hlv) huniqL
  have hsetU : (pool2.getD pid default).upperBounds.get axis = uq + 1 :=
    fixIndices_upper_set b4 axis bp1.proxyPool lq (boundCount + 2) (uq + 1) pid hpid2
      (by omega) (by omega) hpuq (by rw [isLower_false_iff, hvuq]; exact huv) huniqU
  have hrecL : ∀ p, p < bp.proxyPool.length →
      (bp.proxyPool.getD p default).isValidProxy = true → p ≠ pid →
      ∀ li, (bp.proxyPool.getD p default).lowerBounds.get axis = li →
      (pool2.getD p default).lowerBounds.get axis =
        (if li < lq then li else if li < uq then li + 1 else li + 2) := by
    intro p hp hv hne li hli
    have hll := hcore.live_lower p hp hv hne
    have hlt := hcore.live_lt p hp hv hne
    have hhi := hcore.live_hi p hp hv hne
    rw [hli] at hll hlt
    rw [hlen] at hhi
    have hlib : li < boundCount := by omega
    set si := (if li < lq then li else if li < uq then li + 1 else li + 2) with hsi
    have hso := hshift_own li hlib
    have hown2 : (b4.getD si default).proxyId = p := by
      rw [hso.1]
      exact hll.1
    have hlowsi : (b4.getD si default).isLower = true := by
      rw [hisv _ _ hso.2]
      exact hll.2
    have hsilt : si < boundCount + 2 := by
      rw [hsi]
      split_ifs <;> omega
    have huniqp : ∀ j, lq ≤ j → j < boundCount + 2 → (b4.getD j default).proxyId = p →
        (b4.getD j default).isLower = true → j = si := by
      intro j h1 h2 h3 h4
      have hjlq : j ≠ lq := by
        intro he2
        rw [he2, hplq] at h3
        exact hne h3.symm
      have hjuq : j ≠ uq + 1 := by
        intro he2
        rw [he2, hpuq] at h3
        exact hne h3.symm
      obtain ⟨i, hic, hie, hip, hival⟩ := hunshift j h2 hjlq hjuq
      have hiB : (B.getD i default).proxyId = p := by
        rw [← hip]
        exact h3
      have hiL : (B.getD i default).isLower = true := by
        rw [← hisv _ _ hival]
        exact h4
      have hidx := hcore.lower_idx i (by rw [hlen]; exact hic) hiL
      rw [hiB, hli] at hidx
      rw [← hie, ← hidx]
    by_cases hcase : lq ≤ si
    · exact fixIndices_lower_set b4 axis bp1.proxyPool lq (boundCount + 2) si p
        (by rw [hqf.pool_length]; omega) hcase hsilt hown2 hlowsi huniqp
    · have hlilq : li < lq := by
        by_contra h'
        apply hcase
        rw [hsi]
        split_ifs <;> omega
      have hlisi : si = li := by
        rw [hsi, if_pos hlilq]
      have hnone : ∀ j, lq ≤ j → j < boundCount + 2 →
          ¬((b4.getD j default).proxyId = p ∧ (b4.getD j default).isLower = true) := by
        rintro j h1 h2 ⟨h3, h4⟩
        have := huniqp j h1 h2 h3 h4
        omega
      have huntouched := fixIndices_lower_untouched b4 axis bp1.proxyPool lq
        (boundCount + 2) p hnone
      rw [hpool2]
      show ((fixIndices b4 axis bp1.proxyPool lq (boundCount + 2)).getD p
        default).lowerBounds.get axis = si
      rw [huntouched, skel_lower (hqf.skel_getD p), hli]
      exact hlisi.symm
  have hrecU : ∀ p, p < bp.proxyPool.length →
      (bp.proxyPool.getD p default).isValidProxy = true → p ≠ pid →
      ∀ ui, (bp.proxyPool.getD p default).upperBounds.get axis = ui →
      (pool2.getD p default).upperBounds.get axis =
        (if ui < lq then ui else if ui < uq then ui + 1 else ui + 2) := by
    intro p hp hv hne ui hui
    have hlu := hcore.live_upper p hp hv hne
    have hhi := hcore.live_hi p hp hv hne
    rw [hui] at hlu
    rw [hui, hlen] at hhi
    have huib : ui < boundCount := hhi
    set si := (if ui < lq then ui else if ui < uq then ui + 1 else ui + 2) with hsi
    have hso := hshift_own ui huib
    have hown2 : (b4.getD si default).proxyId = p := by
      rw [hso.1]
      exact hlu.1
    have hupsi : (b4.getD si default).isLower = false := by
      rw [hisv _ _ hso.2]
      exact hlu.2
    have hsilt : si < boundCount + 2 := by
      rw [hsi]
      split_ifs <;> omega
    have huniqp : ∀ j, lq ≤ j → j < boundCount + 2 → (b4.getD j default).proxyId = p →
        (b4.getD j default).isLower = false → j = si := by
      intro j h1 h2 h3 h4
      have hjlq : j ≠ lq := by
        intro he2
        rw [he2, hplq] at h3
        exact hne h3.symm
      have hjuq : j ≠ uq + 1 := by
        intro he2
        rw [he2, hpuq] at h3
        exact hne h3.symm
      obtain ⟨i, hic, hie, hip, hival⟩ := hunshift j h2 hjlq hjuq
      have hiB : (B.getD i default).proxyId = p := by
        rw [← hip]
        exact h3
      have hiU : (B.getD i default).isLower = false := by
        rw [← hisv _ _ hival]
        exact h4
      have hidx := hcore.upper_idx i (by rw [hlen]; exact hic) hiU
      rw [hiB, hui] at hidx
      rw [← hie, ← hidx]
    by_cases hcase : lq ≤ si
    · exact fixIndices_upper_set b4 axis bp1.proxyPool lq (boundCount + 2) si p
        (by rw [hqf.pool_length]; omega) hcase hsilt hown2 hupsi huniqp
    · have huilq : ui < lq := by
        by_contra h'
        apply hcase
        rw [hsi]
        split_ifs <;> omega
      have hlisi : si = ui := by
        rw [hsi, if_pos huilq]
      have hnone : ∀ j, lq ≤ j → j < boundCount + 2 →
          ¬((b4.getD j default).proxyId = p ∧ (b4.getD j default).isLower = false) := by
        rintro j h1 h2 ⟨h3, h4⟩
        have := huniqp j h1 h2 h3 h4
        omega
      have huntouched := fixIndices_upper_untouched b4 axis bp1.proxyPool lq
        (boundCount + 2) p hnone
      rw [hpool2]
      show ((fixIndices b4 axis bp1.proxyPool lq (boundCount + 2)).getD p
        default).upperBounds.get axis = si
      rw [huntouched, skel_upper (hqf.skel_getD p), hui]
      exact hlisi.symm
  have hcoreNew : SapCore pool2 b4 axis := by
    refine ⟨?_, ?_, ?_, ?_, ?_, ?_, ?_, ?_, ?_⟩
    · intro j hjl
      rw [hlenb4] at hjl
      rw [hplen2]
      by_cases h1 : j = lq
      · rw [h1, hplq]
        exact hpid
      · by_cases h2 : j = uq + 1
        · rw [h2, hpuq]
          exact hpid
        · obtain ⟨i, hic, hie, hip, hival⟩ := hunshift j hjl h1 h2
          rw [hip]
          exact hcore.owner_lt i (by rw [hlen]; exact hic)
    · intro j hjl
      rw [hlenb4] at hjl
      rw [hvalid2]
      by_cases h1 : j = lq
      · rw [h1, hplq]
        exact hpidlive
      · by_cases h2 : j = uq + 1
        · rw [h2, hpuq]
          exact hpidlive
        · obtain ⟨i, hic, hie, hip, hival⟩ := hunshift j hjl h1 h2
          rw [hip]
          exact hcore.owner_live i (by rw [hlen]; exact hic)
    · intro j hjl hlow
      rw [hlenb4] at hjl
      by_cases h1 : j = lq
      · rw [h1, hplq, hsetL]
      · by_cases h2 : j = uq + 1
        · rw [h2, isLower_iff, hvuq] at hlow
          omega
        · obtain ⟨i, hic, hie, hip, hival⟩ := hunshift j hjl h1 h2
          have hiL : (B.getD i default).isLower = true := by
            rw [← hisv _ _ hival]
            exact hlow
          have hne : (B.getD i default).proxyId ≠ pid := hfresh i hic
          have hidx := hcore.lower_idx i (by rw [hlen]; exact hic) hiL
          rw [hip]
          rw [hrecL (B.getD i default).proxyId
            (hcore.owner_lt i (by rw [hlen]; exact hic))
            (hcore.owner_live i (by rw [hlen]; exact hic)) hne i hidx]
          exact hie
    · intro j hjl hup
      rw [hlenb4] at hjl
      by_cases h1 : j = uq + 1
      · rw [h1, hpuq, hsetU]
      · by_cases h2 : j = lq
        · rw [h2, isLower_false_iff, hvlq] at hup
          omega
        · obtain ⟨i, hic, hie, hip, hival⟩ := hunshift j hjl h2 h1
          have hiU : (B.getD i default).isLower = false := by
            rw [← hisv _ _ hival]
            exact hup
          have hne : (B.getD i default).proxyId ≠ pid := hfresh i hic
          have hidx := hcore.upper_idx i (by rw [hlen]; exact hic) hiU
          rw [hip]
          rw [hrecU (B.getD i default).proxyId
            (hcore.owner_lt i (by rw [hlen]; exact hic))
            (hcore.owner_live i (by rw [hlen]; exact hic)) hne i hidx]
          exact hie
    · intro p hp hv _
      rw [hplen2] at hp
      rw [hvalid2] at hv
      by_cases hne : p = pid
      · rw [hne, hsetL, hsetU]
        omega
      · have hlt := hcore.live_lt p hp hv hne
        rw [hrecL p hp hv hne _ rfl, hrecU p hp hv hne _ rfl]
        split_ifs <;> omega
    · intro p hp hv _
      rw [hplen2] at hp
      rw [hvalid2] at hv
      rw [hlenb4]
      by_cases hne : p = pid
      · rw [hne, hsetU]
        omega
      · have hhi := hcore.live_hi p hp hv hne
        rw [hlen] at hhi
        rw [hrecU p hp hv hne _ rfl]
        split_ifs <;> omega
    · intro p hp hv _
      rw [hplen2] at hp
      rw [hvalid2] at hv
      by_cases hne : p = pid
      · rw [hne, hsetL]
        refine ⟨?_, ?_⟩
        · exact hplq
        · rw [isLower_iff, hvlq]
          exact hlv
      · have hll := hcore.live_lower p hp hv hne
        have hlt := hcore.live_lt p hp hv hne
        have hhi := hcore.live_hi p hp hv hne
        rw [hlen] at hhi
        have hlib : (bp.proxyPool.getD p default).lowerBounds.get axis < boundCount := by
          omega
        have hso := hshift_own _ hlib
        rw [hrecL p hp hv hne _ rfl]
        refine ⟨?_, ?_⟩
        · rw [hso.1]
          exact hll.1
        · rw [hisv _ _ hso.2]
          exact hll.2
    · intro p hp hv _
      rw [hplen2] at hp
      rw [hvalid2] at hv
      by_cases hne : p = pid
      · rw [hne, hsetU]
        refine ⟨?_, ?_⟩
        · exact hpuq
        · rw [isLower_false_iff, hvuq]
          exact huv
      · have hlu := hcore.live_upper p hp hv hne
        have hhi := hcore.live_hi p hp hv hne
        rw [hlen] at hhi
        have hso := hshift_own _ hhi
        rw [hrecU p hp hv hne _ rfl]
        refine ⟨?_, ?_⟩
        · rw [hso.1]
          exact hlu.1
        · rw [hisv _ _ hso.2]
          exact hlu.2
    · intro j hjl
      rw [hlenb4] at hjl
      exact hstab4 j hjl
  rw [hdef]
  refine ⟨?_, ?_, ?_, ?_⟩
  · show ((bp1.bounds.set axis b4).get axis).length = boundCount + 2
    rw [Duo.get_set_hit _ _ _ _ Iff.rfl, hlenb4]
  · show sortedVals ((bp1.bounds.set axis b4).get axis)
    rw [Duo.get_set_hit _ _ _ _ Iff.rfl]
    exact hsort4
  · show SapCore pool2 ((bp1.bounds.set axis b4).get axis) axis
    rw [Duo.get_set_hit _ _ _ _ Iff.rfl]
    exact hcoreNew
  · intro q
    exact hvalid2 q

theorem FreeChain.of_agree {pool pool' : List Proxy} {M head : Nat} {fl : List Nat}
    (h : FreeChain pool M head fl)
    (hagree : ∀ q ∈ fl, pool'.getD q default = pool.getD q default) :
    FreeChain pool' M head fl := by
  induction h with
  | nil => exact FreeChain.nil
  | cons hlt hdead hmem hch ih =>
    refine FreeChain.cons hlt ?_ hmem ?_
    · rw [hagree _ (List.mem_cons_self _ _)]
      exact hdead
    · rw [hagree _ (List.mem_cons_self _ _)]
      exact ih (fun q hq => hagree q (List.mem_cons_of_mem _ hq))

theorem FreeChain.cons_inv {pool : List Proxy} {M head f0 : Nat} {rest : List Nat}
    (h : FreeChain pool M head (f0 :: rest)) :
    head = f0 ∧ f0 < M ∧ (pool.getD f0 default).isValidProxy = false ∧ f0 ∉ rest ∧
    FreeChain pool M (pool.getD f0 default).next rest := by
  cases h with
  | cons h1 h2 h3 h4 => exact ⟨rfl, h1, h2, h3, h4⟩

theorem addFold_world (pid : Nat) (l : List Nat) (bp : BroadPhase) :
    (l.foldl (fun s r => s.addBufferedPair pid r) bp).worldAABB = bp.worldAABB ∧
    (l.foldl (fun s r => s.addBufferedPair pid r) bp).quantizationFactor =
      bp.quantizationFactor := by
  induction l generalizing bp with
  | nil => exact ⟨rfl, rfl⟩
  | cons x t ih => exact ih (bp.addBufferedPair pid x)

theorem removeFold_world (pid : Nat) (l : List Nat) (bp : BroadPhase) :
    (l.foldl (fun s r => s.removeBufferedPair pid r) bp).worldAABB = bp.worldAABB ∧
    (l.foldl (fun s r => s.removeBufferedPair pid r) bp).quantizationFactor =
      bp.quantizationFactor := by
  induction l generalizing bp with
  | nil => exact ⟨rfl, rfl⟩
  | cons x t ih => exact ih (bp.removeBufferedPair pid x)

theorem createProxy_inv (bp : BroadPhase) (aabb : AABB) (ud : Option Nat)
    (h : BPInv bp) (hcount : bp.proxyCount < bp.maxProxies)
    (haabb : aabb.isValid = true) :
    BPInv (bp.createProxy aabb ud).1 := by
  have haabbx : aabb.minVertex.x < aabb.maxVertex.x := by
    simp only [AABB.isValid, Bool.and_eq_true, decide_eq_true_eq] at haabb
    exact haabb.1
  have haabby : aabb.minVertex.y < aabb.maxVertex.y := by
    simp only [AABB.isValid, Bool.and_eq_true, decide_eq_true_eq] at haabb
    exact haabb.2
  obtain ⟨fl, hchain, hflen⟩ := h.freelist
  cases fl with
  | nil =>
    exfalso
    simp at hflen
    omega
  | cons f0 rest =>
    obtain ⟨hhead, hltf, hdeadf, hmemf, hchf⟩ := FreeChain.cons_inv hchain
    have hlt : bp.freeProxy < bp.maxProxies := by rw [hhead]; exact hltf
    have hdead : (bp.proxyPool.getD bp.freeProxy default).isValidProxy = false := by
      rw [hhead]; exact hdeadf
    have hmem : bp.freeProxy ∉ rest := by rw [hhead]; exact hmemf
    have hch : FreeChain bp.proxyPool bp.maxProxies
        ((bp.proxyPool.getD bp.freeProxy default).next) rest := by
      rw [hhead]; exact hchf
    set pid := bp.freeProxy with hpiddef
    set proxy0 := bp.proxyPool.getD pid default with hproxy0
    set bp0 : BroadPhase := { bp with
        freeProxy := proxy0.next
        proxyPool := bp.proxyPool.set pid { proxy0 with overlapCount := 0, userData := ud } }
      with hbp0
    set boundCount := 2 * bp.proxyCount with hbc
    set cb := bp0.computeBounds aabb with hcbdef
    set bpA := bp0.createProxyAxis pid 0 boundCount cb.1 cb.2 with hbpA
    set bpB := bpA.createProxyAxis pid 1 boundCount cb.1 cb.2 with hbpB
    set bpC : BroadPhase := { bpB with proxyCount := bpB.proxyCount + 1 } with hbpC
    set bpD := bpC.queryResults.foldl (fun s r => s.addBufferedPair pid r) bpC with hbpD
    set bpE : BroadPhase := bpD.pmCommit.1 with hbpE
    set bpF := BroadPhase.incrementTimeStamp { bpE with queryResults := [] } with hbpF
    have hcreate : (bp.createProxy aabb ud).1 = bpF := rfl
    rw [hcreate]
    have hpidlt : pid < bp.proxyPool.length := by
      rw [h.pool_len]
      exact hlt
    have hfresh0 : ∀ i, i < boundCount →
        ((bp.bounds.get 0).getD i default).proxyId ≠ pid := by
      intro i hi heq
      have hlive := h.core0.owner_live i (by rw [h.len0]; omega)
      rw [heq] at hlive
      rw [hlive] at hdead
      exact absurd hdead (by decide)
    have hfresh1 : ∀ i, i < boundCount →
        ((bp.bounds.get 1).getD i default).proxyId ≠ pid := by
      intro i hi heq
      have hlive := h.core1.owner_live i (by rw [h.len1]; omega)
      rw [heq] at hlive
      rw [hlive] at hdead
      exact absurd hdead (by decide)
    have hvalid0 : ∀ q, q ≠ pid →
        bp0.proxyPool.getD q default = bp.proxyPool.getD q default := by
      intro q hq
      show (bp.proxyPool.set pid _).getD q default = _
      exact getD_set_ne _ _ _ _ (fun he => hq he.symm)
    have hpid0 : bp0.proxyPool.getD pid default =
        { proxy0 with overlapCount := 0, userData := ud } := by
      show (bp.proxyPool.set pid _).getD pid default = _
      exact getD_set_eq _ _ _ hpidlt
    have hpid0live : (bp0.proxyPool.getD pid default).isValidProxy = true := by
      rw [hpid0]
      rfl
    have hplen0 : bp0.proxyPool.length = bp.proxyPool.length := by
      show (bp.proxyPool.set pid _).length = _
      simp
    have hcoreX : ∀ axis, SapCoreX bp.proxyPool (bp.bounds.get axis) axis
          (fun _ => False) →
        (∀ i, i < boundCount → ((bp.bounds.get axis).getD i default).proxyId ≠ pid) →
        (bp.bounds.get axis).length = boundCount →
        SapCoreX bp0.proxyPool (bp.bounds.get axis) axis (fun p => p = pid) := by
      intro axis hc hfr hbl
      refine ⟨?_, ?_, ?_, ?_, ?_, ?_, ?_, ?_, hc.stab⟩
      · intro i hi
        rw [hplen0]
        exact hc.owner_lt i hi
      · intro i hi
        rw [hvalid0 _ (hfr i (by omega))]
        exact hc.owner_live i hi
      · intro i hi hl
        rw [hvalid0 _ (hfr i (by omega))]
        exact hc.lower_idx i hi hl
      · intro i hi hl
        rw [hvalid0 _ (hfr i (by omega))]
        exact hc.upper_idx i hi hl
      · intro p hp hv hne
        rw [hplen0] at hp
        rw [hvalid0 p hne] at hv
        rw [hvalid0 p hne]
        exact hc.live_lt p hp hv not_false
      · intro p hp hv hne
        rw [hplen0] at hp
        rw [hvalid0 p hne] at hv
        rw [hvalid0 p hne]
        exact hc.live_hi p hp hv not_false
      · intro p hp hv hne
        rw [hplen0] at hp
        rw [hvalid0 p hne] at hv
        rw [hvalid0 p hne]
        exact hc.live_lower p hp hv not_false
      · intro p hp hv hne
        rw [hplen0] at hp
        rw [hvalid0 p hne] at hv
        rw [hvalid0 p hne]
        exact hc.live_upper p hp hv not_false
    have hpar10 : cb.1.get 0 % 2 = 0 := and_65534_even _
    have hpar11 : cb.1.get 1 % 2 = 0 := and_65534_even _
    have hpar20 : cb.2.get 0 % 2 = 1 := or_one_odd _
    have hpar21 : cb.2.get 1 % 2 = 1 := or_one_odd _
    have hlt0 : cb.1.get 0 < cb.2.get 0 :=
      axis_lower_lt_upper bp.quantizationFactor.x bp.worldAABB.minVertex.x
        bp.worldAABB.maxVertex.x aabb.minVertex.x aabb.maxVertex.x h.world_x
        h.quant_x (le_of_lt haabbx)
    have hlt1 : cb.1.get 1 < cb.2.get 1 :=
      axis_lower_lt_upper bp.quantizationFactor.y bp.worldAABB.minVertex.y
        bp.worldAABB.maxVertex.y aabb.minVertex.y aabb.maxVertex.y h.world_y
        h.quant_y (le_of_lt haabby)
    have hlen0' : (bp0.bounds.get 0).length = boundCount := by
      show (bp.bounds.get 0).length = boundCount
      rw [h.len0, hbc]
    have hlen1' : (bp.bounds.get 1).length = boundCount := by
      rw [h.len1, hbc]
    have hsort0' : sortedVals (bp0.bounds.get 0) := h.sort0
    have hcoreX0 : SapCoreX bp0.proxyPool (bp0.bounds.get 0) 0 (fun p => p = pid) :=
      hcoreX 0 h.core0 hfresh0 hlen0'
    have hC0 := createProxyAxis_inv bp0 pid 0 boundCount cb.1 cb.2 hlen0' hsort0'
      hcoreX0 hfresh0 (by rw [hplen0]; exact hpidlt) hpid0live hpar10 hpar20 hlt0
    obtain ⟨hlenA0, hsortA0, hcoreA0, hvalidA0⟩ := hC0
    have hE0 := createProxyAxis_effect bp0 pid 0 boundCount cb.1 cb.2 hlen0'
      (by intro i j h1 h2; exact hsort0' i j h1 (by rw [hlen0']; exact h2))
      hfresh0 (by rw [hplen0]; exact hpidlt) hpar10 hpar20 hlt0
    obtain ⟨hAF0, _, _, _, _, _⟩ := hE0
    have hb1A : bpA.bounds.get 1 = bp.bounds.get 1 := hAF0.bounds_other 1 (by decide)
    have hlen1A : (bpA.bounds.get 1).length = boundCount := by
      rw [hb1A]
      exact hlen1'
    have hsort1A : sortedVals (bpA.bounds.get 1) := by
      rw [hb1A]
      exact h.sort1
    have hcoreX1A : SapCoreX bpA.proxyPool (bpA.bounds.get 1) 1 (fun p => p = pid) := by
      rw [hb1A]
      exact SapCoreX_transfer bp0.proxyPool bpA.proxyPool _ 1 _ hAF0.pool_len
        hvalidA0 (fun q => hAF0.lower_other q 1 (by decide))
        (fun q => hAF0.upper_other q 1 (by decide))
        (hcoreX 1 h.core1 hfresh1 hlen1')
    have hC1 := createProxyAxis_inv bpA pid 1 boundCount cb.1 cb.2 hlen1A hsort1A
      hcoreX1A (by intro i hi; rw [hb1A]; exact hfresh1 i hi)
      (by rw [hAF0.pool_len, hplen0]; exact hpidlt)
      (by rw [hvalidA0]; exact hpid0live) hpar11 hpar21 hlt1
    obtain ⟨hlenB1, hsortB1, hcoreB1, hvalidB1⟩ := hC1
    have hE1 := createProxyAxis_effect bpA pid 1 boundCount cb.1 cb.2 hlen1A
      (by intro i j h1 h2; exact hsort1A i j h1 (by rw [hlen1A]; exact h2))
      (by intro i hi; rw [hb1A]; exact hfresh1 i hi)
      (by rw [hAF0.pool_len, hplen0]; exact hpidlt) hpar11 hpar21 hlt1
    obtain ⟨hAF1, _, _, _, _, _⟩ := hE1
    have hb0B : bpB.bounds.get 0 = bpA.bounds.get 0 := hAF1.bounds_other 0 (by decide)
    have hlenB0 : (bpB.bounds.get 0).length = boundCount + 2 := by
      rw [hb0B]
      exact hlenA0
    have hsortB0 : sortedVals (bpB.bounds.get 0) := by
      rw [hb0B]
      exact hsortA0
    have hcoreB0 : SapCore bpB.proxyPool (bpB.bounds.get 0) 0 := by
      rw [hb0B]
      exact SapCoreX_transfer bpA.proxyPool bpB.proxyPool _ 0 _ hAF1.pool_len
        hvalidB1 (fun q => hAF1.lower_other q 0 (by decide))
        (fun q => hAF1.upper_other q 0 (by decide)) hcoreA0
    have hvalidB : ∀ q, (bpB.proxyPool.getD q default).isValidProxy =
        (bp0.proxyPool.getD q default).isValidProxy :=
      fun q => (hvalidB1 q).trans (hvalidA0 q)
    have hnextB : ∀ q, (bpB.proxyPool.getD q default).next =
        (bp0.proxyPool.getD q default).next :=
      fun q => (hAF1.next_eq q).trans (hAF0.next_eq q)
    have hplenB : bpB.proxyPool.length = bp.proxyPool.length := by
      rw [hAF1.pool_len, hAF0.pool_len, hplen0]
    have hmaxB : bpB.maxProxies = bp.maxProxies := by
      rw [hAF1.max_eq, hAF0.max_eq]
    have hworldB : bpB.worldAABB = bp.worldAABB := by
      rw [hAF1.world_eq, hAF0.world_eq]
    have hquantB : bpB.quantizationFactor = bp.quantizationFactor := by
      rw [hAF1.quant_eq, hAF0.quant_eq]
    have hfreeB : bpB.freeProxy = proxy0.next := by
      rw [hAF1.free_eq, hAF0.free_eq]
    have hcountB : bpB.proxyCount = bp.proxyCount := by
      rw [hAF1.count_eq, hAF0.count_eq]
    have hinvC : BPInv bpC := by
      refine ⟨?_, ?_, ?_, hcoreB0, hcoreB1, hsortB0, hsortB1, ?_, ?_, ?_, ?_, ?_⟩
      · show bpB.proxyPool.length = bpB.maxProxies
        rw [hplenB, hmaxB]
        exact h.pool_len
      · show (bpB.bounds.get 0).length = 2 * (bpB.proxyCount + 1)
        rw [hlenB0, hcountB]
        omega
      · show (bpB.bounds.get 1).length = 2 * (bpB.proxyCount + 1)
        rw [hlenB1, hcountB]
        omega
      · show bpB.worldAABB.minVertex.x < bpB.worldAABB.maxVertex.x
        rw [hworldB]
        exact h.world_x
      · show bpB.worldAABB.minVertex.y < bpB.worldAABB.maxVertex.y
        rw [hworldB]
        exact h.world_y
      · show bpB.quantizationFactor.x = _
        rw [hquantB, hworldB]
        exact h.quant_x
      · show bpB.quantizationFactor.y = _
        rw [hquantB, hworldB]
        exact h.quant_y
      · refine ⟨rest, ?_, ?_⟩
        · show FreeChain bpB.proxyPool bpC.maxProxies bpB.freeProxy rest
          have hch0 : FreeChain bp0.proxyPool bp.maxProxies proxy0.next rest :=
            FreeChain.of_agree hch (fun q hq => hvalid0 q (fun he => hmem (he ▸ hq)))
          have hchB : FreeChain bpB.proxyPool bp.maxProxies proxy0.next rest :=
            FreeChain.of_dead_links hch0
              (fun q hq => by rw [hvalidB q]; exact hq)
              (fun q _ => hnextB q)
          have hm : bpC.maxProxies = bp.maxProxies := by
            show bpB.maxProxies = _
            exact hmaxB
          rw [hm, hfreeB]
          exact hchB
        · show rest.length + (bpB.proxyCount + 1) = bpB.maxProxies
          rw [hcountB, hmaxB]
          simp at hflen
          omega
    have haddf := addFold_frame pid bpC.queryResults bpC
    have haddw := addFold_world pid bpC.queryResults bpC
    have hits := incrementTimeStamp_frame { bpE with queryResults := ([] : List Nat) }
    have hitsm := incrementTimeStamp_more { bpE with queryResults := ([] : List Nat) }
    obtain ⟨hib, hifr, hic, him, _, _, hipl, hirec⟩ := hits
    obtain ⟨hiw, hiq, hiv⟩ := hitsm
    have hDCpool : bpD.proxyPool = bpC.proxyPool := haddf.2.1
    refine BPInv_transfer bpC bpF ?_ ?_ ?_ ?_ ?_ ?_ ?_ ?_ ?_ ?_ ?_ hinvC
    · rw [hbpF, him]
      show bpD.maxProxies = _
      exact haddf.2.2.2.2.2.1
    · rw [hbpF, hiw]
      show bpD.worldAABB = _
      exact haddw.1
    · rw [hbpF, hiq]
      show bpD.quantizationFactor = _
      exact haddw.2
    · rw [hbpF, hib]
      show bpD.bounds = _
      exact haddf.1
    · rw [hbpF, hifr]
      show bpD.freeProxy = _
      exact haddf.2.2.1
    · rw [hbpF, hic]
      show bpD.proxyCount = _
      exact haddf.2.2.2.1
    · rw [hbpF, hipl]
      show bpD.proxyPool.length = _
      rw [hDCpool]
    · intro q
      rw [hbpF, hiv q]
      show (bpD.proxyPool.getD q default).isValidProxy = _
      rw [hDCpool]
    · intro q
      rw [hbpF, (hirec q).2.1]
      show (bpD.proxyPool.getD q default).lowerBounds = _
      rw [hDCpool]
    · intro q
      rw [hbpF, (hirec q).2.2.1]
      show (bpD.proxyPool.getD q default).upperBounds = _
      rw [hDCpool]
    · intro q
      rw [hbpF, (hirec q).1]
      show (bpD.proxyPool.getD q default).next = _
      rw [hDCpool]

/-- Invariant effect of one axis of DestroyProxy: on a sorted, fully
core-consistent axis, removing a live proxy's two entries leaves an array two
shorter, still sorted and core-consistent up to the destroyed slot's stale
records, with no entry of the destroyed slot left and the liveness of every
pool slot untouched. -/
theorem destroyProxyAxis_inv (bp : BroadPhase) (pid axis boundCount : Nat)
    (hlen : (bp.bounds.get axis).length = boundCount)
    (hsort : sortedVals (bp.bounds.get axis))
    (hcore : SapCore bp.proxyPool (bp.bounds.get axis) axis)
    (hpid : pid < bp.proxyPool.length)
    (hpidlive : (bp.proxyPool.getD pid default).isValidProxy = true) :
    ((bp.destroyProxyAxis pid axis boundCount).bounds.get axis).length =
      boundCount - 2 ∧
    sortedVals ((bp.destroyProxyAxis pid axis boundCount).bounds.get axis) ∧
    SapCoreX (bp.destroyProxyAxis pid axis boundCount).proxyPool
      ((bp.destroyProxyAxis pid axis boundCount).bounds.get axis) axis
      (fun p => p = pid) ∧
    (∀ i, i < boundCount - 2 →
      (((bp.destroyProxyAxis pid axis boundCount).bounds.get axis).getD i
        default).proxyId ≠ pid) ∧
    (∀ q, ((bp.destroyProxyAxis pid axis boundCount).proxyPool.getD q
        default).isValidProxy = (bp.proxyPool.getD q default).isValidProxy) := by
  set B := bp.bounds.get axis with hB
  set li := (bp.proxyPool.getD pid default).lowerBounds.get axis with hlidef
  set ui := (bp.proxyPool.getD pid default).upperBounds.get axis with huidef
  set b1 := (B.eraseIdx ui).eraseIdx li with hb1
  set b2 := decStabRange b1 li (ui - 1) with hb2
  set pool1 := fixIndices b1 axis bp.proxyPool li (boundCount - 2) with hpool1
  set bp1 : BroadPhase :=
    { bp with bounds := bp.bounds.set axis b2, proxyPool := pool1 } with hbp1
  have hdef : bp.destroyProxyAxis pid axis boundCount =
      (bp1.query (B.getD li default).value (B.getD ui default).value b2
        (boundCount - 2) axis).1 := rfl
  have hlt : li < ui := hcore.live_lt pid hpid hpidlive not_false
  have hhi : ui < B.length := hcore.live_hi pid hpid hpidlive not_false
  have hll := hcore.live_lower pid hpid hpidlive not_false
  have hlu := hcore.live_upper pid hpid hpidlive not_false
  have hsortc : ∀ i j : Nat, i < j → j < boundCount →
      (B.getD i default).value ≤ (B.getD j default).value := by
    intro i j hij hj
    exact hsort i j hij (by rw [hlen]; exact hj)
  have hlenE1 : (B.eraseIdx ui).length = boundCount - 1 := by
    rw [List.length_eraseIdx_of_lt hhi, hlen]
  have hlenb1 : b1.length = boundCount - 2 := by
    rw [hb1, List.length_eraseIdx_of_lt (by rw [hlenE1]; omega), hlenE1]
    omega
  have hlenb2 : b2.length = boundCount - 2 := by
    rw [hb2, length_decStabRange, hlenb1]
  have hE1 : ∀ i, (B.eraseIdx ui).getD i default =
      if i < ui then B.getD i default else B.getD (i + 1) default :=
    fun i => getD_eraseIdx B ui i hhi
  have hO : ∀ j, b1.getD j default =
      if j < li then (B.eraseIdx ui).getD j default
      else (B.eraseIdx ui).getD (j + 1) default :=
    fun j => getD_eraseIdx _ li j (by rw [hlenE1]; omega)
  have hchar1 : ∀ j, j < li → b1.getD j default = B.getD j default := by
    intro j hj
    rw [hO j, if_pos hj, hE1 j, if_pos (by omega)]
  have hchar2 : ∀ j, li ≤ j → j + 1 < ui → b1.getD j default = B.getD (j + 1) default := by
    intro j h1 h2
    rw [hO j, if_neg (by omega), hE1 (j + 1), if_pos h2]
  have hchar3 : ∀ j, ui - 1 ≤ j → b1.getD j default = B.getD (j + 2) default := by
    intro j h1
    rw [hO j, if_neg (by omega), hE1 (j + 1), if_neg (by omega)]
  have hb2_out : ∀ j, ¬(li ≤ j ∧ j < ui - 1) → b2.getD j default = b1.getD j default := by
    intro j hj
    rw [hb2, getD_decStabRange, if_neg (by omega)]
  have hb2_mid : ∀ j, li ≤ j → j < ui - 1 →
      b2.getD j default = { b1.getD j default with
        stabbingCount := (b1.getD j default).stabbingCount - 1 } := by
    intro j h1 h2
    rw [hb2, getD_decStabRange, if_pos ⟨h1, h2, by rw [hlenb1]; omega⟩]
  have hnopid_old : ∀ i, i < boundCount → i ≠ li → i ≠ ui →
      (B.getD i default).proxyId ≠ pid := by
    intro i hi h1 h2 heq
    cases hL : (B.getD i default).isLower
    · have := hcore.upper_idx i (by rw [hlen]; omega) hL
      rw [heq] at this
      exact h2 this.symm
    · have := hcore.lower_idx i (by rw [hlen]; omega) hL
      rw [heq] at this
      exact h1 this.symm
  have hfresh1 : ∀ j, j < boundCount - 2 → (b1.getD j default).proxyId ≠ pid := by
    intro j hj
    rcases Nat.lt_trichotomy j li with hc | hc | hc
    · rw [hchar1 j hc]
      exact hnopid_old j (by omega) (by omega) (by omega)
    · by_cases h2 : j + 1 < ui
      · rw [hchar2 j (by omega) h2]
        exact hnopid_old (j + 1) (by omega) (by omega) (by omega)
      · rw [hchar3 j (by omega)]
        exact hnopid_old (j + 2) (by omega) (by omega) (by omega)
    · by_cases h2 : j + 1 < ui
      · rw [hchar2 j (by omega) h2]
        exact hnopid_old (j + 1) (by omega) (by omega) (by omega)
      · rw [hchar3 j (by omega)]
        exact hnopid_old (j + 2) (by omega) (by omega) (by omega)
  have hfresh2 : ∀ j, j < boundCount - 2 → (b2.getD j default).proxyId ≠ pid := by
    intro j hj
    rw [(getD_decStab_proj b1 li (ui - 1) j).1]
    exact hfresh1 j hj
  have hstabLi : stabOf (B.getD li default) = 1 := by
    have h := hll.2
    rw [← hlidef] at h
    unfold stabOf
    rw [h]
    rfl
  have hstabUi : stabOf (B.getD ui default) = -1 := by
    have h := hlu.2
    rw [← huidef] at h
    unfold stabOf
    rw [h]
    rfl
  have hE1li : (B.eraseIdx ui).getD li default = B.getD li default := by
    rw [hE1 li, if_pos hlt]
  have hscan21 : ∀ j, scanCount b2 j = scanCount b1 j := by
    intro j
    refine scanCount_agree b1 b2 j (by rw [hlenb2, hlenb1]) ?_
    intro j' _
    exact stabOf_eq_of_value _ _ (getD_decStab_proj b1 li (ui - 1) j').2
  have hscan1 : ∀ j, j < li → scanCount b1 j = scanCount B j := by
    intro j hj
    rw [hb1, scanCount_erase_lt _ li j hj, scanCount_erase_lt _ ui j (by omega)]
  have hscan_mid : ∀ j, li ≤ j → j + 1 < ui →
      scanCount b1 j = scanCount B (j + 1) - 1 := by
    intro j h1 h2
    rw [hb1, scanCount_erase_ge _ li j h1 (by rw [hlenE1]; omega), hE1li, hstabLi,
      scanCount_erase_lt _ ui (j + 1) h2]
  have hscan_hi : ∀ j, ui - 1 ≤ j → scanCount b1 j = scanCount B (j + 2) := by
    intro j h1
    rw [hb1, scanCount_erase_ge _ li j (by omega) (by rw [hlenE1]; omega), hE1li,
      hstabLi, scanCount_erase_ge _ ui (j + 1) (by omega) (by rw [hlen]; omega),
      hstabUi]
    rw [show j + 1 + 1 = j + 2 from rfl]
    omega
  have hstab2 : ∀ j, j < boundCount - 2 →
      (b2.getD j default).stabbingCount = scanCount b2 j := by
    intro j hj
    rw [hscan21 j]
    rcases Nat.lt_trichotomy j li with hc | hc | hc
    · rw [hb2_out j (by omega), hchar1 j hc, hscan1 j hc]
      exact hcore.stab j (by rw [hlen]; omega)
    · by_cases h2 : j + 1 < ui
      · rw [hb2_mid j (by omega) (by omega), hchar2 j (by omega) h2, hscan_mid j
          (by omega) h2, hcore.stab (j + 1) (by rw [hlen]; omega)]
      · rw [hb2_out j (by omega), hchar3 j (by omega), hscan_hi j (by omega)]
        exact hcore.stab (j + 2) (by rw [hlen]; omega)
    · by_cases h2 : j + 1 < ui
      · rw [hb2_mid j (by omega) (by omega), hchar2 j (by omega) h2, hscan_mid j
          (by omega) h2, hcore.stab (j + 1) (by rw [hlen]; omega)]
      · rw [hb2_out j (by omega), hchar3 j (by omega), hscan_hi j (by omega)]
        exact hcore.stab (j + 2) (by rw [hlen]; omega)
  have hval2 : ∀ j, (b2.getD j default).value = (b1.getD j default).value :=
    fun j => (getD_decStab_proj b1 li (ui - 1) j).2
  have hpid2 : ∀ j, (b2.getD j default).proxyId = (b1.getD j default).proxyId :=
    fun j => (getD_decStab_proj b1 li (ui - 1) j).1
  have hsort2 : sortedVals b2 := by
    apply sortedVals_of_adjacent
    intro j hj1
    rw [hlenb2] at hj1
    rw [hval2 j, hval2 (j + 1)]
    by_cases c1 : j + 1 < li
    · rw [hchar1 j (by omega), hchar1 (j + 1) c1]
      exact hsortc j (j + 1) (by omega) (by omega)
    · by_cases c2 : j < li
      · rw [hchar1 j c2]
        by_cases c3 : j + 1 + 1 < ui
        · rw [hchar2 (j + 1) (by omega) c3]
          exact hsortc j (j + 2) (by omega) (by omega)
        · rw [hchar3 (j + 1) (by omega)]
          exact hsortc j (j + 3) (by omega) (by omega)
      · by_cases c3 : j + 1 + 1 < ui
        · rw [hchar2 j (by omega) (by omega), hchar2 (j + 1) (by omega) c3]
          exact hsortc (j + 1) (j + 2) (by omega) (by omega)
        · by_cases c4 : j + 1 < ui
          · rw [hchar2 j (by omega) c4, hchar3 (j + 1) (by omega)]
            exact hsortc (j + 1) (j + 3) (by omega) (by omega)
          · rw [hchar3 j (by omega), hchar3 (j + 1) (by omega)]
            exact hsortc (j + 2) (j + 3) (by omega) (by omega)
  have hshift_own : ∀ i, i < boundCount → i ≠ li → i ≠ ui →
      b1.getD (if i < li then i else if i < ui then i - 1 else i - 2) default =
        B.getD i default := by
    intro i hi h1 h2
    by_cases hc1 : i < li
    · rw [if_pos hc1]
      exact hchar1 i hc1
    · rw [if_neg hc1]
      by_cases hc2 : i < ui
      · rw [if_pos hc2]
        have he : i - 1 + 1 = i := by omega
        rw [hchar2 (i - 1) (by omega) (by omega), he]
      · rw [if_neg hc2]
        have he : i - 2 + 2 = i := by omega
        rw [hchar3 (i - 2) (by omega), he]
  have hunshift : ∀ j, j < boundCount - 2 → ∃ i, i < boundCount ∧ i ≠ li ∧ i ≠ ui ∧
      (if i < li then i else if i < ui then i - 1 else i - 2) = j ∧
      b1.getD j default = B.getD i default := by
    intro j hj
    by_cases hc1 : j < li
    · exact ⟨j, by omega, by omega, by omega, by rw [if_pos hc1], hchar1 j hc1⟩
    · by_cases hc2 : j + 1 < ui
      · refine ⟨j + 1, by omega, by omega, by omega, ?_, hchar2 j (by omega) hc2⟩
        rw [if_neg (show ¬(j + 1 < li) by omega), if_pos (show j + 1 < ui by omega)]
        omega
      · refine ⟨j + 2, by omega, by omega, by omega, ?_, hchar3 j (by omega)⟩
        rw [if_neg (show ¬(j + 2 < li) by omega), if_neg (show ¬(j + 2 < ui) by omega)]
        omega
  have hpfx : PoolFrame axis bp.proxyPool pool1 :=
    fixIndices_poolFrame b1 axis bp.proxyPool li (boundCount - 2)
  have hisv : ∀ (x y : Bound), x.value = y.value → x.isLower = y.isLower := by
    intro x y h
    unfold Bound.isLower
    rw [h]
  have hrecL : ∀ p, p < bp.proxyPool.length →
      (bp.proxyPool.getD p default).isValidProxy = true → p ≠ pid →
      ∀ lp, (bp.proxyPool.getD p default).lowerBounds.get axis = lp →
      (pool1.getD p default).lowerBounds.get axis =
        (if lp < li then lp else if lp < ui then lp - 1 else lp - 2) := by
    intro p hp hv hne lp hlp
    have hll' := hcore.live_lower p hp hv not_false
    have hlt' := hcore.live_lt p hp hv not_false
    have hhi' := hcore.live_hi p hp hv not_false
    rw [hlp] at hll' hlt'
    rw [hlen] at hhi'
    have hlpb : lp < boundCount := by omega
    have huibc : ui < boundCount := by
      rw [← hlen]
      exact hhi
    have hlpli : lp ≠ li := by
      intro he
      rw [he] at hll'
      exact hne (hll'.1.symm.trans hll.1)
    have hlpui : lp ≠ ui := by
      intro he
      rw [he] at hll'
      exact hne (hll'.1.symm.trans hlu.1)
    set sp := (if lp < li then lp else if lp < ui then lp - 1 else lp - 2) with hsp
    have hso : b1.getD sp default = B.getD lp default := hshift_own lp hlpb hlpli hlpui
    have hown2 : (b1.getD sp default).proxyId = p := by
      rw [hso]
      exact hll'.1
    have hlowsp : (b1.getD sp default).isLower = true := by
      rw [hso]
      exact hll'.2
    have hsplt : sp < boundCount - 2 := by
      rw [hsp]
      split_ifs <;> omega
    have huniqp : ∀ j, li ≤ j → j < boundCount - 2 → (b1.getD j default).proxyId = p →
        (b1.getD j default).isLower = true → j = sp := by
      intro j h1 h2 h3 h4
      obtain ⟨i, hic, hili, hiui, hie, hieq⟩ := hunshift j h2
      rw [hieq] at h3 h4
      have hidx := hcore.lower_idx i (by rw [hlen]; exact hic) h4
      rw [h3, hlp] at hidx
      rw [← hie, ← hidx]
    by_cases hcase : li ≤ sp
    · exact fixIndices_lower_set b1 axis bp.proxyPool li (boundCount - 2) sp p hp
        hcase hsplt hown2 hlowsp huniqp
    · have hlpli2 : lp < li := by
        by_contra h'
        apply hcase
        rw [hsp]
        split_ifs <;> omega
      have hspeq : sp = lp := by
        rw [hsp, if_pos hlpli2]
      have hnone : ∀ j, li ≤ j → j < boundCount - 2 →
          ¬((b1.getD j default).proxyId = p ∧ (b1.getD j default).isLower = true) := by
        rintro j h1 h2 ⟨h3, h4⟩
        have := huniqp j h1 h2 h3 h4
        omega
      have hunt := fixIndices_lower_untouched b1 axis bp.proxyPool li (boundCount - 2)
        p hnone
      rw [hpool1]
      show ((fixIndices b1 axis bp.proxyPool li (boundCount - 2)).getD p
        default).lowerBounds.get axis = sp
      rw [hunt, hlp, hspeq]
  have hrecU : ∀ p, p < bp.proxyPool.length →
      (bp.proxyPool.getD p default).isValidProxy = true → p ≠ pid →
      ∀ up, (bp.proxyPool.getD p default).upperBounds.get axis = up →
      (pool1.getD p default).upperBounds.get axis =
        (if up < li then up else if up < ui then up - 1 else up - 2) := by
    intro p hp hv hne up hup
    have hlu' := hcore.live_upper p hp hv not_false
    have hhi' := hcore.live_hi p hp hv not_false
    rw [hup] at hlu'
    rw [hup, hlen] at hhi'
    have hupb : up < boundCount := hhi'
    have huibc : ui < boundCount := by
      rw [← hlen]
      exact hhi
    have hupli : up ≠ li := by
      intro he
      rw [he] at hlu'
      exact hne (hlu'.1.symm.trans hll.1)
    have hupui : up ≠ ui := by
      intro he
      rw [he] at hlu'
      exact hne (hlu'.1.symm.trans hlu.1)
    set sp := (if up < li then up else if up < ui then up - 1 else up - 2) with hsp
    have hso : b1.getD sp default = B.getD up default := hshift_own up hupb hupli hupui
    have hown2 : (b1.getD sp default).proxyId = p := by
      rw [hso]
      exact hlu'.1
    have hupsp : (b1.getD sp default).isLower = false := by
      rw [hso]
      exact hlu'.2
    have hsplt : sp < boundCount - 2 := by
      rw [hsp]
      split_ifs <;> omega
    have huniqp : ∀ j, li ≤ j → j < boundCount - 2 → (b1.getD j default).proxyId = p →
        (b1.getD j default).isLower = false → j = sp := by
      intro j h1 h2 h3 h4
      obtain ⟨i, hic, hili, hiui, hie, hieq⟩ := hunshift j h2
      rw [hieq] at h3 h4
      have hidx := hcore.upper_idx i (by rw [hlen]; exact hic) h4
      rw [h3, hup] at hidx
      rw [← hie, ← hidx]
    by_cases hcase : li ≤ sp
    · exact fixIndices_upper_set b1 axis bp.proxyPool li (boundCount - 2) sp p hp
        hcase hsplt hown2 hupsp huniqp
    · have hupli2 : up < li := by
        by_contra h'
        apply hcase
        rw [hsp]
        split_ifs <;> omega
      have hspeq : sp = up := by
        rw [hsp, if_pos hupli2]
      have hnone : ∀ j, li ≤ j → j < boundCount - 2 →
          ¬((b1.getD j default).proxyId = p ∧ (b1.getD j default).isLower = false) := by
        rintro j h1 h2 ⟨h3, h4⟩
        have := huniqp j h1 h2 h3 h4
        omega
      have hunt := fixIndices_upper_untouched b1 axis bp.proxyPool li (boundCount - 2)
        p hnone
      rw [hpool1]
      show ((fixIndices b1 axis bp.proxyPool li (boundCount - 2)).getD p
        default).upperBounds.get axis = sp
      rw [hunt, hup, hspeq]
  have hcoreMid : SapCoreX pool1 b2 axis (fun p => p = pid) := by
    refine ⟨?_, ?_, ?_, ?_, ?_, ?_, ?_, ?_, ?_⟩
    · intro j hjl
      rw [hlenb2] at hjl
      rw [hpfx.len_eq, hpid2 j]
      obtain ⟨i, hic, _, _, _, hieq⟩ := hunshift j hjl
      rw [hieq]
      exact hcore.owner_lt i (by rw [hlen]; exact hic)
    · intro j hjl
      rw [hlenb2] at hjl
      rw [hpfx.valid_eq, hpid2 j]
      obtain ⟨i, hic, _, _, _, hieq⟩ := hunshift j hjl
      rw [hieq]
      exact hcore.owner_live i (by rw [hlen]; exact hic)
    · intro j hjl hlow
      rw [hlenb2] at hjl
      have hlow1 : (b1.getD j default).isLower = true := by
        rw [← hisv _ _ (hval2 j)]
        exact hlow
      obtain ⟨i, hic, hili, hiui, hie, hieq⟩ := hunshift j hjl
      have hiL : (B.getD i default).isLower = true := by
        rw [← hieq]
        exact hlow1
      have hpi := hcore.owner_lt i (by rw [hlen]; exact hic)
      have hvi := hcore.owner_live i (by rw [hlen]; exact hic)
      have hnei : (B.getD i default).proxyId ≠ pid := hnopid_old i hic hili hiui
      have hidx := hcore.lower_idx i (by rw [hlen]; exact hic) hiL
      have hiP : (b2.getD j default).proxyId = (B.getD i default).proxyId := by
        rw [hpid2 j, hieq]
      rw [hiP, hrecL (B.getD i default).proxyId hpi hvi hnei i hidx]
      exact hie
    · intro j hjl hup
      rw [hlenb2] at hjl
      have hup1 : (b1.getD j default).isLower = false := by
        rw [← hisv _ _ (hval2 j)]
        exact hup
      obtain ⟨i, hic, hili, hiui, hie, hieq⟩ := hunshift j hjl
      have hiU : (B.getD i default).isLower = false := by
        rw [← hieq]
        exact hup1
      have hpi := hcore.owner_lt i (by rw [hlen]; exact hic)
      have hvi := hcore.owner_live i (by rw [hlen]; exact hic)
      have hnei : (B.getD i default).proxyId ≠ pid := hnopid_old i hic hili hiui
      have hidx := hcore.upper_idx i (by rw [hlen]; exact hic) hiU
      have hiP : (b2.getD j default).proxyId = (B.getD i default).proxyId := by
        rw [hpid2 j, hieq]
      rw [hiP, hrecU (B.getD i default).proxyId hpi hvi hnei i hidx]
      exact hie
    · intro p hp hv hne
      rw [hpfx.len_eq] at hp
      rw [hpfx.valid_eq] at hv
      have hlt' := hcore.live_lt p hp hv not_false
      have hll' := hcore.live_lower p hp hv not_false
      have hlu' := hcore.live_upper p hp hv not_false
      have hlpli : (bp.proxyPool.getD p default).lowerBounds.get axis ≠ li := by
        intro he
        rw [he] at hll'
        exact hne (hll'.1.symm.trans hll.1)
      have hupui : (bp.proxyPool.getD p default).upperBounds.get axis ≠ ui := by
        intro he
        rw [he] at hlu'
        exact hne (hlu'.1.symm.trans hlu.1)
      have hlpui : (bp.proxyPool.getD p default).lowerBounds.get axis ≠ ui := by
        intro he
        rw [he] at hll'
        exact hne (hll'.1.symm.trans hlu.1)
      have hupli : (bp.proxyPool.getD p default).upperBounds.get axis ≠ li := by
        intro he
        rw [he] at hlu'
        exact hne (hlu'.1.symm.trans hll.1)
      rw [hrecL p hp hv hne _ rfl, hrecU p hp hv hne _ rfl]
      split_ifs <;> omega
    · intro p hp hv hne
      rw [hpfx.len_eq] at hp
      rw [hpfx.valid_eq] at hv
      have hhi' := hcore.live_hi p hp hv not_false
      rw [hlen] at hhi'
      have huibc : ui < boundCount := by
        rw [← hlen]
        exact hhi
      have hlu' := hcore.live_upper p hp hv not_false
      have hupui : (bp.proxyPool.getD p default).upperBounds.get axis ≠ ui := by
        intro he
        rw [he] at hlu'
        exact hne (hlu'.1.symm.trans hlu.1)
      have hupli : (bp.proxyPool.getD p default).upperBounds.get axis ≠ li := by
        intro he
        rw [he] at hlu'
        exact hne (hlu'.1.symm.trans hll.1)
      rw [hlenb2, hrecU p hp hv hne _ rfl]
      split_ifs <;> omega
    · intro p hp hv hne
      rw [hpfx.len_eq] at hp
      rw [hpfx.valid_eq] at hv
      have hll' := hcore.live_lower p hp hv not_false
      have hlt' := hcore.live_lt p hp hv not_false
      have hhi' := hcore.live_hi p hp hv not_false
      rw [hlen] at hhi'
      have hlpb : (bp.proxyPool.getD p default).lowerBounds.get axis < boundCount := by
        omega
      have hlpli : (bp.proxyPool.getD p default).lowerBounds.get axis ≠ li := by
        intro he
        rw [he] at hll'
        exact hne (hll'.1.symm.trans hll.1)
      have hlpui : (bp.proxyPool.getD p default).lowerBounds.get axis ≠ ui := by
        intro he
        rw [he] at hll'
        exact hne (hll'.1.symm.trans hlu.1)
      have hso := hshift_own _ hlpb hlpli hlpui
      rw [hrecL p hp hv hne _ rfl]
      refine ⟨?_, ?_⟩
      · rw [hpid2, hso]
        exact hll'.1
      · rw [hisv _ _ (hval2 _), hso]
        exact hll'.2
    · intro p hp hv hne
      rw [hpfx.len_eq] at hp
      rw [hpfx.valid_eq] at hv
      have hlu' := hcore.live_upper p hp hv not_false
      have hhi' := hcore.live_hi p hp hv not_false
      rw [hlen] at hhi'
      have hupb : (bp.proxyPool.getD p default).upperBounds.get axis < boundCount :=
        hhi'
      have hupli : (bp.proxyPool.getD p default).upperBounds.get axis ≠ li := by
        intro he
        rw [he] at hlu'
        exact hne (hlu'.1.symm.trans hll.1)
      have hupui : (bp.proxyPool.getD p default).upperBounds.get axis ≠ ui := by
        intro he
        rw [he] at hlu'
        exact hne (hlu'.1.symm.trans hlu.1)
      have hso := hshift_own _ hupb hupli hupui
      rw [hrecU p hp hv hne _ rfl]
      refine ⟨?_, ?_⟩
      · rw [hpid2, hso]
        exact hlu'.1
      · rw [hisv _ _ (hval2 _), hso]
        exact hlu'.2
    · intro j hjl
      rw [hlenb2] at hjl
      exact hstab2 j hjl
  set bpF := (bp1.query (B.getD li default).value (B.getD ui default).value b2
    (boundCount - 2) axis).1 with hbpF
  have hqf : QFrame bp1 bpF := query_qframe bp1 _ _ b2 (boundCount - 2) axis
  have hFb : bpF.bounds.get axis = b2 := by
    rw [hqf.bounds_eq]
    show (bp.bounds.set axis b2).get axis = b2
    exact Duo.get_set_hit _ _ _ _ Iff.rfl
  have hsort2c : ∀ i j : Nat, i < j → j < boundCount - 2 →
      (b2.getD i default).value ≤ (b2.getD j default).value := by
    intro i j hij hj
    exact hsort2 i j hij (by rw [hlenb2]; exact hj)
  have hvalidF : ∀ q, (bpF.proxyPool.getD q default).isValidProxy =
      (pool1.getD q default).isValidProxy := by
    have hqm := query_eq_marks bp1 (B.getD li default).value
      (B.getD ui default).value b2 (boundCount - 2) axis
    intro q
    rw [hbpF, hqm]
    exact iOC_foldl_valid_eq _ bp1
      (fun x hx => (passMarks_live bp1.proxyPool b2 (boundCount - 2) axis _ _ hsort2c
        hlenb2 hcoreMid.owner_lt hcoreMid.owner_live x hx).2) q
  refine ⟨?_, ?_, ?_, ?_, ?_⟩
  · rw [hdef, hFb, hlenb2]
  · rw [hdef, hFb]
    exact hsort2
  · rw [hdef, hFb]
    exact SapCoreX_transfer pool1 bpF.proxyPool b2 axis _ hqf.pool_length hvalidF
      (fun q => by rw [skel_lower (hqf.skel_getD q)])
      (fun q => by rw [skel_upper (hqf.skel_getD q)]) hcoreMid
  · intro i hi
    rw [hdef, hFb]
    exact hfresh2 i hi
  · intro q
    rw [hdef]
    exact (hvalidF q).trans (hpfx.valid_eq q)

theorem FreeChain.mem_facts {pool : List Proxy} {M head : Nat} {fl : List Nat}
    (h : FreeChain pool M head fl) :
    fl.Nodup ∧ ∀ x ∈ fl, x < M ∧ (pool.getD x default).isValidProxy = false := by
  induction h with
  | nil =>
    refine ⟨List.nodup_nil, ?_⟩
    intro x hx
    simp at hx
  | cons hlt hdead hmem hch ih =>
    refine ⟨List.nodup_cons.mpr ⟨hmem, ih.1⟩, ?_⟩
    intro x hx
    rcases List.mem_cons.mp hx with he | hm
    · subst he
      exact ⟨hlt, hdead⟩
    · exact ih.2 x hm

theorem FreeChain.length_lt {pool : List Proxy} {M head : Nat} {fl : List Nat}
    (h : FreeChain pool M head fl) (pid : Nat) (hpid : pid < M)
    (hlive : (pool.getD pid default).isValidProxy = true) :
    fl.length < M := by
  obtain ⟨hnd, hmem⟩ := h.mem_facts
  have hpn : pid ∉ fl := by
    intro hx
    have hd := (hmem pid hx).2
    rw [hlive] at hd
    exact absurd hd (by decide)
  have hsub : fl.toFinset ⊆ (Finset.range M).erase pid := by
    intro x hx
    rw [List.mem_toFinset] at hx
    refine Finset.mem_erase.mpr ⟨?_, Finset.mem_range.mpr (hmem x hx).1⟩
    intro he
    exact hpn (he ▸ hx)
  have hcard := Finset.card_le_card hsub
  rw [List.toFinset_card_of_nodup hnd, Finset.card_erase_of_mem
    (Finset.mem_range.mpr hpid), Finset.card_range] at hcard
  omega

/-- Overwriting the exempted slot with a dead proxy turns partial core
consistency into full core consistency, provided no entry names that slot. -/
theorem SapCoreX_seal (pool : List Proxy) (l : List Bound) (axis pid : Nat)
    (pr : Proxy) (hdead : pr.isValidProxy = false)
    (hfresh : ∀ i, i < l.length → (l.getD i default).proxyId ≠ pid)
    (hc : SapCoreX pool l axis (fun p => p = pid)) :
    SapCore (pool.set pid pr) l axis := by
  by_cases hplt : pid < pool.length
  · have hne : ∀ q, q ≠ pid →
        (pool.set pid pr).getD q default = pool.getD q default :=
      fun q hq => getD_set_ne _ _ _ _ (fun he => hq he.symm)
    have hpe : (pool.set pid pr).getD pid default = pr := getD_set_eq _ _ _ hplt
    refine ⟨?_, ?_, ?_, ?_, ?_, ?_, ?_, ?_, hc.stab⟩
    · intro i hi
      rw [List.length_set]
      exact hc.owner_lt i hi
    · intro i hi
      rw [hne _ (hfresh i hi)]
      exact hc.owner_live i hi
    · intro i hi hl
      rw [hne _ (hfresh i hi)]
      exact hc.lower_idx i hi hl
    · intro i hi hl
      rw [hne _ (hfresh i hi)]
      exact hc.upper_idx i hi hl
    · intro p hp hv _
      by_cases hq : p = pid
      · subst hq
        rw [hpe, hdead] at hv
        exact absurd hv (by decide)
      · rw [List.length_set] at hp
        rw [hne p hq] at hv
        rw [hne p hq]
        exact hc.live_lt p hp hv hq
    · intro p hp hv _
      by_cases hq : p = pid
      · subst hq
        rw [hpe, hdead] at hv
        exact absurd hv (by decide)
      · rw [List.length_set] at hp
        rw [hne p hq] at hv
        rw [hne p hq]
        exact hc.live_hi p hp hv hq
    · intro p hp hv _
      by_cases hq : p = pid
      · subst hq
        rw [hpe, hdead] at hv
        exact absurd hv (by decide)
      · rw [List.length_set] at hp
        rw [hne p hq] at hv
        rw [hne p hq]
        exact hc.live_lower p hp hv hq
    · intro p hp hv _
      by_cases hq : p = pid
      · subst hq
        rw [hpe, hdead] at hv
        exact absurd hv (by decide)
      · rw [List.length_set] at hp
        rw [hne p hq] at hv
        rw [hne p hq]
        exact hc.live_upper p hp hv hq
  · rw [List.set_eq_of_length_le (by omega)]
    refine ⟨hc.owner_lt, hc.owner_live, hc.lower_idx, hc.upper_idx, ?_, ?_, ?_, ?_,
      hc.stab⟩
    · intro p hp hv _
      exact hc.live_lt p hp hv (by omega)
    · intro p hp hv _
      exact hc.live_hi p hp hv (by omega)
    · intro p hp hv _
      exact hc.live_lower p hp hv (by omega)
    · intro p hp hv _
      exact hc.live_upper p hp hv (by omega)

theorem destroyProxy_inv (bp : BroadPhase) (pid : Nat) (h : BPInv bp)
    (hpidM : pid < bp.maxProxies)
    (hlive : (bp.proxyPool.getD pid default).isValidProxy = true) :
    BPInv (bp.destroyProxy pid) := by
  obtain ⟨fl, hchain, hflen⟩ := h.freelist
  have hpidlt : pid < bp.proxyPool.length := by
    rw [h.pool_len]
    exact hpidM
  have hcount1 : 1 ≤ bp.proxyCount := by
    have := FreeChain.length_lt hchain pid hpidM hlive
    omega
  set boundCount := 2 * bp.proxyCount with hbc
  set bp1 := bp.destroyProxyAxis pid 0 boundCount with hbp1
  set bp2 := bp1.destroyProxyAxis pid 1 boundCount with hbp2
  set bp3 := bp2.queryResults.foldl (fun s r => s.removeBufferedPair pid r) bp2
    with hbp3
  set bp4 := bp3.pmCommit.1 with hbp4
  set bp5 := BroadPhase.incrementTimeStamp { bp4 with queryResults := [] } with hbp5
  set proxy5 := bp5.proxyPool.getD pid default with hproxy5
  set proxy1 : Proxy := { proxy5 with
      userData := none
      overlapCount := invalidIdx
      lowerBounds := ⟨invalidIdx, invalidIdx⟩
      upperBounds := ⟨invalidIdx, invalidIdx⟩
      next := bp5.freeProxy } with hproxy1
  set bpF : BroadPhase := { bp5 with
      proxyPool := bp5.proxyPool.set pid proxy1
      freeProxy := pid
      proxyCount := bp5.proxyCount - 1 } with hbpF
  have hdef : bp.destroyProxy pid = bpF := rfl
  rw [hdef]
  have hD0 := destroyProxyAxis_inv bp pid 0 boundCount (by rw [h.len0, hbc]) h.sort0
    h.core0 hpidlt hlive
  obtain ⟨hlenA0, hsortA0, hcoreA0, hfreshA0, hvalidA0⟩ := hD0
  have hE0 := destroyProxyAxis_effect bp pid 0 boundCount
    (h.core0.live_lt pid hpidlt hlive not_false)
    (h.core0.live_hi pid hpidlt hlive not_false)
  obtain ⟨hAF0, _⟩ := hE0
  have hb1A : bp1.bounds.get 1 = bp.bounds.get 1 := hAF0.bounds_other 1 (by decide)
  have hlen1A : (bp1.bounds.get 1).length = boundCount := by
    rw [hb1A, h.len1, hbc]
  have hsort1A : sortedVals (bp1.bounds.get 1) := by
    rw [hb1A]
    exact h.sort1
  have hcore1A : SapCore bp1.proxyPool (bp1.bounds.get 1) 1 := by
    rw [hb1A]
    exact SapCoreX_transfer bp.proxyPool bp1.proxyPool _ 1 _ hAF0.pool_len hvalidA0
      (fun q => hAF0.lower_other q 1 (by decide))
      (fun q => hAF0.upper_other q 1 (by decide)) h.core1
  have hpidlt1 : pid < bp1.proxyPool.length := by
    rw [hAF0.pool_len]
    exact hpidlt
  have hlive1 : (bp1.proxyPool.getD pid default).isValidProxy = true := by
    rw [hvalidA0]
    exact hlive
  have hD1 := destroyProxyAxis_inv bp1 pid 1 boundCount hlen1A hsort1A hcore1A
    hpidlt1 hlive1
  obtain ⟨hlenB1, hsortB1, hcoreB1, hfreshB1, hvalidB1⟩ := hD1
  have hE1 := destroyProxyAxis_effect bp1 pid 1 boundCount
    (hcore1A.live_lt pid hpidlt1 hlive1 not_false)
    (hcore1A.live_hi pid hpidlt1 hlive1 not_false)
  obtain ⟨hAF1, _⟩ := hE1
  have hb0B : bp2.bounds.get 0 = bp1.bounds.get 0 := hAF1.bounds_other 0 (by decide)
  have hlenB0 : (bp2.bounds.get 0).length = boundCount - 2 := by
    rw [hb0B]
    exact hlenA0
  have hsortB0 : sortedVals (bp2.bounds.get 0) := by
    rw [hb0B]
    exact hsortA0
  have hcoreB0 : SapCoreX bp2.proxyPool (bp2.bounds.get 0) 0 (fun p => p = pid) := by
    rw [hb0B]
    exact SapCoreX_transfer bp1.proxyPool bp2.proxyPool _ 0 _ hAF1.pool_len hvalidB1
      (fun q => hAF1.lower_other q 0 (by decide))
      (fun q => hAF1.upper_other q 0 (by decide)) hcoreA0
  have hfreshB0 : ∀ i, i < boundCount - 2 →
      ((bp2.bounds.get 0).getD i default).proxyId ≠ pid := by
    intro i hi
    rw [hb0B]
    exact hfreshA0 i hi
  have hvalidB : ∀ q, (bp2.proxyPool.getD q default).isValidProxy =
      (bp.proxyPool.getD q default).isValidProxy :=
    fun q => (hvalidB1 q).trans (hvalidA0 q)
  have hnextB : ∀ q, (bp2.proxyPool.getD q default).next =
      (bp.proxyPool.getD q default).next :=
    fun q => (hAF1.next_eq q).trans (hAF0.next_eq q)
  have hplenB : bp2.proxyPool.length = bp.proxyPool.length := by
    rw [hAF1.pool_len, hAF0.pool_len]
  have hmaxB : bp2.maxProxies = bp.maxProxies := by
    rw [hAF1.max_eq, hAF0.max_eq]
  have hworldB : bp2.worldAABB = bp.worldAABB := by
    rw [hAF1.world_eq, hAF0.world_eq]
  have hquantB : bp2.quantizationFactor = bp.quantizationFactor := by
    rw [hAF1.quant_eq, hAF0.quant_eq]
  have hfreeB : bp2.freeProxy = bp.freeProxy := by
    rw [hAF1.free_eq, hAF0.free_eq]
  have hcountB : bp2.proxyCount = bp.proxyCount := by
    rw [hAF1.count_eq, hAF0.count_eq]
  have hrf := removeFold_frame pid bp2.queryResults bp2
  have hrw := removeFold_world pid bp2.queryResults bp2
  have hits := incrementTimeStamp_frame { bp4 with queryResults := ([] : List Nat) }
  have hitsm := incrementTimeStamp_more { bp4 with queryResults := ([] : List Nat) }
  obtain ⟨hib, hifr, hic, him, _, _, hipl, hirec⟩ := hits
  obtain ⟨hiw, hiq, hiv⟩ := hitsm
  have hb3pool : bp3.proxyPool = bp2.proxyPool := hrf.2.1
  have hb5bounds : bp5.bounds = bp2.bounds := by
    rw [hbp5, hib]
    show bp3.bounds = _
    exact hrf.1
  have hb5free : bp5.freeProxy = bp2.freeProxy := by
    rw [hbp5, hifr]
    show bp3.freeProxy = _
    exact hrf.2.2.1
  have hb5count : bp5.proxyCount = bp2.proxyCount := by
    rw [hbp5, hic]
    show bp3.proxyCount = _
    exact hrf.2.2.2.1
  have hb5max : bp5.maxProxies = bp2.maxProxies := by
    rw [hbp5, him]
    show bp3.maxProxies = _
    exact hrf.2.2.2.2.2.1
  have hb5world : bp5.worldAABB = bp2.worldAABB := by
    rw [hbp5, hiw]
    show bp3.worldAABB = _
    exact hrw.1
  have hb5quant : bp5.quantizationFactor = bp2.quantizationFactor := by
    rw [hbp5, hiq]
    show bp3.quantizationFactor = _
    exact hrw.2
  have hb5plen : bp5.proxyPool.length = bp2.proxyPool.length := by
    rw [hbp5, hipl]
    show bp3.proxyPool.length = _
    rw [hb3pool]
  have hb5valid : ∀ q, (bp5.proxyPool.getD q default).isValidProxy =
      (bp2.proxyPool.getD q default).isValidProxy := by
    intro q
    rw [hbp5, hiv q]
    show (bp3.proxyPool.getD q default).isValidProxy = _
    rw [hb3pool]
  have hb5low : ∀ q, (bp5.proxyPool.getD q default).lowerBounds =
      (bp2.proxyPool.getD q default).lowerBounds := by
    intro q
    rw [hbp5, (hirec q).2.1]
    show (bp3.proxyPool.getD q default).lowerBounds = _
    rw [hb3pool]
  have hb5up : ∀ q, (bp5.proxyPool.getD q default).upperBounds =
      (bp2.proxyPool.getD q default).upperBounds := by
    intro q
    rw [hbp5, (hirec q).2.2.1]
    show (bp3.proxyPool.getD q default).upperBounds = _
    rw [hb3pool]
  have hb5next : ∀ q, (bp5.proxyPool.getD q default).next =
      (bp2.proxyPool.getD q default).next := by
    intro q
    rw [hbp5, (hirec q).1]
    show (bp3.proxyPool.getD q default).next = _
    rw [hb3pool]
  have hpidlt5 : pid < bp5.proxyPool.length := by
    rw [hb5plen, hplenB]
    exact hpidlt
  have hdead1 : proxy1.isValidProxy = false := rfl
  have hFpe : bpF.proxyPool.getD pid default = proxy1 := by
    show (bp5.proxyPool.set pid proxy1).getD pid default = proxy1
    exact getD_set_eq _ _ _ hpidlt5
  have hFne : ∀ q, q ≠ pid →
      bpF.proxyPool.getD q default = bp5.proxyPool.getD q default := by
    intro q hq
    show (bp5.proxyPool.set pid proxy1).getD q default = _
    exact getD_set_ne _ _ _ _ (fun he => hq he.symm)
  have hcoreF0 : SapCore bpF.proxyPool (bpF.bounds.get 0) 0 := by
    have hbF : bpF.bounds.get 0 = bp2.bounds.get 0 := by
      show bp5.bounds.get 0 = _
      rw [hb5bounds]
    rw [hbF]
    show SapCore (bp5.proxyPool.set pid proxy1) (bp2.bounds.get 0) 0
    refine SapCoreX_seal bp5.proxyPool _ 0 pid proxy1 hdead1 ?_ ?_
    · intro i hi
      exact hfreshB0 i (hlenB0 ▸ hi)
    · exact SapCoreX_transfer bp2.proxyPool bp5.proxyPool _ 0 _ hb5plen hb5valid
        (fun q => by rw [hb5low q]) (fun q => by rw [hb5up q]) hcoreB0
  have hcoreF1 : SapCore bpF.proxyPool (bpF.bounds.get 1) 1 := by
    have hbF : bpF.bounds.get 1 = bp2.bounds.get 1 := by
      show bp5.bounds.get 1 = _
      rw [hb5bounds]
    rw [hbF]
    show SapCore (bp5.proxyPool.set pid proxy1) (bp2.bounds.get 1) 1
    refine SapCoreX_seal bp5.proxyPool _ 1 pid proxy1 hdead1 ?_ ?_
    · intro i hi
      exact hfreshB1 i (hlenB1 ▸ hi)
    · exact SapCoreX_transfer bp2.proxyPool bp5.proxyPool _ 1 _ hb5plen hb5valid
        (fun q => by rw [hb5low q]) (fun q => by rw [hb5up q]) hcoreB1
  refine ⟨?_, ?_, ?_, hcoreF0, hcoreF1, ?_, ?_, ?_, ?_, ?_, ?_, ?_⟩
  · show (bp5.proxyPool.set pid proxy1).length = bp5.maxProxies
    rw [List.length_set, hb5plen, hplenB, hb5max, hmaxB]
    exact h.pool_len
  · show (bp5.bounds.get 0).length = 2 * (bp5.proxyCount - 1)
    rw [hb5bounds, hlenB0, hb5count, hcountB, hbc]
    omega
  · show (bp5.bounds.get 1).length = 2 * (bp5.proxyCount - 1)
    rw [hb5bounds, hlenB1, hb5count, hcountB, hbc]
    omega
  · show sortedVals (bp5.bounds.get 0)
    rw [hb5bounds]
    exact hsortB0
  · show sortedVals (bp5.bounds.get 1)
    rw [hb5bounds]
    exact hsortB1
  · show bp5.worldAABB.minVertex.x < bp5.worldAABB.maxVertex.x
    rw [hb5world, hworldB]
    exact h.world_x
  · show bp5.worldAABB.minVertex.y < bp5.worldAABB.maxVertex.y
    rw [hb5world, hworldB]
    exact h.world_y
  · show bp5.quantizationFactor.x =
      (USHRT_MAX : ℚ) / (bp5.worldAABB.maxVertex.x - bp5.worldAABB.minVertex.x)
    rw [hb5quant, hquantB, hb5world, hworldB]
    exact h.quant_x
  · show bp5.quantizationFactor.y =
      (USHRT_MAX : ℚ) / (bp5.worldAABB.maxVertex.y - bp5.worldAABB.minVertex.y)
    rw [hb5quant, hquantB, hb5world, hworldB]
    exact h.quant_y
  · refine ⟨pid :: fl, ?_, ?_⟩
    · show FreeChain bpF.proxyPool bp5.maxProxies pid (pid :: fl)
      have hmF : bp5.maxProxies = bp.maxProxies := by
        rw [hb5max, hmaxB]
      rw [hmF]
      have hpnotin : pid ∉ fl := by
        intro hx
        have hd := ((FreeChain.mem_facts hchain).2 pid hx).2
        rw [hlive] at hd
        exact absurd hd (by decide)
      have hchF : FreeChain bpF.proxyPool bp.maxProxies bp.freeProxy fl := by
        refine FreeChain.of_dead_links hchain ?_ ?_
        · intro q hq
          by_cases hqe : q = pid
          · subst hqe
            rw [hlive] at hq
            exact absurd hq (by decide)
          · rw [hFne q hqe, hb5valid q, hvalidB q]
            exact hq
        · intro q hq
          by_cases hqe : q = pid
          · subst hqe
            rw [hlive] at hq
            exact absurd hq (by decide)
          · rw [hFne q hqe, hb5next q, hnextB q]
      have hdF : (bpF.proxyPool.getD pid default).isValidProxy = false := by
        rw [hFpe]
        exact hdead1
      have hnF : (bpF.proxyPool.getD pid default).next = bp.freeProxy := by
        rw [hFpe]
        show bp5.freeProxy = bp.freeProxy
        rw [hb5free, hfreeB]
      refine FreeChain.cons hpidM hdF hpnotin ?_
      rw [hnF]
      exact hchF
    · show (pid :: fl).length + (bp5.proxyCount - 1) = bp5.maxProxies
      rw [List.length_cons, hb5count, hcountB, hb5max, hmaxB]
      omega

/-- Sortedness of the values outside a set of exempted positions; the bubble
walks of MoveProxy maintain this with the moving bound exempted. -/
def sortedExcept (l : List Bound) (E : Nat → Prop) : Prop :=
  ∀ i j : Nat, i < j → j < l.length → ¬E i → ¬E j →
    (l.getD i default).value ≤ (l.getD j default).value

theorem sortedExcept_mono (l : List Bound) (E E' : Nat → Prop)
    (himp : ∀ i, E' i → E i) (h : sortedExcept l E') : sortedExcept l E := by
  intro i j hij hj hi' hj'
  exact h i j hij hj (fun hc => hi' (himp i hc)) (fun hc => hj' (himp j hc))

theorem sortedVals_of_none (l : List Bound) (E : Nat → Prop) (hE : ∀ i, ¬E i)
    (h : sortedExcept l E) : sortedVals l :=
  fun i j hij hj => h i j hij hj (hE i) (hE j)

theorem sortedExcept_of_sorted (l : List Bound) (E : Nat → Prop)
    (h : sortedVals l) : sortedExcept l E :=
  fun i j hij hj _ _ => h i j hij hj

/-- Everything one axis walk of MoveProxy leaves alone: the other axis's
bounds, every slot's liveness, free link, payload and other-axis records, and
all scalar state except the pair buffer. -/
structure MoveFrame (axis : Nat) (bp bp' : BroadPhase) : Prop where
  bounds_other : ∀ a', ¬((a' = 0) ↔ (axis = 0)) → bp'.bounds.get a' = bp.bounds.get a'
  pool_len : bp'.proxyPool.length = bp.proxyPool.length
  valid_eq : ∀ q, (bp'.proxyPool.getD q default).isValidProxy =
    (bp.proxyPool.getD q default).isValidProxy
  next_eq : ∀ q, (bp'.proxyPool.getD q default).next = (bp.proxyPool.getD q default).next
  user_eq : ∀ q, (bp'.proxyPool.getD q default).userData =
    (bp.proxyPool.getD q default).userData
  lower_other : ∀ q a', ¬((a' = 0) ↔ (axis = 0)) →
    (bp'.proxyPool.getD q default).lowerBounds.get a' =
      (bp.proxyPool.getD q default).lowerBounds.get a'
  upper_other : ∀ q a', ¬((a' = 0) ↔ (axis = 0)) →
    (bp'.proxyPool.getD q default).upperBounds.get a' =
      (bp.proxyPool.getD q default).upperBounds.get a'
  free_eq : bp'.freeProxy = bp.freeProxy
  count_eq : bp'.proxyCount = bp.proxyCount
  max_eq : bp'.maxProxies = bp.maxProxies
  world_eq : bp'.worldAABB = bp.worldAABB
  quant_eq : bp'.quantizationFactor = bp.quantizationFactor
  ts_eq : bp'.timeStamp = bp.timeStamp

theorem MoveFrame.moveRefl (axis : Nat) (bp : BroadPhase) : MoveFrame axis bp bp :=
  ⟨fun _ _ => rfl, rfl, fun _ => rfl, fun _ => rfl, fun _ => rfl, fun _ _ _ => rfl,
   fun _ _ _ => rfl, rfl, rfl, rfl, rfl, rfl, rfl⟩

theorem MoveFrame.moveTrans {axis : Nat} {a b c : BroadPhase}
    (h1 : MoveFrame axis a b) (h2 : MoveFrame axis b c) : MoveFrame axis a c :=
  ⟨fun a' ha => (h2.bounds_other a' ha).trans (h1.bounds_other a' ha),
   h2.pool_len.trans h1.pool_len,
   fun q => (h2.valid_eq q).trans (h1.valid_eq q),
   fun q => (h2.next_eq q).trans (h1.next_eq q),
   fun q => (h2.user_eq q).trans (h1.user_eq q),
   fun q a' ha => (h2.lower_other q a' ha).trans (h1.lower_other q a' ha),
   fun q a' ha => (h2.upper_other q a' ha).trans (h1.upper_other q a' ha),
   h2.free_eq.trans h1.free_eq, h2.count_eq.trans h1.count_eq,
   h2.max_eq.trans h1.max_eq, h2.world_eq.trans h1.world_eq,
   h2.quant_eq.trans h1.quant_eq, h2.ts_eq.trans h1.ts_eq⟩

theorem getD_double_set (l : List Bound) (k : Nat) (hk : k + 1 < l.length) (i : Nat) :
    ((l.set k (l.getD (k + 1) default)).set (k + 1) (l.getD k default)).getD i default =
      if i = k then l.getD (k + 1) default
      else if i = k + 1 then l.getD k default
      else l.getD i default := by
  by_cases h1 : i = k + 1
  · subst h1
    rw [getD_set_eq _ _ _ (by simpa using hk)]
    rw [if_neg (by omega), if_pos rfl]
  · rw [getD_set_ne _ _ _ _ (fun he => h1 he.symm)]
    by_cases h2 : i = k
    · subst h2
      rw [getD_set_eq _ _ _ (by omega), if_pos rfl]
    · rw [getD_set_ne _ _ _ _ (fun he => h2 he.symm), if_neg h2, if_neg h1]

theorem scanCount_set_value (l : List Bound) (q : Nat) (x : Bound)
    (hx : x.value = (l.getD q default).value) :
    ∀ j, scanCount (l.set q x) j = scanCount l j := by
  intro j
  refine scanCount_agree l (l.set q x) j (by simp) ?_
  intro j' _
  by_cases hq : q = j'
  · subst hq
    by_cases hlen : q < l.length
    · rw [getD_set_eq _ _ _ hlen]
      exact stabOf_eq_of_value _ _ hx
    · rw [List.set_eq_of_length_le (by omega)]
  · rw [getD_set_ne _ _ _ _ hq]

theorem scanCount_at (l : List Bound) (j : Nat) (hj : j < l.length) :
    scanCount l j =
      (if j = 0 then 0 else scanCount l (j - 1)) + stabOf (l.getD j default) := by
  cases j with
  | zero =>
    rw [if_pos rfl]
    cases l with
    | nil => simp at hj
    | cons b t => show stabOf b = 0 + stabOf b; omega
  | succ j' =>
    rw [if_neg (by omega), scanCount_succ l j' hj,
      show j' + 1 - 1 = j' from rfl]

theorem isLower_of_value (x y : Bound) (h : x.value = y.value) :
    x.isLower = y.isLower := by
  unfold Bound.isLower
  rw [h]

theorem isUpper_not_isLower (x : Bound) : x.isUpper = !x.isLower := rfl

theorem stabOf_lower (x : Bound) (h : x.isLower = true) : stabOf x = 1 := by
  unfold stabOf
  rw [h]
  rfl

theorem stabOf_upper (x : Bound) (h : x.isLower = false) : stabOf x = -1 := by
  unfold stabOf
  rw [h]
  rfl

theorem scanCount_ext_from (l l' : List Bound) (m : Nat)
    (hlen : l'.length = l.length)
    (hm : scanCount l' m = scanCount l m)
    (hag : ∀ j, m < j → l'.getD j default = l.getD j default) :
    ∀ j, m ≤ j → j < l.length → scanCount l' j = scanCount l j := by
  intro j hj
  induction j, hj using Nat.le_induction with
  | base =>
    intro _
    exact hm
  | succ j hj ihj =>
    intro hjl
    rw [scanCount_succ l' j (by rw [hlen]; omega), scanCount_succ l j hjl,
      ihj (by omega), hag (j + 1) (by omega)]

/-- Swapping two adjacent bounds owned by two distinct proxies, with the
stabbing counts repaired the way every MoveProxy walk repairs them and the two
owners' records exchanged, preserves core consistency. -/
theorem SapCore_swap (pool pool' : List Proxy) (B B' : List Bound)
    (axis k x y : Nat)
    (hcore : SapCore pool B axis)
    (hkm : k + 1 < B.length)
    (hlen' : B'.length = B.length)
    (hplen' : pool'.length = pool.length)
    (hXid : (B.getD k default).proxyId = x)
    (hYid : (B.getD (k + 1) default).proxyId = y)
    (hxy : x ≠ y)
    (hD_k : B'.getD k default = { B.getD (k + 1) default with
        stabbingCount := (B.getD (k + 1) default).stabbingCount -
          stabOf (B.getD k default) })
    (hD_k1 : B'.getD (k + 1) default = { B.getD k default with
        stabbingCount := (B.getD k default).stabbingCount +
          stabOf (B.getD (k + 1) default) })
    (hD_out : ∀ i, i ≠ k → i ≠ k + 1 → B'.getD i default = B.getD i default)
    (hvalid' : ∀ q, (pool'.getD q default).isValidProxy =
      (pool.getD q default).isValidProxy)
    (hout : ∀ q, q ≠ x → q ≠ y → pool'.getD q default = pool.getD q default)
    (hx_low : (pool'.getD x default).lowerBounds.get axis =
      (if (B.getD k default).isLower then k + 1
       else (pool.getD x default).lowerBounds.get axis))
    (hx_up : (pool'.getD x default).upperBounds.get axis =
      (if (B.getD k default).isLower then (pool.getD x default).upperBounds.get axis
       else k + 1))
    (hy_low : (pool'.getD y default).lowerBounds.get axis =
      (if (B.getD (k + 1) default).isLower then k
       else (pool.getD y default).lowerBounds.get axis))
    (hy_up : (pool'.getD y default).upperBounds.get axis =
      (if (B.getD (k + 1) default).isLower then
        (pool.getD y default).upperBounds.get axis
       else k)) :
    SapCore pool' B' axis := by
  have hkl : k < B.length := by omega
  have hD_k_pid : (B'.getD k default).proxyId = y := by
    rw [hD_k]
    exact hYid
  have hD_k1_pid : (B'.getD (k + 1) default).proxyId = x := by
    rw [hD_k1]
    exact hXid
  have hD_k_low : (B'.getD k default).isLower = (B.getD (k + 1) default).isLower := by
    refine isLower_of_value _ _ ?_
    rw [hD_k]
  have hD_k1_low : (B'.getD (k + 1) default).isLower = (B.getD k default).isLower := by
    refine isLower_of_value _ _ ?_
    rw [hD_k1]
  have hown_k : ∀ p, p < pool.length → (pool.getD p default).isValidProxy = true →
      p ≠ x → (pool.getD p default).lowerBounds.get axis ≠ k ∧
      (pool.getD p default).upperBounds.get axis ≠ k := by
    intro p hp hv hpx
    constructor
    · intro he
      have h2 := (hcore.live_lower p hp hv not_false).1
      rw [he, hXid] at h2
      exact hpx h2.symm
    · intro he
      have h2 := (hcore.live_upper p hp hv not_false).1
      rw [he, hXid] at h2
      exact hpx h2.symm
  have hown_k1 : ∀ p, p < pool.length → (pool.getD p default).isValidProxy = true →
      p ≠ y → (pool.getD p default).lowerBounds.get axis ≠ k + 1 ∧
      (pool.getD p default).upperBounds.get axis ≠ k + 1 := by
    intro p hp hv hpy
    constructor
    · intro he
      have h2 := (hcore.live_lower p hp hv not_false).1
      rw [he, hYid] at h2
      exact hpy h2.symm
    · intro he
      have h2 := (hcore.live_upper p hp hv not_false).1
      rw [he, hYid] at h2
      exact hpy h2.symm
  have hxlt : x < pool.length := by
    rw [← hXid]
    exact hcore.owner_lt k hkl
  have hylt : y < pool.length := by
    rw [← hYid]
    exact hcore.owner_lt (k + 1) hkm
  have hxlive : (pool.getD x default).isValidProxy = true := by
    have h2 := hcore.owner_live k hkl
    rw [hXid] at h2
    exact h2
  have hylive : (pool.getD y default).isValidProxy = true := by
    have h2 := hcore.owner_live (k + 1) hkm
    rw [hYid] at h2
    exact h2
  refine ⟨?_, ?_, ?_, ?_, ?_, ?_, ?_, ?_, ?_⟩
  · -- owner_lt
    intro i hi
    rw [hlen'] at hi
    rw [hplen']
    by_cases h1 : i = k
    · subst h1
      rw [hD_k_pid]
      exact hylt
    · by_cases h2 : i = k + 1
      · subst h2
        rw [hD_k1_pid]
        exact hxlt
      · rw [hD_out i h1 h2]
        exact hcore.owner_lt i hi
  · -- owner_live
    intro i hi
    rw [hlen'] at hi
    rw [hvalid']
    by_cases h1 : i = k
    · subst h1
      rw [hD_k_pid]
      exact hylive
    · by_cases h2 : i = k + 1
      · subst h2
        rw [hD_k1_pid]
        exact hxlive
      · rw [hD_out i h1 h2]
        exact hcore.owner_live i hi
  · -- lower_idx
    intro i hi hl
    rw [hlen'] at hi
    by_cases h1 : i = k
    · subst h1
      rw [hD_k_low] at hl
      rw [hD_k_pid, hy_low, if_pos hl]
    · by_cases h2 : i = k + 1
      · subst h2
        rw [hD_k1_low] at hl
        rw [hD_k1_pid, hx_low, if_pos hl]
      · rw [hD_out i h1 h2] at hl ⊢
        have hold := hcore.lower_idx i hi hl
        by_cases hqx : (B.getD i default).proxyId = x
        · rw [hqx] at hold ⊢
          rw [hx_low]
          by_cases hXL : (B.getD k default).isLower = true
          · exfalso
            have h3 := hcore.lower_idx k hkl hXL
            rw [hXid] at h3
            rw [h3] at hold
            exact h1 hold.symm
          · rw [if_neg hXL]
            exact hold
        · by_cases hqy : (B.getD i default).proxyId = y
          · rw [hqy] at hold ⊢
            rw [hy_low]
            by_cases hYL : (B.getD (k + 1) default).isLower = true
            · exfalso
              have h3 := hcore.lower_idx (k + 1) hkm hYL
              rw [hYid] at h3
              rw [h3] at hold
              exact h2 hold.symm
            · rw [if_neg hYL]
              exact hold
          · rw [hout _ hqx hqy]
            exact hold
  · -- upper_idx
    intro i hi hl
    rw [hlen'] at hi
    by_cases h1 : i = k
    · subst h1
      rw [hD_k_low] at hl
      rw [hD_k_pid, hy_up, if_neg (by rw [hl]; exact Bool.false_ne_true)]
    · by_cases h2 : i = k + 1
      · subst h2
        rw [hD_k1_low] at hl
        rw [hD_k1_pid, hx_up, if_neg (by rw [hl]; exact Bool.false_ne_true)]
      · rw [hD_out i h1 h2] at hl ⊢
        have hold := hcore.upper_idx i hi hl
        by_cases hqx : (B.getD i default).proxyId = x
        · rw [hqx] at hold ⊢
          rw [hx_up]
          by_cases hXL : (B.getD k default).isLower = true
          · rw [if_pos hXL]
            exact hold
          · exfalso
            have h3 := hcore.upper_idx k hkl (by
              rw [Bool.not_eq_true] at hXL
              exact hXL)
            rw [hXid] at h3
            rw [h3] at hold
            exact h1 hold.symm
        · by_cases hqy : (B.getD i default).proxyId = y
          · rw [hqy] at hold ⊢
            rw [hy_up]
            by_cases hYL : (B.getD (k + 1) default).isLower = true
            · rw [if_pos hYL]
              exact hold
            · exfalso
              have h3 := hcore.upper_idx (k + 1) hkm (by
                rw [Bool.not_eq_true] at hYL
                exact hYL)
              rw [hYid] at h3
              rw [h3] at hold
              exact h2 hold.symm
          · rw [hout _ hqx hqy]
            exact hold
  · -- live_lt
    intro p hp hv _
    rw [hplen'] at hp
    rw [hvalid' p] at hv
    by_cases hpx : p = x
    · subst hpx
      rw [hx_low, hx_up]
      by_cases hXL : (B.getD k default).isLower = true
      · rw [if_pos hXL, if_pos hXL]
        have h3 := hcore.lower_idx k hkl hXL
        rw [hXid] at h3
        have h4 := hcore.live_lt p hp hv not_false
        rw [h3] at h4
        have h5 : (pool.getD p default).upperBounds.get axis ≠ k + 1 :=
          (hown_k1 p hp hv hxy).2
        omega
      · rw [if_neg hXL, if_neg hXL]
        have h3 := hcore.upper_idx k hkl (by
          rw [Bool.not_eq_true] at hXL
          exact hXL)
        rw [hXid] at h3
        have h4 := hcore.live_lt p hp hv not_false
        rw [h3] at h4
        omega
    · by_cases hpy : p = y
      · subst hpy
        rw [hy_low, hy_up]
        by_cases hYL : (B.getD (k + 1) default).isLower = true
        · rw [if_pos hYL, if_pos hYL]
          have h3 := hcore.lower_idx (k + 1) hkm hYL
          rw [hYid] at h3
          have h4 := hcore.live_lt p hp hv not_false
          rw [h3] at h4
          omega
        · rw [if_neg hYL, if_neg hYL]
          have h3 := hcore.upper_idx (k + 1) hkm (by
            rw [Bool.not_eq_true] at hYL
            exact hYL)
          rw [hYid] at h3
          have h4 := hcore.live_lt p hp hv not_false
          rw [h3] at h4
          have h5 : (pool.getD p default).lowerBounds.get axis ≠ k :=
            (hown_k p hp hv (fun he => hxy he.symm)).1
          omega
      · rw [hout p hpx hpy]
        exact hcore.live_lt p hp hv not_false
  · -- live_hi
    intro p hp hv _
    rw [hplen'] at hp
    rw [hvalid' p] at hv
    rw [hlen']
    by_cases hpx : p = x
    · subst hpx
      rw [hx_up]
      by_cases hXL : (B.getD k default).isLower = true
      · rw [if_pos hXL]
        exact hcore.live_hi p hp hv not_false
      · rw [if_neg hXL]
        exact hkm
    · by_cases hpy : p = y
      · subst hpy
        rw [hy_up]
        by_cases hYL : (B.getD (k + 1) default).isLower = true
        · rw [if_pos hYL]
          exact hcore.live_hi p hp hv not_false
        · rw [if_neg hYL]
          omega
      · rw [hout p hpx hpy]
        exact hcore.live_hi p hp hv not_false
  · -- live_lower
    intro p hp hv _
    rw [hplen'] at hp
    rw [hvalid' p] at hv
    by_cases hpx : p = x
    · subst hpx
      rw [hx_low]
      by_cases hXL : (B.getD k default).isLower = true
      · rw [if_pos hXL]
        refine ⟨hD_k1_pid, ?_⟩
        rw [hD_k1_low]
        exact hXL
      · rw [if_neg hXL]
        have h3 := hcore.live_lower p hp hv not_false
        have hne1 : (pool.getD p default).lowerBounds.get axis ≠ k := by
          intro he
          rw [he] at h3
          exact hXL h3.2
        have hne2 : (pool.getD p default).lowerBounds.get axis ≠ k + 1 := by
          intro he
          rw [he] at h3
          have h4 := h3.1
          rw [hYid] at h4
          exact hxy h4.symm
        rw [hD_out _ hne1 hne2]
        exact h3
    · by_cases hpy : p = y
      · subst hpy
        rw [hy_low]
        by_cases hYL : (B.getD (k + 1) default).isLower = true
        · rw [if_pos hYL]
          refine ⟨hD_k_pid, ?_⟩
          rw [hD_k_low]
          exact hYL
        · rw [if_neg hYL]
          have h3 := hcore.live_lower p hp hv not_false
          have hne1 : (pool.getD p default).lowerBounds.get axis ≠ k := by
            intro he
            rw [he] at h3
            have h4 := h3.1
            rw [hXid] at h4
            exact hxy h4
          have hne2 : (pool.getD p default).lowerBounds.get axis ≠ k + 1 := by
            intro he
            rw [he] at h3
            exact hYL h3.2
          rw [hD_out _ hne1 hne2]
          exact h3
      · rw [hout p hpx hpy]
        have h3 := hcore.live_lower p hp hv not_false
        rw [hD_out _ (hown_k p hp hv hpx).1 (hown_k1 p hp hv hpy).1]
        exact h3
  · -- live_upper
    intro p hp hv _
    rw [hplen'] at hp
    rw [hvalid' p] at hv
    by_cases hpx : p = x
    · subst hpx
      rw [hx_up]
      by_cases hXL : (B.getD k default).isLower = true
      · rw [if_pos hXL]
        have h3 := hcore.live_upper p hp hv not_false
        have hne1 : (pool.getD p default).upperBounds.get axis ≠ k := by
          intro he
          rw [he] at h3
          rw [h3.2] at hXL
          exact Bool.false_ne_true hXL
        have hne2 : (pool.getD p default).upperBounds.get axis ≠ k + 1 := by
          intro he
          rw [he] at h3
          have h4 := h3.1
          rw [hYid] at h4
          exact hxy h4.symm
        rw [hD_out _ hne1 hne2]
        exact h3
      · rw [if_neg hXL]
        refine ⟨hD_k1_pid, ?_⟩
        rw [hD_k1_low]
        rw [Bool.not_eq_true] at hXL
        exact hXL
    · by_cases hpy : p = y
      · subst hpy
        rw [hy_up]
        by_cases hYL : (B.getD (k + 1) default).isLower = true
        · rw [if_pos hYL]
          have h3 := hcore.live_upper p hp hv not_false
          have hne1 : (pool.getD p default).upperBounds.get axis ≠ k := by
            intro he
            rw [he] at h3
            have h4 := h3.1
            rw [hXid] at h4
            exact hxy h4
          have hne2 : (pool.getD p default).upperBounds.get axis ≠ k + 1 := by
            intro he
            rw [he] at h3
            rw [h3.2] at hYL
            exact Bool.false_ne_true hYL
          rw [hD_out _ hne1 hne2]
          exact h3
        · rw [if_neg hYL]
          refine ⟨hD_k_pid, ?_⟩
          rw [hD_k_low]
          rw [Bool.not_eq_true] at hYL
          exact hYL
      · rw [hout p hpx hpy]
        have h3 := hcore.live_upper p hp hv not_false
        rw [hD_out _ (hown_k p hp hv hpx).2 (hown_k1 p hp hv hpy).2]
        exact h3
  · -- stab
    intro i hi
    rw [hlen'] at hi
    have hstX := hcore.stab k hkl
    have hstY := hcore.stab (k + 1) hkm
    have hsucc := scanCount_succ B k hkm
    have hagree_lo : ∀ j, j < k → scanCount B' j = scanCount B j := by
      intro j hj
      refine scanCount_agree B B' j hlen' ?_
      intro j' hj'
      rw [hD_out j' (by omega) (by omega)]
    have hstabk' : stabOf (B'.getD k default) = stabOf (B.getD (k + 1) default) := by
      refine stabOf_eq_of_value _ _ ?_
      rw [hD_k]
    have hstabk1' : stabOf (B'.getD (k + 1) default) = stabOf (B.getD k default) := by
      refine stabOf_eq_of_value _ _ ?_
      rw [hD_k1]
    have hscan_k' : scanCount B' k = scanCount B k - stabOf (B.getD k default) +
        stabOf (B.getD (k + 1) default) := by
      rw [scanCount_at B' k (by rw [hlen']; omega), scanCount_at B k hkl, hstabk']
      by_cases hk0 : k = 0
      · rw [if_pos hk0, if_pos hk0]
        omega
      · rw [if_neg hk0, if_neg hk0, hagree_lo (k - 1) (by omega)]
        omega
    have hscan_k1' : scanCount B' (k + 1) = scanCount B (k + 1) := by
      rw [scanCount_succ B' k (by rw [hlen']; omega), hscan_k', hstabk1', hsucc]
      omega
    by_cases h1 : i = k
    · rw [h1, hD_k]
      show (B.getD (k + 1) default).stabbingCount - stabOf (B.getD k default) =
        scanCount B' k
      rw [hscan_k', hstY, hsucc]
      omega
    · by_cases h2 : i = k + 1
      · rw [h2, hD_k1]
        show (B.getD k default).stabbingCount + stabOf (B.getD (k + 1) default) =
          scanCount B' (k + 1)
        rw [hscan_k1', hstX]
        omega
      · rw [hD_out i h1 h2]
        rcases Nat.lt_or_ge i k with hik | hik
        · rw [hagree_lo i hik]
          exact hcore.stab i hi
        · have h3 := scanCount_ext_from B B' (k + 1) hlen' hscan_k1'
            (fun j hj => hD_out j (by omega) (by omega)) i (by omega) hi
          rw [h3]
          exact hcore.stab i hi

/-- One step of the lower-bound-down walk of MoveProxy, abstractly: if bpD is
the result of one repaired adjacent swap below the moving lower bound and the
walk invariant holds before the swap, then the walk invariant holds at bpD one
position lower, and the walk conclusions from bpD transfer back to the
starting state. -/
theorem moveLowerDown_step (pid axis boundCount : Nat) (lv : Nat)
    (E : Nat → Prop) (k : Nat) (bp bpD bp2 : BroadPhase)
    (hlen : (bp.bounds.get axis).length = boundCount)
    (hcore : SapCore bp.proxyPool (bp.bounds.get axis) axis)
    (hpid : pid < bp.proxyPool.length)
    (hlive : (bp.proxyPool.getD pid default).isValidProxy = true)
    (hrec : (bp.proxyPool.getD pid default).lowerBounds.get axis = k + 1)
    (hval : ((bp.bounds.get axis).getD (k + 1) default).value = lv)
    (hE : ∀ i, E i → k + 1 < i ∧ i < boundCount)
    (hsX : sortedExcept (bp.bounds.get axis) (fun i => i = k + 1 ∨ E i))
    (hlow : ∀ j, k + 1 < j → j < boundCount → ¬E j →
      lv ≤ ((bp.bounds.get axis).getD j default).value)
    (hguard : lv < ((bp.bounds.get axis).getD k default).value)
    (hlenD : (bpD.bounds.get axis).length = (bp.bounds.get axis).length)
    (hD_k : (bpD.bounds.get axis).getD k default =
      { (bp.bounds.get axis).getD (k + 1) default with
        stabbingCount := ((bp.bounds.get axis).getD (k + 1) default).stabbingCount -
          stabOf ((bp.bounds.get axis).getD k default) })
    (hD_k1 : (bpD.bounds.get axis).getD (k + 1) default =
      { (bp.bounds.get axis).getD k default with
        stabbingCount := ((bp.bounds.get axis).getD k default).stabbingCount +
          stabOf ((bp.bounds.get axis).getD (k + 1) default) })
    (hD_out : ∀ i, i ≠ k → i ≠ k + 1 →
      (bpD.bounds.get axis).getD i default = (bp.bounds.get axis).getD i default)
    (houtD : ∀ q, q ≠ ((bp.bounds.get axis).getD k default).proxyId → q ≠ pid →
      bpD.proxyPool.getD q default = bp.proxyPool.getD q default)
    (hprev_low : (bpD.proxyPool.getD ((bp.bounds.get axis).getD k default).proxyId
        default).lowerBounds.get axis =
      (if ((bp.bounds.get axis).getD k default).isLower then k + 1
       else (bp.proxyPool.getD ((bp.bounds.get axis).getD k default).proxyId
        default).lowerBounds.get axis))
    (hprev_up : (bpD.proxyPool.getD ((bp.bounds.get axis).getD k default).proxyId
        default).upperBounds.get axis =
      (if ((bp.bounds.get axis).getD k default).isLower then
        (bp.proxyPool.getD ((bp.bounds.get axis).getD k default).proxyId
          default).upperBounds.get axis
       else k + 1))
    (hpid_low : (bpD.proxyPool.getD pid default).lowerBounds.get axis = k)
    (hpid_up : (bpD.proxyPool.getD pid default).upperBounds =
      (bp.proxyPool.getD pid default).upperBounds)
    (hframeD : MoveFrame axis bp bpD)
    (ih : (bpD.bounds.get axis).length = boundCount →
      SapCore bpD.proxyPool (bpD.bounds.get axis) axis →
      pid < bpD.proxyPool.length →
      (bpD.proxyPool.getD pid default).isValidProxy = true →
      (bpD.proxyPool.getD pid default).lowerBounds.get axis = k →
      ((bpD.bounds.get axis).getD k default).value = lv →
      (∀ i, E i → k < i ∧ i < boundCount) →
      sortedExcept (bpD.bounds.get axis) (fun i => i = k ∨ E i) →
      (∀ j, k < j → j < boundCount → ¬E j →
        lv ≤ ((bpD.bounds.get axis).getD j default).value) →
      (bp2.bounds.get axis).length = boundCount ∧
      SapCore bp2.proxyPool (bp2.bounds.get axis) axis ∧
      sortedExcept (bp2.bounds.get axis) E ∧
      (∀ i, k < i → (bp2.bounds.get axis).getD i default =
        (bpD.bounds.get axis).getD i default) ∧
      (∀ c : Nat, (∀ i, i ≤ k → ((bpD.bounds.get axis).getD i default).value ≤ c) →
        ∀ i, i ≤ k → ((bp2.bounds.get axis).getD i default).value ≤ c) ∧
      MoveFrame axis bpD bp2 ∧
      (bp2.proxyPool.getD pid default).upperBounds.get axis =
        (bpD.proxyPool.getD pid default).upperBounds.get axis ∧
      ((bp2.bounds.get axis).getD ((bp2.proxyPool.getD pid
        default).lowerBounds.get axis) default).value = lv) :
    (bp2.bounds.get axis).length = boundCount ∧
    SapCore bp2.proxyPool (bp2.bounds.get axis) axis ∧
    sortedExcept (bp2.bounds.get axis) E ∧
    (∀ i, k + 1 < i → (bp2.bounds.get axis).getD i default =
      (bp.bounds.get axis).getD i default) ∧
    (∀ c : Nat, (∀ i, i ≤ k + 1 → ((bp.bounds.get axis).getD i default).value ≤ c) →
      ∀ i, i ≤ k + 1 → ((bp2.bounds.get axis).getD i default).value ≤ c) ∧
    MoveFrame axis bp bp2 ∧
    (bp2.proxyPool.getD pid default).upperBounds.get axis =
      (bp.proxyPool.getD pid default).upperBounds.get axis ∧
    ((bp2.bounds.get axis).getD ((bp2.proxyPool.getD pid
      default).lowerBounds.get axis) default).value = lv := by
  set B := bp.bounds.get axis with hB
  have hu := hcore.live_lt pid hpid hlive not_false
  have huhi := hcore.live_hi pid hpid hlive not_false
  rw [hrec] at hu
  have hkm : k + 1 < B.length := by omega
  have hMown : (B.getD (k + 1) default).proxyId = pid ∧
      (B.getD (k + 1) default).isLower = true := by
    have h2 := hcore.live_lower pid hpid hlive not_false
    rw [hrec] at h2
    exact h2
  have hprevne : (B.getD k default).proxyId ≠ pid := by
    intro he
    by_cases hPL : (B.getD k default).isLower = true
    · have h3 := hcore.lower_idx k (by omega) hPL
      rw [he, hrec] at h3
      omega
    · have h3 := hcore.upper_idx k (by omega) (by
        rw [Bool.not_eq_true] at hPL
        exact hPL)
      rw [he] at h3
      omega
  have hcoreD : SapCore bpD.proxyPool (bpD.bounds.get axis) axis := by
    refine SapCore_swap bp.proxyPool bpD.proxyPool B (bpD.bounds.get axis) axis k
      ((B.getD k default).proxyId) pid hcore hkm hlenD hframeD.pool_len rfl hMown.1
      hprevne hD_k hD_k1 hD_out hframeD.valid_eq houtD hprev_low hprev_up ?_ ?_
    · rw [if_pos hMown.2]
      exact hpid_low
    · rw [if_pos hMown.2, hpid_up]
  have hsXD : sortedExcept (bpD.bounds.get axis) (fun i => i = k ∨ E i) := by
    intro i j hij hj hiE hjE
    rw [hlenD] at hj
    have hiEk : i ≠ k := fun hc => hiE (Or.inl hc)
    have hjEk : j ≠ k := fun hc => hjE (Or.inl hc)
    have hiE' : ¬E i := fun hc => hiE (Or.inr hc)
    have hjE' : ¬E j := fun hc => hjE (Or.inr hc)
    by_cases hjk1 : j = k + 1
    · rw [hjk1, hD_k1]
      show ((bpD.bounds.get axis).getD i default).value ≤ (B.getD k default).value
      have hik : i < k := by omega
      rw [hD_out i (by omega) (by omega)]
      refine hsX i k hik (by omega) ?_ ?_
      · intro hc
        rcases hc with h0 | h0
        · omega
        · exact hiE' h0
      · intro hc
        rcases hc with h0 | h0
        · omega
        · have := (hE k h0).1
          omega
    · by_cases hik1 : i = k + 1
      · rw [hik1, hD_k1, hD_out j hjEk hjk1]
        show (B.getD k default).value ≤ ((bp.bounds.get axis).getD j default).value
        refine hsX k j (by omega) hj ?_ ?_
        · intro hc
          rcases hc with h0 | h0
          · omega
          · have := (hE k h0).1
            omega
        · intro hc
          rcases hc with h0 | h0
          · exact hjk1 h0
          · exact hjE' h0
      · rw [hD_out i hiEk hik1, hD_out j hjEk hjk1]
        refine hsX i j hij hj ?_ ?_
        · intro hc
          rcases hc with h0 | h0
          · exact hik1 h0
          · exact hiE' h0
        · intro hc
          rcases hc with h0 | h0
          · exact hjk1 h0
          · exact hjE' h0
  have hlowD : ∀ j, k < j → j < boundCount → ¬E j →
      lv ≤ ((bpD.bounds.get axis).getD j default).value := by
    intro j hjk hjbc hjE
    by_cases hjk1 : j = k + 1
    · rw [hjk1, hD_k1]
      show lv ≤ (B.getD k default).value
      exact le_of_lt hguard
    · rw [hD_out j (by omega) hjk1]
      exact hlow j (by omega) hjbc hjE
  have hinv := ih (by rw [hlenD]; exact hlen) hcoreD
    (by rw [hframeD.pool_len]; exact hpid)
    (by rw [hframeD.valid_eq]; exact hlive) hpid_low
    (by rw [hD_k]; exact hval)
    (fun i hi => ⟨by have := (hE i hi).1; omega, (hE i hi).2⟩) hsXD hlowD
  obtain ⟨c1, c2, c3, c4, c5, c6, c7, c8⟩ := hinv
  refine ⟨c1, c2, c3, ?_, ?_, MoveFrame.moveTrans hframeD c6, ?_, c8⟩
  · intro i hi
    rw [c4 i (by omega), hD_out i (by omega) (by omega)]
  · intro c hc i hik
    by_cases hik1 : i = k + 1
    · rw [hik1, c4 (k + 1) (by omega), hD_k1]
      show ((B.getD k default).value) ≤ c
      exact hc k (by omega)
    · refine c5 c ?_ i (by omega)
      intro i' hi'
      by_cases hi'k : i' = k
      · rw [hi'k, hD_k]
        show ((B.getD (k + 1) default).value) ≤ c
        exact hc (k + 1) (by omega)
      · rw [hD_out i' hi'k (by omega)]
        exact hc i' (by omega)
  · rw [c7, hpid_up]

/-- The lower-bound-down walk of MoveProxy preserves the axis invariants: see
the step lemma for the shape of the walk invariant carried down. -/
theorem moveLowerDown_inv (pid axis boundCount : Nat) (nv : BoundValues) (lv : Nat)
    (E : Nat → Prop) :
    ∀ (k : Nat) (bp : BroadPhase),
    (bp.bounds.get axis).length = boundCount →
    SapCore bp.proxyPool (bp.bounds.get axis) axis →
    pid < bp.proxyPool.length →
    (bp.proxyPool.getD pid default).isValidProxy = true →
    (bp.proxyPool.getD pid default).lowerBounds.get axis = k →
    ((bp.bounds.get axis).getD k default).value = lv →
    (∀ i, E i → k < i ∧ i < boundCount) →
    sortedExcept (bp.bounds.get axis) (fun i => i = k ∨ E i) →
    (∀ j, k < j → j < boundCount → ¬E j →
      lv ≤ ((bp.bounds.get axis).getD j default).value) →
    ((bp.moveLowerDownGo pid axis nv lv k).bounds.get axis).length = boundCount ∧
    SapCore (bp.moveLowerDownGo pid axis nv lv k).proxyPool
      ((bp.moveLowerDownGo pid axis nv lv k).bounds.get axis) axis ∧
    sortedExcept ((bp.moveLowerDownGo pid axis nv lv k).bounds.get axis) E ∧
    (∀ i, k < i →
      ((bp.moveLowerDownGo pid axis nv lv k).bounds.get axis).getD i default =
        (bp.bounds.get axis).getD i default) ∧
    (∀ c : Nat, (∀ i, i ≤ k → ((bp.bounds.get axis).getD i default).value ≤ c) →
      ∀ i, i ≤ k →
        (((bp.moveLowerDownGo pid axis nv lv k).bounds.get axis).getD i
          default).value ≤ c) ∧
    MoveFrame axis bp (bp.moveLowerDownGo pid axis nv lv k) ∧
    ((bp.moveLowerDownGo pid axis nv lv k).proxyPool.getD pid
        default).upperBounds.get axis =
      (bp.proxyPool.getD pid default).upperBounds.get axis ∧
    (((bp.moveLowerDownGo pid axis nv lv k).bounds.get axis).getD
      (((bp.moveLowerDownGo pid axis nv lv k).proxyPool.getD pid
        default).lowerBounds.get axis) default).value = lv := by
  intro k
  induction k with
  | zero =>
    intro bp hlen hcore hpid hlive hrec hval hE hsX hlow
    have hdef : bp.moveLowerDownGo pid axis nv lv 0 = bp := rfl
    rw [hdef]
    refine ⟨hlen, hcore, ?_, fun i _ => rfl, fun c hc i hi => hc i hi,
      MoveFrame.moveRefl axis bp, rfl, ?_⟩
    · intro i j hij hj hiE hjE
      by_cases hik : i = 0
      · rw [hik, hval]
        exact hlow j (by omega) (by rw [← hlen]; exact hj) hjE
      · refine hsX i j hij hj ?_ ?_
        · intro hc
          rcases hc with h0 | h0
          · exact hik h0
          · exact hiE h0
        · intro hc
          rcases hc with h0 | h0
          · omega
          · exact hjE h0
    · rw [hrec, hval]
  | succ k ih =>
    intro bp hlen hcore hpid hlive hrec hval hE hsX hlow
    have hu := hcore.live_lt pid hpid hlive not_false
    have huhi := hcore.live_hi pid hpid hlive not_false
    rw [hrec] at hu
    have hkm : k + 1 < (bp.bounds.get axis).length := by omega
    have hMown : ((bp.bounds.get axis).getD (k + 1) default).proxyId = pid ∧
        ((bp.bounds.get axis).getD (k + 1) default).isLower = true := by
      have h2 := hcore.live_lower pid hpid hlive not_false
      rw [hrec] at h2
      exact h2
    have hprevne : ((bp.bounds.get axis).getD k default).proxyId ≠ pid := by
      intro he
      by_cases hPL : ((bp.bounds.get axis).getD k default).isLower = true
      · have h3 := hcore.lower_idx k (by omega) hPL
        rw [he, hrec] at h3
        omega
      · have h3 := hcore.upper_idx k (by omega) (by
          rw [Bool.not_eq_true] at hPL
          exact hPL)
        rw [he] at h3
        omega
    have hprevlt : ((bp.bounds.get axis).getD k default).proxyId <
        bp.proxyPool.length := hcore.owner_lt k (by omega)
    set P := (bp.bounds.get axis).getD k default with hPd
    set M := (bp.bounds.get axis).getD (k + 1) default with hMd
    set prevId := P.proxyId with hprevIdd
    set prevProxy := bp.proxyPool.getD prevId default with hprevPd
    have hprevrecL : P.isLower = true →
        prevProxy.lowerBounds.get axis = k := by
      intro hPL
      exact hcore.lower_idx k (by omega) hPL
    have hprevrecU : P.isLower = false →
        prevProxy.upperBounds.get axis = k := by
      intro hPL
      exact hcore.upper_idx k (by omega) hPL
    set Pb : Bound := { P with stabbingCount := P.stabbingCount + 1 } with hPbd
    set bpA := { bp with
        bounds := bp.bounds.set axis ((bp.bounds.get axis).set k Pb) } with hbpAd
    set bpT := (if bpA.testOverlap nv prevProxy then bpA.addBufferedPair pid prevId
      else bpA) with hbpTd
    set bpB := (if P.isUpper then
        ({ bpT with
            proxyPool := bpT.proxyPool.set prevId { prevProxy with
              upperBounds := prevProxy.upperBounds.set axis
                (prevProxy.upperBounds.get axis + 1) }
            bounds := bpT.bounds.set axis ((bpT.bounds.get axis).set (k + 1)
              { M with stabbingCount := M.stabbingCount + 1 }) })
      else
        ({ bpA with
            proxyPool := bpA.proxyPool.set prevId { prevProxy with
              lowerBounds := prevProxy.lowerBounds.set axis
                (prevProxy.lowerBounds.get axis + 1) }
            bounds := bpA.bounds.set axis ((bpA.bounds.get axis).set (k + 1)
              { M with stabbingCount := M.stabbingCount - 1 }) })) with hbpBd
    set movingProxy := bpB.proxyPool.getD pid default with hmovd
    set bpC := ({ bpB with proxyPool := (bpB.proxyPool.set pid
        { movingProxy with
            lowerBounds := movingProxy.lowerBounds.set axis (movingProxy.lowerBounds.get axis - 1) }) }) with hbpCd
    set B3 := bpC.bounds.get axis with hB3d
    set bpD := ({ bpC with
        bounds := bpC.bounds.set axis ((B3.set k (B3.getD (k + 1) default)).set (k + 1) (B3.getD k default)) }) with hbpDd
    by_cases hguard : lv < P.value
    · have hIf : bp.moveLowerDownGo pid axis nv lv (k + 1) =
          (if lv < P.value then bpD.moveLowerDownGo pid axis nv lv k else bp) := rfl
      rw [hIf, if_pos hguard]
      -- characterization of bpD, by the role of the passed bound
      have hbundle :
          (bpD.bounds.get axis).length = (bp.bounds.get axis).length ∧
          (bpD.bounds.get axis).getD k default =
            { M with stabbingCount := M.stabbingCount - stabOf P } ∧
          (bpD.bounds.get axis).getD (k + 1) default =
            { P with stabbingCount := P.stabbingCount + stabOf M } ∧
          (∀ i, i ≠ k → i ≠ k + 1 → (bpD.bounds.get axis).getD i default =
            (bp.bounds.get axis).getD i default) ∧
          (∀ q, q ≠ prevId → q ≠ pid →
            bpD.proxyPool.getD q default = bp.proxyPool.getD q default) ∧
          (bpD.proxyPool.getD prevId default).lowerBounds.get axis =
            (if P.isLower then k + 1 else prevProxy.lowerBounds.get axis) ∧
          (bpD.proxyPool.getD prevId default).upperBounds.get axis =
            (if P.isLower then prevProxy.upperBounds.get axis else k + 1) ∧
          (bpD.proxyPool.getD pid default).lowerBounds.get axis = k ∧
          (bpD.proxyPool.getD pid default).upperBounds =
            (bp.proxyPool.getD pid default).upperBounds ∧
          MoveFrame axis bp bpD := by
        have hTf : bpT.proxyPool = bp.proxyPool ∧ bpT.bounds = bpA.bounds ∧
            bpT.freeProxy = bp.freeProxy ∧ bpT.proxyCount = bp.proxyCount ∧
            bpT.maxProxies = bp.maxProxies ∧ bpT.worldAABB = bp.worldAABB ∧
            bpT.quantizationFactor = bp.quantizationFactor ∧
            bpT.timeStamp = bp.timeStamp := by
          rw [hbpTd]
          split
          · exact ⟨rfl, rfl, rfl, rfl, rfl, rfl, rfl, rfl⟩
          · exact ⟨rfl, rfl, rfl, rfl, rfl, rfl, rfl, rfl⟩
        have hAax : bpA.bounds.get axis = (bp.bounds.get axis).set k Pb := by
          show (bp.bounds.set axis _).get axis = _
          exact Duo.get_set_hit _ _ _ _ Iff.rfl
        -- branch on the role of the passed bound
        by_cases hPL : P.isLower = true
        · -- the passed bound is a lower bound
          have hPUne : ¬(P.isUpper = true) := by
            rw [isUpper_not_isLower, hPL]
            decide
          have hstabPv : stabOf P = 1 := stabOf_lower P hPL
          set Mb : Bound := { M with stabbingCount := M.stabbingCount - 1 } with hMbd
          set prevProxy1 := { prevProxy with
              lowerBounds := prevProxy.lowerBounds.set axis
                (prevProxy.lowerBounds.get axis + 1) } with hprev1d
          have hbpB : bpB = { bpA with
              proxyPool := bpA.proxyPool.set prevId prevProxy1
              bounds := bpA.bounds.set axis ((bpA.bounds.get axis).set (k + 1) Mb) } := by
            rw [hbpBd, if_neg hPUne]
          have hBpool : bpB.proxyPool = bp.proxyPool.set prevId prevProxy1 := by
            rw [hbpB]
          have hBbounds : bpB.bounds =
              bpA.bounds.set axis ((bpA.bounds.get axis).set (k + 1) Mb) := by
            rw [hbpB]
          have hB3 : B3 = ((bp.bounds.get axis).set k Pb).set (k + 1) Mb := by
            show bpB.bounds.get axis = _
            rw [hBbounds, Duo.get_set_hit _ _ _ _ Iff.rfl, hAax]
          have hlen3 : B3.length = (bp.bounds.get axis).length := by
            rw [hB3, List.length_set, List.length_set]
          have hB3k1 : B3.getD (k + 1) default = Mb := by
            rw [hB3]
            exact getD_set_eq _ _ _ (by rw [List.length_set]; exact hkm)
          have hB3k : B3.getD k default = Pb := by
            rw [hB3, getD_set_ne _ _ _ _ (by omega)]
            exact getD_set_eq _ _ _ (by omega)
          have hB3out : ∀ i, i ≠ k → i ≠ k + 1 →
              B3.getD i default = (bp.bounds.get axis).getD i default := by
            intro i h1 h2
            rw [hB3, getD_set_ne _ _ _ _ (fun he => h2 he.symm),
              getD_set_ne _ _ _ _ (fun he => h1 he.symm)]
          have hBD : bpD.bounds.get axis =
              (B3.set k (B3.getD (k + 1) default)).set (k + 1) (B3.getD k default) := by
            show (bpC.bounds.set axis _).get axis = _
            exact Duo.get_set_hit _ _ _ _ Iff.rfl
          have hk3 : k + 1 < B3.length := by
            rw [hlen3]
            exact hkm
          have hD_k : (bpD.bounds.get axis).getD k default =
              { M with stabbingCount := M.stabbingCount - stabOf P } := by
            rw [hBD, getD_double_set B3 k hk3, if_pos rfl, hB3k1, hstabPv]
          have hD_k1 : (bpD.bounds.get axis).getD (k + 1) default =
              { P with stabbingCount := P.stabbingCount + stabOf M } := by
            rw [hBD, getD_double_set B3 k hk3,
              if_neg (show ¬(k + 1 = k) by omega), if_pos rfl, hB3k,
              stabOf_lower M hMown.2]
          have hD_out : ∀ i, i ≠ k → i ≠ k + 1 →
              (bpD.bounds.get axis).getD i default =
                (bp.bounds.get axis).getD i default := by
            intro i h1 h2
            rw [hBD, getD_double_set B3 k hk3, if_neg h1, if_neg h2]
            exact hB3out i h1 h2
          have hlenD : (bpD.bounds.get axis).length = (bp.bounds.get axis).length := by
            rw [hBD, List.length_set, List.length_set, hlen3]
          have hCpool : bpD.proxyPool =
              (bp.proxyPool.set prevId prevProxy1).set pid
                { movingProxy with lowerBounds := movingProxy.lowerBounds.set axis (movingProxy.lowerBounds.get axis - 1) } := by
            show bpB.proxyPool.set pid _ = _
            rw [hBpool]
          have hmov : movingProxy = bp.proxyPool.getD pid default := by
            show bpB.proxyPool.getD pid default = _
            rw [hBpool]
            exact getD_set_ne _ _ _ _ hprevne
          have hpoolD_pid : bpD.proxyPool.getD pid default =
              { movingProxy with lowerBounds := movingProxy.lowerBounds.set axis (movingProxy.lowerBounds.get axis - 1) } := by
            rw [hCpool]
            exact getD_set_eq _ _ _ (by rw [List.length_set]; exact hpid)
          have hpoolD_prev : bpD.proxyPool.getD prevId default = prevProxy1 := by
            rw [hCpool, getD_set_ne _ _ _ _ (fun he => hprevne he.symm)]
            exact getD_set_eq _ _ _ hprevlt
          have houtD : ∀ q, q ≠ prevId → q ≠ pid →
              bpD.proxyPool.getD q default = bp.proxyPool.getD q default := by
            intro q h1 h2
            rw [hCpool, getD_set_ne _ _ _ _ (fun he => h2 he.symm),
              getD_set_ne _ _ _ _ (fun he => h1 he.symm)]
          have hpid_low : (bpD.proxyPool.getD pid default).lowerBounds.get axis = k := by
            rw [hpoolD_pid]
            show (movingProxy.lowerBounds.set axis
              (movingProxy.lowerBounds.get axis - 1)).get axis = k
            rw [Duo.get_set_hit _ _ _ _ Iff.rfl, hmov, hrec]
            omega
          have hpid_up : (bpD.proxyPool.getD pid default).upperBounds =
              (bp.proxyPool.getD pid default).upperBounds := by
            rw [hpoolD_pid]
            show movingProxy.upperBounds = _
            rw [hmov]
          have hprev_low : (bpD.proxyPool.getD prevId default).lowerBounds.get axis =
              (if P.isLower then k + 1 else prevProxy.lowerBounds.get axis) := by
            rw [hpoolD_prev, if_pos hPL]
            show (prevProxy.lowerBounds.set axis
              (prevProxy.lowerBounds.get axis + 1)).get axis = k + 1
            rw [Duo.get_set_hit _ _ _ _ Iff.rfl, hprevrecL hPL]
          have hprev_up : (bpD.proxyPool.getD prevId default).upperBounds.get axis =
              (if P.isLower then prevProxy.upperBounds.get axis else k + 1) := by
            rw [hpoolD_prev, if_pos hPL]
          have hplenD : bpD.proxyPool.length = bp.proxyPool.length := by
            rw [hCpool, List.length_set, List.length_set]
          have hframe : MoveFrame axis bp bpD := by
            refine ⟨?_, hplenD, ?_, ?_, ?_, ?_, ?_,
              (by show bpB.freeProxy = bp.freeProxy; rw [hbpB]),
              (by show bpB.proxyCount = bp.proxyCount; rw [hbpB]),
              (by show bpB.maxProxies = bp.maxProxies; rw [hbpB]),
              (by show bpB.worldAABB = bp.worldAABB; rw [hbpB]),
              (by show bpB.quantizationFactor = bp.quantizationFactor; rw [hbpB]),
              (by show bpB.timeStamp = bp.timeStamp; rw [hbpB])⟩
            · intro a' ha
              show (bpC.bounds.set axis _).get a' = _
              rw [Duo.get_set_miss _ _ _ _ ha]
              show bpB.bounds.get a' = _
              rw [hBbounds, Duo.get_set_miss _ _ _ _ ha]
              show (bp.bounds.set axis _).get a' = _
              rw [Duo.get_set_miss _ _ _ _ ha]
            · intro q
              by_cases h1 : q = pid
              · rw [h1, hpoolD_pid]
                show movingProxy.isValidProxy = _
                rw [hmov]
              · by_cases h2 : q = prevId
                · rw [h2, hpoolD_prev]
                  show prevProxy.isValidProxy = _
                  rw [hprevPd]
                · rw [houtD q h2 h1]
            · intro q
              by_cases h1 : q = pid
              · rw [h1, hpoolD_pid]
                show movingProxy.next = _
                rw [hmov]
              · by_cases h2 : q = prevId
                · rw [h2, hpoolD_prev]
                · rw [houtD q h2 h1]
            · intro q
              by_cases h1 : q = pid
              · rw [h1, hpoolD_pid]
                show movingProxy.userData = _
                rw [hmov]
              · by_cases h2 : q = prevId
                · rw [h2, hpoolD_prev]
                · rw [houtD q h2 h1]
            · intro q a' ha
              by_cases h1 : q = pid
              · rw [h1, hpoolD_pid]
                show (movingProxy.lowerBounds.set axis _).get a' = _
                rw [Duo.get_set_miss _ _ _ _ ha, hmov]
              · by_cases h2 : q = prevId
                · rw [h2, hpoolD_prev]
                  show (prevProxy.lowerBounds.set axis _).get a' = _
                  rw [Duo.get_set_miss _ _ _ _ ha, hprevPd]
                · rw [houtD q h2 h1]
            · intro q a' ha
              by_cases h1 : q = pid
              · rw [h1, hpoolD_pid]
                show movingProxy.upperBounds.get a' = _
                rw [hmov]
              · by_cases h2 : q = prevId
                · rw [h2, hpoolD_prev]
                · rw [houtD q h2 h1]
          exact ⟨hlenD, hD_k, hD_k1, hD_out, houtD, hprev_low, hprev_up,
            hpid_low, hpid_up, hframe⟩
        · -- the passed bound is an upper bound
          have hPL' : P.isLower = false := by
            rw [Bool.not_eq_true] at hPL
            exact hPL
          have hPUpos : P.isUpper = true := by
            rw [isUpper_not_isLower, hPL']
            rfl
          have hstabPv : stabOf P = -1 := stabOf_upper P hPL'
          set Mb : Bound := { M with stabbingCount := M.stabbingCount + 1 } with hMbd
          set prevProxy1 := { prevProxy with
              upperBounds := prevProxy.upperBounds.set axis
                (prevProxy.upperBounds.get axis + 1) } with hprev1d
          have hbpB : bpB = { bpT with
              proxyPool := bpT.proxyPool.set prevId prevProxy1
              bounds := bpT.bounds.set axis ((bpT.bounds.get axis).set (k + 1) Mb) } := by
            rw [hbpBd, if_pos hPUpos]
          have hBpool : bpB.proxyPool = bp.proxyPool.set prevId prevProxy1 := by
            rw [hbpB]
            show bpT.proxyPool.set prevId prevProxy1 = _
            rw [hTf.1]
          have hBbounds : bpB.bounds =
              bpT.bounds.set axis ((bpT.bounds.get axis).set (k + 1) Mb) := by
            rw [hbpB]
          have hB3 : B3 = ((bp.bounds.get axis).set k Pb).set (k + 1) Mb := by
            show bpB.bounds.get axis = _
            rw [hBbounds, Duo.get_set_hit _ _ _ _ Iff.rfl, hTf.2.1, hAax]
          have hlen3 : B3.length = (bp.bounds.get axis).length := by
            rw [hB3, List.length_set, List.length_set]
          have hB3k1 : B3.getD (k + 1) default = Mb := by
            rw [hB3]
            exact getD_set_eq _ _ _ (by rw [List.length_set]; exact hkm)
          have hB3k : B3.getD k default = Pb := by
            rw [hB3, getD_set_ne _ _ _ _ (by omega)]
            exact getD_set_eq _ _ _ (by omega)
          have hB3out : ∀ i, i ≠ k → i ≠ k + 1 →
              B3.getD i default = (bp.bounds.get axis).getD i default := by
            intro i h1 h2
            rw [hB3, getD_set_ne _ _ _ _ (fun he => h2 he.symm),
              getD_set_ne _ _ _ _ (fun he => h1 he.symm)]
          have hBD : bpD.bounds.get axis =
              (B3.set k (B3.getD (k + 1) default)).set (k + 1) (B3.getD k default) := by
            show (bpC.bounds.set axis _).get axis = _
            exact Duo.get_set_hit _ _ _ _ Iff.rfl
          have hk3 : k + 1 < B3.length := by
            rw [hlen3]
            exact hkm
          have hD_k : (bpD.bounds.get axis).getD k default =
              { M with stabbingCount := M.stabbingCount - stabOf P } := by
            rw [hBD, getD_double_set B3 k hk3, if_pos rfl, hB3k1, hstabPv,
              Int.sub_neg]
          have hD_k1 : (bpD.bounds.get axis).getD (k + 1) default =
              { P with stabbingCount := P.stabbingCount + stabOf M } := by
            rw [hBD, getD_double_set B3 k hk3,
              if_neg (show ¬(k + 1 = k) by omega), if_pos rfl, hB3k,
              stabOf_lower M hMown.2]
          have hD_out : ∀ i, i ≠ k → i ≠ k + 1 →
              (bpD.bounds.get axis).getD i default =
                (bp.bounds.get axis).getD i default := by
            intro i h1 h2
            rw [hBD, getD_double_set B3 k hk3, if_neg h1, if_neg h2]
            exact hB3out i h1 h2
          have hlenD : (bpD.bounds.get axis).length = (bp.bounds.get axis).length := by
            rw [hBD, List.length_set, List.length_set, hlen3]
          have hCpool : bpD.proxyPool =
              (bp.proxyPool.set prevId prevProxy1).set pid
                { movingProxy with lowerBounds := movingProxy.lowerBounds.set axis (movingProxy.lowerBounds.get axis - 1) } := by
            show bpB.proxyPool.set pid _ = _
            rw [hBpool]
          have hmov : movingProxy = bp.proxyPool.getD pid default := by
            show bpB.proxyPool.getD pid default = _
            rw [hBpool]
            exact getD_set_ne _ _ _ _ hprevne
          have hpoolD_pid : bpD.proxyPool.getD pid default =
              { movingProxy with lowerBounds := movingProxy.lowerBounds.set axis (movingProxy.lowerBounds.get axis - 1) } := by
            rw [hCpool]
            exact getD_set_eq _ _ _ (by rw [List.length_set]; exact hpid)
          have hpoolD_prev : bpD.proxyPool.getD prevId default = prevProxy1 := by
            rw [hCpool, getD_set_ne _ _ _ _ (fun he => hprevne he.symm)]
            exact getD_set_eq _ _ _ hprevlt
          have houtD : ∀ q, q ≠ prevId → q ≠ pid →
              bpD.proxyPool.getD q default = bp.proxyPool.getD q default := by
            intro q h1 h2
            rw [hCpool, getD_set_ne _ _ _ _ (fun he => h2 he.symm),
              getD_set_ne _ _ _ _ (fun he => h1 he.symm)]
          have hpid_low : (bpD.proxyPool.getD pid default).lowerBounds.get axis = k := by
            rw [hpoolD_pid]
            show (movingProxy.lowerBounds.set axis
              (movingProxy.lowerBounds.get axis - 1)).get axis = k
            rw [Duo.get_set_hit _ _ _ _ Iff.rfl, hmov, hrec]
            omega
          have hpid_up : (bpD.proxyPool.getD pid default).upperBounds =
              (bp.proxyPool.getD pid default).upperBounds := by
            rw [hpoolD_pid]
            show movingProxy.upperBounds = _
            rw [hmov]
          have hprev_low : (bpD.proxyPool.getD prevId default).lowerBounds.get axis =
              (if P.isLower then k + 1 else prevProxy.lowerBounds.get axis) := by
            rw [hpoolD_prev, if_neg (by rw [hPL']; exact Bool.false_ne_true)]
          have hprev_up : (bpD.proxyPool.getD prevId default).upperBounds.get axis =
              (if P.isLower then prevProxy.upperBounds.get axis else k + 1) := by
            rw [hpoolD_prev, if_neg (by rw [hPL']; exact Bool.false_ne_true)]
            show (prevProxy.upperBounds.set axis
              (prevProxy.upperBounds.get axis + 1)).get axis = k + 1
            rw [Duo.get_set_hit _ _ _ _ Iff.rfl, hprevrecU hPL']
          have hplenD : bpD.proxyPool.length = bp.proxyPool.length := by
            rw [hCpool, List.length_set, List.length_set]
          have hframe : MoveFrame axis bp bpD := by
            refine ⟨?_, hplenD, ?_, ?_, ?_, ?_, ?_,
              (by show bpB.freeProxy = bp.freeProxy; rw [hbpB]; exact hTf.2.2.1),
              (by show bpB.proxyCount = bp.proxyCount; rw [hbpB]; exact hTf.2.2.2.1),
              (by show bpB.maxProxies = bp.maxProxies; rw [hbpB]; exact hTf.2.2.2.2.1),
              (by show bpB.worldAABB = bp.worldAABB; rw [hbpB]; exact hTf.2.2.2.2.2.1),
              (by show bpB.quantizationFactor = bp.quantizationFactor; rw [hbpB]; exact hTf.2.2.2.2.2.2.1),
              (by show bpB.timeStamp = bp.timeStamp; rw [hbpB]; exact hTf.2.2.2.2.2.2.2)⟩
            · intro a' ha
              show (bpC.bounds.set axis _).get a' = _
              rw [Duo.get_set_miss _ _ _ _ ha]
              show bpB.bounds.get a' = _
              rw [hBbounds, Duo.get_set_miss _ _ _ _ ha, hTf.2.1]
              show (bp.bounds.set axis _).get a' = _
              rw [Duo.get_set_miss _ _ _ _ ha]
            · intro q
              by_cases h1 : q = pid
              · rw [h1, hpoolD_pid]
                show movingProxy.isValidProxy = _
                rw [hmov]
              · by_cases h2 : q = prevId
                · rw [h2, hpoolD_prev]
                  show prevProxy.isValidProxy = _
                  rw [hprevPd]
                · rw [houtD q h2 h1]
            · intro q
              by_cases h1 : q = pid
              · rw [h1, hpoolD_pid]
                show movingProxy.next = _
                rw [hmov]
              · by_cases h2 : q = prevId
                · rw [h2, hpoolD_prev]
                · rw [houtD q h2 h1]
            · intro q
              by_cases h1 : q = pid
              · rw [h1, hpoolD_pid]
                show movingProxy.userData = _
                rw [hmov]
              · by_cases h2 : q = prevId
                · rw [h2, hpoolD_prev]
                · rw [houtD q h2 h1]
            · intro q a' ha
              by_cases h1 : q = pid
              · rw [h1, hpoolD_pid]
                show (movingProxy.lowerBounds.set axis _).get a' = _
                rw [Duo.get_set_miss _ _ _ _ ha, hmov]
              · by_cases h2 : q = prevId
                · rw [h2, hpoolD_prev]
                · rw [houtD q h2 h1]
            · intro q a' ha
              by_cases h1 : q = pid
              · rw [h1, hpoolD_pid]
                show movingProxy.upperBounds.get a' = _
                rw [hmov]
              · by_cases h2 : q = prevId
                · rw [h2, hpoolD_prev]
                  show (prevProxy.upperBounds.set axis _).get a' = _
                  rw [Duo.get_set_miss _ _ _ _ ha, hprevPd]
                · rw [houtD q h2 h1]
          exact ⟨hlenD, hD_k, hD_k1, hD_out, houtD, hprev_low, hprev_up,
            hpid_low, hpid_up, hframe⟩
      obtain ⟨hlenD, hD_k, hD_k1, hD_out, houtD, hprev_low, hprev_up,
        hpid_low, hpid_up, hframe⟩ := hbundle
      exact moveLowerDown_step pid axis boundCount lv E k bp bpD
        (bpD.moveLowerDownGo pid axis nv lv k) hlen hcore hpid hlive hrec hval hE
        hsX hlow hguard hlenD hD_k hD_k1 hD_out houtD hprev_low hprev_up
        hpid_low hpid_up hframe (ih bpD)
    · have hIf : bp.moveLowerDownGo pid axis nv lv (k + 1) =
          (if lv < P.value then bpD.moveLowerDownGo pid axis nv lv k else bp) := rfl
      rw [hIf, if_neg hguard]
      refine ⟨hlen, hcore, ?_, fun i _ => rfl, fun c hc i hi => hc i hi,
        MoveFrame.moveRefl axis bp, rfl, ?_⟩
      · intro i j hij hj hiE hjE
        by_cases hik : i = k + 1
        · rw [hik, hval]
          exact hlow j (by omega) (by rw [← hlen]; exact hj) hjE
        · by_cases hjk : j = k + 1
          · rw [hjk, hval]
            by_cases hik3 : i = k
            · rw [hik3, ← hPd]
              omega
            · have h1 : ((bp.bounds.get axis).getD i default).value ≤
                  ((bp.bounds.get axis).getD k default).value := by
                refine hsX i k (by omega) (by omega) ?_ ?_
                · intro hc
                  rcases hc with h0 | h0
                  · exact hik h0
                  · exact hiE h0
                · intro hc
                  rcases hc with h0 | h0
                  · omega
                  · have := (hE k h0).1
                    omega
              rw [← hPd] at h1
              omega
          · refine hsX i j hij hj ?_ ?_
            · intro hc
              rcases hc with h0 | h0
              · exact hik h0
              · exact hiE h0
            · intro hc
              rcases hc with h0 | h0
              · exact hjk h0
              · exact hjE h0
      · rw [hrec, hval]

/-- Exit state of the upper-bound-up walk: with the moving upper bound at k,
everything below it bounded by its value, and the next value (if any) above
its value, the array is sorted outside the protected set. -/
theorem moveUpperUp_exit (boundCount uv k : Nat) (E : Nat → Prop) (B : List Bound)
    (hlen : B.length = boundCount)
    (hval : (B.getD k default).value = uv)
    (hE : ∀ i, E i → i < boundCount ∧ i ≠ k ∧ (k < i → ∀ j, i ≤ j →
      j < boundCount → uv < (B.getD j default).value))
    (hsX : sortedExcept B (fun i => i = k ∨ E i))
    (hhig : ∀ i, i < k → ¬E i → (B.getD i default).value ≤ uv)
    (hstop : k < boundCount - 1 → uv < (B.getD (k + 1) default).value) :
    sortedExcept B E := by
  intro i j hij hj hiE hjE
  rw [hlen] at hj
  by_cases hik : i = k
  · rw [hik, hval]
    have hkb : k < boundCount - 1 := by omega
    by_cases hEe : ∃ e, k < e ∧ e ≤ j ∧ E e
    · obtain ⟨e, he1, he2, he3⟩ := hEe
      exact le_of_lt ((hE e he3).2.2 he1 j he2 hj)
    · have hnEk1 : ¬E (k + 1) := by
        intro hc
        exact hEe ⟨k + 1, by omega, by omega, hc⟩
      by_cases hjk1 : j = k + 1
      · rw [hjk1]
        exact le_of_lt (hstop hkb)
      · have h1 : (B.getD (k + 1) default).value ≤ (B.getD j default).value := by
          refine hsX (k + 1) j (by omega) (by omega) ?_ ?_
          · intro hc
            rcases hc with h0 | h0
            · omega
            · exact hnEk1 h0
          · intro hc
            rcases hc with h0 | h0
            · omega
            · exact hjE h0
        have h2 := hstop hkb
        omega
  · by_cases hjk : j = k
    · rw [hjk, hval]
      exact hhig i (by omega) hiE
    · refine hsX i j hij (by omega) ?_ ?_
      · intro hc
        rcases hc with h0 | h0
        · exact hik h0
        · exact hiE h0
      · intro hc
        rcases hc with h0 | h0
        · exact hjk h0
        · exact hjE h0

/-- One step of the upper-bound-up walk of MoveProxy, abstractly: one repaired
adjacent swap above the moving upper bound carries the walk invariant one
position higher, and the walk conclusions transfer back. -/
theorem moveUpperUp_step (pid axis boundCount : Nat) (uv : Nat)
    (E : Nat → Prop) (k : Nat) (bp bpD bp2 : BroadPhase)
    (hlen : (bp.bounds.get axis).length = boundCount)
    (hcore : SapCore bp.proxyPool (bp.bounds.get axis) axis)
    (hpid : pid < bp.proxyPool.length)
    (hlive : (bp.proxyPool.getD pid default).isValidProxy = true)
    (hrec : (bp.proxyPool.getD pid default).upperBounds.get axis = k)
    (hval : ((bp.bounds.get axis).getD k default).value = uv)
    (hE : ∀ i, E i → i < boundCount ∧ i ≠ k ∧ (k < i → ∀ j, i ≤ j →
      j < boundCount → uv < ((bp.bounds.get axis).getD j default).value))
    (hsX : sortedExcept (bp.bounds.get axis) (fun i => i = k ∨ E i))
    (hhig : ∀ i, i < k → ¬E i → ((bp.bounds.get axis).getD i default).value ≤ uv)
    (hg1 : k < boundCount - 1)
    (hg2 : ((bp.bounds.get axis).getD (k + 1) default).value ≤ uv)
    (hlenD : (bpD.bounds.get axis).length = (bp.bounds.get axis).length)
    (hD_k : (bpD.bounds.get axis).getD k default =
      { (bp.bounds.get axis).getD (k + 1) default with
        stabbingCount := ((bp.bounds.get axis).getD (k + 1) default).stabbingCount -
          stabOf ((bp.bounds.get axis).getD k default) })
    (hD_k1 : (bpD.bounds.get axis).getD (k + 1) default =
      { (bp.bounds.get axis).getD k default with
        stabbingCount := ((bp.bounds.get axis).getD k default).stabbingCount +
          stabOf ((bp.bounds.get axis).getD (k + 1) default) })
    (hD_out : ∀ i, i ≠ k → i ≠ k + 1 →
      (bpD.bounds.get axis).getD i default = (bp.bounds.get axis).getD i default)
    (houtD : ∀ q, q ≠ ((bp.bounds.get axis).getD (k + 1) default).proxyId → q ≠ pid →
      bpD.proxyPool.getD q default = bp.proxyPool.getD q default)
    (hnext_low : (bpD.proxyPool.getD ((bp.bounds.get axis).getD (k + 1)
        default).proxyId default).lowerBounds.get axis =
      (if ((bp.bounds.get axis).getD (k + 1) default).isLower then k
       else (bp.proxyPool.getD ((bp.bounds.get axis).getD (k + 1)
        default).proxyId default).lowerBounds.get axis))
    (hnext_up : (bpD.proxyPool.getD ((bp.bounds.get axis).getD (k + 1)
        default).proxyId default).upperBounds.get axis =
      (if ((bp.bounds.get axis).getD (k + 1) default).isLower then
        (bp.proxyPool.getD ((bp.bounds.get axis).getD (k + 1)
          default).proxyId default).upperBounds.get axis
       else k))
    (hpid_up : (bpD.proxyPool.getD pid default).upperBounds.get axis = k + 1)
    (hpid_low : (bpD.proxyPool.getD pid default).lowerBounds =
      (bp.proxyPool.getD pid default).lowerBounds)
    (hframeD : MoveFrame axis bp bpD)
    (ih : (bpD.bounds.get axis).length = boundCount →
      SapCore bpD.proxyPool (bpD.bounds.get axis) axis →
      pid < bpD.proxyPool.length →
      (bpD.proxyPool.getD pid default).isValidProxy = true →
      (bpD.proxyPool.getD pid default).upperBounds.get axis = k + 1 →
      ((bpD.bounds.get axis).getD (k + 1) default).value = uv →
      (∀ i, E i → i < boundCount ∧ i ≠ k + 1 ∧ (k + 1 < i → ∀ j, i ≤ j →
        j < boundCount → uv < ((bpD.bounds.get axis).getD j default).value)) →
      sortedExcept (bpD.bounds.get axis) (fun i => i = k + 1 ∨ E i) →
      (∀ i, i < k + 1 → ¬E i →
        ((bpD.bounds.get axis).getD i default).value ≤ uv) →
      (bp2.bounds.get axis).length = boundCount ∧
      SapCore bp2.proxyPool (bp2.bounds.get axis) axis ∧
      sortedExcept (bp2.bounds.get axis) E ∧
      (∀ i, i < k + 1 → (bp2.bounds.get axis).getD i default =
        (bpD.bounds.get axis).getD i default) ∧
      (∀ i, k + 1 < i → i < boundCount →
        uv < ((bpD.bounds.get axis).getD i default).value →
        (bp2.bounds.get axis).getD i default =
          (bpD.bounds.get axis).getD i default) ∧
      MoveFrame axis bpD bp2 ∧
      (bp2.proxyPool.getD pid default).lowerBounds =
        (bpD.proxyPool.getD pid default).lowerBounds ∧
      ((bp2.bounds.get axis).getD ((bp2.proxyPool.getD pid
        default).upperBounds.get axis) default).value = uv) :
    (bp2.bounds.get axis).length = boundCount ∧
    SapCore bp2.proxyPool (bp2.bounds.get axis) axis ∧
    sortedExcept (bp2.bounds.get axis) E ∧
    (∀ i, i < k → (bp2.bounds.get axis).getD i default =
      (bp.bounds.get axis).getD i default) ∧
    (∀ i, k < i → i < boundCount →
      uv < ((bp.bounds.get axis).getD i default).value →
      (bp2.bounds.get axis).getD i default =
        (bp.bounds.get axis).getD i default) ∧
    MoveFrame axis bp bp2 ∧
    (bp2.proxyPool.getD pid default).lowerBounds =
      (bp.proxyPool.getD pid default).lowerBounds ∧
    ((bp2.bounds.get axis).getD ((bp2.proxyPool.getD pid
      default).upperBounds.get axis) default).value = uv := by
  have hkm : k + 1 < (bp.bounds.get axis).length := by omega
  have hMown : ((bp.bounds.get axis).getD k default).proxyId = pid ∧
      ((bp.bounds.get axis).getD k default).isLower = false := by
    have h2 := hcore.live_upper pid hpid hlive not_false
    rw [hrec] at h2
    exact h2
  have hll := hcore.live_lt pid hpid hlive not_false
  rw [hrec] at hll
  have hnextne : ((bp.bounds.get axis).getD (k + 1) default).proxyId ≠ pid := by
    intro he
    by_cases hNL : ((bp.bounds.get axis).getD (k + 1) default).isLower = true
    · have h3 := hcore.lower_idx (k + 1) hkm hNL
      rw [he] at h3
      omega
    · have h3 := hcore.upper_idx (k + 1) hkm (by
        rw [Bool.not_eq_true] at hNL
        exact hNL)
      rw [he, hrec] at h3
      omega
  have hnEk1 : ¬E (k + 1) := by
    intro hc
    have h3 := (hE (k + 1) hc).2.2 (by omega) (k + 1) (by omega) (by omega)
    omega
  have hcoreD : SapCore bpD.proxyPool (bpD.bounds.get axis) axis := by
    refine SapCore_swap bp.proxyPool bpD.proxyPool (bp.bounds.get axis)
      (bpD.bounds.get axis) axis k pid
      (((bp.bounds.get axis).getD (k + 1) default).proxyId) hcore hkm hlenD
      hframeD.pool_len hMown.1 rfl (fun he => hnextne he.symm) hD_k hD_k1 hD_out
      hframeD.valid_eq (fun q h1 h2 => houtD q h2 h1) ?_ ?_ hnext_low hnext_up
    · rw [if_neg (by rw [hMown.2]; exact Bool.false_ne_true), hpid_low]
    · rw [if_neg (by rw [hMown.2]; exact Bool.false_ne_true)]
      exact hpid_up
  have hsXD : sortedExcept (bpD.bounds.get axis) (fun i => i = k + 1 ∨ E i) := by
    intro i j hij hj hiE hjE
    rw [hlenD] at hj
    have hiEk : i ≠ k + 1 := fun hc => hiE (Or.inl hc)
    have hjEk : j ≠ k + 1 := fun hc => hjE (Or.inl hc)
    have hiE2 : ¬E i := fun hc => hiE (Or.inr hc)
    have hjE2 : ¬E j := fun hc => hjE (Or.inr hc)
    by_cases hik : i = k
    · rw [hik, hD_k]
      show ((bp.bounds.get axis).getD (k + 1) default).value ≤
        ((bpD.bounds.get axis).getD j default).value
      rw [hD_out j (by omega) hjEk]
      refine hsX (k + 1) j (by omega) hj ?_ ?_
      · intro hc
        rcases hc with h0 | h0
        · omega
        · exact hnEk1 h0
      · intro hc
        rcases hc with h0 | h0
        · omega
        · exact hjE2 h0
    · by_cases hjk : j = k
      · rw [hjk, hD_k]
        show ((bpD.bounds.get axis).getD i default).value ≤
          ((bp.bounds.get axis).getD (k + 1) default).value
        rw [hD_out i hik hiEk]
        refine hsX i (k + 1) (by omega) (by omega) ?_ ?_
        · intro hc
          rcases hc with h0 | h0
          · exact hik h0
          · exact hiE2 h0
        · intro hc
          rcases hc with h0 | h0
          · omega
          · exact hnEk1 h0
      · rw [hD_out i hik hiEk, hD_out j hjk hjEk]
        refine hsX i j hij hj ?_ ?_
        · intro hc
          rcases hc with h0 | h0
          · exact hik h0
          · exact hiE2 h0
        · intro hc
          rcases hc with h0 | h0
          · exact hjk h0
          · exact hjE2 h0
  have hhigD : ∀ i, i < k + 1 → ¬E i →
      ((bpD.bounds.get axis).getD i default).value ≤ uv := by
    intro i hi hiE2
    by_cases hik : i = k
    · rw [hik, hD_k]
      show ((bp.bounds.get axis).getD (k + 1) default).value ≤ uv
      exact hg2
    · rw [hD_out i hik (by omega)]
      exact hhig i (by omega) hiE2
  have hED : ∀ i, E i → i < boundCount ∧ i ≠ k + 1 ∧ (k + 1 < i → ∀ j, i ≤ j →
      j < boundCount → uv < ((bpD.bounds.get axis).getD j default).value) := by
    intro i hi
    refine ⟨(hE i hi).1, ?_, ?_⟩
    · intro hc
      rw [hc] at hi
      exact hnEk1 hi
    · intro hki j hij hjb
      rw [hD_out j (by omega) (by omega)]
      exact (hE i hi).2.2 (by omega) j hij hjb
  have hinv := ih (by rw [hlenD]; exact hlen) hcoreD
    (by rw [hframeD.pool_len]; exact hpid)
    (by rw [hframeD.valid_eq]; exact hlive) hpid_up
    (by rw [hD_k1]; exact hval) hED hsXD hhigD
  obtain ⟨c1, c2, c3, c4, c5, c6, c7, c8⟩ := hinv
  refine ⟨c1, c2, c3, ?_, ?_, MoveFrame.moveTrans hframeD c6, ?_, c8⟩
  · intro i hi
    rw [c4 i (by omega), hD_out i (by omega) (by omega)]
  · intro i hi hib hvi
    by_cases hik1 : i = k + 1
    · exfalso
      rw [hik1] at hvi
      omega
    · rw [c5 i (by omega) hib (by rw [hD_out i (by omega) hik1]; exact hvi),
        hD_out i (by omega) hik1]
  · rw [c7, hpid_low]


theorem moveUpperUpGo_unfold (bp : BroadPhase) (pid axis : Nat) (nv : BoundValues)
    (uv boundCount k : Nat) :
    bp.moveUpperUpGo pid axis nv uv boundCount k =
      (if h : k < boundCount - 1 ∧
          ((bp.bounds.get axis).getD (k + 1) default).value ≤ uv then
         let bound := (bp.bounds.get axis).getD k default
         let nextBound := (bp.bounds.get axis).getD (k + 1) default
         let nextProxyId := nextBound.proxyId
         let nextProxy := bp.proxyPool.getD nextProxyId default
         let bpA := { bp with bounds := (bp.bounds.set axis
             ((bp.bounds.get axis).set (k + 1)
               { nextBound with stabbingCount := nextBound.stabbingCount + 1 })) }
         let bpB :=
           if nextBound.isLower then
             let bpT :=
               if bpA.testOverlap nv nextProxy then bpA.addBufferedPair pid nextProxyId
               else bpA
             let nextProxy1 := { nextProxy with
                 lowerBounds := nextProxy.lowerBounds.set axis (nextProxy.lowerBounds.get axis - 1) }
             let bpU := { bpT with proxyPool := bpT.proxyPool.set nextProxyId nextProxy1 }
             { bpU with bounds := (bpU.bounds.set axis
                 ((bpU.bounds.get axis).set k
                   { bound with stabbingCount := bound.stabbingCount + 1 })) }
           else
             let nextProxy1 := { nextProxy with
                 upperBounds := nextProxy.upperBounds.set axis (nextProxy.upperBounds.get axis - 1) }
             let bpU := { bpA with proxyPool := bpA.proxyPool.set nextProxyId nextProxy1 }
             { bpU with bounds := (bpU.bounds.set axis
                 ((bpU.bounds.get axis).set k
                   { bound with stabbingCount := bound.stabbingCount - 1 })) }
         let movingProxy := bpB.proxyPool.getD pid default
         let bpC := { bpB with proxyPool := (bpB.proxyPool.set pid
             { movingProxy with
                 upperBounds := movingProxy.upperBounds.set axis (movingProxy.upperBounds.get axis + 1) }) }
         let bounds3 := bpC.bounds.get axis
         let bpD := { bpC with bounds := (bpC.bounds.set axis
             ((bounds3.set k (bounds3.getD (k + 1) default)).set (k + 1)
               (bounds3.getD k default))) }
         BroadPhase.moveUpperUpGo bpD pid axis nv uv boundCount (k + 1)
       else
         bp) := by
  rw [BroadPhase.moveUpperUpGo]


/-- The upper-bound-up walk of MoveProxy preserves the axis invariants, by
induction on the distance from the moving bound to the end of the array. -/
theorem moveUpperUp_inv (pid axis boundCount : Nat) (nv : BoundValues) (uv : Nat)
    (E : Nat → Prop) :
    ∀ (n k : Nat) (bp : BroadPhase), boundCount - k ≤ n →
    (bp.bounds.get axis).length = boundCount →
    SapCore bp.proxyPool (bp.bounds.get axis) axis →
    pid < bp.proxyPool.length →
    (bp.proxyPool.getD pid default).isValidProxy = true →
    (bp.proxyPool.getD pid default).upperBounds.get axis = k →
    ((bp.bounds.get axis).getD k default).value = uv →
    (∀ i, E i → i < boundCount ∧ i ≠ k ∧ (k < i → ∀ j, i ≤ j →
      j < boundCount → uv < ((bp.bounds.get axis).getD j default).value)) →
    sortedExcept (bp.bounds.get axis) (fun i => i = k ∨ E i) →
    (∀ i, i < k → ¬E i → ((bp.bounds.get axis).getD i default).value ≤ uv) →
    ((bp.moveUpperUpGo pid axis nv uv boundCount k).bounds.get axis).length =
      boundCount ∧
    SapCore (bp.moveUpperUpGo pid axis nv uv boundCount k).proxyPool
      ((bp.moveUpperUpGo pid axis nv uv boundCount k).bounds.get axis) axis ∧
    sortedExcept ((bp.moveUpperUpGo pid axis nv uv boundCount k).bounds.get axis) E ∧
    (∀ i, i < k →
      ((bp.moveUpperUpGo pid axis nv uv boundCount k).bounds.get axis).getD i
        default = (bp.bounds.get axis).getD i default) ∧
    (∀ i, k < i → i < boundCount →
      uv < ((bp.bounds.get axis).getD i default).value →
      ((bp.moveUpperUpGo pid axis nv uv boundCount k).bounds.get axis).getD i
        default = (bp.bounds.get axis).getD i default) ∧
    MoveFrame axis bp (bp.moveUpperUpGo pid axis nv uv boundCount k) ∧
    ((bp.moveUpperUpGo pid axis nv uv boundCount k).proxyPool.getD pid
        default).lowerBounds = (bp.proxyPool.getD pid default).lowerBounds ∧
    (((bp.moveUpperUpGo pid axis nv uv boundCount k).bounds.get axis).getD
      (((bp.moveUpperUpGo pid axis nv uv boundCount k).proxyPool.getD pid
        default).upperBounds.get axis) default).value = uv := by
  intro n
  induction n with
  | zero =>
    intro k bp hfuel hlen hcore hpid hlive hrec hval hE hsX hhig
    have hg : ¬(k < boundCount - 1 ∧
        ((bp.bounds.get axis).getD (k + 1) default).value ≤ uv) :=
      fun hc => absurd hc.1 (by omega)
    rw [moveUpperUpGo_unfold, dif_neg hg]
    refine ⟨hlen, hcore,
      moveUpperUp_exit boundCount uv k E (bp.bounds.get axis) hlen hval hE hsX hhig
        (fun hkb => absurd hkb (by omega)),
      fun i _ => rfl, fun i _ _ _ => rfl, MoveFrame.moveRefl axis bp, rfl, ?_⟩
    rw [hrec, hval]
  | succ n ihn =>
    intro k bp hfuel hlen hcore hpid hlive hrec hval hE hsX hhig
    by_cases hg : k < boundCount - 1 ∧
        ((bp.bounds.get axis).getD (k + 1) default).value ≤ uv
    · have hkm : k + 1 < (bp.bounds.get axis).length := by omega
      have hMown : ((bp.bounds.get axis).getD k default).proxyId = pid ∧
          ((bp.bounds.get axis).getD k default).isLower = false := by
        have h2 := hcore.live_upper pid hpid hlive not_false
        rw [hrec] at h2
        exact h2
      have hll := hcore.live_lt pid hpid hlive not_false
      rw [hrec] at hll
      have hnextne : ((bp.bounds.get axis).getD (k + 1) default).proxyId ≠ pid := by
        intro he
        by_cases hNL : ((bp.bounds.get axis).getD (k + 1) default).isLower = true
        · have h3 := hcore.lower_idx (k + 1) hkm hNL
          rw [he] at h3
          omega
        · have h3 := hcore.upper_idx (k + 1) hkm (by
            rw [Bool.not_eq_true] at hNL
            exact hNL)
          rw [he, hrec] at h3
          omega
      have hnextlt : ((bp.bounds.get axis).getD (k + 1) default).proxyId <
          bp.proxyPool.length := hcore.owner_lt (k + 1) hkm
      set M := (bp.bounds.get axis).getD k default with hMd
      set N := (bp.bounds.get axis).getD (k + 1) default with hNd
      set nextId := N.proxyId with hnextIdd
      set nextProxy := bp.proxyPool.getD nextId default with hnextPd
      have hnextrecL : N.isLower = true →
          nextProxy.lowerBounds.get axis = k + 1 := by
        intro hNL
        exact hcore.lower_idx (k + 1) hkm hNL
      have hnextrecU : N.isLower = false →
          nextProxy.upperBounds.get axis = k + 1 := by
        intro hNL
        exact hcore.upper_idx (k + 1) hkm hNL
      set Nb : Bound := { N with stabbingCount := N.stabbingCount + 1 } with hNbd
      set bpA := { bp with
          bounds := bp.bounds.set axis ((bp.bounds.get axis).set (k + 1) Nb) }
        with hbpAd
      set bpT := (if bpA.testOverlap nv nextProxy then bpA.addBufferedPair pid nextId
        else bpA) with hbpTd
      set bpB := (if N.isLower then
          ({ bpT with
              proxyPool := bpT.proxyPool.set nextId { nextProxy with
                lowerBounds := nextProxy.lowerBounds.set axis
                  (nextProxy.lowerBounds.get axis - 1) }
              bounds := bpT.bounds.set axis ((bpT.bounds.get axis).set k
                { M with stabbingCount := M.stabbingCount + 1 }) })
        else
          ({ bpA with
              proxyPool := bpA.proxyPool.set nextId { nextProxy with
                upperBounds := nextProxy.upperBounds.set axis
                  (nextProxy.upperBounds.get axis - 1) }
              bounds := bpA.bounds.set axis ((bpA.bounds.get axis).set k
                { M with stabbingCount := M.stabbingCount - 1 }) })) with hbpBd
      set movingProxy := bpB.proxyPool.getD pid default with hmovd
      set bpC := ({ bpB with proxyPool := (bpB.proxyPool.set pid
          { movingProxy with
              upperBounds := movingProxy.upperBounds.set axis (movingProxy.upperBounds.get axis + 1) }) }) with hbpCd
      set B3 := bpC.bounds.get axis with hB3d
      set bpD := ({ bpC with
          bounds := bpC.bounds.set axis ((B3.set k (B3.getD (k + 1) default)).set (k + 1) (B3.getD k default)) }) with hbpDd
      have hstep : bp.moveUpperUpGo pid axis nv uv boundCount k =
          bpD.moveUpperUpGo pid axis nv uv boundCount (k + 1) := by
        rw [moveUpperUpGo_unfold, dif_pos hg]
      rw [hstep]
      have hbundle :
          (bpD.bounds.get axis).length = (bp.bounds.get axis).length ∧
          (bpD.bounds.get axis).getD k default =
            { N with stabbingCount := N.stabbingCount - stabOf M } ∧
          (bpD.bounds.get axis).getD (k + 1) default =
            { M with stabbingCount := M.stabbingCount + stabOf N } ∧
          (∀ i, i ≠ k → i ≠ k + 1 → (bpD.bounds.get axis).getD i default =
            (bp.bounds.get axis).getD i default) ∧
          (∀ q, q ≠ nextId → q ≠ pid →
            bpD.proxyPool.getD q default = bp.proxyPool.getD q default) ∧
          (bpD.proxyPool.getD nextId default).lowerBounds.get axis =
            (if N.isLower then k else nextProxy.lowerBounds.get axis) ∧
          (bpD.proxyPool.getD nextId default).upperBounds.get axis =
            (if N.isLower then nextProxy.upperBounds.get axis else k) ∧
          (bpD.proxyPool.getD pid default).upperBounds.get axis = k + 1 ∧
          (bpD.proxyPool.getD pid default).lowerBounds =
            (bp.proxyPool.getD pid default).lowerBounds ∧
          MoveFrame axis bp bpD := by
        have hTf : bpT.proxyPool = bp.proxyPool ∧ bpT.bounds = bpA.bounds ∧
            bpT.freeProxy = bp.freeProxy ∧ bpT.proxyCount = bp.proxyCount ∧
            bpT.maxProxies = bp.maxProxies ∧ bpT.worldAABB = bp.worldAABB ∧
            bpT.quantizationFactor = bp.quantizationFactor ∧
            bpT.timeStamp = bp.timeStamp := by
          rw [hbpTd]
          split
          · exact ⟨rfl, rfl, rfl, rfl, rfl, rfl, rfl, rfl⟩
          · exact ⟨rfl, rfl, rfl, rfl, rfl, rfl, rfl, rfl⟩
        have hAax : bpA.bounds.get axis = (bp.bounds.get axis).set (k + 1) Nb := by
          show (bp.bounds.set axis _).get axis = _
          exact Duo.get_set_hit _ _ _ _ Iff.rfl
        by_cases hNL : N.isLower = true
        · -- the passed bound is a lower bound
          set Mb : Bound := { M with stabbingCount := M.stabbingCount + 1 } with hMbd
          set nextProxy1 := { nextProxy with
              lowerBounds := nextProxy.lowerBounds.set axis
                (nextProxy.lowerBounds.get axis - 1) } with hnext1d
          have hbpB : bpB = { bpT with
              proxyPool := bpT.proxyPool.set nextId nextProxy1
              bounds := bpT.bounds.set axis ((bpT.bounds.get axis).set k Mb) } := by
            rw [hbpBd, if_pos hNL]
          have hBpool : bpB.proxyPool = bp.proxyPool.set nextId nextProxy1 := by
            rw [hbpB]
            show bpT.proxyPool.set nextId nextProxy1 = _
            rw [hTf.1]
          have hBbounds : bpB.bounds =
              bpT.bounds.set axis ((bpT.bounds.get axis).set k Mb) := by
            rw [hbpB]
          have hB3 : B3 = ((bp.bounds.get axis).set (k + 1) Nb).set k Mb := by
            show bpB.bounds.get axis = _
            rw [hBbounds, Duo.get_set_hit _ _ _ _ Iff.rfl, hTf.2.1, hAax]
          have hlen3 : B3.length = (bp.bounds.get axis).length := by
            rw [hB3, List.length_set, List.length_set]
          have hB3k : B3.getD k default = Mb := by
            rw [hB3]
            exact getD_set_eq _ _ _ (by rw [List.length_set]; omega)
          have hB3k1 : B3.getD (k + 1) default = Nb := by
            rw [hB3, getD_set_ne _ _ _ _ (by omega)]
            exact getD_set_eq _ _ _ hkm
          have hB3out : ∀ i, i ≠ k → i ≠ k + 1 →
              B3.getD i default = (bp.bounds.get axis).getD i default := by
            intro i h1 h2
            rw [hB3, getD_set_ne _ _ _ _ (fun he => h1 he.symm),
              getD_set_ne _ _ _ _ (fun he => h2 he.symm)]
          have hBD : bpD.bounds.get axis =
              (B3.set k (B3.getD (k + 1) default)).set (k + 1) (B3.getD k default) := by
            show (bpC.bounds.set axis _).get axis = _
            exact Duo.get_set_hit _ _ _ _ Iff.rfl
          have hk3 : k + 1 < B3.length := by
            rw [hlen3]
            exact hkm
          have hD_k : (bpD.bounds.get axis).getD k default =
              { N with stabbingCount := N.stabbingCount - stabOf M } := by
            rw [hBD, getD_double_set B3 k hk3, if_pos rfl, hB3k1,
              stabOf_upper M hMown.2, Int.sub_neg]
          have hD_k1 : (bpD.bounds.get axis).getD (k + 1) default =
              { M with stabbingCount := M.stabbingCount + stabOf N } := by
            rw [hBD, getD_double_set B3 k hk3,
              if_neg (show ¬(k + 1 = k) by omega), if_pos rfl, hB3k,
              stabOf_lower N hNL]
          have hD_out : ∀ i, i ≠ k → i ≠ k + 1 →
              (bpD.bounds.get axis).getD i default =
                (bp.bounds.get axis).getD i default := by
            intro i h1 h2
            rw [hBD, getD_double_set B3 k hk3, if_neg h1, if_neg h2]
            exact hB3out i h1 h2
          have hlenD : (bpD.bounds.get axis).length = (bp.bounds.get axis).length := by
            rw [hBD, List.length_set, List.length_set, hlen3]
          have hCpool : bpD.proxyPool =
              (bp.proxyPool.set nextId nextProxy1).set pid
                { movingProxy with upperBounds := movingProxy.upperBounds.set axis (movingProxy.upperBounds.get axis + 1) } := by
            show bpB.proxyPool.set pid _ = _
            rw [hBpool]
          have hmov : movingProxy = bp.proxyPool.getD pid default := by
            show bpB.proxyPool.getD pid default = _
            rw [hBpool]
            exact getD_set_ne _ _ _ _ hnextne
          have hpoolD_pid : bpD.proxyPool.getD pid default =
              { movingProxy with upperBounds := movingProxy.upperBounds.set axis (movingProxy.upperBounds.get axis + 1) } := by
            rw [hCpool]
            exact getD_set_eq _ _ _ (by rw [List.length_set]; exact hpid)
          have hpoolD_next : bpD.proxyPool.getD nextId default = nextProxy1 := by
            rw [hCpool, getD_set_ne _ _ _ _ (fun he => hnextne he.symm)]
            exact getD_set_eq _ _ _ hnextlt
          have houtD : ∀ q, q ≠ nextId → q ≠ pid →
              bpD.proxyPool.getD q default = bp.proxyPool.getD q default := by
            intro q h1 h2
            rw [hCpool, getD_set_ne _ _ _ _ (fun he => h2 he.symm),
              getD_set_ne _ _ _ _ (fun he => h1 he.symm)]
          have hpid_up : (bpD.proxyPool.getD pid default).upperBounds.get axis =
              k + 1 := by
            rw [hpoolD_pid]
            show (movingProxy.upperBounds.set axis
              (movingProxy.upperBounds.get axis + 1)).get axis = k + 1
            rw [Duo.get_set_hit _ _ _ _ Iff.rfl, hmov, hrec]
          have hpid_low : (bpD.proxyPool.getD pid default).lowerBounds =
              (bp.proxyPool.getD pid default).lowerBounds := by
            rw [hpoolD_pid]
            show movingProxy.lowerBounds = _
            rw [hmov]
          have hnext_low : (bpD.proxyPool.getD nextId default).lowerBounds.get axis =
              (if N.isLower then k else nextProxy.lowerBounds.get axis) := by
            rw [hpoolD_next, if_pos hNL]
            show (nextProxy.lowerBounds.set axis
              (nextProxy.lowerBounds.get axis - 1)).get axis = k
            rw [Duo.get_set_hit _ _ _ _ Iff.rfl, hnextrecL hNL]
            omega
          have hnext_up : (bpD.proxyPool.getD nextId default).upperBounds.get axis =
              (if N.isLower then nextProxy.upperBounds.get axis else k) := by
            rw [hpoolD_next, if_pos hNL]
          have hplenD : bpD.proxyPool.length = bp.proxyPool.length := by
            rw [hCpool, List.length_set, List.length_set]
          have hframe : MoveFrame axis bp bpD := by
            refine ⟨?_, hplenD, ?_, ?_, ?_, ?_, ?_,
              (by show bpB.freeProxy = bp.freeProxy; rw [hbpB]; exact hTf.2.2.1),
              (by show bpB.proxyCount = bp.proxyCount; rw [hbpB]; exact hTf.2.2.2.1),
              (by show bpB.maxProxies = bp.maxProxies; rw [hbpB]; exact hTf.2.2.2.2.1),
              (by show bpB.worldAABB = bp.worldAABB; rw [hbpB]; exact hTf.2.2.2.2.2.1),
              (by show bpB.quantizationFactor = bp.quantizationFactor; rw [hbpB]; exact hTf.2.2.2.2.2.2.1),
              (by show bpB.timeStamp = bp.timeStamp; rw [hbpB]; exact hTf.2.2.2.2.2.2.2)⟩
            · intro a' ha
              show (bpC.bounds.set axis _).get a' = _
              rw [Duo.get_set_miss _ _ _ _ ha]
              show bpB.bounds.get a' = _
              rw [hBbounds, Duo.get_set_miss _ _ _ _ ha, hTf.2.1]
              show (bp.bounds.set axis _).get a' = _
              rw [Duo.get_set_miss _ _ _ _ ha]
            · intro q
              by_cases h1 : q = pid
              · rw [h1, hpoolD_pid]
                show movingProxy.isValidProxy = _
                rw [hmov]
              · by_cases h2 : q = nextId
                · rw [h2, hpoolD_next]
                  show nextProxy.isValidProxy = _
                  rw [hnextPd]
                · rw [houtD q h2 h1]
            · intro q
              by_cases h1 : q = pid
              · rw [h1, hpoolD_pid]
                show movingProxy.next = _
                rw [hmov]
              · by_cases h2 : q = nextId
                · rw [h2, hpoolD_next]
                · rw [houtD q h2 h1]
            · intro q
              by_cases h1 : q = pid
              · rw [h1, hpoolD_pid]
                show movingProxy.userData = _
                rw [hmov]
              · by_cases h2 : q = nextId
                · rw [h2, hpoolD_next]
                · rw [houtD q h2 h1]
            · intro q a' ha
              by_cases h1 : q = pid
              · rw [h1, hpoolD_pid]
                show movingProxy.lowerBounds.get a' = _
                rw [hmov]
              · by_cases h2 : q = nextId
                · rw [h2, hpoolD_next]
                  show (nextProxy.lowerBounds.set axis _).get a' = _
                  rw [Duo.get_set_miss _ _ _ _ ha, hnextPd]
                · rw [houtD q h2 h1]
            · intro q a' ha
              by_cases h1 : q = pid
              · rw [h1, hpoolD_pid]
                show (movingProxy.upperBounds.set axis _).get a' = _
                rw [Duo.get_set_miss _ _ _ _ ha, hmov]
              · by_cases h2 : q = nextId
                · rw [h2, hpoolD_next]
                · rw [houtD q h2 h1]
          exact ⟨hlenD, hD_k, hD_k1, hD_out, houtD, hnext_low, hnext_up,
            hpid_up, hpid_low, hframe⟩
        · -- the passed bound is an upper bound
          have hNL' : N.isLower = false := by
            rw [Bool.not_eq_true] at hNL
            exact hNL
          set Mb : Bound := { M with stabbingCount := M.stabbingCount - 1 } with hMbd
          set nextProxy1 := { nextProxy with
              upperBounds := nextProxy.upperBounds.set axis
                (nextProxy.upperBounds.get axis - 1) } with hnext1d
          have hbpB : bpB = { bpA with
              proxyPool := bpA.proxyPool.set nextId nextProxy1
              bounds := bpA.bounds.set axis ((bpA.bounds.get axis).set k Mb) } := by
            rw [hbpBd, if_neg (by rw [hNL']; exact Bool.false_ne_true)]
          have hBpool : bpB.proxyPool = bp.proxyPool.set nextId nextProxy1 := by
            rw [hbpB]
          have hBbounds : bpB.bounds =
              bpA.bounds.set axis ((bpA.bounds.get axis).set k Mb) := by
            rw [hbpB]
          have hB3 : B3 = ((bp.bounds.get axis).set (k + 1) Nb).set k Mb := by
            show bpB.bounds.get axis = _
            rw [hBbounds, Duo.get_set_hit _ _ _ _ Iff.rfl, hAax]
          have hlen3 : B3.length = (bp.bounds.get axis).length := by
            rw [hB3, List.length_set, List.length_set]
          have hB3k : B3.getD k default = Mb := by
            rw [hB3]
            exact getD_set_eq _ _ _ (by rw [List.length_set]; omega)
          have hB3k1 : B3.getD (k + 1) default = Nb := by
            rw [hB3, getD_set_ne _ _ _ _ (by omega)]
            exact getD_set_eq _ _ _ hkm
          have hB3out : ∀ i, i ≠ k → i ≠ k + 1 →
              B3.getD i default = (bp.bounds.get axis).getD i default := by
            intro i h1 h2
            rw [hB3, getD_set_ne _ _ _ _ (fun he => h1 he.symm),
              getD_set_ne _ _ _ _ (fun he => h2 he.symm)]
          have hBD : bpD.bounds.get axis =
              (B3.set k (B3.getD (k + 1) default)).set (k + 1) (B3.getD k default) := by
            show (bpC.bounds.set axis _).get axis = _
            exact Duo.get_set_hit _ _ _ _ Iff.rfl
          have hk3 : k + 1 < B3.length := by
            rw [hlen3]
            exact hkm
          have hD_k : (bpD.bounds.get axis).getD k default =
              { N with stabbingCount := N.stabbingCount - stabOf M } := by
            rw [hBD, getD_double_set B3 k hk3, if_pos rfl, hB3k1,
              stabOf_upper M hMown.2, Int.sub_neg]
          have hD_k1 : (bpD.bounds.get axis).getD (k + 1) default =
              { M with stabbingCount := M.stabbingCount + stabOf N } := by
            rw [hBD, getD_double_set B3 k hk3,
              if_neg (show ¬(k + 1 = k) by omega), if_pos rfl, hB3k,
              stabOf_upper N hNL', hMbd, Int.sub_eq_add_neg]
          have hD_out : ∀ i, i ≠ k → i ≠ k + 1 →
              (bpD.bounds.get axis).getD i default =
                (bp.bounds.get axis).getD i default := by
            intro i h1 h2
            rw [hBD, getD_double_set B3 k hk3, if_neg h1, if_neg h2]
            exact hB3out i h1 h2
          have hlenD : (bpD.bounds.get axis).length = (bp.bounds.get axis).length := by
            rw [hBD, List.length_set, List.length_set, hlen3]
          have hCpool : bpD.proxyPool =
              (bp.proxyPool.set nextId nextProxy1).set pid
                { movingProxy with upperBounds := movingProxy.upperBounds.set axis (movingProxy.upperBounds.get axis + 1) } := by
            show bpB.proxyPool.set pid _ = _
            rw [hBpool]
          have hmov : movingProxy = bp.proxyPool.getD pid default := by
            show bpB.proxyPool.getD pid default = _
            rw [hBpool]
            exact getD_set_ne _ _ _ _ hnextne
          have hpoolD_pid : bpD.proxyPool.getD pid default =
              { movingProxy with upperBounds := movingProxy.upperBounds.set axis (movingProxy.upperBounds.get axis + 1) } := by
            rw [hCpool]
            exact getD_set_eq _ _ _ (by rw [List.length_set]; exact hpid)
          have hpoolD_next : bpD.proxyPool.getD nextId default = nextProxy1 := by
            rw [hCpool, getD_set_ne _ _ _ _ (fun he => hnextne he.symm)]
            exact getD_set_eq _ _ _ hnextlt
          have houtD : ∀ q, q ≠ nextId → q ≠ pid →
              bpD.proxyPool.getD q default = bp.proxyPool.getD q default := by
            intro q h1 h2
            rw [hCpool, getD_set_ne _ _ _ _ (fun he => h2 he.symm),
              getD_set_ne _ _ _ _ (fun he => h1 he.symm)]
          have hpid_up : (bpD.proxyPool.getD pid default).upperBounds.get axis =
              k + 1 := by
            rw [hpoolD_pid]
            show (movingProxy.upperBounds.set axis
              (movingProxy.upperBounds.get axis + 1)).get axis = k + 1
            rw [Duo.get_set_hit _ _ _ _ Iff.rfl, hmov, hrec]
          have hpid_low : (bpD.proxyPool.getD pid default).lowerBounds =
              (bp.proxyPool.getD pid default).lowerBounds := by
            rw [hpoolD_pid]
            show movingProxy.lowerBounds = _
            rw [hmov]
          have hnext_low : (bpD.proxyPool.getD nextId default).lowerBounds.get axis =
              (if N.isLower then k else nextProxy.lowerBounds.get axis) := by
            rw [hpoolD_next, if_neg (by rw [hNL']; exact Bool.false_ne_true)]
          have hnext_up : (bpD.proxyPool.getD nextId default).upperBounds.get axis =
              (if N.isLower then nextProxy.upperBounds.get axis else k) := by
            rw [hpoolD_next, if_neg (by rw [hNL']; exact Bool.false_ne_true)]
            show (nextProxy.upperBounds.set axis
              (nextProxy.upperBounds.get axis - 1)).get axis = k
            rw [Duo.get_set_hit _ _ _ _ Iff.rfl, hnextrecU hNL']
            omega
          have hplenD : bpD.proxyPool.length = bp.proxyPool.length := by
            rw [hCpool, List.length_set, List.length_set]
          have hframe : MoveFrame axis bp bpD := by
            refine ⟨?_, hplenD, ?_, ?_, ?_, ?_, ?_,
              (by show bpB.freeProxy = bp.freeProxy; rw [hbpB]),
              (by show bpB.proxyCount = bp.proxyCount; rw [hbpB]),
              (by show bpB.maxProxies = bp.maxProxies; rw [hbpB]),
              (by show bpB.worldAABB = bp.worldAABB; rw [hbpB]),
              (by show bpB.quantizationFactor = bp.quantizationFactor; rw [hbpB]),
              (by show bpB.timeStamp = bp.timeStamp; rw [hbpB])⟩
            · intro a' ha
              show (bpC.bounds.set axis _).get a' = _
              rw [Duo.get_set_miss _ _ _ _ ha]
              show bpB.bounds.get a' = _
              rw [hBbounds, Duo.get_set_miss _ _ _ _ ha]
              show (bp.bounds.set axis _).get a' = _
              rw [Duo.get_set_miss _ _ _ _ ha]
            · intro q
              by_cases h1 : q = pid
              · rw [h1, hpoolD_pid]
                show movingProxy.isValidProxy = _
                rw [hmov]
              · by_cases h2 : q = nextId
                · rw [h2, hpoolD_next]
                  show nextProxy.isValidProxy = _
                  rw [hnextPd]
                · rw [houtD q h2 h1]
            · intro q
              by_cases h1 : q = pid
              · rw [h1, hpoolD_pid]
                show movingProxy.next = _
                rw [hmov]
              · by_cases h2 : q = nextId
                · rw [h2, hpoolD_next]
                · rw [houtD q h2 h1]
            · intro q
              by_cases h1 : q = pid
              · rw [h1, hpoolD_pid]
                show movingProxy.userData = _
                rw [hmov]
              · by_cases h2 : q = nextId
                · rw [h2, hpoolD_next]
                · rw [houtD q h2 h1]
            · intro q a' ha
              by_cases h1 : q = pid
              · rw [h1, hpoolD_pid]
                show movingProxy.lowerBounds.get a' = _
                rw [hmov]
              · by_cases h2 : q = nextId
                · rw [h2, hpoolD_next]
                · rw [houtD q h2 h1]
            · intro q a' ha
              by_cases h1 : q = pid
              · rw [h1, hpoolD_pid]
                show (movingProxy.upperBounds.set axis _).get a' = _
                rw [Duo.get_set_miss _ _ _ _ ha, hmov]
              · by_cases h2 : q = nextId
                · rw [h2, hpoolD_next]
                  show (nextProxy.upperBounds.set axis _).get a' = _
                  rw [Duo.get_set_miss _ _ _ _ ha, hnextPd]
                · rw [houtD q h2 h1]
          exact ⟨hlenD, hD_k, hD_k1, hD_out, houtD, hnext_low, hnext_up,
            hpid_up, hpid_low, hframe⟩
      obtain ⟨hlenD, hD_k, hD_k1, hD_out, houtD, hnext_low, hnext_up,
        hpid_up, hpid_low, hframe⟩ := hbundle
      exact moveUpperUp_step pid axis boundCount uv E k bp bpD
        (bpD.moveUpperUpGo pid axis nv uv boundCount (k + 1)) hlen hcore hpid
        hlive hrec hval hE hsX hhig hg.1 hg.2 hlenD hD_k hD_k1 hD_out houtD
        hnext_low hnext_up hpid_up hpid_low hframe
        (ihn (k + 1) bpD (by omega))
    · rw [moveUpperUpGo_unfold, dif_neg hg]
      refine ⟨hlen, hcore,
        moveUpperUp_exit boundCount uv k E (bp.bounds.get axis) hlen hval hE hsX
          hhig ?_,
        fun i _ => rfl, fun i _ _ _ => rfl, MoveFrame.moveRefl axis bp, rfl, ?_⟩
      · intro hkb
        by_contra hc
        push_neg at hc
        exact hg ⟨hkb, hc⟩
      · rw [hrec, hval]


/-- One step of the lower-bound-up walk of MoveProxy, abstractly: one repaired
adjacent swap above the moving lower bound carries the walk invariant one
position higher, and the walk conclusions transfer back. -/
theorem moveLowerUp_step (pid axis boundCount : Nat) (lv : Nat)
    (E : Nat → Prop) (k : Nat) (bp bpD bp2 : BroadPhase)
    (hlen : (bp.bounds.get axis).length = boundCount)
    (hcore : SapCore bp.proxyPool (bp.bounds.get axis) axis)
    (hpid : pid < bp.proxyPool.length)
    (hlive : (bp.proxyPool.getD pid default).isValidProxy = true)
    (hrec : (bp.proxyPool.getD pid default).lowerBounds.get axis = k)
    (hval : ((bp.bounds.get axis).getD k default).value = lv)
    (hpart : lv < ((bp.bounds.get axis).getD
      ((bp.proxyPool.getD pid default).upperBounds.get axis) default).value)
    (hE : ∀ i, E i → i < boundCount ∧ i ≠ k ∧ (k < i → ∀ j, i ≤ j →
      j < boundCount → lv < ((bp.bounds.get axis).getD j default).value))
    (hsX : sortedExcept (bp.bounds.get axis) (fun i => i = k ∨ E i))
    (hhig : ∀ i, i < k → ¬E i → ((bp.bounds.get axis).getD i default).value ≤ lv)
    (hg1 : k < boundCount - 1)
    (hg2 : ((bp.bounds.get axis).getD (k + 1) default).value ≤ lv)
    (hlenD : (bpD.bounds.get axis).length = (bp.bounds.get axis).length)
    (hD_k : (bpD.bounds.get axis).getD k default =
      { (bp.bounds.get axis).getD (k + 1) default with
        stabbingCount := ((bp.bounds.get axis).getD (k + 1) default).stabbingCount -
          stabOf ((bp.bounds.get axis).getD k default) })
    (hD_k1 : (bpD.bounds.get axis).getD (k + 1) default =
      { (bp.bounds.get axis).getD k default with
        stabbingCount := ((bp.bounds.get axis).getD k default).stabbingCount +
          stabOf ((bp.bounds.get axis).getD (k + 1) default) })
    (hD_out : ∀ i, i ≠ k → i ≠ k + 1 →
      (bpD.bounds.get axis).getD i default = (bp.bounds.get axis).getD i default)
    (houtD : ∀ q, q ≠ ((bp.bounds.get axis).getD (k + 1) default).proxyId → q ≠ pid →
      bpD.proxyPool.getD q default = bp.proxyPool.getD q default)
    (hnext_low : (bpD.proxyPool.getD ((bp.bounds.get axis).getD (k + 1)
        default).proxyId default).lowerBounds.get axis =
      (if ((bp.bounds.get axis).getD (k + 1) default).isLower then k
       else (bp.proxyPool.getD ((bp.bounds.get axis).getD (k + 1)
        default).proxyId default).lowerBounds.get axis))
    (hnext_up : (bpD.proxyPool.getD ((bp.bounds.get axis).getD (k + 1)
        default).proxyId default).upperBounds.get axis =
      (if ((bp.bounds.get axis).getD (k + 1) default).isLower then
        (bp.proxyPool.getD ((bp.bounds.get axis).getD (k + 1)
          default).proxyId default).upperBounds.get axis
       else k))
    (hpid_low : (bpD.proxyPool.getD pid default).lowerBounds.get axis = k + 1)
    (hpid_up : (bpD.proxyPool.getD pid default).upperBounds =
      (bp.proxyPool.getD pid default).upperBounds)
    (hframeD : MoveFrame axis bp bpD)
    (ih : (bpD.bounds.get axis).length = boundCount →
      SapCore bpD.proxyPool (bpD.bounds.get axis) axis →
      pid < bpD.proxyPool.length →
      (bpD.proxyPool.getD pid default).isValidProxy = true →
      (bpD.proxyPool.getD pid default).lowerBounds.get axis = k + 1 →
      ((bpD.bounds.get axis).getD (k + 1) default).value = lv →
      lv < ((bpD.bounds.get axis).getD
        ((bpD.proxyPool.getD pid default).upperBounds.get axis) default).value →
      (∀ i, E i → i < boundCount ∧ i ≠ k + 1 ∧ (k + 1 < i → ∀ j, i ≤ j →
        j < boundCount → lv < ((bpD.bounds.get axis).getD j default).value)) →
      sortedExcept (bpD.bounds.get axis) (fun i => i = k + 1 ∨ E i) →
      (∀ i, i < k + 1 → ¬E i →
        ((bpD.bounds.get axis).getD i default).value ≤ lv) →
      (bp2.bounds.get axis).length = boundCount ∧
      SapCore bp2.proxyPool (bp2.bounds.get axis) axis ∧
      sortedExcept (bp2.bounds.get axis) E ∧
      (∀ i, i < k + 1 → (bp2.bounds.get axis).getD i default =
        (bpD.bounds.get axis).getD i default) ∧
      (∀ i, k + 1 < i → i < boundCount →
        lv < ((bpD.bounds.get axis).getD i default).value →
        (bp2.bounds.get axis).getD i default =
          (bpD.bounds.get axis).getD i default) ∧
      MoveFrame axis bpD bp2 ∧
      (bp2.proxyPool.getD pid default).upperBounds =
        (bpD.proxyPool.getD pid default).upperBounds ∧
      ((bp2.bounds.get axis).getD ((bp2.proxyPool.getD pid
        default).lowerBounds.get axis) default).value = lv) :
    (bp2.bounds.get axis).length = boundCount ∧
    SapCore bp2.proxyPool (bp2.bounds.get axis) axis ∧
    sortedExcept (bp2.bounds.get axis) E ∧
    (∀ i, i < k → (bp2.bounds.get axis).getD i default =
      (bp.bounds.get axis).getD i default) ∧
    (∀ i, k < i → i < boundCount →
      lv < ((bp.bounds.get axis).getD i default).value →
      (bp2.bounds.get axis).getD i default =
        (bp.bounds.get axis).getD i default) ∧
    MoveFrame axis bp bp2 ∧
    (bp2.proxyPool.getD pid default).upperBounds =
      (bp.proxyPool.getD pid default).upperBounds ∧
    ((bp2.bounds.get axis).getD ((bp2.proxyPool.getD pid
      default).lowerBounds.get axis) default).value = lv := by
  have hkm : k + 1 < (bp.bounds.get axis).length := by omega
  have hMown : ((bp.bounds.get axis).getD k default).proxyId = pid ∧
      ((bp.bounds.get axis).getD k default).isLower = true := by
    have h2 := hcore.live_lower pid hpid hlive not_false
    rw [hrec] at h2
    exact h2
  have hll := hcore.live_lt pid hpid hlive not_false
  rw [hrec] at hll
  have hnextne : ((bp.bounds.get axis).getD (k + 1) default).proxyId ≠ pid := by
    intro he
    by_cases hNL : ((bp.bounds.get axis).getD (k + 1) default).isLower = true
    · have h3 := hcore.lower_idx (k + 1) hkm hNL
      rw [he] at h3
      omega
    · have h3 := hcore.upper_idx (k + 1) hkm (by
        rw [Bool.not_eq_true] at hNL
        exact hNL)
      rw [he] at h3
      rw [h3] at hpart
      omega
  have hune : (bp.proxyPool.getD pid default).upperBounds.get axis ≠ k + 1 := by
    intro he
    have h2 := hcore.live_upper pid hpid hlive not_false
    rw [he] at h2
    exact hnextne h2.1
  have hnEk1 : ¬E (k + 1) := by
    intro hc
    have h3 := (hE (k + 1) hc).2.2 (by omega) (k + 1) (by omega) (by omega)
    omega
  have hcoreD : SapCore bpD.proxyPool (bpD.bounds.get axis) axis := by
    refine SapCore_swap bp.proxyPool bpD.proxyPool (bp.bounds.get axis)
      (bpD.bounds.get axis) axis k pid
      (((bp.bounds.get axis).getD (k + 1) default).proxyId) hcore hkm hlenD
      hframeD.pool_len hMown.1 rfl (fun he => hnextne he.symm) hD_k hD_k1 hD_out
      hframeD.valid_eq (fun q h1 h2 => houtD q h2 h1) ?_ ?_ hnext_low hnext_up
    · rw [if_pos hMown.2]
      exact hpid_low
    · rw [if_pos hMown.2, hpid_up]
  have hsXD : sortedExcept (bpD.bounds.get axis) (fun i => i = k + 1 ∨ E i) := by
    intro i j hij hj hiE hjE
    rw [hlenD] at hj
    have hiEk : i ≠ k + 1 := fun hc => hiE (Or.inl hc)
    have hjEk : j ≠ k + 1 := fun hc => hjE (Or.inl hc)
    have hiE2 : ¬E i := fun hc => hiE (Or.inr hc)
    have hjE2 : ¬E j := fun hc => hjE (Or.inr hc)
    by_cases hik : i = k
    · rw [hik, hD_k]
      show ((bp.bounds.get axis).getD (k + 1) default).value ≤
        ((bpD.bounds.get axis).getD j default).value
      rw [hD_out j (by omega) hjEk]
      refine hsX (k + 1) j (by omega) hj ?_ ?_
      · intro hc
        rcases hc with h0 | h0
        · omega
        · exact hnEk1 h0
      · intro hc
        rcases hc with h0 | h0
        · omega
        · exact hjE2 h0
    · by_cases hjk : j = k
      · rw [hjk, hD_k]
        show ((bpD.bounds.get axis).getD i default).value ≤
          ((bp.bounds.get axis).getD (k + 1) default).value
        rw [hD_out i hik hiEk]
        refine hsX i (k + 1) (by omega) (by omega) ?_ ?_
        · intro hc
          rcases hc with h0 | h0
          · exact hik h0
          · exact hiE2 h0
        · intro hc
          rcases hc with h0 | h0
          · omega
          · exact hnEk1 h0
      · rw [hD_out i hik hiEk, hD_out j hjk hjEk]
        refine hsX i j hij hj ?_ ?_
        · intro hc
          rcases hc with h0 | h0
          · exact hik h0
          · exact hiE2 h0
        · intro hc
          rcases hc with h0 | h0
          · exact hjk h0
          · exact hjE2 h0
  have hhigD : ∀ i, i < k + 1 → ¬E i →
      ((bpD.bounds.get axis).getD i default).value ≤ lv := by
    intro i hi hiE2
    by_cases hik : i = k
    · rw [hik, hD_k]
      show ((bp.bounds.get axis).getD (k + 1) default).value ≤ lv
      exact hg2
    · rw [hD_out i hik (by omega)]
      exact hhig i (by omega) hiE2
  have hED : ∀ i, E i → i < boundCount ∧ i ≠ k + 1 ∧ (k + 1 < i → ∀ j, i ≤ j →
      j < boundCount → lv < ((bpD.bounds.get axis).getD j default).value) := by
    intro i hi
    refine ⟨(hE i hi).1, ?_, ?_⟩
    · intro hc
      rw [hc] at hi
      exact hnEk1 hi
    · intro hki j hij hjb
      rw [hD_out j (by omega) (by omega)]
      exact (hE i hi).2.2 (by omega) j hij hjb
  have hpartD : lv < ((bpD.bounds.get axis).getD
      ((bpD.proxyPool.getD pid default).upperBounds.get axis) default).value := by
    rw [hpid_up, hD_out _ (by omega) hune]
    exact hpart
  have hinv := ih (by rw [hlenD]; exact hlen) hcoreD
    (by rw [hframeD.pool_len]; exact hpid)
    (by rw [hframeD.valid_eq]; exact hlive) hpid_low
    (by rw [hD_k1]; exact hval) hpartD hED hsXD hhigD
  obtain ⟨c1, c2, c3, c4, c5, c6, c7, c8⟩ := hinv
  refine ⟨c1, c2, c3, ?_, ?_, MoveFrame.moveTrans hframeD c6, ?_, c8⟩
  · intro i hi
    rw [c4 i (by omega), hD_out i (by omega) (by omega)]
  · intro i hi hib hvi
    by_cases hik1 : i = k + 1
    · exfalso
      rw [hik1] at hvi
      omega
    · rw [c5 i (by omega) hib (by rw [hD_out i (by omega) hik1]; exact hvi),
        hD_out i (by omega) hik1]
  · rw [c7, hpid_up]


theorem moveLowerUpGo_unfold (bp : BroadPhase) (pid axis : Nat) (ov : BoundValues)
    (lv boundCount k : Nat) :
    bp.moveLowerUpGo pid axis ov lv boundCount k =
      (if h : k < boundCount - 1 ∧
          ((bp.bounds.get axis).getD (k + 1) default).value ≤ lv then
         let bound := (bp.bounds.get axis).getD k default
         let nextBound := (bp.bounds.get axis).getD (k + 1) default
         let nextProxyId := nextBound.proxyId
         let nextProxy := bp.proxyPool.getD nextProxyId default
         let bpA := { bp with bounds := (bp.bounds.set axis
             ((bp.bounds.get axis).set (k + 1)
               { nextBound with stabbingCount := nextBound.stabbingCount - 1 })) }
         let bpB :=
           if nextBound.isUpper then
             let bpT :=
               if bpA.testOverlap ov nextProxy then bpA.removeBufferedPair pid nextProxyId
               else bpA
             let nextProxy1 := { nextProxy with
                 upperBounds := nextProxy.upperBounds.set axis (nextProxy.upperBounds.get axis - 1) }
             let bpU := { bpT with proxyPool := bpT.proxyPool.set nextProxyId nextProxy1 }
             { bpU with bounds := (bpU.bounds.set axis
                 ((bpU.bounds.get axis).set k
                   { bound with stabbingCount := bound.stabbingCount - 1 })) }
           else
             let nextProxy1 := { nextProxy with
                 lowerBounds := nextProxy.lowerBounds.set axis (nextProxy.lowerBounds.get axis - 1) }
             let bpU := { bpA with proxyPool := bpA.proxyPool.set nextProxyId nextProxy1 }
             { bpU with bounds := (bpU.bounds.set axis
                 ((bpU.bounds.get axis).set k
                   { bound with stabbingCount := bound.stabbingCount + 1 })) }
         let movingProxy := bpB.proxyPool.getD pid default
         let bpC := { bpB with proxyPool := (bpB.proxyPool.set pid
             { movingProxy with
                 lowerBounds := movingProxy.lowerBounds.set axis (movingProxy.lowerBounds.get axis + 1) }) }
         let bounds3 := bpC.bounds.get axis
         let bpD := { bpC with bounds := (bpC.bounds.set axis
             ((bounds3.set k (bounds3.getD (k + 1) default)).set (k + 1)
               (bounds3.getD k default))) }
         BroadPhase.moveLowerUpGo bpD pid axis ov lv boundCount (k + 1)
       else
         bp) := by
  rw [BroadPhase.moveLowerUpGo]


/-- The lower-bound-up walk of MoveProxy preserves the axis invariants, by
induction on the distance from the moving bound to the end of the array. -/
theorem moveLowerUp_inv (pid axis boundCount : Nat) (ov : BoundValues) (lv : Nat)
    (E : Nat → Prop) :
    ∀ (n k : Nat) (bp : BroadPhase), boundCount - k ≤ n →
    (bp.bounds.get axis).length = boundCount →
    SapCore bp.proxyPool (bp.bounds.get axis) axis →
    pid < bp.proxyPool.length →
    (bp.proxyPool.getD pid default).isValidProxy = true →
    (bp.proxyPool.getD pid default).lowerBounds.get axis = k →
    ((bp.bounds.get axis).getD k default).value = lv →
    lv < ((bp.bounds.get axis).getD
      ((bp.proxyPool.getD pid default).upperBounds.get axis) default).value →
    (∀ i, E i → i < boundCount ∧ i ≠ k ∧ (k < i → ∀ j, i ≤ j →
      j < boundCount → lv < ((bp.bounds.get axis).getD j default).value)) →
    sortedExcept (bp.bounds.get axis) (fun i => i = k ∨ E i) →
    (∀ i, i < k → ¬E i → ((bp.bounds.get axis).getD i default).value ≤ lv) →
    ((bp.moveLowerUpGo pid axis ov lv boundCount k).bounds.get axis).length =
      boundCount ∧
    SapCore (bp.moveLowerUpGo pid axis ov lv boundCount k).proxyPool
      ((bp.moveLowerUpGo pid axis ov lv boundCount k).bounds.get axis) axis ∧
    sortedExcept ((bp.moveLowerUpGo pid axis ov lv boundCount k).bounds.get axis) E ∧
    (∀ i, i < k →
      ((bp.moveLowerUpGo pid axis ov lv boundCount k).bounds.get axis).getD i
        default = (bp.bounds.get axis).getD i default) ∧
    (∀ i, k < i → i < boundCount →
      lv < ((bp.bounds.get axis).getD i default).value →
      ((bp.moveLowerUpGo pid axis ov lv boundCount k).bounds.get axis).getD i
        default = (bp.bounds.get axis).getD i default) ∧
    MoveFrame axis bp (bp.moveLowerUpGo pid axis ov lv boundCount k) ∧
    ((bp.moveLowerUpGo pid axis ov lv boundCount k).proxyPool.getD pid
        default).upperBounds = (bp.proxyPool.getD pid default).upperBounds ∧
    (((bp.moveLowerUpGo pid axis ov lv boundCount k).bounds.get axis).getD
      (((bp.moveLowerUpGo pid axis ov lv boundCount k).proxyPool.getD pid
        default).lowerBounds.get axis) default).value = lv := by
  intro n
  induction n with
  | zero =>
    intro k bp hfuel hlen hcore hpid hlive hrec hval hpart hE hsX hhig
    have hg : ¬(k < boundCount - 1 ∧
        ((bp.bounds.get axis).getD (k + 1) default).value ≤ lv) :=
      fun hc => absurd hc.1 (by omega)
    rw [moveLowerUpGo_unfold, dif_neg hg]
    refine ⟨hlen, hcore,
      moveUpperUp_exit boundCount lv k E (bp.bounds.get axis) hlen hval hE hsX hhig
        (fun hkb => absurd hkb (by omega)),
      fun i _ => rfl, fun i _ _ _ => rfl, MoveFrame.moveRefl axis bp, rfl, ?_⟩
    rw [hrec, hval]
  | succ n ihn =>
    intro k bp hfuel hlen hcore hpid hlive hrec hval hpart hE hsX hhig
    by_cases hg : k < boundCount - 1 ∧
        ((bp.bounds.get axis).getD (k + 1) default).value ≤ lv
    · have hkm : k + 1 < (bp.bounds.get axis).length := by omega
      have hMown : ((bp.bounds.get axis).getD k default).proxyId = pid ∧
          ((bp.bounds.get axis).getD k default).isLower = true := by
        have h2 := hcore.live_lower pid hpid hlive not_false
        rw [hrec] at h2
        exact h2
      have hll := hcore.live_lt pid hpid hlive not_false
      rw [hrec] at hll
      have hnextne : ((bp.bounds.get axis).getD (k + 1) default).proxyId ≠ pid := by
        intro he
        by_cases hNL : ((bp.bounds.get axis).getD (k + 1) default).isLower = true
        · have h3 := hcore.lower_idx (k + 1) hkm hNL
          rw [he] at h3
          omega
        · have h3 := hcore.upper_idx (k + 1) hkm (by
            rw [Bool.not_eq_true] at hNL
            exact hNL)
          rw [he] at h3
          rw [h3] at hpart
          have h4 := hg.2
          omega
      have hnextlt : ((bp.bounds.get axis).getD (k + 1) default).proxyId <
          bp.proxyPool.length := hcore.owner_lt (k + 1) hkm
      set M := (bp.bounds.get axis).getD k default with hMd
      set N := (bp.bounds.get axis).getD (k + 1) default with hNd
      set nextId := N.proxyId with hnextIdd
      set nextProxy := bp.proxyPool.getD nextId default with hnextPd
      have hnextrecL : N.isLower = true →
          nextProxy.lowerBounds.get axis = k + 1 := by
        intro hNL
        exact hcore.lower_idx (k + 1) hkm hNL
      have hnextrecU : N.isLower = false →
          nextProxy.upperBounds.get axis = k + 1 := by
        intro hNL
        exact hcore.upper_idx (k + 1) hkm hNL
      set Nb : Bound := { N with stabbingCount := N.stabbingCount - 1 } with hNbd
      set bpA := { bp with
          bounds := bp.bounds.set axis ((bp.bounds.get axis).set (k + 1) Nb) }
        with hbpAd
      set bpT := (if bpA.testOverlap ov nextProxy then bpA.removeBufferedPair pid nextId
        else bpA) with hbpTd
      set bpB := (if N.isUpper then
          ({ bpT with
              proxyPool := bpT.proxyPool.set nextId { nextProxy with
                upperBounds := nextProxy.upperBounds.set axis
                  (nextProxy.upperBounds.get axis - 1) }
              bounds := bpT.bounds.set axis ((bpT.bounds.get axis).set k
                { M with stabbingCount := M.stabbingCount - 1 }) })
        else
          ({ bpA with
              proxyPool := bpA.proxyPool.set nextId { nextProxy with
                lowerBounds := nextProxy.lowerBounds.set axis
                  (nextProxy.lowerBounds.get axis - 1) }
              bounds := bpA.bounds.set axis ((bpA.bounds.get axis).set k
                { M with stabbingCount := M.stabbingCount + 1 }) })) with hbpBd
      set movingProxy := bpB.proxyPool.getD pid default with hmovd
      set bpC := ({ bpB with proxyPool := (bpB.proxyPool.set pid
          { movingProxy with
              lowerBounds := movingProxy.lowerBounds.set axis (movingProxy.lowerBounds.get axis + 1) }) }) with hbpCd
      set B3 := bpC.bounds.get axis with hB3d
      set bpD := ({ bpC with
          bounds := bpC.bounds.set axis ((B3.set k (B3.getD (k + 1) default)).set (k + 1) (B3.getD k default)) }) with hbpDd
      have hstep : bp.moveLowerUpGo pid axis ov lv boundCount k =
          bpD.moveLowerUpGo pid axis ov lv boundCount (k + 1) := by
        rw [moveLowerUpGo_unfold, dif_pos hg]
      rw [hstep]
      have hbundle :
          (bpD.bounds.get axis).length = (bp.bounds.get axis).length ∧
          (bpD.bounds.get axis).getD k default =
            { N with stabbingCount := N.stabbingCount - stabOf M } ∧
          (bpD.bounds.get axis).getD (k + 1) default =
            { M with stabbingCount := M.stabbingCount + stabOf N } ∧
          (∀ i, i ≠ k → i ≠ k + 1 → (bpD.bounds.get axis).getD i default =
            (bp.bounds.get axis).getD i default) ∧
          (∀ q, q ≠ nextId → q ≠ pid →
            bpD.proxyPool.getD q default = bp.proxyPool.getD q default) ∧
          (bpD.proxyPool.getD nextId default).lowerBounds.get axis =
            (if N.isLower then k else nextProxy.lowerBounds.get axis) ∧
          (bpD.proxyPool.getD nextId default).upperBounds.get axis =
            (if N.isLower then nextProxy.upperBounds.get axis else k) ∧
          (bpD.proxyPool.getD pid default).lowerBounds.get axis = k + 1 ∧
          (bpD.proxyPool.getD pid default).upperBounds =
            (bp.proxyPool.getD pid default).upperBounds ∧
          MoveFrame axis bp bpD := by
        have hAax : bpA.bounds.get axis = (bp.bounds.get axis).set (k + 1) Nb := by
          show (bp.bounds.set axis _).get axis = _
          exact Duo.get_set_hit _ _ _ _ Iff.rfl
        by_cases hNL : N.isLower = true
        · -- the passed bound is a lower bound
          set Mb : Bound := { M with stabbingCount := M.stabbingCount + 1 } with hMbd
          set nextProxy1 := { nextProxy with
              lowerBounds := nextProxy.lowerBounds.set axis
                (nextProxy.lowerBounds.get axis - 1) } with hnext1d
          have hbpB : bpB = { bpA with
              proxyPool := bpA.proxyPool.set nextId nextProxy1
              bounds := bpA.bounds.set axis ((bpA.bounds.get axis).set k Mb) } := by
            rw [hbpBd, if_neg (by simp [isUpper_not_isLower, hNL])]
          have hBpool : bpB.proxyPool = bp.proxyPool.set nextId nextProxy1 := by
            rw [hbpB]
          have hBbounds : bpB.bounds =
              bpA.bounds.set axis ((bpA.bounds.get axis).set k Mb) := by
            rw [hbpB]
          have hB3 : B3 = ((bp.bounds.get axis).set (k + 1) Nb).set k Mb := by
            show bpB.bounds.get axis = _
            rw [hBbounds, Duo.get_set_hit _ _ _ _ Iff.rfl, hAax]
          have hlen3 : B3.length = (bp.bounds.get axis).length := by
            rw [hB3, List.length_set, List.length_set]
          have hB3k : B3.getD k default = Mb := by
            rw [hB3]
            exact getD_set_eq _ _ _ (by rw [List.length_set]; omega)
          have hB3k1 : B3.getD (k + 1) default = Nb := by
            rw [hB3, getD_set_ne _ _ _ _ (by omega)]
            exact getD_set_eq _ _ _ hkm
          have hB3out : ∀ i, i ≠ k → i ≠ k + 1 →
              B3.getD i default = (bp.bounds.get axis).getD i default := by
            intro i h1 h2
            rw [hB3, getD_set_ne _ _ _ _ (fun he => h1 he.symm),
              getD_set_ne _ _ _ _ (fun he => h2 he.symm)]
          have hBD : bpD.bounds.get axis =
              (B3.set k (B3.getD (k + 1) default)).set (k + 1) (B3.getD k default) := by
            show (bpC.bounds.set axis _).get axis = _
            exact Duo.get_set_hit _ _ _ _ Iff.rfl
          have hk3 : k + 1 < B3.length := by
            rw [hlen3]
            exact hkm
          have hD_k : (bpD.bounds.get axis).getD k default =
              { N with stabbingCount := N.stabbingCount - stabOf M } := by
            rw [hBD, getD_double_set B3 k hk3, if_pos rfl, hB3k1,
              stabOf_lower M hMown.2]
          have hD_k1 : (bpD.bounds.get axis).getD (k + 1) default =
              { M with stabbingCount := M.stabbingCount + stabOf N } := by
            rw [hBD, getD_double_set B3 k hk3,
              if_neg (show ¬(k + 1 = k) by omega), if_pos rfl, hB3k,
              stabOf_lower N hNL]
          have hD_out : ∀ i, i ≠ k → i ≠ k + 1 →
              (bpD.bounds.get axis).getD i default =
                (bp.bounds.get axis).getD i default := by
            intro i h1 h2
            rw [hBD, getD_double_set B3 k hk3, if_neg h1, if_neg h2]
            exact hB3out i h1 h2
          have hlenD : (bpD.bounds.get axis).length = (bp.bounds.get axis).length := by
            rw [hBD, List.length_set, List.length_set, hlen3]
          have hCpool : bpD.proxyPool =
              (bp.proxyPool.set nextId nextProxy1).set pid
                { movingProxy with lowerBounds := movingProxy.lowerBounds.set axis (movingProxy.lowerBounds.get axis + 1) } := by
            show bpB.proxyPool.set pid _ = _
            rw [hBpool]
          have hmov : movingProxy = bp.proxyPool.getD pid default := by
            show bpB.proxyPool.getD pid default = _
            rw [hBpool]
            exact getD_set_ne _ _ _ _ hnextne
          have hpoolD_pid : bpD.proxyPool.getD pid default =
              { movingProxy with lowerBounds := movingProxy.lowerBounds.set axis (movingProxy.lowerBounds.get axis + 1) } := by
            rw [hCpool]
            exact getD_set_eq _ _ _ (by rw [List.length_set]; exact hpid)
          have hpoolD_next : bpD.proxyPool.getD nextId default = nextProxy1 := by
            rw [hCpool, getD_set_ne _ _ _ _ (fun he => hnextne he.symm)]
            exact getD_set_eq _ _ _ hnextlt
          have houtD : ∀ q, q ≠ nextId → q ≠ pid →
              bpD.proxyPool.getD q default = bp.proxyPool.getD q default := by
            intro q h1 h2
            rw [hCpool, getD_set_ne _ _ _ _ (fun he => h2 he.symm),
              getD_set_ne _ _ _ _ (fun he => h1 he.symm)]
          have hpid_low : (bpD.proxyPool.getD pid default).lowerBounds.get axis =
              k + 1 := by
            rw [hpoolD_pid]
            show (movingProxy.lowerBounds.set axis
              (movingProxy.lowerBounds.get axis + 1)).get axis = k + 1
            rw [Duo.get_set_hit _ _ _ _ Iff.rfl, hmov, hrec]
          have hpid_up : (bpD.proxyPool.getD pid default).upperBounds =
              (bp.proxyPool.getD pid default).upperBounds := by
            rw [hpoolD_pid]
            show movingProxy.upperBounds = _
            rw [hmov]
          have hnext_low : (bpD.proxyPool.getD nextId default).lowerBounds.get axis =
              (if N.isLower then k else nextProxy.lowerBounds.get axis) := by
            rw [hpoolD_next, if_pos hNL]
            show (nextProxy.lowerBounds.set axis
              (nextProxy.lowerBounds.get axis - 1)).get axis = k
            rw [Duo.get_set_hit _ _ _ _ Iff.rfl, hnextrecL hNL]
            omega
          have hnext_up : (bpD.proxyPool.getD nextId default).upperBounds.get axis =
              (if N.isLower then nextProxy.upperBounds.get axis else k) := by
            rw [hpoolD_next, if_pos hNL]
          have hplenD : bpD.proxyPool.length = bp.proxyPool.length := by
            rw [hCpool, List.length_set, List.length_set]
          have hframe : MoveFrame axis bp bpD := by
            refine ⟨?_, hplenD, ?_, ?_, ?_, ?_, ?_,
              (by show bpB.freeProxy = bp.freeProxy; rw [hbpB]),
              (by show bpB.proxyCount = bp.proxyCount; rw [hbpB]),
              (by show bpB.maxProxies = bp.maxProxies; rw [hbpB]),
              (by show bpB.worldAABB = bp.worldAABB; rw [hbpB]),
              (by show bpB.quantizationFactor = bp.quantizationFactor; rw [hbpB]),
              (by show bpB.timeStamp = bp.timeStamp; rw [hbpB])⟩
            · intro a' ha
              show (bpC.bounds.set axis _).get a' = _
              rw [Duo.get_set_miss _ _ _ _ ha]
              show bpB.bounds.get a' = _
              rw [hBbounds, Duo.get_set_miss _ _ _ _ ha]
              show (bp.bounds.set axis _).get a' = _
              rw [Duo.get_set_miss _ _ _ _ ha]
            · intro q
              by_cases h1 : q = pid
              · rw [h1, hpoolD_pid]
                show movingProxy.isValidProxy = _
                rw [hmov]
              · by_cases h2 : q = nextId
                · rw [h2, hpoolD_next]
                  show nextProxy.isValidProxy = _
                  rw [hnextPd]
                · rw [houtD q h2 h1]
            · intro q
              by_cases h1 : q = pid
              · rw [h1, hpoolD_pid]
                show movingProxy.next = _
                rw [hmov]
              · by_cases h2 : q = nextId
                · rw [h2, hpoolD_next]
                · rw [houtD q h2 h1]
            · intro q
              by_cases h1 : q = pid
              · rw [h1, hpoolD_pid]
                show movingProxy.userData = _
                rw [hmov]
              · by_cases h2 : q = nextId
                · rw [h2, hpoolD_next]
                · rw [houtD q h2 h1]
            · intro q a' ha
              by_cases h1 : q = pid
              · rw [h1, hpoolD_pid]
                show (movingProxy.lowerBounds.set axis _).get a' = _
                rw [Duo.get_set_miss _ _ _ _ ha, hmov]
              · by_cases h2 : q = nextId
                · rw [h2, hpoolD_next]
                  show (nextProxy.lowerBounds.set axis _).get a' = _
                  rw [Duo.get_set_miss _ _ _ _ ha, hnextPd]
                · rw [houtD q h2 h1]
            · intro q a' ha
              by_cases h1 : q = pid
              · rw [h1, hpoolD_pid]
                show movingProxy.upperBounds.get a' = _
                rw [hmov]
              · by_cases h2 : q = nextId
                · rw [h2, hpoolD_next]
                · rw [houtD q h2 h1]
          exact ⟨hlenD, hD_k, hD_k1, hD_out, houtD, hnext_low, hnext_up,
            hpid_low, hpid_up, hframe⟩
        · -- the passed bound is an upper bound
          have hNL' : N.isLower = false := by
            rw [Bool.not_eq_true] at hNL
            exact hNL
          have hTf : bpT.proxyPool = bp.proxyPool ∧ bpT.bounds = bpA.bounds ∧
              bpT.freeProxy = bp.freeProxy ∧ bpT.proxyCount = bp.proxyCount ∧
              bpT.maxProxies = bp.maxProxies ∧ bpT.worldAABB = bp.worldAABB ∧
              bpT.quantizationFactor = bp.quantizationFactor ∧
              bpT.timeStamp = bp.timeStamp := by
            rw [hbpTd]
            split
            · exact ⟨rfl, rfl, rfl, rfl, rfl, rfl, rfl, rfl⟩
            · exact ⟨rfl, rfl, rfl, rfl, rfl, rfl, rfl, rfl⟩
          set Mb : Bound := { M with stabbingCount := M.stabbingCount - 1 } with hMbd
          set nextProxy1 := { nextProxy with
              upperBounds := nextProxy.upperBounds.set axis
                (nextProxy.upperBounds.get axis - 1) } with hnext1d
          have hbpB : bpB = { bpT with
              proxyPool := bpT.proxyPool.set nextId nextProxy1
              bounds := bpT.bounds.set axis ((bpT.bounds.get axis).set k Mb) } := by
            rw [hbpBd, if_pos (by simp [isUpper_not_isLower, hNL'])]
          have hBpool : bpB.proxyPool = bp.proxyPool.set nextId nextProxy1 := by
            rw [hbpB]
            show bpT.proxyPool.set nextId nextProxy1 = _
            rw [hTf.1]
          have hBbounds : bpB.bounds =
              bpT.bounds.set axis ((bpT.bounds.get axis).set k Mb) := by
            rw [hbpB]
          have hB3 : B3 = ((bp.bounds.get axis).set (k + 1) Nb).set k Mb := by
            show bpB.bounds.get axis = _
            rw [hBbounds, Duo.get_set_hit _ _ _ _ Iff.rfl, hTf.2.1, hAax]
          have hlen3 : B3.length = (bp.bounds.get axis).length := by
            rw [hB3, List.length_set, List.length_set]
          have hB3k : B3.getD k default = Mb := by
            rw [hB3]
            exact getD_set_eq _ _ _ (by rw [List.length_set]; omega)
          have hB3k1 : B3.getD (k + 1) default = Nb := by
            rw [hB3, getD_set_ne _ _ _ _ (by omega)]
            exact getD_set_eq _ _ _ hkm
          have hB3out : ∀ i, i ≠ k → i ≠ k + 1 →
              B3.getD i default = (bp.bounds.get axis).getD i default := by
            intro i h1 h2
            rw [hB3, getD_set_ne _ _ _ _ (fun he => h1 he.symm),
              getD_set_ne _ _ _ _ (fun he => h2 he.symm)]
          have hBD : bpD.bounds.get axis =
              (B3.set k (B3.getD (k + 1) default)).set (k + 1) (B3.getD k default) := by
            show (bpC.bounds.set axis _).get axis = _
            exact Duo.get_set_hit _ _ _ _ Iff.rfl
          have hk3 : k + 1 < B3.length := by
            rw [hlen3]
            exact hkm
          have hD_k : (bpD.bounds.get axis).getD k default =
              { N with stabbingCount := N.stabbingCount - stabOf M } := by
            rw [hBD, getD_double_set B3 k hk3, if_pos rfl, hB3k1,
              stabOf_lower M hMown.2]
          have hD_k1 : (bpD.bounds.get axis).getD (k + 1) default =
              { M with stabbingCount := M.stabbingCount + stabOf N } := by
            rw [hBD, getD_double_set B3 k hk3,
              if_neg (show ¬(k + 1 = k) by omega), if_pos rfl, hB3k,
              stabOf_upper N hNL', hMbd, Int.sub_eq_add_neg]
          have hD_out : ∀ i, i ≠ k → i ≠ k + 1 →
              (bpD.bounds.get axis).getD i default =
                (bp.bounds.get axis).getD i default := by
            intro i h1 h2
            rw [hBD, getD_double_set B3 k hk3, if_neg h1, if_neg h2]
            exact hB3out i h1 h2
          have hlenD : (bpD.bounds.get axis).length = (bp.bounds.get axis).length := by
            rw [hBD, List.length_set, List.length_set, hlen3]
          have hCpool : bpD.proxyPool =
              (bp.proxyPool.set nextId nextProxy1).set pid
                { movingProxy with lowerBounds := movingProxy.lowerBounds.set axis (movingProxy.lowerBounds.get axis + 1) } := by
            show bpB.proxyPool.set pid _ = _
            rw [hBpool]
          have hmov : movingProxy = bp.proxyPool.getD pid default := by
            show bpB.proxyPool.getD pid default = _
            rw [hBpool]
            exact getD_set_ne _ _ _ _ hnextne
          have hpoolD_pid : bpD.proxyPool.getD pid default =
              { movingProxy with lowerBounds := movingProxy.lowerBounds.set axis (movingProxy.lowerBounds.get axis + 1) } := by
            rw [hCpool]
            exact getD_set_eq _ _ _ (by rw [List.length_set]; exact hpid)
          have hpoolD_next : bpD.proxyPool.getD nextId default = nextProxy1 := by
            rw [hCpool, getD_set_ne _ _ _ _ (fun he => hnextne he.symm)]
            exact getD_set_eq _ _ _ hnextlt
          have houtD : ∀ q, q ≠ nextId → q ≠ pid →
              bpD.proxyPool.getD q default = bp.proxyPool.getD q default := by
            intro q h1 h2
            rw [hCpool, getD_set_ne _ _ _ _ (fun he => h2 he.symm),
              getD_set_ne _ _ _ _ (fun he => h1 he.symm)]
          have hpid_low : (bpD.proxyPool.getD pid default).lowerBounds.get axis =
              k + 1 := by
            rw [hpoolD_pid]
            show (movingProxy.lowerBounds.set axis
              (movingProxy.lowerBounds.get axis + 1)).get axis = k + 1
            rw [Duo.get_set_hit _ _ _ _ Iff.rfl, hmov, hrec]
          have hpid_up : (bpD.proxyPool.getD pid default).upperBounds =
              (bp.proxyPool.getD pid default).upperBounds := by
            rw [hpoolD_pid]
            show movingProxy.upperBounds = _
            rw [hmov]
          have hnext_low : (bpD.proxyPool.getD nextId default).lowerBounds.get axis =
              (if N.isLower then k else nextProxy.lowerBounds.get axis) := by
            rw [hpoolD_next, if_neg (by rw [hNL']; exact Bool.false_ne_true)]
          have hnext_up : (bpD.proxyPool.getD nextId default).upperBounds.get axis =
              (if N.isLower then nextProxy.upperBounds.get axis else k) := by
            rw [hpoolD_next, if_neg (by rw [hNL']; exact Bool.false_ne_true)]
            show (nextProxy.upperBounds.set axis
              (nextProxy.upperBounds.get axis - 1)).get axis = k
            rw [Duo.get_set_hit _ _ _ _ Iff.rfl, hnextrecU hNL']
            omega
          have hplenD : bpD.proxyPool.length = bp.proxyPool.length := by
            rw [hCpool, List.length_set, List.length_set]
          have hframe : MoveFrame axis bp bpD := by
            refine ⟨?_, hplenD, ?_, ?_, ?_, ?_, ?_,
              (by show bpB.freeProxy = bp.freeProxy; rw [hbpB]; exact hTf.2.2.1),
              (by show bpB.proxyCount = bp.proxyCount; rw [hbpB]; exact hTf.2.2.2.1),
              (by show bpB.maxProxies = bp.maxProxies; rw [hbpB]; exact hTf.2.2.2.2.1),
              (by show bpB.worldAABB = bp.worldAABB; rw [hbpB]; exact hTf.2.2.2.2.2.1),
              (by show bpB.quantizationFactor = bp.quantizationFactor; rw [hbpB]; exact hTf.2.2.2.2.2.2.1),
              (by show bpB.timeStamp = bp.timeStamp; rw [hbpB]; exact hTf.2.2.2.2.2.2.2)⟩
            · intro a' ha
              show (bpC.bounds.set axis _).get a' = _
              rw [Duo.get_set_miss _ _ _ _ ha]
              show bpB.bounds.get a' = _
              rw [hBbounds, Duo.get_set_miss _ _ _ _ ha, hTf.2.1]
              show (bp.bounds.set axis _).get a' = _
              rw [Duo.get_set_miss _ _ _ _ ha]
            · intro q
              by_cases h1 : q = pid
              · rw [h1, hpoolD_pid]
                show movingProxy.isValidProxy = _
                rw [hmov]
              · by_cases h2 : q = nextId
                · rw [h2, hpoolD_next]
                  show nextProxy.isValidProxy = _
                  rw [hnextPd]
                · rw [houtD q h2 h1]
            · intro q
              by_cases h1 : q = pid
              · rw [h1, hpoolD_pid]
                show movingProxy.next = _
                rw [hmov]
              · by_cases h2 : q = nextId
                · rw [h2, hpoolD_next]
                · rw [houtD q h2 h1]
            · intro q
              by_cases h1 : q = pid
              · rw [h1, hpoolD_pid]
                show movingProxy.userData = _
                rw [hmov]
              · by_cases h2 : q = nextId
                · rw [h2, hpoolD_next]
                · rw [houtD q h2 h1]
            · intro q a' ha
              by_cases h1 : q = pid
              · rw [h1, hpoolD_pid]
                show (movingProxy.lowerBounds.set axis _).get a' = _
                rw [Duo.get_set_miss _ _ _ _ ha, hmov]
              · by_cases h2 : q = nextId
                · rw [h2, hpoolD_next]
                · rw [houtD q h2 h1]
            · intro q a' ha
              by_cases h1 : q = pid
              · rw [h1, hpoolD_pid]
                show movingProxy.upperBounds.get a' = _
                rw [hmov]
              · by_cases h2 : q = nextId
                · rw [h2, hpoolD_next]
                  show (nextProxy.upperBounds.set axis _).get a' = _
                  rw [Duo.get_set_miss _ _ _ _ ha, hnextPd]
                · rw [houtD q h2 h1]
          exact ⟨hlenD, hD_k, hD_k1, hD_out, houtD, hnext_low, hnext_up,
            hpid_low, hpid_up, hframe⟩
      obtain ⟨hlenD, hD_k, hD_k1, hD_out, houtD, hnext_low, hnext_up,
        hpid_low, hpid_up, hframe⟩ := hbundle
      exact moveLowerUp_step pid axis boundCount lv E k bp bpD
        (bpD.moveLowerUpGo pid axis ov lv boundCount (k + 1)) hlen hcore hpid
        hlive hrec hval hpart hE hsX hhig hg.1 hg.2 hlenD hD_k hD_k1 hD_out houtD
        hnext_low hnext_up hpid_low hpid_up hframe
        (ihn (k + 1) bpD (by omega))
    · rw [moveLowerUpGo_unfold, dif_neg hg]
      refine ⟨hlen, hcore,
        moveUpperUp_exit boundCount lv k E (bp.bounds.get axis) hlen hval hE hsX
          hhig ?_,
        fun i _ => rfl, fun i _ _ _ => rfl, MoveFrame.moveRefl axis bp, rfl, ?_⟩
      · intro hkb
        by_contra hc
        push_neg at hc
        exact hg ⟨hkb, hc⟩
      · rw [hrec, hval]


/-- One step of the upper-bound-down walk of MoveProxy, abstractly: one
repaired adjacent swap below the moving upper bound carries the walk invariant
one position lower, and the walk conclusions transfer back. -/
theorem moveUpperDown_step (pid axis boundCount : Nat) (uv : Nat)
    (E : Nat → Prop) (k : Nat) (bp bpD bp2 : BroadPhase)
    (hlen : (bp.bounds.get axis).length = boundCount)
    (hcore : SapCore bp.proxyPool (bp.bounds.get axis) axis)
    (hpid : pid < bp.proxyPool.length)
    (hlive : (bp.proxyPool.getD pid default).isValidProxy = true)
    (hrec : (bp.proxyPool.getD pid default).upperBounds.get axis = k + 1)
    (hval : ((bp.bounds.get axis).getD (k + 1) default).value = uv)
    (hpart : ((bp.bounds.get axis).getD
      ((bp.proxyPool.getD pid default).lowerBounds.get axis) default).value ≤ uv)
    (hE : ∀ i, E i → k + 1 < i ∧ i < boundCount)
    (hsX : sortedExcept (bp.bounds.get axis) (fun i => i = k + 1 ∨ E i))
    (hlow : ∀ j, k + 1 < j → j < boundCount → ¬E j →
      uv ≤ ((bp.bounds.get axis).getD j default).value)
    (hguard : uv < ((bp.bounds.get axis).getD k default).value)
    (hlenD : (bpD.bounds.get axis).length = (bp.bounds.get axis).length)
    (hD_k : (bpD.bounds.get axis).getD k default =
      { (bp.bounds.get axis).getD (k + 1) default with
        stabbingCount := ((bp.bounds.get axis).getD (k + 1) default).stabbingCount -
          stabOf ((bp.bounds.get axis).getD k default) })
    (hD_k1 : (bpD.bounds.get axis).getD (k + 1) default =
      { (bp.bounds.get axis).getD k default with
        stabbingCount := ((bp.bounds.get axis).getD k default).stabbingCount +
          stabOf ((bp.bounds.get axis).getD (k + 1) default) })
    (hD_out : ∀ i, i ≠ k → i ≠ k + 1 →
      (bpD.bounds.get axis).getD i default = (bp.bounds.get axis).getD i default)
    (houtD : ∀ q, q ≠ ((bp.bounds.get axis).getD k default).proxyId → q ≠ pid →
      bpD.proxyPool.getD q default = bp.proxyPool.getD q default)
    (hprev_low : (bpD.proxyPool.getD ((bp.bounds.get axis).getD k default).proxyId
        default).lowerBounds.get axis =
      (if ((bp.bounds.get axis).getD k default).isLower then k + 1
       else (bp.proxyPool.getD ((bp.bounds.get axis).getD k default).proxyId
        default).lowerBounds.get axis))
    (hprev_up : (bpD.proxyPool.getD ((bp.bounds.get axis).getD k default).proxyId
        default).upperBounds.get axis =
      (if ((bp.bounds.get axis).getD k default).isLower then
        (bp.proxyPool.getD ((bp.bounds.get axis).getD k default).proxyId
          default).upperBounds.get axis
       else k + 1))
    (hpid_up : (bpD.proxyPool.getD pid default).upperBounds.get axis = k)
    (hpid_low : (bpD.proxyPool.getD pid default).lowerBounds =
      (bp.proxyPool.getD pid default).lowerBounds)
    (hframeD : MoveFrame axis bp bpD)
    (ih : (bpD.bounds.get axis).length = boundCount →
      SapCore bpD.proxyPool (bpD.bounds.get axis) axis →
      pid < bpD.proxyPool.length →
      (bpD.proxyPool.getD pid default).isValidProxy = true →
      (bpD.proxyPool.getD pid default).upperBounds.get axis = k →
      ((bpD.bounds.get axis).getD k default).value = uv →
      ((bpD.bounds.get axis).getD
        ((bpD.proxyPool.getD pid default).lowerBounds.get axis) default).value ≤ uv →
      (∀ i, E i → k < i ∧ i < boundCount) →
      sortedExcept (bpD.bounds.get axis) (fun i => i = k ∨ E i) →
      (∀ j, k < j → j < boundCount → ¬E j →
        uv ≤ ((bpD.bounds.get axis).getD j default).value) →
      (bp2.bounds.get axis).length = boundCount ∧
      SapCore bp2.proxyPool (bp2.bounds.get axis) axis ∧
      sortedExcept (bp2.bounds.get axis) E ∧
      (∀ i, k < i → (bp2.bounds.get axis).getD i default =
        (bpD.bounds.get axis).getD i default) ∧
      (∀ c : Nat, (∀ i, i ≤ k → ((bpD.bounds.get axis).getD i default).value ≤ c) →
        ∀ i, i ≤ k → ((bp2.bounds.get axis).getD i default).value ≤ c) ∧
      MoveFrame axis bpD bp2 ∧
      (bp2.proxyPool.getD pid default).lowerBounds.get axis =
        (bpD.proxyPool.getD pid default).lowerBounds.get axis ∧
      ((bp2.bounds.get axis).getD ((bp2.proxyPool.getD pid
        default).upperBounds.get axis) default).value = uv) :
    (bp2.bounds.get axis).length = boundCount ∧
    SapCore bp2.proxyPool (bp2.bounds.get axis) axis ∧
    sortedExcept (bp2.bounds.get axis) E ∧
    (∀ i, k + 1 < i → (bp2.bounds.get axis).getD i default =
      (bp.bounds.get axis).getD i default) ∧
    (∀ c : Nat, (∀ i, i ≤ k + 1 → ((bp.bounds.get axis).getD i default).value ≤ c) →
      ∀ i, i ≤ k + 1 → ((bp2.bounds.get axis).getD i default).value ≤ c) ∧
    MoveFrame axis bp bp2 ∧
    (bp2.proxyPool.getD pid default).lowerBounds.get axis =
      (bp.proxyPool.getD pid default).lowerBounds.get axis ∧
    ((bp2.bounds.get axis).getD ((bp2.proxyPool.getD pid
      default).upperBounds.get axis) default).value = uv := by
  set B := bp.bounds.get axis with hB
  have hu := hcore.live_lt pid hpid hlive not_false
  have huhi := hcore.live_hi pid hpid hlive not_false
  rw [hrec] at hu
  have hkm : k + 1 < B.length := by
    rw [hrec] at huhi
    exact huhi
  have hMown : (B.getD (k + 1) default).proxyId = pid ∧
      (B.getD (k + 1) default).isLower = false := by
    have h2 := hcore.live_upper pid hpid hlive not_false
    rw [hrec] at h2
    exact h2
  have hprevne : (B.getD k default).proxyId ≠ pid := by
    intro he
    by_cases hPL : (B.getD k default).isLower = true
    · have h3 := hcore.lower_idx k (by omega) hPL
      rw [he] at h3
      rw [h3] at hpart
      omega
    · have h3 := hcore.upper_idx k (by omega) (by
        rw [Bool.not_eq_true] at hPL
        exact hPL)
      rw [he] at h3
      omega
  have hcoreD : SapCore bpD.proxyPool (bpD.bounds.get axis) axis := by
    refine SapCore_swap bp.proxyPool bpD.proxyPool B (bpD.bounds.get axis) axis k
      ((B.getD k default).proxyId) pid hcore hkm hlenD hframeD.pool_len rfl hMown.1
      hprevne hD_k hD_k1 hD_out hframeD.valid_eq houtD hprev_low hprev_up ?_ ?_
    · rw [if_neg (by rw [hMown.2]; exact Bool.false_ne_true), hpid_low]
    · rw [if_neg (by rw [hMown.2]; exact Bool.false_ne_true)]
      exact hpid_up
  have hsXD : sortedExcept (bpD.bounds.get axis) (fun i => i = k ∨ E i) := by
    intro i j hij hj hiE hjE
    rw [hlenD] at hj
    have hiEk : i ≠ k := fun hc => hiE (Or.inl hc)
    have hjEk : j ≠ k := fun hc => hjE (Or.inl hc)
    have hiE' : ¬E i := fun hc => hiE (Or.inr hc)
    have hjE' : ¬E j := fun hc => hjE (Or.inr hc)
    by_cases hjk1 : j = k + 1
    · rw [hjk1, hD_k1]
      show ((bpD.bounds.get axis).getD i default).value ≤ (B.getD k default).value
      have hik : i < k := by omega
      rw [hD_out i (by omega) (by omega)]
      refine hsX i k hik (by omega) ?_ ?_
      · intro hc
        rcases hc with h0 | h0
        · omega
        · exact hiE' h0
      · intro hc
        rcases hc with h0 | h0
        · omega
        · have := (hE k h0).1
          omega
    · by_cases hik1 : i = k + 1
      · rw [hik1, hD_k1, hD_out j hjEk hjk1]
        show (B.getD k default).value ≤ ((bp.bounds.get axis).getD j default).value
        refine hsX k j (by omega) hj ?_ ?_
        · intro hc
          rcases hc with h0 | h0
          · omega
          · have := (hE k h0).1
            omega
        · intro hc
          rcases hc with h0 | h0
          · exact hjk1 h0
          · exact hjE' h0
      · rw [hD_out i hiEk hik1, hD_out j hjEk hjk1]
        refine hsX i j hij hj ?_ ?_
        · intro hc
          rcases hc with h0 | h0
          · exact hik1 h0
          · exact hiE' h0
        · intro hc
          rcases hc with h0 | h0
          · exact hjk1 h0
          · exact hjE' h0
  have hlowD : ∀ j, k < j → j < boundCount → ¬E j →
      uv ≤ ((bpD.bounds.get axis).getD j default).value := by
    intro j hjk hjbc hjE
    by_cases hjk1 : j = k + 1
    · rw [hjk1, hD_k1]
      show uv ≤ (B.getD k default).value
      exact le_of_lt hguard
    · rw [hD_out j (by omega) hjk1]
      exact hlow j (by omega) hjbc hjE
  have hlne : (bp.proxyPool.getD pid default).lowerBounds.get axis ≠ k := by
    intro he
    rw [he] at hpart
    omega
  have hpartD : ((bpD.bounds.get axis).getD
      ((bpD.proxyPool.getD pid default).lowerBounds.get axis) default).value ≤
      uv := by
    rw [hpid_low, hD_out _ hlne (by omega)]
    exact hpart
  have hinv := ih (by rw [hlenD]; exact hlen) hcoreD
    (by rw [hframeD.pool_len]; exact hpid)
    (by rw [hframeD.valid_eq]; exact hlive) hpid_up
    (by rw [hD_k]; exact hval) hpartD
    (fun i hi => ⟨by have := (hE i hi).1; omega, (hE i hi).2⟩) hsXD hlowD
  obtain ⟨c1, c2, c3, c4, c5, c6, c7, c8⟩ := hinv
  refine ⟨c1, c2, c3, ?_, ?_, MoveFrame.moveTrans hframeD c6, ?_, c8⟩
  · intro i hi
    rw [c4 i (by omega), hD_out i (by omega) (by omega)]
  · intro c hc i hik
    by_cases hik1 : i = k + 1
    · rw [hik1, c4 (k + 1) (by omega), hD_k1]
      show ((B.getD k default).value) ≤ c
      exact hc k (by omega)
    · refine c5 c ?_ i (by omega)
      intro i' hi'
      by_cases hi'k : i' = k
      · rw [hi'k, hD_k]
        show ((B.getD (k + 1) default).value) ≤ c
        exact hc (k + 1) (by omega)
      · rw [hD_out i' hi'k (by omega)]
        exact hc i' (by omega)
  · rw [c7, hpid_low]

/-- The upper-bound-down walk of MoveProxy preserves the axis invariants: see
the step lemma for the shape of the walk invariant carried down. -/
theorem moveUpperDown_inv (pid axis boundCount : Nat) (ov : BoundValues) (uv : Nat)
    (E : Nat → Prop) :
    ∀ (k : Nat) (bp : BroadPhase),
    (bp.bounds.get axis).length = boundCount →
    SapCore bp.proxyPool (bp.bounds.get axis) axis →
    pid < bp.proxyPool.length →
    (bp.proxyPool.getD pid default).isValidProxy = true →
    (bp.proxyPool.getD pid default).upperBounds.get axis = k →
    ((bp.bounds.get axis).getD k default).value = uv →
    ((bp.bounds.get axis).getD
      ((bp.proxyPool.getD pid default).lowerBounds.get axis) default).value ≤ uv →
    (∀ i, E i → k < i ∧ i < boundCount) →
    sortedExcept (bp.bounds.get axis) (fun i => i = k ∨ E i) →
    (∀ j, k < j → j < boundCount → ¬E j →
      uv ≤ ((bp.bounds.get axis).getD j default).value) →
    ((bp.moveUpperDownGo pid axis ov uv k).bounds.get axis).length = boundCount ∧
    SapCore (bp.moveUpperDownGo pid axis ov uv k).proxyPool
      ((bp.moveUpperDownGo pid axis ov uv k).bounds.get axis) axis ∧
    sortedExcept ((bp.moveUpperDownGo pid axis ov uv k).bounds.get axis) E ∧
    (∀ i, k < i →
      ((bp.moveUpperDownGo pid axis ov uv k).bounds.get axis).getD i default =
        (bp.bounds.get axis).getD i default) ∧
    (∀ c : Nat, (∀ i, i ≤ k → ((bp.bounds.get axis).getD i default).value ≤ c) →
      ∀ i, i ≤ k →
        (((bp.moveUpperDownGo pid axis ov uv k).bounds.get axis).getD i
          default).value ≤ c) ∧
    MoveFrame axis bp (bp.moveUpperDownGo pid axis ov uv k) ∧
    ((bp.moveUpperDownGo pid axis ov uv k).proxyPool.getD pid
        default).lowerBounds.get axis =
      (bp.proxyPool.getD pid default).lowerBounds.get axis ∧
    (((bp.moveUpperDownGo pid axis ov uv k).bounds.get axis).getD
      (((bp.moveUpperDownGo pid axis ov uv k).proxyPool.getD pid
        default).upperBounds.get axis) default).value = uv := by
  intro k
  induction k with
  | zero =>
    intro bp hlen hcore hpid hlive hrec hval hpart hE hsX hlow
    have hdef : bp.moveUpperDownGo pid axis ov uv 0 = bp := rfl
    rw [hdef]
    refine ⟨hlen, hcore, ?_, fun i _ => rfl, fun c hc i hi => hc i hi,
      MoveFrame.moveRefl axis bp, rfl, ?_⟩
    · intro i j hij hj hiE hjE
      by_cases hik : i = 0
      · rw [hik, hval]
        exact hlow j (by omega) (by rw [← hlen]; exact hj) hjE
      · refine hsX i j hij hj ?_ ?_
        · intro hc
          rcases hc with h0 | h0
          · exact hik h0
          · exact hiE h0
        · intro hc
          rcases hc with h0 | h0
          · omega
          · exact hjE h0
    · rw [hrec, hval]
  | succ k ih =>
    intro bp hlen hcore hpid hlive hrec hval hpart hE hsX hlow
    have hu := hcore.live_lt pid hpid hlive not_false
    have huhi := hcore.live_hi pid hpid hlive not_false
    rw [hrec] at hu
    have hkm : k + 1 < (bp.bounds.get axis).length := by
      rw [hrec] at huhi
      exact huhi
    have hMown : ((bp.bounds.get axis).getD (k + 1) default).proxyId = pid ∧
        ((bp.bounds.get axis).getD (k + 1) default).isLower = false := by
      have h2 := hcore.live_upper pid hpid hlive not_false
      rw [hrec] at h2
      exact h2
    have hprevneI : uv < ((bp.bounds.get axis).getD k default).value →
        ((bp.bounds.get axis).getD k default).proxyId ≠ pid := by
      intro hgd he
      by_cases hPL : ((bp.bounds.get axis).getD k default).isLower = true
      · have h3 := hcore.lower_idx k (by omega) hPL
        rw [he] at h3
        rw [h3] at hpart
        omega
      · have h3 := hcore.upper_idx k (by omega) (by
          rw [Bool.not_eq_true] at hPL
          exact hPL)
        rw [he] at h3
        omega
    have hprevlt : ((bp.bounds.get axis).getD k default).proxyId <
        bp.proxyPool.length := hcore.owner_lt k (by omega)
    set P := (bp.bounds.get axis).getD k default with hPd
    set M := (bp.bounds.get axis).getD (k + 1) default with hMd
    set prevId := P.proxyId with hprevIdd
    set prevProxy := bp.proxyPool.getD prevId default with hprevPd
    have hprevrecL : P.isLower = true →
        prevProxy.lowerBounds.get axis = k := by
      intro hPL
      exact hcore.lower_idx k (by omega) hPL
    have hprevrecU : P.isLower = false →
        prevProxy.upperBounds.get axis = k := by
      intro hPL
      exact hcore.upper_idx k (by omega) hPL
    set Pb : Bound := { P with stabbingCount := P.stabbingCount - 1 } with hPbd
    set bpA := { bp with
        bounds := bp.bounds.set axis ((bp.bounds.get axis).set k Pb) } with hbpAd
    set bpT := (if bpA.testOverlap ov prevProxy then bpA.removeBufferedPair pid prevId
      else bpA) with hbpTd
    set bpB := (if P.isLower then
        ({ bpT with
            proxyPool := bpT.proxyPool.set prevId { prevProxy with
              lowerBounds := prevProxy.lowerBounds.set axis
                (prevProxy.lowerBounds.get axis + 1) }
            bounds := bpT.bounds.set axis ((bpT.bounds.get axis).set (k + 1)
              { M with stabbingCount := M.stabbingCount - 1 }) })
      else
        ({ bpA with
            proxyPool := bpA.proxyPool.set prevId { prevProxy with
              upperBounds := prevProxy.upperBounds.set axis
                (prevProxy.upperBounds.get axis + 1) }
            bounds := bpA.bounds.set axis ((bpA.bounds.get axis).set (k + 1)
              { M with stabbingCount := M.stabbingCount + 1 }) })) with hbpBd
    set movingProxy := bpB.proxyPool.getD pid default with hmovd
    set bpC := ({ bpB with proxyPool := (bpB.proxyPool.set pid
        { movingProxy with
            upperBounds := movingProxy.upperBounds.set axis (movingProxy.upperBounds.get axis - 1) }) }) with hbpCd
    set B3 := bpC.bounds.get axis with hB3d
    set bpD := ({ bpC with
        bounds := bpC.bounds.set axis ((B3.set k (B3.getD (k + 1) default)).set (k + 1) (B3.getD k default)) }) with hbpDd
    by_cases hguard : uv < P.value
    · have hIf : bp.moveUpperDownGo pid axis ov uv (k + 1) =
          (if uv < P.value then bpD.moveUpperDownGo pid axis ov uv k else bp) := rfl
      rw [hIf, if_pos hguard]
      have hprevne : prevId ≠ pid := hprevneI hguard
      -- characterization of bpD, by the role of the passed bound
      have hbundle :
          (bpD.bounds.get axis).length = (bp.bounds.get axis).length ∧
          (bpD.bounds.get axis).getD k default =
            { M with stabbingCount := M.stabbingCount - stabOf P } ∧
          (bpD.bounds.get axis).getD (k + 1) default =
            { P with stabbingCount := P.stabbingCount + stabOf M } ∧
          (∀ i, i ≠ k → i ≠ k + 1 → (bpD.bounds.get axis).getD i default =
            (bp.bounds.get axis).getD i default) ∧
          (∀ q, q ≠ prevId → q ≠ pid →
            bpD.proxyPool.getD q default = bp.proxyPool.getD q default) ∧
          (bpD.proxyPool.getD prevId default).lowerBounds.get axis =
            (if P.isLower then k + 1 else prevProxy.lowerBounds.get axis) ∧
          (bpD.proxyPool.getD prevId default).upperBounds.get axis =
            (if P.isLower then prevProxy.upperBounds.get axis else k + 1) ∧
          (bpD.proxyPool.getD pid default).upperBounds.get axis = k ∧
          (bpD.proxyPool.getD pid default).lowerBounds =
            (bp.proxyPool.getD pid default).lowerBounds ∧
          MoveFrame axis bp bpD := by
        have hTf : bpT.proxyPool = bp.proxyPool ∧ bpT.bounds = bpA.bounds ∧
            bpT.freeProxy = bp.freeProxy ∧ bpT.proxyCount = bp.proxyCount ∧
            bpT.maxProxies = bp.maxProxies ∧ bpT.worldAABB = bp.worldAABB ∧
            bpT.quantizationFactor = bp.quantizationFactor ∧
            bpT.timeStamp = bp.timeStamp := by
          rw [hbpTd]
          split
          · exact ⟨rfl, rfl, rfl, rfl, rfl, rfl, rfl, rfl⟩
          · exact ⟨rfl, rfl, rfl, rfl, rfl, rfl, rfl, rfl⟩
        have hAax : bpA.bounds.get axis = (bp.bounds.get axis).set k Pb := by
          show (bp.bounds.set axis _).get axis = _
          exact Duo.get_set_hit _ _ _ _ Iff.rfl
        -- branch on the role of the passed bound
        by_cases hPL : P.isLower = true
        · -- the passed bound is a lower bound
          have hstabPv : stabOf P = 1 := stabOf_lower P hPL
          set Mb : Bound := { M with stabbingCount := M.stabbingCount - 1 } with hMbd
          set prevProxy1 := { prevProxy with
              lowerBounds := prevProxy.lowerBounds.set axis
                (prevProxy.lowerBounds.get axis + 1) } with hprev1d
          have hbpB : bpB = { bpT with
              proxyPool := bpT.proxyPool.set prevId prevProxy1
              bounds := bpT.bounds.set axis ((bpT.bounds.get axis).set (k + 1) Mb) } := by
            rw [hbpBd, if_pos hPL]
          have hBpool : bpB.proxyPool = bp.proxyPool.set prevId prevProxy1 := by
            rw [hbpB]
            show bpT.proxyPool.set prevId prevProxy1 = _
            rw [hTf.1]
          have hBbounds : bpB.bounds =
              bpT.bounds.set axis ((bpT.bounds.get axis).set (k + 1) Mb) := by
            rw [hbpB]
          have hB3 : B3 = ((bp.bounds.get axis).set k Pb).set (k + 1) Mb := by
            show bpB.bounds.get axis = _
            rw [hBbounds, Duo.get_set_hit _ _ _ _ Iff.rfl, hTf.2.1, hAax]
          have hlen3 : B3.length = (bp.bounds.get axis).length := by
            rw [hB3, List.length_set, List.length_set]
          have hB3k1 : B3.getD (k + 1) default = Mb := by
            rw [hB3]
            exact getD_set_eq _ _ _ (by rw [List.length_set]; exact hkm)
          have hB3k : B3.getD k default = Pb := by
            rw [hB3, getD_set_ne _ _ _ _ (by omega)]
            exact getD_set_eq _ _ _ (by omega)
          have hB3out : ∀ i, i ≠ k → i ≠ k + 1 →
              B3.getD i default = (bp.bounds.get axis).getD i default := by
            intro i h1 h2
            rw [hB3, getD_set_ne _ _ _ _ (fun he => h2 he.symm),
              getD_set_ne _ _ _ _ (fun he => h1 he.symm)]
          have hBD : bpD.bounds.get axis =
              (B3.set k (B3.getD (k + 1) default)).set (k + 1) (B3.getD k default) := by
            show (bpC.bounds.set axis _).get axis = _
            exact Duo.get_set_hit _ _ _ _ Iff.rfl
          have hk3 : k + 1 < B3.length := by
            rw [hlen3]
            exact hkm
          have hD_k : (bpD.bounds.get axis).getD k default =
              { M with stabbingCount := M.stabbingCount - stabOf P } := by
            rw [hBD, getD_double_set B3 k hk3, if_pos rfl, hB3k1, hstabPv]
          have hD_k1 : (bpD.bounds.get axis).getD (k + 1) default =
              { P with stabbingCount := P.stabbingCount + stabOf M } := by
            rw [hBD, getD_double_set B3 k hk3,
              if_neg (show ¬(k + 1 = k) by omega), if_pos rfl, hB3k,
              stabOf_upper M hMown.2, hPbd, Int.sub_eq_add_neg]
          have hD_out : ∀ i, i ≠ k → i ≠ k + 1 →
              (bpD.bounds.get axis).getD i default =
                (bp.bounds.get axis).getD i default := by
            intro i h1 h2
            rw [hBD, getD_double_set B3 k hk3, if_neg h1, if_neg h2]
            exact hB3out i h1 h2
          have hlenD : (bpD.bounds.get axis).length = (bp.bounds.get axis).length := by
            rw [hBD, List.length_set, List.length_set, hlen3]
          have hCpool : bpD.proxyPool =
              (bp.proxyPool.set prevId prevProxy1).set pid
                { movingProxy with upperBounds := movingProxy.upperBounds.set axis (movingProxy.upperBounds.get axis - 1) } := by
            show bpB.proxyPool.set pid _ = _
            rw [hBpool]
          have hmov : movingProxy = bp.proxyPool.getD pid default := by
            show bpB.proxyPool.getD pid default = _
            rw [hBpool]
            exact getD_set_ne _ _ _ _ hprevne
          have hpoolD_pid : bpD.proxyPool.getD pid default =
              { movingProxy with upperBounds := movingProxy.upperBounds.set axis (movingProxy.upperBounds.get axis - 1) } := by
            rw [hCpool]
            exact getD_set_eq _ _ _ (by rw [List.length_set]; exact hpid)
          have hpoolD_prev : bpD.proxyPool.getD prevId default = prevProxy1 := by
            rw [hCpool, getD_set_ne _ _ _ _ (fun he => hprevne he.symm)]
            exact getD_set_eq _ _ _ hprevlt
          have houtD : ∀ q, q ≠ prevId → q ≠ pid →
              bpD.proxyPool.getD q default = bp.proxyPool.getD q default := by
            intro q h1 h2
            rw [hCpool, getD_set_ne _ _ _ _ (fun he => h2 he.symm),
              getD_set_ne _ _ _ _ (fun he => h1 he.symm)]
          have hpid_up : (bpD.proxyPool.getD pid default).upperBounds.get axis = k := by
            rw [hpoolD_pid]
            show (movingProxy.upperBounds.set axis
              (movingProxy.upperBounds.get axis - 1)).get axis = k
            rw [Duo.get_set_hit _ _ _ _ Iff.rfl, hmov, hrec]
            omega
          have hpid_low : (bpD.proxyPool.getD pid default).lowerBounds =
              (bp.proxyPool.getD pid default).lowerBounds := by
            rw [hpoolD_pid]
            show movingProxy.lowerBounds = _
            rw [hmov]
          have hprev_low : (bpD.proxyPool.getD prevId default).lowerBounds.get axis =
              (if P.isLower then k + 1 else prevProxy.lowerBounds.get axis) := by
            rw [hpoolD_prev, if_pos hPL]
            show (prevProxy.lowerBounds.set axis
              (prevProxy.lowerBounds.get axis + 1)).get axis = k + 1
            rw [Duo.get_set_hit _ _ _ _ Iff.rfl, hprevrecL hPL]
          have hprev_up : (bpD.proxyPool.getD prevId default).upperBounds.get axis =
              (if P.isLower then prevProxy.upperBounds.get axis else k + 1) := by
            rw [hpoolD_prev, if_pos hPL]
          have hplenD : bpD.proxyPool.length = bp.proxyPool.length := by
            rw [hCpool, List.length_set, List.length_set]
          have hframe : MoveFrame axis bp bpD := by
            refine ⟨?_, hplenD, ?_, ?_, ?_, ?_, ?_,
              (by show bpB.freeProxy = bp.freeProxy; rw [hbpB]; exact hTf.2.2.1),
              (by show bpB.proxyCount = bp.proxyCount; rw [hbpB]; exact hTf.2.2.2.1),
              (by show bpB.maxProxies = bp.maxProxies; rw [hbpB]; exact hTf.2.2.2.2.1),
              (by show bpB.worldAABB = bp.worldAABB; rw [hbpB]; exact hTf.2.2.2.2.2.1),
              (by show bpB.quantizationFactor = bp.quantizationFactor; rw [hbpB]; exact hTf.2.2.2.2.2.2.1),
              (by show bpB.timeStamp = bp.timeStamp; rw [hbpB]; exact hTf.2.2.2.2.2.2.2)⟩
            · intro a' ha
              show (bpC.bounds.set axis _).get a' = _
              rw [Duo.get_set_miss _ _ _ _ ha]
              show bpB.bounds.get a' = _
              rw [hBbounds, Duo.get_set_miss _ _ _ _ ha, hTf.2.1]
              show (bp.bounds.set axis _).get a' = _
              rw [Duo.get_set_miss _ _ _ _ ha]
            · intro q
              by_cases h1 : q = pid
              · rw [h1, hpoolD_pid]
                show movingProxy.isValidProxy = _
                rw [hmov]
              · by_cases h2 : q = prevId
                · rw [h2, hpoolD_prev]
                  show prevProxy.isValidProxy = _
                  rw [hprevPd]
                · rw [houtD q h2 h1]
            · intro q
              by_cases h1 : q = pid
              · rw [h1, hpoolD_pid]
                show movingProxy.next = _
                rw [hmov]
              · by_cases h2 : q = prevId
                · rw [h2, hpoolD_prev]
                · rw [houtD q h2 h1]
            · intro q
              by_cases h1 : q = pid
              · rw [h1, hpoolD_pid]
                show movingProxy.userData = _
                rw [hmov]
              · by_cases h2 : q = prevId
                · rw [h2, hpoolD_prev]
                · rw [houtD q h2 h1]
            · intro q a' ha
              by_cases h1 : q = pid
              · rw [h1, hpoolD_pid]
                show movingProxy.lowerBounds.get a' = _
                rw [hmov]
              · by_cases h2 : q = prevId
                · rw [h2, hpoolD_prev]
                  show (prevProxy.lowerBounds.set axis _).get a' = _
                  rw [Duo.get_set_miss _ _ _ _ ha, hprevPd]
                · rw [houtD q h2 h1]
            · intro q a' ha
              by_cases h1 : q = pid
              · rw [h1, hpoolD_pid]
                show (movingProxy.upperBounds.set axis _).get a' = _
                rw [Duo.get_set_miss _ _ _ _ ha, hmov]
              · by_cases h2 : q = prevId
                · rw [h2, hpoolD_prev]
                · rw [houtD q h2 h1]
          exact ⟨hlenD, hD_k, hD_k1, hD_out, houtD, hprev_low, hprev_up,
            hpid_up, hpid_low, hframe⟩
        · -- the passed bound is an upper bound
          have hPL' : P.isLower = false := by
            rw [Bool.not_eq_true] at hPL
            exact hPL
          have hstabPv : stabOf P = -1 := stabOf_upper P hPL'
          set Mb : Bound := { M with stabbingCount := M.stabbingCount + 1 } with hMbd
          set prevProxy1 := { prevProxy with
              upperBounds := prevProxy.upperBounds.set axis
                (prevProxy.upperBounds.get axis + 1) } with hprev1d
          have hbpB : bpB = { bpA with
              proxyPool := bpA.proxyPool.set prevId prevProxy1
              bounds := bpA.bounds.set axis ((bpA.bounds.get axis).set (k + 1) Mb) } := by
            rw [hbpBd, if_neg (by rw [hPL']; exact Bool.false_ne_true)]
          have hBpool : bpB.proxyPool = bp.proxyPool.set prevId prevProxy1 := by
            rw [hbpB]
          have hBbounds : bpB.bounds =
              bpA.bounds.set axis ((bpA.bounds.get axis).set (k + 1) Mb) := by
            rw [hbpB]
          have hB3 : B3 = ((bp.bounds.get axis).set k Pb).set (k + 1) Mb := by
            show bpB.bounds.get axis = _
            rw [hBbounds, Duo.get_set_hit _ _ _ _ Iff.rfl, hAax]
          have hlen3 : B3.length = (bp.bounds.get axis).length := by
            rw [hB3, List.length_set, List.length_set]
          have hB3k1 : B3.getD (k + 1) default = Mb := by
            rw [hB3]
            exact getD_set_eq _ _ _ (by rw [List.length_set]; exact hkm)
          have hB3k : B3.getD k default = Pb := by
            rw [hB3, getD_set_ne _ _ _ _ (by omega)]
            exact getD_set_eq _ _ _ (by omega)
          have hB3out : ∀ i, i ≠ k → i ≠ k + 1 →
              B3.getD i default = (bp.bounds.get axis).getD i default := by
            intro i h1 h2
            rw [hB3, getD_set_ne _ _ _ _ (fun he => h2 he.symm),
              getD_set_ne _ _ _ _ (fun he => h1 he.symm)]
          have hBD : bpD.bounds.get axis =
              (B3.set k (B3.getD (k + 1) default)).set (k + 1) (B3.getD k default) := by
            show (bpC.bounds.set axis _).get axis = _
            exact Duo.get_set_hit _ _ _ _ Iff.rfl
          have hk3 : k + 1 < B3.length := by
            rw [hlen3]
            exact hkm
          have hD_k : (bpD.bounds.get axis).getD k default =
              { M with stabbingCount := M.stabbingCount - stabOf P } := by
            rw [hBD, getD_double_set B3 k hk3, if_pos rfl, hB3k1, hstabPv,
              Int.sub_neg]
          have hD_k1 : (bpD.bounds.get axis).getD (k + 1) default =
              { P with stabbingCount := P.stabbingCount + stabOf M } := by
            rw [hBD, getD_double_set B3 k hk3,
              if_neg (show ¬(k + 1 = k) by omega), if_pos rfl, hB3k,
              stabOf_upper M hMown.2, hPbd, Int.sub_eq_add_neg]
          have hD_out : ∀ i, i ≠ k → i ≠ k + 1 →
              (bpD.bounds.get axis).getD i default =
                (bp.bounds.get axis).getD i default := by
            intro i h1 h2
            rw [hBD, getD_double_set B3 k hk3, if_neg h1, if_neg h2]
            exact hB3out i h1 h2
          have hlenD : (bpD.bounds.get axis).length = (bp.bounds.get axis).length := by
            rw [hBD, List.length_set, List.length_set, hlen3]
          have hCpool : bpD.proxyPool =
              (bp.proxyPool.set prevId prevProxy1).set pid
                { movingProxy with upperBounds := movingProxy.upperBounds.set axis (movingProxy.upperBounds.get axis - 1) } := by
            show bpB.proxyPool.set pid _ = _
            rw [hBpool]
          have hmov : movingProxy = bp.proxyPool.getD pid default := by
            show bpB.proxyPool.getD pid default = _
            rw [hBpool]
            exact getD_set_ne _ _ _ _ hprevne
          have hpoolD_pid : bpD.proxyPool.getD pid default =
              { movingProxy with upperBounds := movingProxy.upperBounds.set axis (movingProxy.upperBounds.get axis - 1) } := by
            rw [hCpool]
            exact getD_set_eq _ _ _ (by rw [List.length_set]; exact hpid)
          have hpoolD_prev : bpD.proxyPool.getD prevId default = prevProxy1 := by
            rw [hCpool, getD_set_ne _ _ _ _ (fun he => hprevne he.symm)]
            exact getD_set_eq _ _ _ hprevlt
          have houtD : ∀ q, q ≠ prevId → q ≠ pid →
              bpD.proxyPool.getD q default = bp.proxyPool.getD q default := by
            intro q h1 h2
            rw [hCpool, getD_set_ne _ _ _ _ (fun he => h2 he.symm),
              getD_set_ne _ _ _ _ (fun he => h1 he.symm)]
          have hpid_up : (bpD.proxyPool.getD pid default).upperBounds.get axis = k := by
            rw [hpoolD_pid]
            show (movingProxy.upperBounds.set axis
              (movingProxy.upperBounds.get axis - 1)).get axis = k
            rw [Duo.get_set_hit _ _ _ _ Iff.rfl, hmov, hrec]
            omega
          have hpid_low : (bpD.proxyPool.getD pid default).lowerBounds =
              (bp.proxyPool.getD pid default).lowerBounds := by
            rw [hpoolD_pid]
            show movingProxy.lowerBounds = _
            rw [hmov]
          have hprev_low : (bpD.proxyPool.getD prevId default).lowerBounds.get axis =
              (if P.isLower then k + 1 else prevProxy.lowerBounds.get axis) := by
            rw [hpoolD_prev, if_neg (by rw [hPL']; exact Bool.false_ne_true)]
          have hprev_up : (bpD.proxyPool.getD prevId default).upperBounds.get axis =
              (if P.isLower then prevProxy.upperBounds.get axis else k + 1) := by
            rw [hpoolD_prev, if_neg (by rw [hPL']; exact Bool.false_ne_true)]
            show (prevProxy.upperBounds.set axis
              (prevProxy.upperBounds.get axis + 1)).get axis = k + 1
            rw [Duo.get_set_hit _ _ _ _ Iff.rfl, hprevrecU hPL']
          have hplenD : bpD.proxyPool.length = bp.proxyPool.length := by
            rw [hCpool, List.length_set, List.length_set]
          have hframe : MoveFrame axis bp bpD := by
            refine ⟨?_, hplenD, ?_, ?_, ?_, ?_, ?_,
              (by show bpB.freeProxy = bp.freeProxy; rw [hbpB]),
              (by show bpB.proxyCount = bp.proxyCount; rw [hbpB]),
              (by show bpB.maxProxies = bp.maxProxies; rw [hbpB]),
              (by show bpB.worldAABB = bp.worldAABB; rw [hbpB]),
              (by show bpB.quantizationFactor = bp.quantizationFactor; rw [hbpB]),
              (by show bpB.timeStamp = bp.timeStamp; rw [hbpB])⟩
            · intro a' ha
              show (bpC.bounds.set axis _).get a' = _
              rw [Duo.get_set_miss _ _ _ _ ha]
              show bpB.bounds.get a' = _
              rw [hBbounds, Duo.get_set_miss _ _ _ _ ha]
              show (bp.bounds.set axis _).get a' = _
              rw [Duo.get_set_miss _ _ _ _ ha]
            · intro q
              by_cases h1 : q = pid
              · rw [h1, hpoolD_pid]
                show movingProxy.isValidProxy = _
                rw [hmov]
              · by_cases h2 : q = prevId
                · rw [h2, hpoolD_prev]
                  show prevProxy.isValidProxy = _
                  rw [hprevPd]
                · rw [houtD q h2 h1]
            · intro q
              by_cases h1 : q = pid
              · rw [h1, hpoolD_pid]
                show movingProxy.next = _
                rw [hmov]
              · by_cases h2 : q = prevId
                · rw [h2, hpoolD_prev]
                · rw [houtD q h2 h1]
            · intro q
              by_cases h1 : q = pid
              · rw [h1, hpoolD_pid]
                show movingProxy.userData = _
                rw [hmov]
              · by_cases h2 : q = prevId
                · rw [h2, hpoolD_prev]
                · rw [houtD q h2 h1]
            · intro q a' ha
              by_cases h1 : q = pid
              · rw [h1, hpoolD_pid]
                show movingProxy.lowerBounds.get a' = _
                rw [hmov]
              · by_cases h2 : q = prevId
                · rw [h2, hpoolD_prev]
                · rw [houtD q h2 h1]
            · intro q a' ha
              by_cases h1 : q = pid
              · rw [h1, hpoolD_pid]
                show (movingProxy.upperBounds.set axis _).get a' = _
                rw [Duo.get_set_miss _ _ _ _ ha, hmov]
              · by_cases h2 : q = prevId
                · rw [h2, hpoolD_prev]
                  show (prevProxy.upperBounds.set axis _).get a' = _
                  rw [Duo.get_set_miss _ _ _ _ ha, hprevPd]
                · rw [houtD q h2 h1]
          exact ⟨hlenD, hD_k, hD_k1, hD_out, houtD, hprev_low, hprev_up,
            hpid_up, hpid_low, hframe⟩
      obtain ⟨hlenD, hD_k, hD_k1, hD_out, houtD, hprev_low, hprev_up,
        hpid_up, hpid_low, hframe⟩ := hbundle
      exact moveUpperDown_step pid axis boundCount uv E k bp bpD
        (bpD.moveUpperDownGo pid axis ov uv k) hlen hcore hpid hlive hrec hval
        hpart hE hsX hlow hguard hlenD hD_k hD_k1 hD_out houtD hprev_low
        hprev_up hpid_up hpid_low hframe (ih bpD)
    · have hIf : bp.moveUpperDownGo pid axis ov uv (k + 1) =
          (if uv < P.value then bpD.moveUpperDownGo pid axis ov uv k else bp) := rfl
      rw [hIf, if_neg hguard]
      refine ⟨hlen, hcore, ?_, fun i _ => rfl, fun c hc i hi => hc i hi,
        MoveFrame.moveRefl axis bp, rfl, ?_⟩
      · intro i j hij hj hiE hjE
        by_cases hik : i = k + 1
        · rw [hik, hval]
          exact hlow j (by omega) (by rw [← hlen]; exact hj) hjE
        · by_cases hjk : j = k + 1
          · rw [hjk, hval]
            by_cases hik3 : i = k
            · rw [hik3, ← hPd]
              omega
            · have h1 : ((bp.bounds.get axis).getD i default).value ≤
                  ((bp.bounds.get axis).getD k default).value := by
                refine hsX i k (by omega) (by omega) ?_ ?_
                · intro hc
                  rcases hc with h0 | h0
                  · exact hik h0
                  · exact hiE h0
                · intro hc
                  rcases hc with h0 | h0
                  · omega
                  · have := (hE k h0).1
                    omega
              rw [← hPd] at h1
              omega
          · refine hsX i j hij hj ?_ ?_
            · intro hc
              rcases hc with h0 | h0
              · exact hik h0
              · exact hiE h0
            · intro hc
              rcases hc with h0 | h0
              · exact hjk h0
              · exact hjE h0
      · rw [hrec, hval]


theorem stabOf_congr (x y : Bound) (h : x.isLower = y.isLower) :
    stabOf x = stabOf y := by
  unfold stabOf
  rw [h]

/-- One axis of MoveProxy preserves that axis's length, core consistency and
sortedness, and touches nothing the move frame protects, whatever the signs of
the two value deltas. -/
theorem moveProxyAxis_inv (bp : BroadPhase) (pid axis boundCount : Nat)
    (nv ov : BoundValues)
    (hlen : (bp.bounds.get axis).length = boundCount)
    (hcore : SapCore bp.proxyPool (bp.bounds.get axis) axis)
    (hsort : sortedVals (bp.bounds.get axis))
    (hpid : pid < bp.proxyPool.length)
    (hlive : (bp.proxyPool.getD pid default).isValidProxy = true)
    (hlpar : nv.lowerValues.get axis % 2 = 0)
    (hupar : nv.upperValues.get axis % 2 = 1)
    (hnlt : nv.lowerValues.get axis < nv.upperValues.get axis) :
    ((bp.moveProxyAxis pid axis nv ov boundCount).bounds.get axis).length =
      boundCount ∧
    SapCore (bp.moveProxyAxis pid axis nv ov boundCount).proxyPool
      ((bp.moveProxyAxis pid axis nv ov boundCount).bounds.get axis) axis ∧
    sortedVals ((bp.moveProxyAxis pid axis nv ov boundCount).bounds.get axis) ∧
    MoveFrame axis bp (bp.moveProxyAxis pid axis nv ov boundCount) := by
  have hlu := hcore.live_lt pid hpid hlive not_false
  have hub := hcore.live_hi pid hpid hlive not_false
  have hLown := hcore.live_lower pid hpid hlive not_false
  have hUown := hcore.live_upper pid hpid hlive not_false
  set B := bp.bounds.get axis with hBd
  set li := (bp.proxyPool.getD pid default).lowerBounds.get axis with hlid
  set ui := (bp.proxyPool.getD pid default).upperBounds.get axis with huid
  set lv := nv.lowerValues.get axis with hlvd
  set uv := nv.upperValues.get axis with huvd
  set dl : Int := (lv : Int) - ((B.getD li default).value : Int) with hdld
  set du : Int := (uv : Int) - ((B.getD ui default).value : Int) with hdud
  set b1 := B.set li { B.getD li default with value := lv } with hb1d
  set b2 := b1.set ui { b1.getD ui default with value := uv } with hb2d
  set bp0 := { bp with bounds := bp.bounds.set axis b2 } with hbp0d
  set bp1 := (if dl < 0 then bp0.moveLowerDownGo pid axis nv lv li else bp0)
    with hbp1d
  set bp2 := (if 0 < du then bp1.moveUpperUpGo pid axis nv uv boundCount ui
    else bp1) with hbp2d
  set bp3 := (if 0 < dl then bp2.moveLowerUpGo pid axis ov lv boundCount li
    else bp2) with hbp3d
  set bp4 := (if du < 0 then bp3.moveUpperDownGo pid axis ov uv ui else bp3)
    with hbp4d
  have hdef : bp.moveProxyAxis pid axis nv ov boundCount = bp4 := rfl
  have hb1len : b1.length = B.length := by
    rw [hb1d, List.length_set]
  have hlen2 : b2.length = B.length := by
    rw [hb2d, List.length_set, hb1len]
  have hb1ui : b1.getD ui default = B.getD ui default := by
    rw [hb1d]
    exact getD_set_ne B li ui _ (by omega)
  have hb2_ui : b2.getD ui default = { B.getD ui default with value := uv } := by
    rw [hb2d, getD_set_eq b1 ui _ (by rw [hb1len]; exact hub), hb1ui]
  have hb2_li : b2.getD li default = { B.getD li default with value := lv } := by
    rw [hb2d, getD_set_ne b1 ui li _ (by omega), hb1d]
    exact getD_set_eq B li _ (by omega)
  have hb2_out : ∀ i, i ≠ li → i ≠ ui → b2.getD i default = B.getD i default := by
    intro i h1 h2
    rw [hb2d, getD_set_ne b1 ui i _ (fun he => h2 he.symm), hb1d,
      getD_set_ne B li i _ (fun he => h1 he.symm)]
  have hb2v_li : (b2.getD li default).value = lv := by
    rw [hb2_li]
  have hb2v_ui : (b2.getD ui default).value = uv := by
    rw [hb2_ui]
  have hb2v_out : ∀ i, i ≠ li → i ≠ ui →
      (b2.getD i default).value = (B.getD i default).value := by
    intro i h1 h2
    rw [hb2_out i h1 h2]
  have hb2low : ∀ i, (b2.getD i default).isLower = (B.getD i default).isLower := by
    intro i
    by_cases h1 : i = li
    · rw [h1, hb2_li, hLown.2]
      exact (isLower_iff _).mpr hlpar
    · by_cases h2 : i = ui
      · rw [h2, hb2_ui, hUown.2]
        exact (isLower_false_iff _).mpr hupar
      · rw [hb2_out i h1 h2]
  have hb2id : ∀ i, (b2.getD i default).proxyId = (B.getD i default).proxyId := by
    intro i
    by_cases h1 : i = li
    · rw [h1, hb2_li]
    · by_cases h2 : i = ui
      · rw [h2, hb2_ui]
      · rw [hb2_out i h1 h2]
  have hb2st : ∀ i, (b2.getD i default).stabbingCount =
      (B.getD i default).stabbingCount := by
    intro i
    by_cases h1 : i = li
    · rw [h1, hb2_li]
    · by_cases h2 : i = ui
      · rw [h2, hb2_ui]
      · rw [hb2_out i h1 h2]
  have hscan2 : ∀ j, scanCount b2 j = scanCount B j := by
    intro j
    exact scanCount_agree B b2 j hlen2 (fun j' _ => stabOf_congr _ _ (hb2low j'))
  have core2 : SapCore bp.proxyPool b2 axis := by
    refine ⟨?_, ?_, ?_, ?_, ?_, ?_, ?_, ?_, ?_⟩
    · intro i hi
      rw [hb2id i]
      exact hcore.owner_lt i (by rw [← hlen2]; exact hi)
    · intro i hi
      rw [hb2id i]
      exact hcore.owner_live i (by rw [← hlen2]; exact hi)
    · intro i hi hL
      rw [hb2id i]
      refine hcore.lower_idx i (by rw [← hlen2]; exact hi) ?_
      rw [← hb2low i]
      exact hL
    · intro i hi hL
      rw [hb2id i]
      refine hcore.upper_idx i (by rw [← hlen2]; exact hi) ?_
      rw [← hb2low i]
      exact hL
    · exact hcore.live_lt
    · intro p hp hv hx
      rw [hlen2]
      exact hcore.live_hi p hp hv hx
    · intro p hp hv hx
      have h := hcore.live_lower p hp hv hx
      exact ⟨by rw [hb2id _]; exact h.1, by rw [hb2low _]; exact h.2⟩
    · intro p hp hv hx
      have h := hcore.live_upper p hp hv hx
      exact ⟨by rw [hb2id _]; exact h.1, by rw [hb2low _]; exact h.2⟩
    · intro i hi
      rw [hb2st i, hscan2 i]
      exact hcore.stab i (by rw [← hlen2]; exact hi)
  have hsX2 : sortedExcept b2 (fun i => i = li ∨ i = ui) := by
    intro i j hij hj hi hj'
    have hi2 := not_or.mp hi
    have hj2 := not_or.mp hj'
    rw [hb2v_out i hi2.1 hi2.2, hb2v_out j hj2.1 hj2.2]
    exact hsort i j hij (by rw [← hlen2]; exact hj)
  have hbp0ax : bp0.bounds.get axis = b2 := by
    show (bp.bounds.set axis b2).get axis = b2
    exact Duo.get_set_hit _ _ _ _ Iff.rfl
  have frame0 : MoveFrame axis bp bp0 := by
    refine ⟨?_, rfl, fun _ => rfl, fun _ => rfl, fun _ => rfl, fun _ _ _ => rfl,
      fun _ _ _ => rfl, rfl, rfl, rfl, rfl, rfl, rfl⟩
    intro a' ha
    show (bp.bounds.set axis b2).get a' = _
    rw [Duo.get_set_miss _ _ _ _ ha]
  have hlen0 : (bp0.bounds.get axis).length = boundCount := by
    rw [hbp0ax, hlen2]
    exact hlen
  have hcore0 : SapCore bp0.proxyPool (bp0.bounds.get axis) axis := by
    rw [hbp0ax]
    exact core2
  have hpid0 : pid < bp0.proxyPool.length := hpid
  have hlive0 : (bp0.proxyPool.getD pid default).isValidProxy = true := hlive
  have hrecL0 : (bp0.proxyPool.getD pid default).lowerBounds.get axis = li := rfl
  have hrecU0 : (bp0.proxyPool.getD pid default).upperBounds.get axis = ui := rfl
  have hvalL0 : ((bp0.bounds.get axis).getD li default).value = lv := by
    rw [hbp0ax]
    exact hb2v_li
  have hvalU0 : ((bp0.bounds.get axis).getD ui default).value = uv := by
    rw [hbp0ax]
    exact hb2v_ui
  rcases Int.lt_trichotomy dl 0 with hdl | hdl | hdl
  · -- the lower bound moves down
    have hlvlt : lv < (B.getD li default).value := by
      rw [hdld] at hdl
      omega
    have hbp1 : bp1 = bp0.moveLowerDownGo pid axis nv lv li := by
      rw [hbp1d, if_pos hdl]
    have hbp3 : bp3 = bp2 := by
      rw [hbp3d, if_neg (show ¬(0 < dl) by omega)]
    rcases Int.lt_trichotomy du 0 with hdu | hdu | hdu
    · -- the upper bound moves down as well
      have huvlt : uv < (B.getD ui default).value := by
        rw [hdud] at hdu
        omega
      have hbp2 : bp2 = bp1 := by
        rw [hbp2d, if_neg (show ¬(0 < du) by omega)]
      have hbp4 : bp4 = bp3.moveUpperDownGo pid axis ov uv ui := by
        rw [hbp4d, if_pos hdu]
      have hE0 : ∀ i, i = ui → li < i ∧ i < boundCount := by
        intro i hi
        rw [hi]
        exact ⟨hlu, by omega⟩
      have hsX0 : sortedExcept (bp0.bounds.get axis) (fun i => i = li ∨ i = ui) := by
        rw [hbp0ax]
        exact hsX2
      have hlow0 : ∀ j, li < j → j < boundCount → ¬(j = ui) →
          lv ≤ ((bp0.bounds.get axis).getD j default).value := by
        intro j h1 h2 h3
        rw [hbp0ax, hb2v_out j (by omega) h3]
        have h4 := hsort li j h1 (by omega)
        omega
      obtain ⟨d1len, d1core, d1sX, d1high, d1bound, d1frame, d1up, d1val⟩ :=
        moveLowerDown_inv pid axis boundCount nv lv (fun i => i = ui) li bp0
          hlen0 hcore0 hpid0 hlive0 hrecL0 hvalL0 hE0 hsX0 hlow0
      rw [← hbp1] at d1len d1core d1sX d1high d1bound d1frame d1up d1val
      have hrec1 : (bp1.proxyPool.getD pid default).upperBounds.get axis = ui := by
        rw [d1up]
      have hval1 : ((bp1.bounds.get axis).getD ui default).value = uv := by
        rw [d1high ui hlu, hbp0ax]
        exact hb2v_ui
      have hpart1 : ((bp1.bounds.get axis).getD
          ((bp1.proxyPool.getD pid default).lowerBounds.get axis) default).value ≤
          uv := by
        rw [d1val]
        omega
      have hsX1 : sortedExcept (bp1.bounds.get axis) (fun i => i = ui ∨ False) :=
        sortedExcept_mono _ _ _ (fun i h => Or.inl h) d1sX
      have hlow1 : ∀ j, ui < j → j < boundCount → ¬False →
          uv ≤ ((bp1.bounds.get axis).getD j default).value := by
        intro j h1 h2 _
        rw [d1high j (by omega), hbp0ax, hb2v_out j (by omega) (by omega)]
        have h4 := hsort ui j h1 (by omega)
        omega
      obtain ⟨d4len, d4core, d4sX, _, _, d4frame, _, _⟩ :=
        moveUpperDown_inv pid axis boundCount ov uv (fun _ => False) ui bp1
          d1len d1core (by rw [d1frame.pool_len]; exact hpid)
          (by rw [d1frame.valid_eq]; exact hlive) hrec1 hval1 hpart1
          (fun i hi => hi.elim) hsX1 hlow1
      rw [hdef, hbp4, hbp3, hbp2]
      exact ⟨d4len, d4core, sortedVals_of_none _ _ (fun i h => h) d4sX,
        MoveFrame.moveTrans (MoveFrame.moveTrans frame0 d1frame) d4frame⟩
    · -- the upper bound stays put
      have huveq : uv = (B.getD ui default).value := by
        rw [hdud] at hdu
        omega
      have hbp2 : bp2 = bp1 := by
        rw [hbp2d, if_neg (show ¬(0 < du) by omega)]
      have hbp4 : bp4 = bp3 := by
        rw [hbp4d, if_neg (show ¬(du < 0) by omega)]
      have hsX0 : sortedExcept (bp0.bounds.get axis) (fun i => i = li ∨ False) := by
        rw [hbp0ax]
        intro i j hij hj hi hj'
        have hi1 : i ≠ li := fun hc => hi (Or.inl hc)
        have hj1 : j ≠ li := fun hc => hj' (Or.inl hc)
        have hvi : (b2.getD i default).value = (B.getD i default).value := by
          by_cases h2 : i = ui
          · rw [h2, hb2v_ui, huveq]
          · exact hb2v_out i hi1 h2
        have hvj : (b2.getD j default).value = (B.getD j default).value := by
          by_cases h2 : j = ui
          · rw [h2, hb2v_ui, huveq]
          · exact hb2v_out j hj1 h2
        rw [hvi, hvj]
        exact hsort i j hij (by rw [← hlen2]; exact hj)
      have hlow0 : ∀ j, li < j → j < boundCount → ¬False →
          lv ≤ ((bp0.bounds.get axis).getD j default).value := by
        intro j h1 h2 _
        rw [hbp0ax]
        have hvj : (b2.getD j default).value = (B.getD j default).value := by
          by_cases h3 : j = ui
          · rw [h3, hb2v_ui, huveq]
          · exact hb2v_out j (by omega) h3
        rw [hvj]
        have h4 := hsort li j h1 (by omega)
        omega
      obtain ⟨d1len, d1core, d1sX, _, _, d1frame, _, _⟩ :=
        moveLowerDown_inv pid axis boundCount nv lv (fun _ => False) li bp0
          hlen0 hcore0 hpid0 hlive0 hrecL0 hvalL0 (fun i hi => hi.elim) hsX0 hlow0
      rw [← hbp1] at d1len d1core d1sX d1frame
      rw [hdef, hbp4, hbp3, hbp2]
      exact ⟨d1len, d1core, sortedVals_of_none _ _ (fun i h => h) d1sX,
        MoveFrame.moveTrans frame0 d1frame⟩
    · -- the upper bound moves up
      have huvgt : (B.getD ui default).value < uv := by
        rw [hdud] at hdu
        omega
      have hbp2 : bp2 = bp1.moveUpperUpGo pid axis nv uv boundCount ui := by
        rw [hbp2d, if_pos hdu]
      have hbp4 : bp4 = bp3 := by
        rw [hbp4d, if_neg (show ¬(du < 0) by omega)]
      have hE0 : ∀ i, i = ui → li < i ∧ i < boundCount := by
        intro i hi
        rw [hi]
        exact ⟨hlu, by omega⟩
      have hsX0 : sortedExcept (bp0.bounds.get axis) (fun i => i = li ∨ i = ui) := by
        rw [hbp0ax]
        exact hsX2
      have hlow0 : ∀ j, li < j → j < boundCount → ¬(j = ui) →
          lv ≤ ((bp0.bounds.get axis).getD j default).value := by
        intro j h1 h2 h3
        rw [hbp0ax, hb2v_out j (by omega) h3]
        have h4 := hsort li j h1 (by omega)
        omega
      obtain ⟨d1len, d1core, d1sX, d1high, d1bound, d1frame, d1up, d1val⟩ :=
        moveLowerDown_inv pid axis boundCount nv lv (fun i => i = ui) li bp0
          hlen0 hcore0 hpid0 hlive0 hrecL0 hvalL0 hE0 hsX0 hlow0
      rw [← hbp1] at d1len d1core d1sX d1high d1bound d1frame d1up d1val
      have hrec1 : (bp1.proxyPool.getD pid default).upperBounds.get axis = ui := by
        rw [d1up]
      have hval1 : ((bp1.bounds.get axis).getD ui default).value = uv := by
        rw [d1high ui hlu, hbp0ax]
        exact hb2v_ui
      have hsX1 : sortedExcept (bp1.bounds.get axis) (fun i => i = ui ∨ False) :=
        sortedExcept_mono _ _ _ (fun i h => Or.inl h) d1sX
      have hhig1 : ∀ i, i < ui → ¬False →
          ((bp1.bounds.get axis).getD i default).value ≤ uv := by
        intro i hi _
        by_cases h1 : li < i
        · rw [d1high i h1, hbp0ax, hb2v_out i (by omega) (by omega)]
          have h4 := hsort i ui hi hub
          omega
        · refine d1bound uv ?_ i (by omega)
          intro j hj
          rw [hbp0ax]
          by_cases h2 : j = li
          · rw [h2, hb2v_li]
            omega
          · rw [hb2v_out j h2 (by omega)]
            have h4 := hsort j li (by omega) (by omega)
            have h5 := hsort li ui hlu hub
            omega
      obtain ⟨u2len, u2core, u2sX, _, _, u2frame, _, _⟩ :=
        moveUpperUp_inv pid axis boundCount nv uv (fun _ => False) boundCount ui bp1
          (by omega) d1len d1core (by rw [d1frame.pool_len]; exact hpid)
          (by rw [d1frame.valid_eq]; exact hlive) hrec1 hval1
          (fun i hi => hi.elim) hsX1 hhig1
      rw [hdef, hbp4, hbp3, hbp2]
      exact ⟨u2len, u2core, sortedVals_of_none _ _ (fun i h => h) u2sX,
        MoveFrame.moveTrans (MoveFrame.moveTrans frame0 d1frame) u2frame⟩
  · -- the lower bound stays put
    have hlveq : lv = (B.getD li default).value := by
      rw [hdld] at hdl
      omega
    have hbp1 : bp1 = bp0 := by
      rw [hbp1d, if_neg (show ¬(dl < 0) by omega)]
    have hbp3 : bp3 = bp2 := by
      rw [hbp3d, if_neg (show ¬(0 < dl) by omega)]
    rcases Int.lt_trichotomy du 0 with hdu | hdu | hdu
    · -- the upper bound moves down
      have huvlt : uv < (B.getD ui default).value := by
        rw [hdud] at hdu
        omega
      have hbp2 : bp2 = bp1 := by
        rw [hbp2d, if_neg (show ¬(0 < du) by omega)]
      have hbp4 : bp4 = bp3.moveUpperDownGo pid axis ov uv ui := by
        rw [hbp4d, if_pos hdu]
      have hpart0 : ((bp0.bounds.get axis).getD
          ((bp0.proxyPool.getD pid default).lowerBounds.get axis) default).value ≤
          uv := by
        show ((bp0.bounds.get axis).getD li default).value ≤ uv
        rw [hvalL0]
        omega
      have hsX0 : sortedExcept (bp0.bounds.get axis) (fun i => i = ui ∨ False) := by
        rw [hbp0ax]
        intro i j hij hj hi hj'
        have hi1 : i ≠ ui := fun hc => hi (Or.inl hc)
        have hj1 : j ≠ ui := fun hc => hj' (Or.inl hc)
        have hvi : (b2.getD i default).value = (B.getD i default).value := by
          by_cases h2 : i = li
          · rw [h2, hb2v_li, hlveq]
          · exact hb2v_out i h2 hi1
        have hvj : (b2.getD j default).value = (B.getD j default).value := by
          by_cases h2 : j = li
          · rw [h2, hb2v_li, hlveq]
          · exact hb2v_out j h2 hj1
        rw [hvi, hvj]
        exact hsort i j hij (by rw [← hlen2]; exact hj)
      have hlow0 : ∀ j, ui < j → j < boundCount → ¬False →
          uv ≤ ((bp0.bounds.get axis).getD j default).value := by
        intro j h1 h2 _
        rw [hbp0ax, hb2v_out j (by omega) (by omega)]
        have h4 := hsort ui j h1 (by omega)
        omega
      obtain ⟨d4len, d4core, d4sX, _, _, d4frame, _, _⟩ :=
        moveUpperDown_inv pid axis boundCount ov uv (fun _ => False) ui bp0
          hlen0 hcore0 hpid0 hlive0 hrecU0 hvalU0 hpart0
          (fun i hi => hi.elim) hsX0 hlow0
      rw [hdef, hbp4, hbp3, hbp2, hbp1]
      exact ⟨d4len, d4core, sortedVals_of_none _ _ (fun i h => h) d4sX,
        MoveFrame.moveTrans frame0 d4frame⟩
    · -- neither bound moves
      have huveq : uv = (B.getD ui default).value := by
        rw [hdud] at hdu
        omega
      have hbp2 : bp2 = bp1 := by
        rw [hbp2d, if_neg (show ¬(0 < du) by omega)]
      have hbp4 : bp4 = bp3 := by
        rw [hbp4d, if_neg (show ¬(du < 0) by omega)]
      have hsorted0 : sortedVals (bp0.bounds.get axis) := by
        rw [hbp0ax]
        intro i j hij hj
        have hv : ∀ m, (b2.getD m default).value = (B.getD m default).value := by
          intro m
          by_cases h1 : m = li
          · rw [h1, hb2v_li, hlveq]
          · by_cases h2 : m = ui
            · rw [h2, hb2v_ui, huveq]
            · exact hb2v_out m h1 h2
        rw [hv i, hv j]
        exact hsort i j hij (by rw [← hlen2]; exact hj)
      rw [hdef, hbp4, hbp3, hbp2, hbp1]
      exact ⟨hlen0, hcore0, hsorted0, frame0⟩
    · -- the upper bound moves up
      have huvgt : (B.getD ui default).value < uv := by
        rw [hdud] at hdu
        omega
      have hbp2 : bp2 = bp1.moveUpperUpGo pid axis nv uv boundCount ui := by
        rw [hbp2d, if_pos hdu]
      have hbp4 : bp4 = bp3 := by
        rw [hbp4d, if_neg (show ¬(du < 0) by omega)]
      have hsX0 : sortedExcept (bp0.bounds.get axis) (fun i => i = ui ∨ False) := by
        rw [hbp0ax]
        intro i j hij hj hi hj'
        have hi1 : i ≠ ui := fun hc => hi (Or.inl hc)
        have hj1 : j ≠ ui := fun hc => hj' (Or.inl hc)
        have hvi : (b2.getD i default).value = (B.getD i default).value := by
          by_cases h2 : i = li
          · rw [h2, hb2v_li, hlveq]
          · exact hb2v_out i h2 hi1
        have hvj : (b2.getD j default).value = (B.getD j default).value := by
          by_cases h2 : j = li
          · rw [h2, hb2v_li, hlveq]
          · exact hb2v_out j h2 hj1
        rw [hvi, hvj]
        exact hsort i j hij (by rw [← hlen2]; exact hj)
      have hhig0 : ∀ i, i < ui → ¬False →
          ((bp0.bounds.get axis).getD i default).value ≤ uv := by
        intro i h1 _
        rw [hbp0ax]
        have hvi : (b2.getD i default).value = (B.getD i default).value := by
          by_cases h2 : i = li
          · rw [h2, hb2v_li, hlveq]
          · exact hb2v_out i h2 (by omega)
        rw [hvi]
        have h4 := hsort i ui h1 hub
        omega
      obtain ⟨u2len, u2core, u2sX, _, _, u2frame, _, _⟩ :=
        moveUpperUp_inv pid axis boundCount nv uv (fun _ => False) boundCount ui bp0
          (by omega) hlen0 hcore0 hpid0 hlive0 hrecU0 hvalU0
          (fun i hi => hi.elim) hsX0 hhig0
      rw [hdef, hbp4, hbp3, hbp2, hbp1]
      exact ⟨u2len, u2core, sortedVals_of_none _ _ (fun i h => h) u2sX,
        MoveFrame.moveTrans frame0 u2frame⟩
  · -- the lower bound moves up
    have hlvgt : (B.getD li default).value < lv := by
      rw [hdld] at hdl
      omega
    have hbp1 : bp1 = bp0 := by
      rw [hbp1d, if_neg (show ¬(dl < 0) by omega)]
    have hbp3 : bp3 = bp2.moveLowerUpGo pid axis ov lv boundCount li := by
      rw [hbp3d, if_pos hdl]
    rcases Int.lt_trichotomy du 0 with hdu | hdu | hdu
    · -- the upper bound moves down
      have huvlt : uv < (B.getD ui default).value := by
        rw [hdud] at hdu
        omega
      have hbp2 : bp2 = bp1 := by
        rw [hbp2d, if_neg (show ¬(0 < du) by omega)]
      have hbp4 : bp4 = bp3.moveUpperDownGo pid axis ov uv ui := by
        rw [hbp4d, if_pos hdu]
      have hpart0 : lv < ((bp0.bounds.get axis).getD
          ((bp0.proxyPool.getD pid default).upperBounds.get axis) default).value := by
        show lv < ((bp0.bounds.get axis).getD ui default).value
        rw [hvalU0]
        omega
      have hE0 : ∀ i, i = ui → i < boundCount ∧ i ≠ li ∧ (li < i → ∀ j, i ≤ j →
          j < boundCount → lv < ((bp0.bounds.get axis).getD j default).value) := by
        intro i hi
        rw [hi]
        refine ⟨by omega, by omega, ?_⟩
        intro _ j hj1 hj2
        rw [hbp0ax]
        by_cases h2 : j = ui
        · rw [h2, hb2v_ui]
          omega
        · rw [hb2v_out j (by omega) h2]
          have h4 := hsort ui j (by omega) (by omega)
          omega
      have hsX0 : sortedExcept (bp0.bounds.get axis) (fun i => i = li ∨ i = ui) := by
        rw [hbp0ax]
        exact hsX2
      have hhig0 : ∀ i, i < li → ¬(i = ui) →
          ((bp0.bounds.get axis).getD i default).value ≤ lv := by
        intro i h1 h2
        rw [hbp0ax, hb2v_out i (by omega) h2]
        have h4 := hsort i li h1 (by omega)
        omega
      obtain ⟨l3len, l3core, l3sX, l3low, l3prot, l3frame, l3upD, l3val⟩ :=
        moveLowerUp_inv pid axis boundCount ov lv (fun i => i = ui) boundCount li bp0
          (by omega) hlen0 hcore0 hpid0 hlive0 hrecL0 hvalL0 hpart0 hE0 hsX0 hhig0
      have hbp3' : bp3 = bp0.moveLowerUpGo pid axis ov lv boundCount li := by
        rw [hbp3, hbp2, hbp1]
      rw [← hbp3'] at l3len l3core l3sX l3low l3prot l3frame l3upD l3val
      have hrec3 : (bp3.proxyPool.getD pid default).upperBounds.get axis = ui := by
        rw [l3upD]
      have hval3 : ((bp3.bounds.get axis).getD ui default).value = uv := by
        rw [l3prot ui hlu (by omega) (by rw [hbp0ax, hb2v_ui]; omega), hbp0ax]
        exact hb2v_ui
      have hpart3 : ((bp3.bounds.get axis).getD
          ((bp3.proxyPool.getD pid default).lowerBounds.get axis) default).value ≤
          uv := by
        rw [l3val]
        omega
      have hsX3 : sortedExcept (bp3.bounds.get axis) (fun i => i = ui ∨ False) :=
        sortedExcept_mono _ _ _ (fun i h => Or.inl h) l3sX
      have hlow3 : ∀ j, ui < j → j < boundCount → ¬False →
          uv ≤ ((bp3.bounds.get axis).getD j default).value := by
        intro j h1 h2 _
        have hvj : lv < ((bp0.bounds.get axis).getD j default).value := by
          rw [hbp0ax, hb2v_out j (by omega) (by omega)]
          have h4 := hsort ui j h1 (by omega)
          omega
        rw [l3prot j (by omega) h2 hvj, hbp0ax, hb2v_out j (by omega) (by omega)]
        have h4 := hsort ui j h1 (by omega)
        omega
      obtain ⟨d4len, d4core, d4sX, _, _, d4frame, _, _⟩ :=
        moveUpperDown_inv pid axis boundCount ov uv (fun _ => False) ui bp3
          l3len l3core (by rw [l3frame.pool_len]; exact hpid)
          (by rw [l3frame.valid_eq]; exact hlive) hrec3 hval3 hpart3
          (fun i hi => hi.elim) hsX3 hlow3
      rw [hdef, hbp4]
      exact ⟨d4len, d4core, sortedVals_of_none _ _ (fun i h => h) d4sX,
        MoveFrame.moveTrans (MoveFrame.moveTrans frame0 l3frame) d4frame⟩
    · -- the upper bound stays put
      have huveq : uv = (B.getD ui default).value := by
        rw [hdud] at hdu
        omega
      have hbp2 : bp2 = bp1 := by
        rw [hbp2d, if_neg (show ¬(0 < du) by omega)]
      have hbp4 : bp4 = bp3 := by
        rw [hbp4d, if_neg (show ¬(du < 0) by omega)]
      have hpart0 : lv < ((bp0.bounds.get axis).getD
          ((bp0.proxyPool.getD pid default).upperBounds.get axis) default).value := by
        show lv < ((bp0.bounds.get axis).getD ui default).value
        rw [hvalU0]
        omega
      have hsX0 : sortedExcept (bp0.bounds.get axis) (fun i => i = li ∨ False) := by
        rw [hbp0ax]
        intro i j hij hj hi hj'
        have hi1 : i ≠ li := fun hc => hi (Or.inl hc)
        have hj1 : j ≠ li := fun hc => hj' (Or.inl hc)
        have hvi : (b2.getD i default).value = (B.getD i default).value := by
          by_cases h2 : i = ui
          · rw [h2, hb2v_ui, huveq]
          · exact hb2v_out i hi1 h2
        have hvj : (b2.getD j default).value = (B.getD j default).value := by
          by_cases h2 : j = ui
          · rw [h2, hb2v_ui, huveq]
          · exact hb2v_out j hj1 h2
        rw [hvi, hvj]
        exact hsort i j hij (by rw [← hlen2]; exact hj)
      have hhig0 : ∀ i, i < li → ¬False →
          ((bp0.bounds.get axis).getD i default).value ≤ lv := by
        intro i h1 _
        rw [hbp0ax, hb2v_out i (by omega) (by omega)]
        have h4 := hsort i li h1 (by omega)
        omega
      obtain ⟨l3len, l3core, l3sX, _, _, l3frame, _, _⟩ :=
        moveLowerUp_inv pid axis boundCount ov lv (fun _ => False) boundCount li bp0
          (by omega) hlen0 hcore0 hpid0 hlive0 hrecL0 hvalL0 hpart0
          (fun i hi => hi.elim) hsX0 hhig0
      rw [hdef, hbp4, hbp3, hbp2, hbp1]
      exact ⟨l3len, l3core, sortedVals_of_none _ _ (fun i h => h) l3sX,
        MoveFrame.moveTrans frame0 l3frame⟩
    · -- both bounds move up
      have huvgt : (B.getD ui default).value < uv := by
        rw [hdud] at hdu
        omega
      have hbp2 : bp2 = bp1.moveUpperUpGo pid axis nv uv boundCount ui := by
        rw [hbp2d, if_pos hdu]
      have hbp4 : bp4 = bp3 := by
        rw [hbp4d, if_neg (show ¬(du < 0) by omega)]
      have hE0 : ∀ i, i = li → i < boundCount ∧ i ≠ ui ∧ (ui < i → ∀ j, i ≤ j →
          j < boundCount → uv < ((bp0.bounds.get axis).getD j default).value) := by
        intro i hi
        rw [hi]
        exact ⟨by omega, by omega, fun hc => absurd hc (by omega)⟩
      have hsX0 : sortedExcept (bp0.bounds.get axis) (fun i => i = ui ∨ i = li) := by
        rw [hbp0ax]
        exact sortedExcept_mono _ _ _ (fun i h => h.elim Or.inr Or.inl) hsX2
      have hhig0 : ∀ i, i < ui → ¬(i = li) →
          ((bp0.bounds.get axis).getD i default).value ≤ uv := by
        intro i h1 h2
        rw [hbp0ax, hb2v_out i h2 (by omega)]
        have h4 := hsort i ui h1 hub
        omega
      obtain ⟨u2len, u2core, u2sX, u2low, u2prot, u2frame, u2lowD, u2val⟩ :=
        moveUpperUp_inv pid axis boundCount nv uv (fun i => i = li) boundCount ui bp0
          (by omega) hlen0 hcore0 hpid0 hlive0 hrecU0 hvalU0 hE0 hsX0 hhig0
      have hbp2' : bp2 = bp0.moveUpperUpGo pid axis nv uv boundCount ui := by
        rw [hbp2, hbp1]
      rw [← hbp2'] at u2len u2core u2sX u2low u2prot u2frame u2lowD u2val
      have hrec2 : (bp2.proxyPool.getD pid default).lowerBounds.get axis = li := by
        rw [u2lowD]
      have hval2 : ((bp2.bounds.get axis).getD li default).value = lv := by
        rw [u2low li hlu, hbp0ax]
        exact hb2v_li
      have hpart2 : lv < ((bp2.bounds.get axis).getD
          ((bp2.proxyPool.getD pid default).upperBounds.get axis) default).value := by
        rw [u2val]
        omega
      have hsX2' : sortedExcept (bp2.bounds.get axis) (fun i => i = li ∨ False) :=
        sortedExcept_mono _ _ _ (fun i h => Or.inl h) u2sX
      have hhig2 : ∀ i, i < li → ¬False →
          ((bp2.bounds.get axis).getD i default).value ≤ lv := by
        intro i h1 _
        rw [u2low i (by omega), hbp0ax, hb2v_out i (by omega) (by omega)]
        have h4 := hsort i li h1 (by omega)
        omega
      obtain ⟨l3len, l3core, l3sX, _, _, l3frame, _, _⟩ :=
        moveLowerUp_inv pid axis boundCount ov lv (fun _ => False) boundCount li bp2
          (by omega) u2len u2core (by rw [u2frame.pool_len]; exact hpid)
          (by rw [u2frame.valid_eq]; exact hlive) hrec2 hval2 hpart2
          (fun i hi => hi.elim) hsX2' hhig2
      rw [hdef, hbp4, hbp3]
      exact ⟨l3len, l3core, sortedVals_of_none _ _ (fun i h => h) l3sX,
        MoveFrame.moveTrans (MoveFrame.moveTrans frame0 u2frame) l3frame⟩


/-- Core consistency of the untouched axis survives one axis walk of
MoveProxy: the frame pins that axis's bound array and every slot's records
there. -/
theorem SapCore_other_of_MoveFrame (bp bp' : BroadPhase) (axis a' : Nat)
    (hf : MoveFrame axis bp bp') (ha : ¬((a' = 0) ↔ (axis = 0)))
    (hc : SapCore bp.proxyPool (bp.bounds.get a') a') :
    SapCore bp'.proxyPool (bp'.bounds.get a') a' := by
  have hb := hf.bounds_other a' ha
  refine ⟨?_, ?_, ?_, ?_, ?_, ?_, ?_, ?_, ?_⟩
  · intro i hi
    rw [hb] at hi
    rw [hb, hf.pool_len]
    exact hc.owner_lt i hi
  · intro i hi
    rw [hb] at hi
    rw [hb, hf.valid_eq]
    exact hc.owner_live i hi
  · intro i hi hL
    rw [hb] at hi hL
    rw [hb, hf.lower_other ((bp.bounds.get a').getD i default).proxyId a' ha]
    exact hc.lower_idx i hi hL
  · intro i hi hL
    rw [hb] at hi hL
    rw [hb, hf.upper_other ((bp.bounds.get a').getD i default).proxyId a' ha]
    exact hc.upper_idx i hi hL
  · intro p hp hv hx
    rw [hf.pool_len] at hp
    rw [hf.valid_eq] at hv
    rw [hf.lower_other p a' ha, hf.upper_other p a' ha]
    exact hc.live_lt p hp hv hx
  · intro p hp hv hx
    rw [hf.pool_len] at hp
    rw [hf.valid_eq] at hv
    rw [hf.upper_other p a' ha, hb]
    exact hc.live_hi p hp hv hx
  · intro p hp hv hx
    rw [hf.pool_len] at hp
    rw [hf.valid_eq] at hv
    rw [hb, hf.lower_other p a' ha]
    exact hc.live_lower p hp hv hx
  · intro p hp hv hx
    rw [hf.pool_len] at hp
    rw [hf.valid_eq] at hv
    rw [hb, hf.upper_other p a' ha]
    exact hc.live_upper p hp hv hx
  · intro i hi
    rw [hb] at hi
    rw [hb]
    exact hc.stab i hi

/-- MoveProxy preserves the master invariant: the defensive no-op paths leave
the state untouched, and a real move runs the two axis relocations, each of
which keeps its axis sorted and consistent and fixes everything else. -/
theorem moveProxy_inv (bp : BroadPhase) (pid : Nat) (aabb : AABB)
    (h : BPInv bp)
    (hok : pid = nullProxy bp.maxProxies ∨ bp.maxProxies ≤ pid ∨
      aabb.isValid = false ∨
      (pid < bp.maxProxies ∧
        (bp.proxyPool.getD pid default).isValidProxy = true)) :
    BPInv (bp.moveProxy pid aabb) := by
  by_cases hg1 : pid = nullProxy bp.maxProxies ∨ bp.maxProxies ≤ pid
  · have hnoop : bp.moveProxy pid aabb = bp := by
      unfold BroadPhase.moveProxy
      rw [if_pos hg1]
    rw [hnoop]
    exact h
  · by_cases hg2 : aabb.isValid = false
    · rw [C7_moveProxy_noop bp pid aabb (Or.inr (Or.inr hg2))]
      exact h
    · have hpm : pid < bp.maxProxies ∧
          (bp.proxyPool.getD pid default).isValidProxy = true := by
        rcases hok with h1 | h1 | h1 | h1
        · exact absurd (Or.inl h1) hg1
        · exact absurd (Or.inr h1) hg1
        · exact absurd h1 hg2
        · exact h1
      have hpid : pid < bp.proxyPool.length := by
        rw [h.pool_len]
        exact hpm.1
      have hlive := hpm.2
      have hvalid : aabb.isValid = true := by
        cases hv : aabb.isValid
        · exact absurd hv hg2
        · rfl
      have haabbx : aabb.minVertex.x ≤ aabb.maxVertex.x := by
        simp only [AABB.isValid, Bool.and_eq_true, decide_eq_true_eq] at hvalid
        exact le_of_lt hvalid.1
      have haabby : aabb.minVertex.y ≤ aabb.maxVertex.y := by
        simp only [AABB.isValid, Bool.and_eq_true, decide_eq_true_eq] at hvalid
        exact le_of_lt hvalid.2
      set proxy := bp.proxyPool.getD pid default with hproxyd
      set cb := bp.computeBounds aabb with hcbd
      set nv : BoundValues := ⟨cb.1, cb.2⟩ with hnvd
      set ov : BoundValues :=
        ⟨⟨((bp.bounds.get 0).getD (proxy.lowerBounds.get 0) default).value,
          ((bp.bounds.get 1).getD (proxy.lowerBounds.get 1) default).value⟩,
         ⟨((bp.bounds.get 0).getD (proxy.upperBounds.get 0) default).value,
          ((bp.bounds.get 1).getD (proxy.upperBounds.get 1) default).value⟩⟩
        with hovd
      set boundCount := 2 * bp.proxyCount with hbcd
      have hdef : bp.moveProxy pid aabb =
          (bp.moveProxyAxis pid 0 nv ov boundCount).moveProxyAxis pid 1 nv ov
            boundCount := by
        unfold BroadPhase.moveProxy
        rw [if_neg hg1, if_neg (show ¬(aabb.isValid = false) from hg2)]
      have hpar10 : nv.lowerValues.get 0 % 2 = 0 := and_65534_even _
      have hpar11 : nv.lowerValues.get 1 % 2 = 0 := and_65534_even _
      have hpar20 : nv.upperValues.get 0 % 2 = 1 := or_one_odd _
      have hpar21 : nv.upperValues.get 1 % 2 = 1 := or_one_odd _
      have hlt0 : nv.lowerValues.get 0 < nv.upperValues.get 0 :=
        axis_lower_lt_upper bp.quantizationFactor.x bp.worldAABB.minVertex.x
          bp.worldAABB.maxVertex.x aabb.minVertex.x aabb.maxVertex.x h.world_x
          h.quant_x haabbx
      have hlt1 : nv.lowerValues.get 1 < nv.upperValues.get 1 :=
        axis_lower_lt_upper bp.quantizationFactor.y bp.worldAABB.minVertex.y
          bp.worldAABB.maxVertex.y aabb.minVertex.y aabb.maxVertex.y h.world_y
          h.quant_y haabby
      obtain ⟨a0len, a0core, a0sort, a0frame⟩ :=
        moveProxyAxis_inv bp pid 0 boundCount nv ov h.len0 h.core0 h.sort0
          hpid hlive hpar10 hpar20 hlt0
      set bpN1 := bp.moveProxyAxis pid 0 nv ov boundCount with hN1d
      have hlen1 : (bpN1.bounds.get 1).length = boundCount := by
        rw [a0frame.bounds_other 1 (by decide)]
        exact h.len1
      have hcore1 : SapCore bpN1.proxyPool (bpN1.bounds.get 1) 1 :=
        SapCore_other_of_MoveFrame bp bpN1 0 1 a0frame (by decide) h.core1
      have hsort1 : sortedVals (bpN1.bounds.get 1) := by
        rw [a0frame.bounds_other 1 (by decide)]
        exact h.sort1
      obtain ⟨a1len, a1core, a1sort, a1frame⟩ :=
        moveProxyAxis_inv bpN1 pid 1 boundCount nv ov hlen1 hcore1 hsort1
          (by rw [a0frame.pool_len]; exact hpid)
          (by rw [a0frame.valid_eq]; exact hlive) hpar11 hpar21 hlt1
      set bpN2 := bpN1.moveProxyAxis pid 1 nv ov boundCount with hN2d
      rw [hdef]
      refine ⟨?_, ?_, ?_,
        SapCore_other_of_MoveFrame bpN1 bpN2 1 0 a1frame (by decide) a0core,
        a1core, ?_, a1sort, ?_, ?_, ?_, ?_, ?_⟩
      · rw [a1frame.pool_len, a0frame.pool_len, a1frame.max_eq, a0frame.max_eq]
        exact h.pool_len
      · rw [a1frame.bounds_other 0 (by decide), a0len, a1frame.count_eq,
          a0frame.count_eq, hbcd]
      · rw [a1len, a1frame.count_eq, a0frame.count_eq, hbcd]
      · rw [a1frame.bounds_other 0 (by decide)]
        exact a0sort
      · rw [a1frame.world_eq, a0frame.world_eq]
        exact h.world_x
      · rw [a1frame.world_eq, a0frame.world_eq]
        exact h.world_y
      · rw [a1frame.quant_eq, a0frame.quant_eq, a1frame.world_eq, a0frame.world_eq]
        exact h.quant_x
      · rw [a1frame.quant_eq, a0frame.quant_eq, a1frame.world_eq, a0frame.world_eq]
        exact h.quant_y
      · obtain ⟨fl, hch, hfl⟩ := h.freelist
        refine ⟨fl, ?_, ?_⟩
        · rw [a1frame.free_eq, a0frame.free_eq, a1frame.max_eq, a0frame.max_eq]
          have hch1 : FreeChain bpN1.proxyPool bp.maxProxies bp.freeProxy fl :=
            FreeChain.of_dead_links hch
              (fun q hq => by rw [a0frame.valid_eq]; exact hq)
              (fun q _ => a0frame.next_eq q)
          exact FreeChain.of_dead_links hch1
            (fun q hq => by rw [a1frame.valid_eq]; exact hq)
            (fun q _ => a1frame.next_eq q)
        · rw [a1frame.count_eq, a0frame.count_eq, a1frame.max_eq, a0frame.max_eq]
          exact hfl

end Box2d
